import Mathlib

/-!
# ProcFS: the node identity cache, the schema tree and directory listing

A shallow embedding of the kernel sources of ProcFS
(`procfsnode.c`, `procfsstructure.c`, `procfs_subr.c`, `procfs_data.c`,
`procfs_vnops.c`) together with theorems about them.

Conventions.
* Pointers to heap objects are natural numbers (addresses or arena indices);
  a pointer that may be `NULL` is an `Option`.
* Machine integers are `Int`/`Nat`; where the source relies on wrap-around
  the wrap is written out.
* Services of the host kernel (the allocator, the vnode layer, the process
  registry) are passed in as explicit values.
-/

namespace ProcFS

/-! ## errno values used by the sources (`sys/errno.h`) -/

def ENOENT : Int := 2
def ESRCH : Int := 3
def ENOMEM : Int := 12
def EACCES : Int := 13
def ENOTDIR : Int := 20
def EISDIR : Int := 21
def EINVAL : Int := 22

/-! ## procfs.h -/

/-- Mount option flag: do not apply process permissions to the pid entries. -/
def PROCFS_MOPT_NOPROCPERMS : Nat := 1

/-- The per-mount data structure (`procfs_mount_t`); only the fields the
embedded functions read. -/
structure procfs_mount_t where
  pmnt_id : Int
  pmnt_flags : Nat
  pmnt_mount_time : Int × Int := (0, 0)
deriving DecidableEq, Repr

/-- Source: `procfs_should_access_check`, `(pmnt_flags & PROCFS_MOPT_NOPROCPERMS) == 0`. -/
def procfs_should_access_check (pmp : procfs_mount_t) : Bool :=
  Nat.land pmp.pmnt_flags PROCFS_MOPT_NOPROCPERMS == 0

/-! ## procfsnode.h -/

/-- Composite identifier for a node (`procfsnode_id_t`). -/
structure procfsnode_id_t where
  nodeid_pid : Int
  nodeid_objectid : Nat
  nodeid_base_id : Nat
deriving DecidableEq, Repr

def PRNODE_NO_PID : Int := -1
def PRNODE_NO_OBJECTID : Nat := 0
def PROCFS_ROOT_NODE_BASE_ID : Nat := 1

/-- The file-system dependent node (`procfsnode_t`).  `addr` is the address of
the struct (what a `procfsnode_t *` holds); `node_hash`, the list linkage, is
represented by the position of the node in its bucket. -/
structure procfsnode_t where
  addr : Nat
  node_vnode : Option Nat
  node_attaching_vnode : Bool
  node_thread_waiting_attach : Bool
  node_mnt_id : Int
  node_id : procfsnode_id_t
  node_structure_node : Option Nat
deriving DecidableEq, Repr

/-! ## procfsnode.c: the node hash table -/

/-- Number of hash buckets, `1 << 6`. -/
abbrev HASH_BUCKET_COUNT : Nat := 64

/-- The buckets of the node hash: `hashinit` hands back `HASH_BUCKET_COUNT`
list heads; each bucket is a `LIST` whose head is the head of the Lean list. -/
abbrev procfsnode_hash_table := Fin HASH_BUCKET_COUNT → List procfsnode_t

/-- The table right after `procfsnode_complete_init`: every bucket empty. -/
def procfsnode_hash_init : procfsnode_hash_table := fun _ => []

/-- Two's complement wrap of an integer to a 32 bit `int`. -/
def wrap_int32 (x : Int) : Int := (x + 2147483648) % 4294967296 - 2147483648

/-- Bit pattern of a signed value converted to a 64 bit unsigned one. -/
def to_uint64 (x : Int) : Nat := (x % 18446744073709551616).toNat

/-- Source: `HASH_FOR_MOUNT_AND_ID`,
`(int)(((mount_id) << 16) ^ pid ^ objectid ^ base_id)`. -/
def HASH_FOR_MOUNT_AND_ID (mount_id : Int) (node_id : procfsnode_id_t) : Int :=
  wrap_int32 (Int.ofNat
    (Nat.xor (Nat.xor (Nat.xor (to_uint64 (wrap_int32 (mount_id * 65536)))
      (to_uint64 node_id.nodeid_pid)) (node_id.nodeid_objectid % 18446744073709551616))
      node_id.nodeid_base_id))

/-- Source: `PROCFS_NODE_HASH_TO_BUCKET_HEADER`, the hash masked with
`procfsnode_hash_to_bucket_mask = HASH_BUCKET_COUNT - 1`. -/
def PROCFS_NODE_HASH_TO_BUCKET_HEADER (procfsnode_hash : Int) : Fin HASH_BUCKET_COUNT :=
  ⟨(procfsnode_hash % 64).toNat, by
    have h1 : 0 ≤ procfsnode_hash % 64 := Int.emod_nonneg _ (by decide)
    have h2 : procfsnode_hash % 64 < 64 := Int.emod_lt_of_pos _ (by decide)
    show (procfsnode_hash % 64).toNat < 64
    omega⟩

/-- The bucket a (mount id, node id) pair hashes to. -/
def hash_bucket_for (mount_id : Int) (node_id : procfsnode_id_t) : Fin HASH_BUCKET_COUNT :=
  PROCFS_NODE_HASH_TO_BUCKET_HEADER (HASH_FOR_MOUNT_AND_ID mount_id node_id)

/-- The comparison inside the `LIST_FOREACH` of `procfsnode_find`. -/
def node_matches (mount_id : Int) (node_id : procfsnode_id_t) (n : procfsnode_t) : Bool :=
  n.node_mnt_id == mount_id
    && n.node_id.nodeid_pid == node_id.nodeid_pid
    && n.node_id.nodeid_objectid == node_id.nodeid_objectid
    && n.node_id.nodeid_base_id == node_id.nodeid_base_id

/-- The `LIST_FOREACH` of `procfsnode_find`: walk the bucket selected by the
hash and stop at the first node that matches; `none` is `NULL`. -/
def procfsnode_find_scan (t : procfsnode_hash_table) (mount_id : Int)
    (node_id : procfsnode_id_t) : Option procfsnode_t :=
  (t (hash_bucket_for mount_id node_id)).find? (node_matches mount_id node_id)

/-- A store through a `procfsnode_t *`: the node at address `a` is replaced
by `f` of it. -/
def node_store (t : procfsnode_hash_table) (a : Nat) (f : procfsnode_t → procfsnode_t) :
    procfsnode_hash_table :=
  fun b => (t b).map (fun n => if n.addr = a then f n else n)

/-- Source: `procfsnode_free_node`, `LIST_REMOVE` of the node at address `a`
(its memory is then released). -/
def procfsnode_free_node (t : procfsnode_hash_table) (a : Nat) : procfsnode_hash_table :=
  fun b => (t b).filter (fun n => decide (n.addr ≠ a))

/-- What the host kernel does during one call of `procfsnode_find`.
`OSMalloc i` is the address returned by the allocation made in loop pass `i`
(`none` for `NULL`), `vnode_getwithvid i v` the error returned in pass `i` for
vnode `v` and the stamp read just before, and `create_vnode_func` the caller's
creation callback: its error code and the vnode it stored through `vpp`. -/
structure find_host where
  OSMalloc : Nat → Option Nat
  vnode_getwithvid : Nat → Nat → Int
  create_vnode_func : procfsnode_t → Int × Option Nat

/-- Outcome of one pass through the `while (!done)` loop of `procfsnode_find`. -/
inductive find_pass_result where
  | again (t : procfsnode_hash_table) (new_procfsnode : Option Nat)
  | done (t : procfsnode_hash_table) (error : Int) (target_procfsnode : Option Nat)
      (target_vnode : Option Nat) (create_calls : Nat)

/-- Second half of a loop pass of `procfsnode_find` (from the test of
`node_attaching_vnode` to the end of the loop body); `target` is the node that
was found or has just been entered into the hash. -/
def procfsnode_find_attach (host : find_host) (i : Nat) (t : procfsnode_hash_table)
    (target : procfsnode_t) (new_procfsnode : Option Nat) : find_pass_result :=
  if target.node_attaching_vnode then
    -- another thread is attaching: flag the wait, sleep, go round again
    .again (node_store t target.addr
      (fun n => { n with node_thread_waiting_attach := true })) new_procfsnode
  else
    match target.node_vnode with
    | some target_vnode =>
      let error := host.vnode_getwithvid i target_vnode
      if error ≠ 0 then
        .again t none
      else
        .done t 0 (some target.addr) (some target_vnode) 0
    | none =>
      let t1 := node_store t target.addr (fun n => { n with node_attaching_vnode := true })
      let r := host.create_vnode_func { target with node_attaching_vnode := true }
      let t2 := node_store t1 target.addr
        (fun n => { n with node_attaching_vnode := false, node_thread_waiting_attach := false })
      if r.1 ≠ 0 then
        .done (procfsnode_free_node t2 target.addr) r.1 (some target.addr) r.2 1
      else
        .done (node_store t2 target.addr (fun n => { n with node_vnode := r.2 }))
          0 (some target.addr) r.2 1

/-- One pass through the loop body of `procfsnode_find`. -/
def procfsnode_find_pass (host : find_host) (i : Nat) (mount_id : Int)
    (node_id : procfsnode_id_t) (snode : Option Nat) (t : procfsnode_hash_table)
    (new_procfsnode : Option Nat) : find_pass_result :=
  let hash_bucket := hash_bucket_for mount_id node_id
  match procfsnode_find_scan t mount_id node_id with
  | none =>
    match new_procfsnode with
    | none =>
      match host.OSMalloc i with
      | none => .done t ENOMEM none none 0
      | some a => .again t (some a)
    | some a =>
      let target : procfsnode_t :=
        { addr := a, node_vnode := none, node_attaching_vnode := false,
          node_thread_waiting_attach := false, node_mnt_id := mount_id,
          node_id := node_id, node_structure_node := snode }
      procfsnode_find_attach host i
        (Function.update t hash_bucket (target :: t hash_bucket)) target new_procfsnode
  | some target => procfsnode_find_attach host i t target new_procfsnode

/-- What `procfsnode_find` hands back: its return value and the two out
parameters. -/
structure find_return where
  error : Int
  pnpp : Option Nat
  vnpp : Option Nat
deriving DecidableEq, Repr

/-- State after running `procfsnode_find`: the hash table, what was returned
(`none` while the loop is still running when the fuel is used up) and how
often the creation callback was invoked. -/
structure find_outcome where
  table : procfsnode_hash_table
  returned : Option find_return
  create_calls : Nat

/-- The `while (!done)` loop of `procfsnode_find`, `fuel` passes at most,
followed by the code after the loop. -/
def procfsnode_find_loop (host : find_host) (mount_id : Int) (node_id : procfsnode_id_t)
    (snode : Option Nat) : Nat → Nat → procfsnode_hash_table → Option Nat → find_outcome
  | 0, _, t, _ => { table := t, returned := none, create_calls := 0 }
  | fuel + 1, i, t, new_procfsnode =>
    match procfsnode_find_pass host i mount_id node_id snode t new_procfsnode with
    | .again t1 new1 => procfsnode_find_loop host mount_id node_id snode fuel (i + 1) t1 new1
    | .done t1 error target_procfsnode target_vnode calls =>
      { table := t1,
        returned := some
          { error := error,
            pnpp := if error = 0 then target_procfsnode else none,
            vnpp := if error = 0 then target_vnode else none },
        create_calls := calls }

/-- Source: `procfsnode_find`. -/
def procfsnode_find (host : find_host) (fuel : Nat) (t : procfsnode_hash_table)
    (pmp : procfs_mount_t) (node_id : procfsnode_id_t) (snode : Option Nat) : find_outcome :=
  procfsnode_find_loop host pmp.pmnt_id node_id snode fuel 0 t none

/-- Source: `procfsnode_reclaim`.  `vnode_fsnode` is the host's link from a
vnode to its file-system node (`vnode_to_procfsnode`); the reference and link
that are dropped afterwards live in the vnode, not in the table. -/
def procfsnode_reclaim (vnode_fsnode : Nat → Option Nat) (t : procfsnode_hash_table)
    (vp : Nat) : procfsnode_hash_table :=
  match vnode_fsnode vp with
  | some pnp => procfsnode_free_node t pnp
  | none => t

/-- A call into the cache: a find with everything the host does during it, or
a reclaim. -/
inductive cache_op where
  | find (host : find_host) (fuel : Nat) (pmp : procfs_mount_t) (node_id : procfsnode_id_t)
      (snode : Option Nat)
  | reclaim (vnode_fsnode : Nat → Option Nat) (vp : Nat)

/-- The table after one call. -/
def cache_step (t : procfsnode_hash_table) : cache_op → procfsnode_hash_table
  | .find host fuel pmp node_id snode => (procfsnode_find host fuel t pmp node_id snode).table
  | .reclaim vnode_fsnode vp => procfsnode_reclaim vnode_fsnode t vp

/-- The table after a sequence of calls executed one after the other. -/
def cache_run (t : procfsnode_hash_table) (ops : List cache_op) : procfsnode_hash_table :=
  ops.foldl cache_step t

/-- Every node in the table, bucket by bucket. -/
def all_nodes (t : procfsnode_hash_table) : List procfsnode_t :=
  ((List.finRange HASH_BUCKET_COUNT).map t).flatten

/-- Two nodes carry the same (mount id, node id). -/
def same_identity (x y : procfsnode_t) : Prop :=
  x.node_mnt_id = y.node_mnt_id
    ∧ x.node_id.nodeid_pid = y.node_id.nodeid_pid
    ∧ x.node_id.nodeid_objectid = y.node_id.nodeid_objectid
    ∧ x.node_id.nodeid_base_id = y.node_id.nodeid_base_id

/-! ## procfsstructure.h / procfsstructure.c: the file system layout -/

/-- The different types of structure node. -/
inductive procfs_structure_node_type_t where
  | PROCFS_ROOT
  | PROCFS_PROCDIR
  | PROCFS_THREADDIR
  | PROCFS_DIR
  | PROCFS_FILE
  | PROCFS_DIR_THIS
  | PROCFS_DIR_PARENT
  | PROCFS_CURPROC
  | PROCFS_PROCNAME_DIR
  | PROCFS_FD_DIR
deriving DecidableEq, Repr

open procfs_structure_node_type_t

/-- Source: `procfs_is_directory_type`. -/
def procfs_is_directory_type (type : procfs_structure_node_type_t) : Bool :=
  type != PROCFS_FILE && type != PROCFS_CURPROC

/-- The functions a structure node may name in `psn_getsize_fn`. -/
inductive procfs_node_size_fn where
  | procfs_process_node_size
  | procfs_thread_node_size
  | procfs_fd_node_size
deriving DecidableEq, Repr

/-- The functions a structure node may name in `psn_read_data_fn`. -/
inductive procfs_read_data_fn where
  | procfs_read_pid_data
  | procfs_read_ppid_data
  | procfs_read_pgid_data
  | procfs_read_sid_data
  | procfs_read_tty_data
  | procfs_read_proc_info
  | procfs_read_task_info
  | procfs_read_thread_info
  | procfs_read_fd_data
  | procfs_read_socket_data
deriving DecidableEq, Repr

def MAX_STRUCT_NODE_NAME_LEN : Nat := 16
def PSN_FLAG_PROCESS : Nat := 1
def PSN_FLAG_THREAD : Nat := 2

/-- An entry in the file system layout (`procfs_structure_node_t`).  Pointers
to structure nodes are indices into the list of allocated nodes; the `TAILQ`
of children is the list of their indices, head first. -/
structure procfs_structure_node_t where
  psn_node_type : procfs_structure_node_type_t
  psn_name : String
  psn_base_node_id : Nat
  psn_flags : Nat
  psn_parent : Option Nat
  psn_children : List Nat
  psn_node_size : Nat
  psn_getsize_fn : Option procfs_node_size_fn
  psn_read_data_fn : Option procfs_read_data_fn
deriving DecidableEq, Repr

/-- The static data of `procfsstructure.c`: the allocated structure nodes,
`next_node_id` and `root_node`. -/
structure structure_state where
  nodes : List procfs_structure_node_t
  next_node_id : Nat
  root_node : Option Nat
deriving DecidableEq, Repr

/-- The static data before the first mount. -/
def structure_state_initial : structure_state :=
  { nodes := [], next_node_id := PROCFS_ROOT_NODE_BASE_ID + 1, root_node := none }

/-- The `next_node_id++` of the source: the value used and the state after
the increment of the `uint16_t` counter. -/
def take_node_id (st : structure_state) : Nat × structure_state :=
  (st.next_node_id, { st with next_node_id := (st.next_node_id + 1) % 65536 })

/-- Source: `add_node`.  Returns the new state and the pointer to the node;
`strlcpy` into `psn_name` keeps at most `MAX_STRUCT_NODE_NAME_LEN - 1`
characters. -/
def add_node (st : structure_state) (parent : Option Nat) (name : String)
    (type : procfs_structure_node_type_t) (node_id : Nat) (flags : Nat) (size : Nat)
    (node_size_fn : Option procfs_node_size_fn)
    (node_read_data_fn : Option procfs_read_data_fn) : structure_state × Nat :=
  let node_ptr := st.nodes.length
  let inherited : Nat :=
    match parent with
    | none => 0
    | some pp =>
      match st.nodes[pp]? with
      | none => 0
      | some pn => Nat.land pn.psn_flags (Nat.lor PSN_FLAG_PROCESS PSN_FLAG_THREAD)
  let node : procfs_structure_node_t :=
    { psn_node_type := type,
      psn_name := String.mk (name.data.take (MAX_STRUCT_NODE_NAME_LEN - 1)),
      psn_base_node_id := node_id,
      psn_flags := Nat.lor flags inherited,
      psn_parent := parent,
      psn_children := [],
      psn_node_size := size,
      psn_getsize_fn := node_size_fn,
      psn_read_data_fn := node_read_data_fn }
  let linked : List procfs_structure_node_t :=
    match parent with
    | none => st.nodes
    | some pp => st.nodes.modify (fun pn => { pn with psn_children := pn.psn_children ++ [node_ptr] }) pp
  ({ st with nodes := linked ++ [node] }, node_ptr)

/-- Source: `add_directory`.  With `raw` false the "." and ".." entries are
added by the two calls with `raw` set, which do nothing but `add_node`. -/
def add_directory (st : structure_state) (parent : Option Nat) (name : String)
    (type : procfs_structure_node_type_t) (node_id : Nat) (flags : Nat) (raw : Bool)
    (node_size_fn : Option procfs_node_size_fn)
    (node_read_data_fn : Option procfs_read_data_fn) : structure_state × Nat :=
  let r := add_node st parent name type node_id flags 0 node_size_fn node_read_data_fn
  if raw then r
  else
    let own := Nat.land flags (Nat.lor PSN_FLAG_PROCESS PSN_FLAG_THREAD)
    let i1 := take_node_id r.1
    let r1 := add_node i1.2 (some r.2) "." PROCFS_DIR_THIS i1.1 own 0 none none
    let i2 := take_node_id r1.1
    let r2 := add_node i2.2 (some r.2) ".." PROCFS_DIR_PARENT i2.1 own 0 none none
    (r2.1, r.2)

/-- Source: `add_file`. -/
def add_file (st : structure_state) (parent : Option Nat) (name : String) (node_id : Nat)
    (flags : Nat) (size : Nat) (node_size_fn : Option procfs_node_size_fn)
    (node_read_data_fn : Option procfs_read_data_fn) : structure_state × Nat :=
  add_node st parent name PROCFS_FILE node_id flags size node_size_fn node_read_data_fn

/-- Sizes of the kernel structures whose `sizeof` the layout records
(`sys/types.h`, `sys/proc_info.h`). -/
structure kernel_sizes where
  sizeof_pid_t : Nat
  sizeof_proc_bsdinfo : Nat
  sizeof_proc_taskinfo : Nat
  sizeof_proc_threadinfo : Nat
deriving DecidableEq, Repr

/-- Source: `procfs_structure_init`. -/
def procfs_structure_init (sz : kernel_sizes) (st : structure_state) : structure_state :=
  match st.root_node with
  | some _ => st
  | none =>
    let pf := PSN_FLAG_PROCESS
    let ptf := Nat.lor PSN_FLAG_PROCESS PSN_FLAG_THREAD
    let r0 := add_directory st none "/" PROCFS_ROOT PROCFS_ROOT_NODE_BASE_ID 0 false none none
    let root_node := r0.2
    let s0 : structure_state := { r0.1 with root_node := some root_node }
    let i := take_node_id s0
    let r := add_node i.2 (some root_node) "curproc" PROCFS_CURPROC i.1 0 0 none none
    let i := take_node_id r.1
    let r := add_directory i.2 (some root_node) "byname" PROCFS_DIR i.1 0 false none none
    let proc_by_name_dir := r.2
    let i := take_node_id r.1
    let r := add_directory i.2 (some proc_by_name_dir) "__Process_N__" PROCFS_PROCNAME_DIR i.1
      pf false (some .procfs_process_node_size) none
    let i := take_node_id r.1
    let r := add_directory i.2 (some root_node) "__Process__" PROCFS_PROCDIR i.1
      pf false (some .procfs_process_node_size) none
    let one_proc_dir := r.2
    let i := take_node_id r.1
    let r := add_directory i.2 (some one_proc_dir) "fd" PROCFS_DIR i.1 pf false none none
    let fd_dir := r.2
    let i := take_node_id r.1
    let r := add_directory i.2 (some fd_dir) "__File__" PROCFS_FD_DIR i.1
      pf false (some .procfs_fd_node_size) none
    let one_fd_dir := r.2
    let i := take_node_id r.1
    let r := add_directory i.2 (some one_proc_dir) "threads" PROCFS_DIR i.1 pf false none none
    let threads_dir := r.2
    let i := take_node_id r.1
    let r := add_directory i.2 (some threads_dir) "__Thread__" PROCFS_THREADDIR i.1
      ptf false (some .procfs_thread_node_size) none
    let one_thread_dir := r.2
    let i := take_node_id r.1
    let r := add_file i.2 (some one_proc_dir) "pid" i.1 pf sz.sizeof_pid_t none
      (some .procfs_read_pid_data)
    let i := take_node_id r.1
    let r := add_file i.2 (some one_proc_dir) "ppid" i.1 pf sz.sizeof_pid_t none
      (some .procfs_read_ppid_data)
    let i := take_node_id r.1
    let r := add_file i.2 (some one_proc_dir) "pgid" i.1 pf sz.sizeof_pid_t none
      (some .procfs_read_pgid_data)
    let i := take_node_id r.1
    let r := add_file i.2 (some one_proc_dir) "sid" i.1 pf sz.sizeof_pid_t none
      (some .procfs_read_sid_data)
    let i := take_node_id r.1
    let r := add_file i.2 (some one_proc_dir) "tty" i.1 pf 0 none
      (some .procfs_read_tty_data)
    let i := take_node_id r.1
    let r := add_file i.2 (some one_proc_dir) "info" i.1 pf sz.sizeof_proc_bsdinfo none
      (some .procfs_read_proc_info)
    let i := take_node_id r.1
    let r := add_file i.2 (some one_proc_dir) "taskinfo" i.1 pf sz.sizeof_proc_taskinfo none
      (some .procfs_read_task_info)
    let i := take_node_id r.1
    let r := add_file i.2 (some one_thread_dir) "info" i.1 ptf sz.sizeof_proc_taskinfo none
      (some .procfs_read_thread_info)
    let i := take_node_id r.1
    let r := add_file i.2 (some one_fd_dir) "details" i.1 pf sz.sizeof_proc_threadinfo none
      (some .procfs_read_fd_data)
    let i := take_node_id r.1
    let r := add_file i.2 (some one_fd_dir) "socket" i.1 pf 0 none
      (some .procfs_read_socket_data)
    r.1

/-- The layout after the first mount. -/
def procfs_structure (sz : kernel_sizes) : structure_state :=
  procfs_structure_init sz structure_state_initial

/-- Values of `enum vtype` (`sys/vnode.h`). -/
inductive vtype where
  | VNON | VREG | VDIR | VBLK | VCHR | VLNK
deriving DecidableEq, Repr

/-- Source: `vnode_type_for_structure_node_type`. -/
def vnode_type_for_structure_node_type : procfs_structure_node_type_t → vtype
  | PROCFS_ROOT => .VDIR
  | PROCFS_PROCDIR => .VDIR
  | PROCFS_THREADDIR => .VDIR
  | PROCFS_DIR => .VDIR
  | PROCFS_DIR_THIS => .VDIR
  | PROCFS_DIR_PARENT => .VDIR
  | PROCFS_FD_DIR => .VDIR
  | PROCFS_FILE => .VREG
  | PROCFS_PROCNAME_DIR => .VLNK
  | PROCFS_CURPROC => .VLNK

/-! ## The host's registries: credentials, processes, threads, descriptors -/

/-- The parts of a credential the sources read: the effective user id
(`cr_posix.cr_uid`) and the effective group id (`cr_posix.cr_groups[0]`). -/
structure kauth_cred_t where
  cr_uid : Nat
  cr_gid : Nat
deriving DecidableEq, Repr

/-- Kernel `suser` (and `vfs_context_suser` on the context's credential):
0 for the superuser, `EPERM` otherwise. -/
def suser (creds : kauth_cred_t) : Int := if creds.cr_uid = 0 then 0 else 1

/-- One slot of a process's descriptor table: whether `fd_ofiles[i]` is
non-`NULL` and whether `fd_ofileflags[i]` has `UF_RESERVED` set. -/
structure fd_slot where
  fp : Bool
  reserved : Bool
deriving DecidableEq, Repr

/-- One element of the array `task_threads` hands out: the port no longer
converts to a thread, or `thread_info` answers with a return code and the
identifier info's `thread_id`. -/
inductive thread_act where
  | gone
  | info (kr : Int) (thread_id : Nat)
deriving DecidableEq, Repr

/-- A session (`struct session`): the session id and the vnode of the
controlling terminal, a pointer that may be `NULL`. -/
structure session where
  s_sid : Int
  s_ttyvp : Option Nat := none
deriving DecidableEq, Repr

/-- A process group (`struct pgrp`); `pg_session` is a pointer that may be
`NULL`. -/
structure pgrp where
  pg_session : Option session
deriving DecidableEq, Repr

/-- The parts of `struct proc` (with its task and descriptor table) that the
sources read.  `p_comm` holds one `char` per character; `fd_ofiles` has
`fd_nfiles` slots; `task_threads` is what `task_threads` returns for the
process's task (the call itself is taken to succeed). -/
structure proc_t where
  p_pid : Int
  p_comm : String
  p_uid : Nat
  p_ruid : Nat
  p_gid : Nat
  p_rgid : Nat
  fd_ofiles : List fd_slot
  task_threads : List thread_act
  p_ppid : Int := 0
  p_pgrpid : Int := 0
  p_pgrp : Option pgrp := none
  p_start : Int × Int := (0, 0)
deriving DecidableEq, Repr

/-- Kernel `proc_find` over the process list `allproc`. -/
def proc_find (allproc : List proc_t) (pid : Int) : Option proc_t :=
  allproc.find? (fun p => p.p_pid == pid)

/-! ## procfs_subr.c -/

/-- Source: `procfs_check_can_access_process`. -/
def procfs_check_can_access_process (creds : kauth_cred_t) (p : proc_t) : Int :=
  if creds.cr_uid = p.p_uid ∨ creds.cr_uid = p.p_ruid then 0
  else if creds.cr_gid = p.p_gid ∨ creds.cr_gid = p.p_rgid then 0
  else EACCES

/-- Source: `procfs_check_can_access_proc_pid`. -/
def procfs_check_can_access_proc_pid (allproc : List proc_t) (creds : kauth_cred_t)
    (pid : Int) : Int :=
  match proc_find allproc pid with
  | some p => procfs_check_can_access_process creds p
  | none => ESRCH

/-- Source: `procfs_get_fileid`. -/
def procfs_get_fileid (pid : Int) (objectid : Nat) (base_id : Nat) : Nat :=
  let id := base_id
  let id := if pid ≠ PRNODE_NO_PID then Nat.lor id (to_uint64 (wrap_int32 (pid * 256))) else id
  Nat.lor id ((objectid * 16777216) % 18446744073709551616)

/-- Source: `procfs_get_pids` (with `procfs_get_pid` as the iterator callback):
the pids of the processes on `allproc`, filtered by the access check when
credentials are given. -/
def procfs_get_pids (allproc : List proc_t) (creds : Option kauth_cred_t) : List Int :=
  (allproc.filter (fun p =>
    match creds with
    | none => true
    | some c => procfs_check_can_access_process c p == 0)).map (fun p => p.p_pid)

/-- Source: `procfs_get_process_count`. -/
def procfs_get_process_count (allproc : List proc_t) (creds : kauth_cred_t) : Nat :=
  let is_suser := suser creds == 0
  (procfs_get_pids allproc (if is_suser then none else some creds)).length

/-- The `for` loop of `procfs_get_thread_ids_for_task`: it stops at the first
`thread_info` that fails. -/
def thread_ids_loop : List thread_act → List Nat → Int × List Nat
  | [], ids => (0, ids)
  | .gone :: rest, ids => thread_ids_loop rest ids
  | .info kr thread_id :: rest, ids =>
    if kr = 0 then thread_ids_loop rest (ids ++ [thread_id]) else (kr, ids)

/-- Source: `procfs_get_thread_ids_for_task`: the return code and the thread
ids (`thread_count` is the length of the list, 0 on failure). -/
def procfs_get_thread_ids_for_task (task : List thread_act) : Int × List Nat :=
  let r := thread_ids_loop task []
  if r.1 = 0 then (0, r.2) else (r.1, [])

/-- Source: `procfs_get_task_thread_count`. -/
def procfs_get_task_thread_count (task : List thread_act) : Nat :=
  (procfs_get_thread_ids_for_task task).2.length

/-- Source: `procfs_get_parent_node_id`; `none` when a structure node pointer
that is dereferenced is `NULL`. -/
def procfs_get_parent_node_id (nodes : List procfs_structure_node_t) (pnp : procfsnode_t) :
    Option procfsnode_id_t :=
  let snode := pnp.node_structure_node.bind (fun i => nodes[i]?)
  let parent_snode :=
    match snode.bind (fun sn => sn.psn_parent) with
    | some pp => nodes[pp]?
    | none => snode
  match parent_snode with
  | none => none
  | some ps =>
    let pid_node := Nat.land ps.psn_flags PSN_FLAG_PROCESS != 0
    let thread_node := Nat.land ps.psn_flags PSN_FLAG_THREAD != 0
    some { nodeid_base_id := ps.psn_base_node_id,
           nodeid_pid := if pid_node then pnp.node_id.nodeid_pid else PRNODE_NO_PID,
           nodeid_objectid :=
             if thread_node then pnp.node_id.nodeid_objectid else PRNODE_NO_OBJECTID }

/-! ## procfs_vnops.c: directory listing -/

def MAXCOMLEN : Nat := 16
def DT_DIR : Nat := 4
def DT_REG : Nat := 8
def DT_LNK : Nat := 10
def VREG : Nat := 1
def VDIR : Nat := 2

/-- A directory entry as it is copied out (`struct dirent`). -/
structure dirent where
  d_ino : Nat
  d_reclen : Int
  d_type : Nat
  d_name : String
deriving DecidableEq, Repr

/-- Source: `procfs_calc_dirent_size`.  `H` is
`sizeof(struct dirent) - sizeof(entry.d_name)`; the mask is `~3` as a
`size_t`. -/
def procfs_calc_dirent_size (H : Nat) (name : String) : Int :=
  ((H + Nat.land (name.length + 1 + 3) 18446744073709551612 : Nat) : Int)

/-- Source: `procfs_construct_process_dir_name`: `"%d "` of the pid followed by
at most `MAXCOMLEN` characters of `p_comm`. -/
def procfs_construct_process_dir_name (p : proc_t) : String :=
  toString p.p_pid ++ " " ++ String.mk (p.p_comm.data.take MAXCOMLEN)

/-- `snprintf` with `"%lld"` of a `uint64_t`: the value is read as signed. -/
def format_lld (x : Nat) : String :=
  if x % 18446744073709551616 < 9223372036854775808 then
    toString ((x % 18446744073709551616 : Nat) : Int)
  else
    toString (((x % 18446744073709551616 : Nat) : Int) - 18446744073709551616)

/-- The state of a `procfs_vnop_readdir` call: the entries `uiomove` has put
into the caller's buffer so far, what is left of the buffer, `nextpos` and
`numentries`. -/
structure readdir_state where
  copied : List dirent
  uio_resid : Int
  nextpos : Int
  numentries : Int
deriving DecidableEq, Repr

/-- The cast `(ino_t)file_id` of a `uint64_t` in `procfs_copyout_dirent`:
`ino_t`, the type of `d_ino` in the `struct dirent` of a kernel build, is 32
bits wide (it is the layout whose header, `d_ino`, `d_reclen`, `d_type` and
`d_namlen`, takes 8 bytes). -/
def to_ino_t (file_id : Nat) : Nat := file_id % 4294967296

/-- Source: `procfs_copyout_dirent` (`uiomove` into the caller's buffer is
taken to succeed, so the error is 0): the state afterwards and `*sizep`.
`d_ino` receives `(ino_t)file_id`; `d_reclen` receives `size`, which fits its
16 bits for the header of a `struct dirent` and a name of at most `NAME_MAX`
characters, and `d_namlen` is the length of `d_name`. -/
def procfs_copyout_dirent (type : Nat) (file_id : Nat) (name : String)
    (st : readdir_state) (size : Int) : readdir_state × Int :=
  if size ≤ st.uio_resid then
    ({ st with
        copied := st.copied ++
          [{ d_ino := to_ino_t file_id, d_reclen := size, d_type := type, d_name := name }],
        uio_resid := st.uio_resid - size }, size)
  else
    (st, 0)

/-- How the body of the outer loop of `procfs_vnop_readdir` ends for one
structure node: on to the next sibling, round again with the same node
(`continue`), out of the loop (`break`), or a `NULL` dereference. -/
inductive readdir_step where
  | next (st : readdir_state)
  | again
  | stop (st : readdir_state) (error : Int)
  | fault

/-- The final `else` branch of the loop body of `procfs_vnop_readdir`: an entry
for a child that is not expanded. -/
def readdir_static (H : Nat) (startpos : Int) (type : Nat) (file_id : Nat) (name : String)
    (st : readdir_state) : readdir_step :=
  if st.nextpos ≥ startpos then
    let size := procfs_calc_dirent_size H name
    let r := procfs_copyout_dirent type file_id name st size
    if r.2 = 0 then
      .stop r.1 0
    else
      .next { r.1 with numentries := r.1.numentries + 1, nextpos := r.1.nextpos + r.2 }
  else
    .next st

/-- The inner `for` loops of `procfs_vnop_readdir` over processes, threads and
descriptors, which have the same body: the candidates are given by file id and
name, in order. -/
def readdir_dynamic (H : Nat) (startpos : Int) :
    List (Nat × String) → readdir_state → readdir_state
  | [], st => st
  | (file_id, name) :: rest, st =>
    let size := procfs_calc_dirent_size H name
    if st.nextpos ≥ startpos then
      let r := procfs_copyout_dirent VDIR file_id name st size
      if r.2 = 0 then
        r.1
      else
        readdir_dynamic H startpos rest
          { r.1 with numentries := r.1.numentries + 1, nextpos := r.1.nextpos + r.2 }
    else
      readdir_dynamic H startpos rest { st with nextpos := st.nextpos + size }

/-- Candidates of the process loop: for `PROCFS_PROCDIR` the pid as name, for
`PROCFS_PROCNAME_DIR` the constructed name, skipping pids that `proc_find` no
longer finds. -/
def process_candidates (allproc : List proc_t) (procdir : Bool) (base_node_id : Nat)
    (pid_list : List Int) : List (Nat × String) :=
  pid_list.filterMap (fun this_pid =>
    if procdir then
      some (procfs_get_fileid this_pid PRNODE_NO_OBJECTID base_node_id, toString this_pid)
    else
      match proc_find allproc this_pid with
      | none => none
      | some p =>
        some (procfs_get_fileid this_pid PRNODE_NO_OBJECTID base_node_id,
              procfs_construct_process_dir_name p))

/-- Candidates of the thread loop. -/
def thread_candidates (pid : Int) (base_node_id : Nat) (thread_ids : List Nat) :
    List (Nat × String) :=
  thread_ids.map (fun next_thread_id =>
    (procfs_get_fileid pid next_thread_id base_node_id, format_lld next_thread_id))

/-- The descriptor numbers the descriptor loop makes an entry for: those whose
slot holds a file and is not reserved. -/
def open_descriptors (fd_ofiles : List fd_slot) : List Nat :=
  (List.range fd_ofiles.length).filter (fun i =>
    match fd_ofiles[i]? with
    | some slot => slot.fp && !slot.reserved
    | none => false)

/-- Candidates of the descriptor loop. -/
def fd_candidates (pid : Int) (base_node_id : Nat) (fd_ofiles : List fd_slot) :
    List (Nat × String) :=
  (open_descriptors fd_ofiles).map (fun i =>
    (procfs_get_fileid pid i base_node_id, toString i))

/-- The guard at the top of the loop body of `procfs_vnop_readdir`:
`pid == PRNODE_NO_PID || !check_access || procfs_check_can_access_proc_pid(creds, pid) == 0`. -/
def readdir_access_ok (allproc : List proc_t) (check_access : Bool) (creds : kauth_cred_t)
    (pid : Int) : Bool :=
  pid == PRNODE_NO_PID || !check_access
    || procfs_check_can_access_proc_pid allproc creds pid == 0

/-- The body of the outer `while` loop of `procfs_vnop_readdir` for the
structure node `snode`. -/
def readdir_child (H : Nat) (nodes : List procfs_structure_node_t) (allproc : List proc_t)
    (check_access : Bool) (creds : kauth_cred_t) (dir_pnp : procfsnode_t) (startpos : Int)
    (snode : procfs_structure_node_t) (st : readdir_state) : readdir_step :=
  let pid := dir_pnp.node_id.nodeid_pid
  let objectid := dir_pnp.node_id.nodeid_objectid
  let base_node_id := snode.psn_base_node_id
  let name := snode.psn_name
  if readdir_access_ok allproc check_access creds pid then
    match snode.psn_node_type with
    | PROCFS_ROOT => .again
    | PROCFS_DIR =>
      readdir_static H startpos DT_DIR (procfs_get_fileid pid objectid base_node_id) name st
    | PROCFS_FILE =>
      readdir_static H startpos DT_REG (procfs_get_fileid pid objectid base_node_id) name st
    | PROCFS_DIR_THIS =>
      readdir_static H startpos DT_DIR
        (procfs_get_fileid pid objectid dir_pnp.node_id.nodeid_base_id) name st
    | PROCFS_DIR_PARENT =>
      match procfs_get_parent_node_id nodes dir_pnp with
      | none => .fault
      | some parent_node_id =>
        readdir_static H startpos DT_DIR
          (procfs_get_fileid parent_node_id.nodeid_pid parent_node_id.nodeid_objectid
            parent_node_id.nodeid_base_id) name st
    | PROCFS_CURPROC =>
      readdir_static H startpos DT_LNK (procfs_get_fileid pid objectid base_node_id) name st
    | PROCFS_PROCDIR =>
      let pid_list := procfs_get_pids allproc (if check_access then some creds else none)
      .stop (readdir_dynamic H startpos
        (process_candidates allproc true base_node_id pid_list) st) 0
    | PROCFS_PROCNAME_DIR =>
      let pid_list := procfs_get_pids allproc (if check_access then some creds else none)
      .stop (readdir_dynamic H startpos
        (process_candidates allproc false base_node_id pid_list) st) 0
    | PROCFS_THREADDIR =>
      match proc_find allproc pid with
      | some p =>
        let r := procfs_get_thread_ids_for_task p.task_threads
        if r.1 = 0 then
          .stop (readdir_dynamic H startpos (thread_candidates pid base_node_id r.2) st) 0
        else
          .stop st r.1
      | none => .stop st ENOENT
    | PROCFS_FD_DIR =>
      match proc_find allproc pid with
      | some p =>
        .stop (readdir_dynamic H startpos (fd_candidates pid base_node_id p.fd_ofiles) st) 0
      | none => .stop st ENOENT
  else
    .next st

/-- What `procfs_vnop_readdir` leaves behind: its return value, the entries in
the caller's buffer, the offset stored in the uio, `*a_eofflag` and
`*a_numdirent`. -/
structure readdir_result where
  error : Int
  copied : List dirent
  uio_offset : Int
  eofflag : Bool
  numdirent : Int
deriving DecidableEq, Repr

/-- The outer `while (snode != NULL && uio_resid(uio) > 0)` loop of
`procfs_vnop_readdir` over the remaining siblings, at most `fuel` rounds: the
final state, the error and whether `snode` is `NULL` at the end. -/
def readdir_loop (H : Nat) (nodes : List procfs_structure_node_t) (allproc : List proc_t)
    (check_access : Bool) (creds : kauth_cred_t) (dir_pnp : procfsnode_t) (startpos : Int) :
    Nat → List procfs_structure_node_t → readdir_state → Option (readdir_state × Int × Bool)
  | 0, _, _ => none
  | _ + 1, [], st => some (st, 0, true)
  | fuel + 1, snode :: rest, st =>
    if st.uio_resid > 0 then
      match readdir_child H nodes allproc check_access creds dir_pnp startpos snode st with
      | .next st1 =>
        readdir_loop H nodes allproc check_access creds dir_pnp startpos fuel rest st1
      | .again =>
        readdir_loop H nodes allproc check_access creds dir_pnp startpos fuel (snode :: rest) st
      | .stop st1 error => some (st1, error, false)
      | .fault => none
    else
      some (st, 0, false)

/-- The uio handed to a read: offset and remaining room. -/
structure uio_t where
  uio_offset : Int
  uio_resid : Int
deriving DecidableEq, Repr

/-- Source: `procfs_vnop_readdir`.  The vnode is given by its node `dir_pnp`;
its type is the one `procfs_create_vnode` gave it.  `none` when the fuel does
not suffice or a `NULL` pointer is dereferenced. -/
def procfs_vnop_readdir (H : Nat) (nodes : List procfs_structure_node_t)
    (allproc : List proc_t) (pmp : procfs_mount_t) (creds : kauth_cred_t)
    (dir_pnp : procfsnode_t) (uio : uio_t) (fuel : Nat) : Option readdir_result :=
  match dir_pnp.node_structure_node.bind (fun i => nodes[i]?) with
  | none => none
  | some dir_snode =>
    if vnode_type_for_structure_node_type dir_snode.psn_node_type ≠ .VDIR then
      some { error := ENOTDIR, copied := [], uio_offset := uio.uio_offset,
             eofflag := false, numdirent := 0 }
    else
      let startpos := uio.uio_offset
      let is_suser := suser creds == 0
      let check_access := !is_suser && procfs_should_access_check pmp
      let children := dir_snode.psn_children.filterMap (fun i => nodes[i]?)
      match readdir_loop H nodes allproc check_access creds dir_pnp startpos fuel children
          { copied := [], uio_resid := uio.uio_resid, nextpos := 0, numentries := 0 } with
      | none => none
      | some (st, error, eof) =>
        some { error := error, copied := st.copied, uio_offset := st.nextpos,
               eofflag := eof, numdirent := st.numentries }

/-! ## procfs_data.c: node sizes -/

/-- Source: `procfs_process_node_size`. -/
def procfs_process_node_size (allproc : List proc_t) (creds : kauth_cred_t) : Nat :=
  procfs_get_process_count allproc creds

/-- Source: `procfs_thread_node_size`. -/
def procfs_thread_node_size (allproc : List proc_t) (pnp : procfsnode_t) : Nat :=
  match proc_find allproc pnp.node_id.nodeid_pid with
  | some p => procfs_get_task_thread_count p.task_threads
  | none => 0

/-- Source: `procfs_fd_node_size`. -/
def procfs_fd_node_size (allproc : List proc_t) (pnp : procfsnode_t) : Nat :=
  match proc_find allproc pnp.node_id.nodeid_pid with
  | some p => (open_descriptors p.fd_ofiles).length
  | none => 0

/-- A call through a `psn_getsize_fn` pointer. -/
def call_node_size_fn (allproc : List proc_t) (pnp : procfsnode_t) (creds : kauth_cred_t) :
    procfs_node_size_fn → Nat
  | .procfs_process_node_size => procfs_process_node_size allproc creds
  | .procfs_thread_node_size => procfs_thread_node_size allproc pnp
  | .procfs_fd_node_size => procfs_fd_node_size allproc pnp

/-- Source: `procfs_get_node_size_attr`; `none` when the structure node the
computation ends up at is `NULL`. -/
def procfs_get_node_size_attr (nodes : List procfs_structure_node_t) (allproc : List proc_t)
    (pnp : procfsnode_t) (creds : kauth_cred_t) : Option Nat :=
  match pnp.node_structure_node.bind (fun i => nodes[i]?) with
  | none => none
  | some snode0 =>
    let node_type := snode0.psn_node_type
    let up := fun (sn : Option procfs_structure_node_t) =>
      (sn.bind (fun x => x.psn_parent)).bind (fun i => nodes[i]?)
    let snode : Option procfs_structure_node_t :=
      if node_type = PROCFS_DIR_THIS then
        up (some snode0)
      else if node_type = PROCFS_DIR_PARENT then
        match up (some snode0) with
        | some sp => if sp.psn_node_type ≠ PROCFS_ROOT then up (some sp) else some sp
        | none => none
      else
        some snode0
    match snode with
    | none => none
    | some sn =>
      if procfs_is_directory_type node_type then
        some ((sn.psn_children.filterMap (fun i => nodes[i]?)).foldl
          (fun size next_snode =>
            size + (match next_snode.psn_getsize_fn with
              | none => 1
              | some f => call_node_size_fn allproc pnp creds f)) 0)
      else
        some (match sn.psn_getsize_fn with
          | none => sn.psn_node_size
          | some f => call_node_size_fn allproc pnp creds f)

/-! ## procfs_subr.c / procfs_vnops.c: name lookup -/

/-- Source: `PROCFS_ROOT_NODE_ID` (procfsnode.c). -/
def PROCFS_ROOT_NODE_ID : procfsnode_id_t :=
  { nodeid_pid := PRNODE_NO_PID, nodeid_objectid := PRNODE_NO_OBJECTID,
    nodeid_base_id := PROCFS_ROOT_NODE_BASE_ID }

/-- Longest path component (`sys/syslimits.h`). -/
def NAME_MAX : Nat := 255

/-- The `while` loop of `procfs_atoi` over the characters that are left, with
`value` and the number of characters consumed so far.  `value` is an `int`:
`value * 10 + c - '0'` is taken modulo 2^32 into the `int` range. -/
def procfs_atoi_loop : List Char → Int → Nat → Int × Nat
  | [], value, n => (value, n)
  | c :: rest, value, n =>
    if '0' ≤ c ∧ c ≤ '9' then
      procfs_atoi_loop rest (wrap_int32 (value * 10 + (c.toNat : Int) - 48)) (n + 1)
    else
      (value, n)

/-- Source: `procfs_atoi`.  The second component is the offset of `*end_ptr`
from `p`: the number of leading digits. -/
def procfs_atoi (p : String) : Int × Nat :=
  let r := procfs_atoi_loop p.data 0 0
  (if r.2 = 0 then -1 else r.1, r.2)

/-- The parts of `struct componentname` that `procfs_vnop_lookup` reads: the
characters from `cn_nameptr` up to the terminating NUL, `cn_namelen`, and
whether `cn_flags` has `ISDOTDOT` set. -/
structure componentname where
  cn_nameptr : String
  cn_namelen : Nat
  cn_flags_isdotdot : Bool
deriving DecidableEq, Repr

/-- The parts of a vnode that `procfs_vnop_lookup` reads from `dvp`: its
address, `vnode_vtype` and `vnode_fsnode`. -/
structure vnode_t where
  v_addr : Nat
  v_type : vtype
  v_fsnode : Option procfsnode_t
deriving DecidableEq, Repr

/-- How the `TAILQ_FOREACH` over the children in `procfs_vnop_lookup` ends:
with a `break` and `error == 0`, with a `break` and an error, by running off
the end of the list (`match_node == NULL`), or in a read through a pointer or
index that is not valid. -/
inductive lookup_match where
  | found (match_node : Nat) (match_node_id : procfsnode_id_t)
  | failed (error : Int)
  | no_match
  | fault
deriving DecidableEq, Repr

/-- The `PROCFS_FD_DIR` branch of the loop body of `procfs_vnop_lookup`. -/
def lookup_fd_entry (allproc : List proc_t) (dir_pnp : procfsnode_t) (name : String)
    (match_node : Nat) (mn : procfs_structure_node_t) : lookup_match :=
  let id := (procfs_atoi name).1
  let valid : Option Bool :=
    if id ≠ -1 then
      match proc_find allproc dir_pnp.node_id.nodeid_pid with
      | some target_proc =>
        if id < (target_proc.fd_ofiles.length : Int) then
          if id < 0 then none
          else (target_proc.fd_ofiles[id.toNat]?).map (fun slot => slot.fp && !slot.reserved)
        else some false
      | none => some false
    else some false
  match valid with
  | none => .fault
  | some true =>
    .found match_node
      { nodeid_base_id := mn.psn_base_node_id,
        nodeid_pid := dir_pnp.node_id.nodeid_pid,
        nodeid_objectid := to_uint64 id }
  | some false => .failed ENOENT

/-- The `PROCFS_PROCDIR` / `PROCFS_PROCNAME_DIR` / `PROCFS_THREADDIR` branch of
the loop body of `procfs_vnop_lookup`; `none` when the loop goes on to the
next child (the `continue`, or `id == -1`). -/
def lookup_proc_entry (allproc : List proc_t) (pmp : procfs_mount_t) (creds : kauth_cred_t)
    (dir_pnp : procfsnode_t) (name : String) (match_node : Nat)
    (mn : procfs_structure_node_t) : Option lookup_match :=
  let node_type := mn.psn_node_type
  let r := procfs_atoi name
  let id := r.1
  if node_type ≠ PROCFS_PROCNAME_DIR ∧ r.2 < name.length then
    none
  else if id ≠ -1 then
    let match_node_id : procfsnode_id_t :=
      { nodeid_base_id := mn.psn_base_node_id,
        nodeid_pid :=
          if node_type = PROCFS_PROCDIR ∨ node_type = PROCFS_PROCNAME_DIR then id
          else dir_pnp.node_id.nodeid_pid,
        nodeid_objectid :=
          if node_type = PROCFS_THREADDIR then to_uint64 id
          else dir_pnp.node_id.nodeid_objectid }
    match proc_find allproc match_node_id.nodeid_pid with
    | none => some (.failed ENOENT)
    | some target_proc =>
      if node_type = PROCFS_PROCNAME_DIR
          ∧ name ≠ procfs_construct_process_dir_name target_proc then
        some (.failed ENOENT)
      else
        let is_suser := suser creds == 0
        let check_access := !is_suser && procfs_should_access_check pmp
        if check_access = true ∧ procfs_check_can_access_process creds target_proc ≠ 0 then
          some (.failed ENOENT)
        else if node_type = PROCFS_THREADDIR then
          let result := procfs_get_thread_ids_for_task target_proc.task_threads
          if result.1 = 0 then
            if result.2.contains match_node_id.nodeid_objectid then
              some (.found match_node match_node_id)
            else some (.failed ENOENT)
          else some (.failed ENOENT)
        else
          some (.found match_node match_node_id)
  else
    none

/-- The `TAILQ_FOREACH` of `procfs_vnop_lookup` over the children that are
left. -/
def lookup_match_loop (nodes : List procfs_structure_node_t) (allproc : List proc_t)
    (pmp : procfs_mount_t) (creds : kauth_cred_t) (dir_pnp : procfsnode_t) (name : String) :
    List Nat → lookup_match
  | [] => .no_match
  | match_node :: rest =>
    match nodes[match_node]? with
    | none => .fault
    | some mn =>
      if name = mn.psn_name then
        .found match_node
          { nodeid_base_id := mn.psn_base_node_id,
            nodeid_pid := dir_pnp.node_id.nodeid_pid,
            nodeid_objectid := dir_pnp.node_id.nodeid_objectid }
      else if mn.psn_node_type = PROCFS_FD_DIR then
        lookup_fd_entry allproc dir_pnp name match_node mn
      else if mn.psn_node_type = PROCFS_PROCDIR ∨ mn.psn_node_type = PROCFS_PROCNAME_DIR
          ∨ mn.psn_node_type = PROCFS_THREADDIR then
        match lookup_proc_entry allproc pmp creds dir_pnp name match_node mn with
        | some r => r
        | none => lookup_match_loop nodes allproc pmp creds dir_pnp name rest
      else
        lookup_match_loop nodes allproc pmp creds dir_pnp name rest

/-- What the host kernel does during one call of `procfs_vnop_lookup`: the
answers of `OSMalloc` and `vnode_getwithvid` inside `procfsnode_find`, of
`vnode_get`, and of `procfs_create_vnode` (whose `vnode_create` is the
host's) for the parent vnode in `vca_parentvp` and the node to attach to. -/
structure lookup_host where
  OSMalloc : Nat → Option Nat
  vnode_getwithvid : Nat → Nat → Int
  vnode_get : Nat → Int
  procfs_create_vnode : Option Nat → procfsnode_t → Int × Option Nat

/-- The host as `procfsnode_find` sees it when `procfs_vnop_lookup` passes
`procfs_create_vnode` with `create_args`. -/
def lookup_host.find_host (host : lookup_host) (vca_parentvp : Option Nat) : find_host :=
  { OSMalloc := host.OSMalloc,
    vnode_getwithvid := host.vnode_getwithvid,
    create_vnode_func := host.procfs_create_vnode vca_parentvp }

/-- What `procfs_vnop_lookup` leaves behind: its return value, the vnode it
stored through `a_vpp` (`none` for `NULLVP`), the node table, and how often
the creation callback ran. -/
structure lookup_result where
  error : Int
  a_vpp : Option Nat
  table : procfsnode_hash_table
  create_calls : Nat

/-- The call of `procfsnode_find` in `procfs_vnop_lookup` and the assignment
to `*ap->a_vpp` after it; `none` while `procfsnode_find` is still looping
when the fuel is used up. -/
def lookup_find (host : lookup_host) (vca_parentvp : Option Nat) (fuel : Nat)
    (t : procfsnode_hash_table) (pmp : procfs_mount_t) (node_id : procfsnode_id_t)
    (snode : Option Nat) : Option lookup_result :=
  let o := procfsnode_find (host.find_host vca_parentvp) fuel t pmp node_id snode
  match o.returned with
  | none => none
  | some r =>
    some { error := r.error, a_vpp := if r.error = 0 then r.vnpp else none,
           table := o.table, create_calls := o.create_calls }

/-- What a call of `procfs_vnop_lookup` has settled when name resolution is
over: an error to return (with `NULLVP` in `*a_vpp`), the directory's own vnode
(the "." case), or the node id and structure node to hand to `procfsnode_find`
together with `create_args.vca_parentvp`; `fault` stands for a read through a
`NULL` pointer or an index out of range. -/
inductive lookup_target where
  | error (error : Int)
  | self (dvp : Nat)
  | node (vca_parentvp : Option Nat) (node_id : procfsnode_id_t) (snode : Option Nat)
  | fault
deriving DecidableEq, Repr

/-- The test after the loop over the children in `procfs_vnop_lookup`: a match
goes to `procfsnode_find`, no match is `ENOENT`. -/
def lookup_after_match (dvp : Nat) : lookup_match → lookup_target
  | .fault => .fault
  | .found match_node match_node_id => .node (some dvp) match_node_id (some match_node)
  | .failed error => .error error
  | .no_match => .error ENOENT

/-- C `strlcpy` into a buffer of `size` bytes: at most `size - 1` characters. -/
def strlcpy (src : String) (size : Nat) : String :=
  String.mk (src.data.take (size - 1))

/-- The local `name` of `procfs_vnop_lookup`: the component copied out of
`cn_nameptr`. -/
def lookup_name (cnp : componentname) : String :=
  strlcpy cnp.cn_nameptr (min (NAME_MAX + 1) (cnp.cn_namelen + 1))

/-- Name resolution in `procfs_vnop_lookup`: everything the function does up
to, and not including, the calls of `vnode_get` and `procfsnode_find`. -/
def lookup_resolve (nodes : List procfs_structure_node_t) (allproc : List proc_t)
    (pmp : procfs_mount_t) (creds : kauth_cred_t) (dvp : Option vnode_t)
    (cnp : componentname) : lookup_target :=
  match dvp with
  | none => .error EINVAL
  | some dv =>
    if dv.v_type ≠ .VDIR ∨ cnp.cn_namelen < 1 then
      .error EINVAL
    else
      match dv.v_fsnode with
      | none => .error EINVAL
      | some dir_pnp =>
        let name := lookup_name cnp
        if cnp.cn_flags_isdotdot then
          match procfs_get_parent_node_id nodes dir_pnp,
              dir_pnp.node_structure_node.bind (fun i => nodes[i]?) with
          | some parent_node_id, some dir_snode =>
            .node none parent_node_id dir_snode.psn_parent
          | _, _ => .fault
        else if cnp.cn_namelen = 1 ∧ name.data.head? = some '.' then
          .self dv.v_addr
        else
          match dir_pnp.node_structure_node.bind (fun i => nodes[i]?) with
          | none => .fault
          | some dir_snode =>
            lookup_after_match dv.v_addr
              (lookup_match_loop nodes allproc pmp creds dir_pnp name dir_snode.psn_children)

/-- Source: `procfs_vnop_lookup`: name resolution, then `vnode_get` or
`procfsnode_find`.  `none` when a pointer that is read is `NULL` or an index
is out of range, or when the fuel for `procfsnode_find` does not suffice. -/
def procfs_vnop_lookup (nodes : List procfs_structure_node_t) (allproc : List proc_t)
    (host : lookup_host) (fuel : Nat) (t : procfsnode_hash_table) (pmp : procfs_mount_t)
    (creds : kauth_cred_t) (dvp : Option vnode_t) (cnp : componentname) :
    Option lookup_result :=
  match lookup_resolve nodes allproc pmp creds dvp cnp with
  | .fault => none
  | .error error => some { error := error, a_vpp := none, table := t, create_calls := 0 }
  | .self dv =>
    some { error := host.vnode_get dv, a_vpp := some dv, table := t, create_calls := 0 }
  | .node vca_parentvp node_id snode => lookup_find host vca_parentvp fuel t pmp node_id snode

/-! ## procfs_data.c: the data of the file nodes -/

/-- What a call of `uiomove` did: the error, the elements handed to the
caller's buffer in order (`none` stands for a byte that was read from outside
the source buffer), and the uio afterwards. -/
structure uiomove_result (α : Type) where
  error : Int
  moved : List (Option α)
  uio : uio_t
deriving DecidableEq, Repr

/-- What is read at `data + i` for a buffer `data`: the element of the buffer,
or `none` when the address is outside of it. -/
def buffer_at {α : Type} (data : List α) (i : Int) : Option α :=
  if 0 ≤ i then data[i.toNat]? else none

/-- Kernel `uiomove(cp, n, uio)` with `cp = data + start`: the first
`min(n, uio_resid)` bytes at `cp` are copied to the caller, `uio_offset` and
`uio_resid` move by that count; the copy into the caller's buffer is taken to
succeed. -/
def uiomove {α : Type} (data : List α) (start : Int) (n : Int) (uio : uio_t) :
    uiomove_result α :=
  let count := (min n uio.uio_resid).toNat
  { error := 0,
    moved := (List.range count).map (fun (k : Nat) => buffer_at data (start + (k : Int))),
    uio := { uio_offset := uio.uio_offset + count, uio_resid := uio.uio_resid - count } }

/-- Source: `procfs_copy_data`.  `data_len` is an `int` and `start_offset` an
`off_t`: `data_len -= start_offset` forms the difference in 64 bits and
converts it to `int`. -/
def procfs_copy_data {α : Type} (data : List α) (data_len : Int) (uio : uio_t) :
    uiomove_result α :=
  let error : Int := 0
  let start_offset := uio.uio_offset
  let data_len := wrap_int32 (data_len - start_offset)
  if 0 ≤ data_len then
    uiomove data start_offset data_len uio
  else
    { error := error, moved := [], uio := uio }

/-- The bytes of a `size` byte integer object holding `x`, lowest address
first (two's complement, little endian): what `(char *)&x` points at. -/
def object_bytes (size : Nat) (x : Int) : List Nat :=
  (List.range size).map (fun k => (x / 256 ^ k % 256).toNat)

/-- The bytes of a structure of `size` bytes whose byte at offset `k` is
`content k`. -/
def struct_bytes (size : Nat) (content : Nat → Nat) : List Nat :=
  (List.range size).map content

/-- Source: `procfs_read_pid_data`. -/
def procfs_read_pid_data (sz : kernel_sizes) (pnp : procfsnode_t) (uio : uio_t) :
    uiomove_result Nat :=
  let pid := pnp.node_id.nodeid_pid
  procfs_copy_data (object_bytes sz.sizeof_pid_t pid) (wrap_int32 sz.sizeof_pid_t) uio

/-- Source: `procfs_read_ppid_data`. -/
def procfs_read_ppid_data (sz : kernel_sizes) (allproc : List proc_t) (pnp : procfsnode_t)
    (uio : uio_t) : uiomove_result Nat :=
  match proc_find allproc pnp.node_id.nodeid_pid with
  | some p =>
    let ppid := p.p_ppid
    procfs_copy_data (object_bytes sz.sizeof_pid_t ppid) (wrap_int32 sz.sizeof_pid_t) uio
  | none => { error := ESRCH, moved := [], uio := uio }

/-- Source: `procfs_read_pgid_data`. -/
def procfs_read_pgid_data (sz : kernel_sizes) (allproc : List proc_t) (pnp : procfsnode_t)
    (uio : uio_t) : uiomove_result Nat :=
  match proc_find allproc pnp.node_id.nodeid_pid with
  | some p =>
    let pgrpid := p.p_pgrpid
    procfs_copy_data (object_bytes sz.sizeof_pid_t pgrpid) (wrap_int32 sz.sizeof_pid_t) uio
  | none => { error := ESRCH, moved := [], uio := uio }

/-- Source: `procfs_read_sid_data`. -/
def procfs_read_sid_data (sz : kernel_sizes) (allproc : List proc_t) (pnp : procfsnode_t)
    (uio : uio_t) : uiomove_result Nat :=
  match proc_find allproc pnp.node_id.nodeid_pid with
  | some p =>
    let session_id : Int :=
      match p.p_pgrp with
      | some pgrp =>
        match pgrp.pg_session with
        | some sp => sp.s_sid
        | none => 0
      | none => 0
    procfs_copy_data (object_bytes sz.sizeof_pid_t session_id) (wrap_int32 sz.sizeof_pid_t) uio
  | none => { error := ESRCH, moved := [], uio := uio }

/-- The kernel routines that fill in the information blocks
(`proc_pidbsdinfo`, `proc_pidtaskinfo`, `proc_pidthreadinfo`): each answers
with an error and the content of the block, byte by byte. -/
structure info_host where
  proc_pidbsdinfo : proc_t → Int × (Nat → Nat)
  proc_pidtaskinfo : proc_t → Int × (Nat → Nat)
  proc_pidthreadinfo : proc_t → Nat → Int × (Nat → Nat)

/-- Source: `procfs_read_proc_info`. -/
def procfs_read_proc_info (sz : kernel_sizes) (allproc : List proc_t) (host : info_host)
    (pnp : procfsnode_t) (uio : uio_t) : uiomove_result Nat :=
  let error : Int := 0
  match proc_find allproc pnp.node_id.nodeid_pid with
  | some p =>
    let r := host.proc_pidbsdinfo p
    if r.1 = 0 then
      procfs_copy_data (struct_bytes sz.sizeof_proc_bsdinfo r.2)
        (wrap_int32 sz.sizeof_proc_bsdinfo) uio
    else
      { error := r.1, moved := [], uio := uio }
  | none => { error := error, moved := [], uio := uio }

/-- Source: `procfs_read_task_info`. -/
def procfs_read_task_info (sz : kernel_sizes) (allproc : List proc_t) (host : info_host)
    (pnp : procfsnode_t) (uio : uio_t) : uiomove_result Nat :=
  let error : Int := 0
  match proc_find allproc pnp.node_id.nodeid_pid with
  | some p =>
    let r := host.proc_pidtaskinfo p
    if r.1 = 0 then
      procfs_copy_data (struct_bytes sz.sizeof_proc_taskinfo r.2)
        (wrap_int32 sz.sizeof_proc_taskinfo) uio
    else
      { error := r.1, moved := [], uio := uio }
  | none => { error := error, moved := [], uio := uio }

/-- Source: `procfs_read_thread_info`. -/
def procfs_read_thread_info (sz : kernel_sizes) (allproc : List proc_t) (host : info_host)
    (pnp : procfsnode_t) (uio : uio_t) : uiomove_result Nat :=
  let error : Int := 0
  match proc_find allproc pnp.node_id.nodeid_pid with
  | some p =>
    let threadid := pnp.node_id.nodeid_objectid
    let r := host.proc_pidthreadinfo p threadid
    if r.1 = 0 then
      procfs_copy_data (struct_bytes sz.sizeof_proc_threadinfo r.2)
        (wrap_int32 sz.sizeof_proc_threadinfo) uio
    else
      { error := r.1, moved := [], uio := uio }
  | none => { error := error, moved := [], uio := uio }

/-! ## procfs_subr.c / procfs_vnops.c: attributes and symbolic links -/

def S_IRUSR : Nat := 256
def S_IWUSR : Nat := 128
def S_IXUSR : Nat := 64
def S_IRGRP : Nat := 32
def S_IWGRP : Nat := 16
def S_IXGRP : Nat := 8
def S_IROTH : Nat := 4
def S_IWOTH : Nat := 2
def S_IXOTH : Nat := 1

/-- Source: `READ_EXECUTE_ALL`. -/
def READ_EXECUTE_ALL : Nat :=
  Nat.lor (Nat.lor (Nat.lor (Nat.lor (Nat.lor S_IRUSR S_IXUSR) S_IRGRP) S_IXGRP) S_IROTH) S_IXOTH

/-- Source: `RWX_OWNER_RX_ALL`. -/
def RWX_OWNER_RX_ALL : Nat :=
  Nat.lor (Nat.lor (Nat.lor (Nat.lor (Nat.lor (Nat.lor S_IRUSR S_IWUSR) S_IXUSR) S_IRGRP)
    S_IXGRP) S_IROTH) S_IXOTH

/-- Source: `ALL_ACCESS_OWNER_GROUP_ONLY`. -/
def ALL_ACCESS_OWNER_GROUP_ONLY : Nat :=
  Nat.lor (Nat.lor (Nat.lor (Nat.lor (Nat.lor S_IRUSR S_IWUSR) S_IXUSR) S_IRGRP) S_IWGRP) S_IXGRP

/-- Source: `ALL_ACCESS_ALL`. -/
def ALL_ACCESS_ALL : Nat :=
  Nat.lor (Nat.lor (Nat.lor (Nat.lor (Nat.lor (Nat.lor (Nat.lor (Nat.lor S_IRUSR S_IWUSR) S_IXUSR)
    S_IRGRP) S_IWGRP) S_IXGRP) S_IROTH) S_IWOTH) S_IXOTH

/-- Source: `procfs_node_type_has_pid`. -/
def procfs_node_type_has_pid (node_type : procfs_structure_node_type_t) : Bool :=
  node_type != PROCFS_ROOT && node_type != PROCFS_CURPROC && node_type != PROCFS_DIR

/-- How `procfs_get_process_info` returns: an error with `*pidp` and `*procp`
untouched, or 0 with the two values stored. -/
inductive process_info where
  | error (e : Int)
  | info (pid : Int) (p : Option proc_t)
deriving DecidableEq, Repr

/-- Source: `procfs_get_process_info`, for the vnode of the node `procfs_node`;
`none` when `node_structure_node` is `NULL`. -/
def procfs_get_process_info (nodes : List procfs_structure_node_t) (allproc : List proc_t)
    (procfs_node : procfsnode_t) : Option process_info :=
  match procfs_node.node_structure_node.bind (fun i => nodes[i]?) with
  | none => none
  | some snode =>
    let node_type := snode.psn_node_type
    let pid := procfs_node.node_id.nodeid_pid
    let p := if pid = PRNODE_NO_PID then none else proc_find allproc pid
    if p = none ∧ procfs_node_type_has_pid node_type = true then
      some (.error ENOENT)
    else
      some (.info pid p)

/-- Source: `procfs_get_node_fileid`; `none` when `node_structure_node` is
`NULL`. -/
def procfs_get_node_fileid (nodes : List procfs_structure_node_t) (pnp : procfsnode_t) :
    Option Nat :=
  match pnp.node_structure_node.bind (fun i => nodes[i]?) with
  | none => none
  | some snode =>
    let node_id := pnp.node_id
    some (procfs_get_fileid node_id.nodeid_pid node_id.nodeid_objectid snode.psn_base_node_id)

/-- The attributes `procfs_vnop_getattr` returns with `VATTR_RETURN`; the
times are `struct timespec` values, seconds and nanoseconds. -/
structure vnode_attr where
  va_mode : Nat
  va_type : vtype
  va_fsid : Int
  va_fileid : Nat
  va_data_size : Nat
  va_access_time : Int × Int
  va_change_time : Int × Int
  va_create_time : Int × Int
  va_modify_time : Int × Int
  va_uid : Nat
  va_gid : Nat
deriving DecidableEq, Repr

/-- How `procfs_vnop_getattr` returns: an error with `*a_vap` untouched, or 0
with the attributes set. -/
inductive getattr_result where
  | error (e : Int)
  | attrs (vap : vnode_attr)
deriving DecidableEq, Repr

/-- Source: `procfs_vnop_getattr`.  `pmp` is the mount of the vnode,
`current_proc` what the kernel's `current_proc()` returns, `creds` the
credential of the calling context; `none` when a `NULL` pointer is
dereferenced. -/
def procfs_vnop_getattr (nodes : List procfs_structure_node_t) (allproc : List proc_t)
    (current_proc : Option proc_t) (pmp : procfs_mount_t) (creds : kauth_cred_t)
    (vp : vnode_t) : Option getattr_result :=
  match vp.v_fsnode with
  | none => none
  | some procfs_node =>
    match procfs_node.node_structure_node.bind (fun i => nodes[i]?) with
    | none => none
    | some snode =>
      let node_type := snode.psn_node_type
      match procfs_get_process_info nodes allproc procfs_node with
      | none => none
      | some (.error error) => some (.error error)
      | some (.info _ p) =>
        let modemask :=
          if Nat.land pmp.pmnt_flags PROCFS_MOPT_NOPROCPERMS ≠ 0 then RWX_OWNER_RX_ALL
          else ALL_ACCESS_OWNER_GROUP_ONLY
        let va_mode : Nat :=
          match node_type with
          | PROCFS_ROOT => READ_EXECUTE_ALL
          | PROCFS_PROCDIR => Nat.land READ_EXECUTE_ALL modemask
          | PROCFS_THREADDIR => Nat.land READ_EXECUTE_ALL modemask
          | PROCFS_DIR => Nat.land READ_EXECUTE_ALL modemask
          | PROCFS_FILE => Nat.land READ_EXECUTE_ALL modemask
          | PROCFS_DIR_THIS => Nat.land READ_EXECUTE_ALL modemask
          | PROCFS_DIR_PARENT => Nat.land READ_EXECUTE_ALL modemask
          | PROCFS_FD_DIR => READ_EXECUTE_ALL
          | PROCFS_CURPROC => ALL_ACCESS_ALL
          | PROCFS_PROCNAME_DIR => ALL_ACCESS_ALL
        match procfs_get_node_fileid nodes procfs_node,
            procfs_get_node_size_attr nodes allproc procfs_node creds with
        | some fileid, some data_size =>
          let create_time : Int × Int :=
            match p with
            | some q => (q.p_start.1, q.p_start.2 * 1000)
            | none => (pmp.pmnt_mount_time.1, pmp.pmnt_mount_time.2)
          let uid : Nat := match current_proc with
            | none => 0
            | some current => current.p_ruid
          let gid : Nat := match current_proc with
            | none => 0
            | some current => current.p_gid
          let uid := match p with
            | some q => q.p_uid
            | none => uid
          let gid := match p with
            | some q => q.p_gid
            | none => gid
          some (.attrs
            { va_mode := va_mode,
              va_type := vnode_type_for_structure_node_type node_type,
              va_fsid := pmp.pmnt_id,
              va_fileid := fileid,
              va_data_size := data_size,
              va_access_time := create_time,
              va_change_time := create_time,
              va_create_time := create_time,
              va_modify_time := create_time,
              va_uid := uid,
              va_gid := gid })
        | _, _ => none

/-- Source: `procfs_vnop_readlink`.  `pid_buffer` has `PROCESS_NAME_SIZE` (40)
bytes, which hold the decimal form of every `pid_t`; `none` when a `NULL`
pointer is dereferenced. -/
def procfs_vnop_readlink (nodes : List procfs_structure_node_t) (current_proc : Option proc_t)
    (vp : vnode_t) (uio : uio_t) : Option (uiomove_result Char) :=
  match vp.v_fsnode with
  | none => none
  | some pnp =>
    match pnp.node_structure_node.bind (fun i => nodes[i]?) with
    | none => none
    | some snode =>
      if snode.psn_node_type = PROCFS_CURPROC then
        match current_proc with
        | none => none
        | some p =>
          let pid := p.p_pid
          let pid_buffer : String := toString pid
          some (uiomove pid_buffer.data 0 pid_buffer.length uio)
      else if snode.psn_node_type = PROCFS_PROCNAME_DIR then
        let pid := pnp.node_id.nodeid_pid
        let pid_buffer : String := "../" ++ toString pid
        some (uiomove pid_buffer.data 0 pid_buffer.length uio)
      else
        some { error := EINVAL, moved := [], uio := uio }

/-! ## procfs_data.c / procfs_vnops.c: the remaining readers and the read operation -/

/-- Longest path (`sys/syslimits.h`). -/
def MAXPATHLEN : Nat := 1024

/-- The kernel routines behind the readers of the terminal, descriptor and
socket files, and the sizes of the two blocks they copy out.  `vn_getpath`
answers with the content of the path buffer and the length it stores;
`fp_getfvpandvid` with an error, the vnode and its id; `fp_getfsock` with an
error and the socket; `fdinfo` and `socketinfo` are the content of the block
`info`, byte by byte, at the time it is copied out. -/
structure file_host where
  vn_getpath : Nat → (Nat → Nat) × Int
  fp_getfvpandvid : proc_t → Int → Int × Nat × Nat
  vnode_getwithvid : Nat → Nat → Int
  fill_vnodeinfo : Nat → Int
  sizeof_vnode_fdinfowithpath : Nat
  fdinfo : proc_t → Int → Nat → Nat → Nat
  fp_getfsock : proc_t → Int → Int × Nat
  fill_socketinfo : Nat → Int
  sizeof_socket_fdinfo : Nat
  socketinfo : proc_t → Int → Nat → Nat → Nat

/-- Source: `procfs_read_tty_data`. -/
def procfs_read_tty_data (allproc : List proc_t) (host : file_host) (pnp : procfsnode_t)
    (uio : uio_t) : uiomove_result Nat :=
  let error : Int := 0
  match proc_find allproc pnp.node_id.nodeid_pid with
  | some p =>
    match p.p_pgrp with
    | some pgrp =>
      match pgrp.pg_session with
      | some sp =>
        match sp.s_ttyvp with
        | some cttyvp =>
          let r := host.vn_getpath cttyvp
          procfs_copy_data (struct_bytes (MAXPATHLEN + 1) r.1) r.2 uio
        | none => { error := error, moved := [], uio := uio }
      | none => { error := error, moved := [], uio := uio }
    | none => { error := error, moved := [], uio := uio }
  | none => { error := ESRCH, moved := [], uio := uio }

/-- Source: `procfs_read_fd_data`. -/
def procfs_read_fd_data (allproc : List proc_t) (host : file_host) (pnp : procfsnode_t)
    (uio : uio_t) : uiomove_result Nat :=
  let pid := pnp.node_id.nodeid_pid
  let fd := wrap_int32 pnp.node_id.nodeid_objectid
  match proc_find allproc pid with
  | some p =>
    let r := host.fp_getfvpandvid p fd
    if r.1 = 0 then
      let vp := r.2.1
      let vid := r.2.2
      let error := host.vnode_getwithvid vp vid
      if error = 0 then
        let error := host.fill_vnodeinfo vp
        if error = 0 then
          procfs_copy_data (struct_bytes host.sizeof_vnode_fdinfowithpath (host.fdinfo p fd vp))
            (wrap_int32 host.sizeof_vnode_fdinfowithpath) uio
        else
          { error := error, moved := [], uio := uio }
      else
        { error := error, moved := [], uio := uio }
    else
      { error := r.1, moved := [], uio := uio }
  | none => { error := ESRCH, moved := [], uio := uio }

/-- Source: `procfs_read_socket_data`. -/
def procfs_read_socket_data (allproc : List proc_t) (host : file_host) (pnp : procfsnode_t)
    (uio : uio_t) : uiomove_result Nat :=
  let pid := pnp.node_id.nodeid_pid
  let fd := wrap_int32 pnp.node_id.nodeid_objectid
  match proc_find allproc pid with
  | some p =>
    let r := host.fp_getfsock p fd
    if r.1 = 0 then
      let so := r.2
      let error := host.fill_socketinfo so
      if error = 0 then
        procfs_copy_data (struct_bytes host.sizeof_socket_fdinfo (host.socketinfo p fd so))
          (wrap_int32 host.sizeof_socket_fdinfo) uio
      else
        { error := error, moved := [], uio := uio }
    else
      { error := r.1, moved := [], uio := uio }
  | none => { error := ESRCH, moved := [], uio := uio }

/-- A call through a `psn_read_data_fn` pointer. -/
def call_read_data_fn (sz : kernel_sizes) (allproc : List proc_t) (ihost : info_host)
    (fhost : file_host) (pnp : procfsnode_t) (uio : uio_t) :
    procfs_read_data_fn → uiomove_result Nat
  | .procfs_read_pid_data => procfs_read_pid_data sz pnp uio
  | .procfs_read_ppid_data => procfs_read_ppid_data sz allproc pnp uio
  | .procfs_read_pgid_data => procfs_read_pgid_data sz allproc pnp uio
  | .procfs_read_sid_data => procfs_read_sid_data sz allproc pnp uio
  | .procfs_read_tty_data => procfs_read_tty_data allproc fhost pnp uio
  | .procfs_read_proc_info => procfs_read_proc_info sz allproc ihost pnp uio
  | .procfs_read_task_info => procfs_read_task_info sz allproc ihost pnp uio
  | .procfs_read_thread_info => procfs_read_thread_info sz allproc ihost pnp uio
  | .procfs_read_fd_data => procfs_read_fd_data allproc fhost pnp uio
  | .procfs_read_socket_data => procfs_read_socket_data allproc fhost pnp uio

/-- Source: `procfs_vnop_read`; `none` when a `NULL` pointer is
dereferenced. -/
def procfs_vnop_read (nodes : List procfs_structure_node_t) (sz : kernel_sizes)
    (allproc : List proc_t) (ihost : info_host) (fhost : file_host) (vp : vnode_t)
    (uio : uio_t) : Option (uiomove_result Nat) :=
  match vp.v_fsnode with
  | none => none
  | some pnp =>
    match pnp.node_structure_node.bind (fun i => nodes[i]?) with
    | none => none
    | some snode =>
      let read_data_fn := snode.psn_read_data_fn
      let error := EINVAL
      if procfs_is_directory_type snode.psn_node_type then
        some { error := EISDIR, moved := [], uio := uio }
      else
        match read_data_fn with
        | some f => some (call_read_data_fn sz allproc ihost fhost pnp uio f)
        | none => some { error := error, moved := [], uio := uio }

/-! ## The listing contract in the words of the specification -/

/-- Specification, enumeration engine: a listing of the full entry sequence
`seq` of a directory from start offset `s` into a buffer of `cap` bytes.  An
entry's cumulative byte offset `off` is the sum of the packed sizes of all
entries before it; entries with `off < s` are trimmed, the others are emitted
in order until the buffer cannot hold the next one.  The second component is
the cumulative offset of the first entry that was not emitted (the total size
when all were). -/
def listing_from_offset : List dirent → Int → Int → Int → List dirent × Int
  | [], off, _, _ => ([], off)
  | d :: rest, off, s, cap =>
    if off < s then
      listing_from_offset rest (off + d.d_reclen) s cap
    else if d.d_reclen ≤ cap then
      let r := listing_from_offset rest (off + d.d_reclen) s (cap - d.d_reclen)
      (d :: r.1, r.2)
    else
      ([], off)

/-- Reading a directory in several `procfs_vnop_readdir` calls of `cap` bytes
each, every call started at the offset the previous one returned, until a call
emits nothing (at most `calls` calls): the entries in the order received. -/
def readdir_in_chunks (H : Nat) (nodes : List procfs_structure_node_t)
    (allproc : List proc_t) (pmp : procfs_mount_t) (creds : kauth_cred_t)
    (dir_pnp : procfsnode_t) (cap : Int) (fuel : Nat) : Nat → Int → List dirent
  | 0, _ => []
  | calls + 1, offset =>
    match procfs_vnop_readdir H nodes allproc pmp creds dir_pnp
        { uio_offset := offset, uio_resid := cap } fuel with
    | none => []
    | some r =>
      if r.copied = [] then []
      else r.copied ++
        readdir_in_chunks H nodes allproc pmp creds dir_pnp cap fuel calls r.uio_offset

/-! ## Sample registry and nodes used to evaluate the listing -/

/-- Sizes as on a 64 bit kernel. -/
def demo_sizes : kernel_sizes :=
  { sizeof_pid_t := 4, sizeof_proc_bsdinfo := 136, sizeof_proc_taskinfo := 96,
    sizeof_proc_threadinfo := 112 }

/-- The structure nodes after `procfs_structure_init`. -/
def demo_nodes : List procfs_structure_node_t := (procfs_structure demo_sizes).nodes

/-- A process owned by user and group `uid`, with descriptors 0 and 3 open
(1 closed, 2 reserved) and two threads. -/
def demo_proc (pid : Int) (comm : String) (uid : Nat) : proc_t :=
  { p_pid := pid, p_comm := comm, p_uid := uid, p_ruid := uid, p_gid := uid, p_rgid := uid,
    fd_ofiles := [⟨true, false⟩, ⟨false, false⟩, ⟨true, true⟩, ⟨true, false⟩],
    task_threads := [.info 0 100, .gone, .info 0 101] }

/-- Two processes: pid 1 of the superuser, pid 2 of user 501. -/
def demo_allproc : List proc_t := [demo_proc 1 "launchd" 0, demo_proc 2 "bash" 501]

/-- A mount with access checks (the default). -/
def demo_mount : procfs_mount_t := { pmnt_id := 3, pmnt_flags := 0 }

/-- A mount with the `noprocperms` option. -/
def demo_mount_open : procfs_mount_t := { pmnt_id := 3, pmnt_flags := PROCFS_MOPT_NOPROCPERMS }

def demo_superuser : kauth_cred_t := { cr_uid := 0, cr_gid := 0 }
def demo_user : kauth_cred_t := { cr_uid := 501, cr_gid := 501 }
def demo_other_user : kauth_cred_t := { cr_uid := 502, cr_gid := 502 }

/-- The node of a directory: owning pid and object id, and the index of its
structure node in `demo_nodes` (whose base id is the index plus one). -/
def demo_dir (pid : Int) (objectid : Nat) (snode : Nat) : procfsnode_t :=
  { addr := 4096, node_vnode := some 1, node_attaching_vnode := false,
    node_thread_waiting_attach := false, node_mnt_id := 3,
    node_id := { nodeid_pid := pid, nodeid_objectid := objectid, nodeid_base_id := snode + 1 },
    node_structure_node := some snode }

/-- The root directory node. -/
def demo_root : procfsnode_t := demo_dir PRNODE_NO_PID PRNODE_NO_OBJECTID 0

/-- The (mount id, node id) pair of a node. -/
def key_of (n : procfsnode_t) : Int × procfsnode_id_t := (n.node_mnt_id, n.node_id)

/-- Every node sits in the bucket its identity hashes to. -/
def bucket_ok (t : procfsnode_hash_table) : Prop :=
  ∀ b, ∀ n ∈ t b, hash_bucket_for n.node_mnt_id n.node_id = b

/-- No bucket holds two nodes with the same identity. -/
def ids_unique (t : procfsnode_hash_table) : Prop :=
  ∀ b, (t b).Pairwise (fun x y => key_of x ≠ key_of y)

/-- The invariant of the node hash between calls. -/
def table_inv (t : procfsnode_hash_table) : Prop := bucket_ok t ∧ ids_unique t

/-- The table carried by the outcome of a loop pass. -/
def find_pass_result.table : find_pass_result → procfsnode_hash_table
  | .again t _ => t
  | .done t _ _ _ _ => t

/-! ## Lemmas on the node hash -/

theorem same_identity_iff (x y : procfsnode_t) : same_identity x y ↔ key_of x = key_of y := by
  unfold same_identity key_of
  constructor
  · rintro ⟨h1, h2, h3, h4⟩
    have : x.node_id = y.node_id := by
      cases hx : x.node_id; cases hy : y.node_id
      simp_all
    rw [h1, this]
  · intro h
    have h1 := congrArg Prod.fst h
    have h2 := congrArg Prod.snd h
    simp only at h1 h2
    simp [h1, h2]

theorem node_matches_iff (mount_id : Int) (node_id : procfsnode_id_t) (n : procfsnode_t) :
    node_matches mount_id node_id n = true ↔
      (n.node_mnt_id = mount_id ∧ n.node_id.nodeid_pid = node_id.nodeid_pid
        ∧ n.node_id.nodeid_objectid = node_id.nodeid_objectid
        ∧ n.node_id.nodeid_base_id = node_id.nodeid_base_id) := by
  simp [node_matches, and_assoc]

theorem node_matches_iff_key (mount_id : Int) (node_id : procfsnode_id_t) (n : procfsnode_t) :
    node_matches mount_id node_id n = true ↔ key_of n = (mount_id, node_id) := by
  rw [node_matches_iff]
  unfold key_of
  constructor
  · rintro ⟨h1, h2, h3, h4⟩
    have : n.node_id = node_id := by
      cases hx : n.node_id; cases node_id
      simp_all
    rw [h1, this]
  · intro h
    have h1 := congrArg Prod.fst h
    have h2 := congrArg Prod.snd h
    simp only at h1 h2
    simp [h1, h2]

theorem bucket_of_key {x : procfsnode_t} {mount_id : Int} {node_id : procfsnode_id_t}
    (h : key_of x = (mount_id, node_id)) :
    hash_bucket_for x.node_mnt_id x.node_id = hash_bucket_for mount_id node_id := by
  have h1 := congrArg Prod.fst h
  have h2 := congrArg Prod.snd h
  simp only [key_of] at h1 h2
  rw [h1, h2]

theorem table_inv_init : table_inv procfsnode_hash_init :=
  ⟨fun _ _ h => by simp [procfsnode_hash_init] at h,
   fun _ => by simp [procfsnode_hash_init]⟩

theorem table_inv_store {t : procfsnode_hash_table} (h : table_inv t) (a : Nat)
    (f : procfsnode_t → procfsnode_t) (hf : ∀ n, key_of (f n) = key_of n) :
    table_inv (node_store t a f) := by
  have hg : ∀ n : procfsnode_t, key_of (if n.addr = a then f n else n) = key_of n := by
    intro n
    split
    · exact hf n
    · rfl
  refine ⟨?_, ?_⟩
  · intro b n hn
    simp only [node_store, List.mem_map] at hn
    obtain ⟨m, hm, rfl⟩ := hn
    have hk := hg m
    have h1 := congrArg Prod.fst hk
    have h2 := congrArg Prod.snd hk
    simp only [key_of] at h1 h2
    rw [h1, h2]
    exact h.1 b m hm
  · intro b
    simp only [node_store, List.pairwise_map]
    refine (h.2 b).imp ?_
    intro x y hxy
    rw [hg x, hg y]
    exact hxy

theorem table_inv_free {t : procfsnode_hash_table} (h : table_inv t) (a : Nat) :
    table_inv (procfsnode_free_node t a) := by
  refine ⟨?_, ?_⟩
  · intro b n hn
    simp only [procfsnode_free_node, List.mem_filter] at hn
    exact h.1 b n hn.1
  · intro b
    exact (h.2 b).filter _

theorem table_inv_insert {t : procfsnode_hash_table} (h : table_inv t) (mount_id : Int)
    (node_id : procfsnode_id_t) (target : procfsnode_t)
    (hkey : key_of target = (mount_id, node_id))
    (hscan : procfsnode_find_scan t mount_id node_id = none) :
    table_inv (Function.update t (hash_bucket_for mount_id node_id)
      (target :: t (hash_bucket_for mount_id node_id))) := by
  have hno : ∀ x ∈ t (hash_bucket_for mount_id node_id), key_of x ≠ (mount_id, node_id) := by
    intro x hx hk
    have := List.find?_eq_none.mp hscan x hx
    exact this ((node_matches_iff_key _ _ _).mpr hk)
  refine ⟨?_, ?_⟩
  · intro b n hn
    by_cases hb : b = hash_bucket_for mount_id node_id
    · subst hb
      simp only [Function.update_same, List.mem_cons] at hn
      rcases hn with rfl | hn
      · exact bucket_of_key hkey
      · exact h.1 _ n hn
    · rw [Function.update_noteq hb] at hn
      exact h.1 b n hn
  · intro b
    by_cases hb : b = hash_bucket_for mount_id node_id
    · subst hb
      simp only [Function.update_same, List.pairwise_cons]
      refine ⟨?_, h.2 _⟩
      intro x hx
      rw [hkey]
      exact fun e => hno x hx e.symm
    · rw [Function.update_noteq hb]
      exact h.2 b

theorem table_inv_attach (host : find_host) (i : Nat) {t : procfsnode_hash_table}
    (h : table_inv t) (target : procfsnode_t) (new_procfsnode : Option Nat) :
    table_inv (procfsnode_find_attach host i t target new_procfsnode).table := by
  unfold procfsnode_find_attach
  split
  · exact table_inv_store h _ _ (fun _ => rfl)
  · split
    · dsimp only
      split <;> exact h
    · dsimp only
      have h2 := table_inv_store (table_inv_store h target.addr
        (fun n => { n with node_attaching_vnode := true }) (fun _ => rfl)) target.addr
        (fun n => { n with node_attaching_vnode := false, node_thread_waiting_attach := false })
        (fun _ => rfl)
      split
      · exact table_inv_free h2 _
      · exact table_inv_store h2 _ _ (fun _ => rfl)

theorem table_inv_pass (host : find_host) (i : Nat) (mount_id : Int)
    (node_id : procfsnode_id_t) (snode : Option Nat) {t : procfsnode_hash_table}
    (h : table_inv t) (new_procfsnode : Option Nat) :
    table_inv (procfsnode_find_pass host i mount_id node_id snode t new_procfsnode).table := by
  unfold procfsnode_find_pass
  dsimp only
  split
  · rename_i hscan
    split
    · split <;> exact h
    · rename_i a
      exact table_inv_attach host i
        (table_inv_insert h mount_id node_id
          { addr := a, node_vnode := none, node_attaching_vnode := false,
            node_thread_waiting_attach := false, node_mnt_id := mount_id,
            node_id := node_id, node_structure_node := snode } rfl hscan) _ _
  · exact table_inv_attach host i h _ _

theorem table_inv_loop (host : find_host) (mount_id : Int) (node_id : procfsnode_id_t)
    (snode : Option Nat) (fuel : Nat) :
    ∀ (i : Nat) (t : procfsnode_hash_table) (new_procfsnode : Option Nat), table_inv t →
      table_inv (procfsnode_find_loop host mount_id node_id snode fuel i t new_procfsnode).table := by
  induction fuel with
  | zero => intro i t n h; exact h
  | succ fuel ih =>
    intro i t n h
    have hp := table_inv_pass host i mount_id node_id snode h n
    unfold procfsnode_find_loop
    split
    · rename_i t1 new1 heq
      rw [heq] at hp
      exact ih _ _ _ hp
    · rename_i t1 e tp tv c heq
      rw [heq] at hp
      exact hp

theorem table_inv_step {t : procfsnode_hash_table} (h : table_inv t) (op : cache_op) :
    table_inv (cache_step t op) := by
  cases op with
  | find host fuel pmp node_id snode =>
    exact table_inv_loop host pmp.pmnt_id node_id snode fuel 0 t none h
  | reclaim vnode_fsnode vp =>
    simp only [cache_step, procfsnode_reclaim]
    split
    · exact table_inv_free h _
    · exact h

theorem table_inv_run (ops : List cache_op) :
    ∀ t : procfsnode_hash_table, table_inv t → table_inv (cache_run t ops) := by
  induction ops with
  | nil => intro t h; exact h
  | cons op ops ih =>
    intro t h
    exact ih _ (table_inv_step h op)

theorem mem_all_nodes {t : procfsnode_hash_table} {n : procfsnode_t} :
    n ∈ all_nodes t ↔ ∃ b, n ∈ t b := by
  simp [all_nodes, List.mem_flatten]

theorem pairwise_key_inj {l : List procfsnode_t}
    (hp : l.Pairwise (fun x y => key_of x ≠ key_of y)) {m n : procfsnode_t}
    (hm : m ∈ l) (hn : n ∈ l) (hk : key_of m = key_of n) : m = n := by
  induction l with
  | nil => simp at hm
  | cons a l ih =>
    rw [List.pairwise_cons] at hp
    rcases List.mem_cons.mp hm with rfl | hm1
    · rcases List.mem_cons.mp hn with rfl | hn1
      · rfl
      · exact absurd hk (hp.1 n hn1)
    · rcases List.mem_cons.mp hn with rfl | hn1
      · exact absurd hk.symm (hp.1 m hm1)
      · exact ih hp.2 hm1 hn1

theorem all_nodes_pairwise {t : procfsnode_hash_table} (h : table_inv t) :
    (all_nodes t).Pairwise (fun x y => key_of x ≠ key_of y) := by
  unfold all_nodes
  rw [List.pairwise_flatten]
  refine ⟨?_, ?_⟩
  · intro l hl
    simp only [List.mem_map] at hl
    obtain ⟨b, _, rfl⟩ := hl
    exact h.2 b
  · rw [List.pairwise_map]
    refine (List.nodup_finRange HASH_BUCKET_COUNT).imp ?_
    intro b1 b2 hne x hx y hy hk
    apply hne
    have e1 := h.1 b1 x hx
    have e2 := h.1 b2 y hy
    have h1 := congrArg Prod.fst hk
    have h2 := congrArg Prod.snd hk
    simp only [key_of] at h1 h2
    rw [← e1, ← e2, h1, h2]

/-- In a table that satisfies the invariant, the scan of `procfsnode_find`
returns a node of the table exactly when that node carries the requested
identity. -/
theorem scan_eq_some_iff {t : procfsnode_hash_table} (h : table_inv t) (mount_id : Int)
    (node_id : procfsnode_id_t) (n : procfsnode_t) (hn : n ∈ all_nodes t) :
    procfsnode_find_scan t mount_id node_id = some n ↔ key_of n = (mount_id, node_id) := by
  constructor
  · intro hs
    exact (node_matches_iff_key _ _ _).mp (List.find?_some hs)
  · intro hk
    obtain ⟨b, hb⟩ := mem_all_nodes.mp hn
    have hbe : b = hash_bucket_for mount_id node_id := by
      rw [← h.1 b n hb]; exact bucket_of_key hk
    subst hbe
    unfold procfsnode_find_scan
    cases hf : (t (hash_bucket_for mount_id node_id)).find? (node_matches mount_id node_id) with
    | none =>
      exact absurd ((node_matches_iff_key _ _ _).mpr hk) (List.find?_eq_none.mp hf n hb)
    | some m =>
      have hm := List.mem_of_find?_eq_some hf
      have hmk := (node_matches_iff_key _ _ _).mp (List.find?_some hf)
      rw [pairwise_key_inj (h.2 _) hm hb (hmk.trans hk.symm)]

/-! ## Lemmas on single calls of `procfsnode_find` and `procfsnode_reclaim` -/

/-- The node `procfsnode_find` initialises after `memset`: all fields zero but
the mount id, the node id and the structure node. -/
def fresh_node (a : Nat) (mount_id : Int) (node_id : procfsnode_id_t) (snode : Option Nat) :
    procfsnode_t :=
  { addr := a, node_vnode := none, node_attaching_vnode := false,
    node_thread_waiting_attach := false, node_mnt_id := mount_id,
    node_id := node_id, node_structure_node := snode }

theorem map_store_fresh {l : List procfsnode_t} {a : Nat} (f : procfsnode_t → procfsnode_t)
    (h : ∀ n ∈ l, n.addr ≠ a) : l.map (fun n => if n.addr = a then f n else n) = l := by
  induction l with
  | nil => rfl
  | cons x l ih =>
    have hx : x.addr ≠ a := h x (List.mem_cons_self _ _)
    have hl : ∀ n ∈ l, n.addr ≠ a := fun n hn => h n (List.mem_cons_of_mem _ hn)
    simp only [List.map_cons, if_neg hx, ih hl]

theorem filter_free_fresh {l : List procfsnode_t} {a : Nat}
    (h : ∀ n ∈ l, n.addr ≠ a) : l.filter (fun n => decide (n.addr ≠ a)) = l := by
  rw [List.filter_eq_self]
  intro n hn
  simpa using h n hn

theorem node_store_head {t : procfsnode_hash_table} {a : Nat} (b : Fin HASH_BUCKET_COUNT)
    (x : procfsnode_t) (f : procfsnode_t → procfsnode_t)
    (hfresh : ∀ n ∈ all_nodes t, n.addr ≠ a) (hx : x.addr = a) :
    node_store (Function.update t b (x :: t b)) a f = Function.update t b (f x :: t b) := by
  funext c
  have hc : ∀ n ∈ t c, n.addr ≠ a := fun n hn => hfresh n (mem_all_nodes.mpr ⟨c, hn⟩)
  by_cases hcb : c = b
  · subst hcb
    simp only [node_store, Function.update_same, List.map_cons, if_pos hx, map_store_fresh f hc]
  · simp only [node_store, Function.update_noteq hcb, map_store_fresh f hc]

theorem free_node_head {t : procfsnode_hash_table} {a : Nat} (b : Fin HASH_BUCKET_COUNT)
    (x : procfsnode_t) (hfresh : ∀ n ∈ all_nodes t, n.addr ≠ a) (hx : x.addr = a) :
    procfsnode_free_node (Function.update t b (x :: t b)) a = t := by
  funext c
  have hc : ∀ n ∈ t c, n.addr ≠ a := fun n hn => hfresh n (mem_all_nodes.mpr ⟨c, hn⟩)
  by_cases hcb : c = b
  · subst hcb
    simp only [procfsnode_free_node, Function.update_same]
    rw [List.filter_cons_of_neg (by simp [hx]), filter_free_fresh hc]
  · simp only [procfsnode_free_node, Function.update_noteq hcb, filter_free_fresh hc]

theorem scan_none_of_absent {t : procfsnode_hash_table} {mount_id : Int}
    {node_id : procfsnode_id_t}
    (h : ∀ n ∈ all_nodes t, key_of n ≠ (mount_id, node_id)) :
    procfsnode_find_scan t mount_id node_id = none := by
  unfold procfsnode_find_scan
  rw [List.find?_eq_none]
  intro x hx hm
  exact h x (mem_all_nodes.mpr ⟨_, hx⟩) ((node_matches_iff_key _ _ _).mp hm)

/-- A find of an identity whose node is in the table with a vnode whose stamp
is valid returns in its first pass. -/
theorem find_existing {t : procfsnode_hash_table} (hinv : table_inv t) (host : find_host)
    (fuel : Nat) (pmp : procfs_mount_t) (node_id : procfsnode_id_t) (snode : Option Nat)
    (n : procfsnode_t) (v : Nat) (hn : n ∈ all_nodes t)
    (hk : key_of n = (pmp.pmnt_id, node_id)) (hv : n.node_vnode = some v)
    (hatt : n.node_attaching_vnode = false) (hvalid : host.vnode_getwithvid 0 v = 0) :
    (procfsnode_find host (fuel + 1) t pmp node_id snode).returned
        = some { error := 0, pnpp := some n.addr, vnpp := some v }
    ∧ (procfsnode_find host (fuel + 1) t pmp node_id snode).create_calls = 0
    ∧ (procfsnode_find host (fuel + 1) t pmp node_id snode).table = t := by
  have hs := (scan_eq_some_iff hinv pmp.pmnt_id node_id n hn).mpr hk
  simp [procfsnode_find, procfsnode_find_loop, procfsnode_find_pass, hs,
    procfsnode_find_attach, hatt, hv, hvalid]

/-- A find of an identity that has no node in the table, with a successful
allocation at a fresh address: what the two passes of the loop do, in terms of
the callback's answer. -/
theorem find_absent {t : procfsnode_hash_table} (host : find_host)
    (fuel : Nat) (pmp : procfs_mount_t) (node_id : procfsnode_id_t) (snode : Option Nat)
    (a : Nat) (habs : ∀ n ∈ all_nodes t, key_of n ≠ (pmp.pmnt_id, node_id))
    (hfresh : ∀ n ∈ all_nodes t, n.addr ≠ a) (halloc : host.OSMalloc 0 = some a) :
    procfsnode_find host (fuel + 2) t pmp node_id snode =
      (if (host.create_vnode_func
            { fresh_node a pmp.pmnt_id node_id snode with node_attaching_vnode := true }).1 ≠ 0
       then
        { table := t,
          returned := some
            { error := (host.create_vnode_func
                { fresh_node a pmp.pmnt_id node_id snode with node_attaching_vnode := true }).1,
              pnpp := none, vnpp := none },
          create_calls := 1 }
       else
        { table := Function.update t (hash_bucket_for pmp.pmnt_id node_id)
            ({ fresh_node a pmp.pmnt_id node_id snode with
                node_vnode := (host.create_vnode_func
                  { fresh_node a pmp.pmnt_id node_id snode with
                      node_attaching_vnode := true }).2 }
              :: t (hash_bucket_for pmp.pmnt_id node_id)),
          returned := some
            { error := 0, pnpp := some a,
              vnpp := (host.create_vnode_func
                { fresh_node a pmp.pmnt_id node_id snode with node_attaching_vnode := true }).2 },
          create_calls := 1 }) := by
  have hs := scan_none_of_absent habs
  have e1 := node_store_head (hash_bucket_for pmp.pmnt_id node_id)
    (fresh_node a pmp.pmnt_id node_id snode)
    (fun n => { n with node_attaching_vnode := true }) hfresh rfl
  have e2 := node_store_head (hash_bucket_for pmp.pmnt_id node_id)
    ({ fresh_node a pmp.pmnt_id node_id snode with node_attaching_vnode := true })
    (fun n => { n with node_attaching_vnode := false, node_thread_waiting_attach := false })
    hfresh rfl
  have e3 := fun w => node_store_head (hash_bucket_for pmp.pmnt_id node_id)
    (fresh_node a pmp.pmnt_id node_id snode)
    (fun n => { n with node_vnode := w }) hfresh rfl
  have e4 := free_node_head (hash_bucket_for pmp.pmnt_id node_id)
    (fresh_node a pmp.pmnt_id node_id snode) hfresh rfl
  simp only [fresh_node] at e1 e2 e3 e4
  have p0 : procfsnode_find_pass host 0 pmp.pmnt_id node_id snode t none
      = .again t (some a) := by
    simp only [procfsnode_find_pass, hs, halloc]
  by_cases hne : (host.create_vnode_func
      { fresh_node a pmp.pmnt_id node_id snode with node_attaching_vnode := true }).1 = 0
  · have p1 : procfsnode_find_pass host 1 pmp.pmnt_id node_id snode t (some a)
        = .done (Function.update t (hash_bucket_for pmp.pmnt_id node_id)
            ({ fresh_node a pmp.pmnt_id node_id snode with
                node_vnode := (host.create_vnode_func
                  { fresh_node a pmp.pmnt_id node_id snode with
                      node_attaching_vnode := true }).2 }
              :: t (hash_bucket_for pmp.pmnt_id node_id))) 0 (some a)
            (host.create_vnode_func
              { fresh_node a pmp.pmnt_id node_id snode with node_attaching_vnode := true }).2
            1 := by
      simp only [fresh_node] at hne
      simp [procfsnode_find_pass, hs, procfsnode_find_attach, fresh_node, e1, e2, e3, hne]
    simp only [procfsnode_find, procfsnode_find_loop, p0, p1]
    simp [hne]
  · have p1 : procfsnode_find_pass host 1 pmp.pmnt_id node_id snode t (some a)
        = .done t (host.create_vnode_func
              { fresh_node a pmp.pmnt_id node_id snode with node_attaching_vnode := true }).1
            (some a)
            (host.create_vnode_func
              { fresh_node a pmp.pmnt_id node_id snode with node_attaching_vnode := true }).2
            1 := by
      simp only [fresh_node] at hne
      simp [procfsnode_find_pass, hs, procfsnode_find_attach, fresh_node, e1, e2, e4, hne]
    simp only [procfsnode_find, procfsnode_find_loop, p0, p1]
    simp [hne]

theorem all_nodes_free (t : procfsnode_hash_table) (a : Nat) :
    all_nodes (procfsnode_free_node t a)
      = (all_nodes t).filter (fun n => decide (n.addr ≠ a)) := by
  unfold all_nodes
  rw [List.filter_flatten, List.map_map]
  rfl

theorem addr_eq_iff {t : procfsnode_hash_table}
    (haddr : ((all_nodes t).map (fun n => n.addr)).Nodup) {m n : procfsnode_t}
    (hm : m ∈ all_nodes t) (hn : n ∈ all_nodes t) : m.addr = n.addr ↔ m = n :=
  ⟨fun h => List.inj_on_of_nodup_map haddr hm hn h, fun h => by rw [h]⟩

/-- Freeing the node at the address of `n` erases exactly `n` when addresses
are distinct. -/
theorem free_node_erases {t : procfsnode_hash_table}
    (haddr : ((all_nodes t).map (fun n => n.addr)).Nodup) {n : procfsnode_t}
    (hn : n ∈ all_nodes t) :
    all_nodes (procfsnode_free_node t n.addr) = (all_nodes t).erase n
    ∧ ∀ b, procfsnode_free_node t n.addr b = (t b).filter (fun m => decide (m ≠ n)) := by
  refine ⟨?_, ?_⟩
  · rw [all_nodes_free, List.Nodup.erase_eq_filter (List.Nodup.of_map _ haddr)]
    apply List.filter_congr
    intro m hm
    have := addr_eq_iff haddr hm hn
    by_cases h : m = n
    · simp [h]
    · simp [h, this]
  · intro b
    simp only [procfsnode_free_node]
    apply List.filter_congr
    intro m hm
    have := addr_eq_iff haddr (mem_all_nodes.mpr ⟨b, hm⟩) hn
    by_cases h : m = n
    · simp [h]
    · simp [h, this]

/-! ## Lemmas on directory listing -/

/-- The state after `uiomove` has copied out entry `e` and the counters have
been advanced. -/
def readdir_state.emit (st : readdir_state) (e : dirent) : readdir_state :=
  { copied := st.copied ++ [e], uio_resid := st.uio_resid - e.d_reclen,
    nextpos := st.nextpos + e.d_reclen, numentries := st.numentries + 1 }

/-- The state after the entries `es` have been copied out one after the other. -/
def readdir_state.emit_all (st : readdir_state) (es : List dirent) : readdir_state :=
  es.foldl readdir_state.emit st

/-- The entry the loop body of `procfs_vnop_readdir` copies out for a child
that is not expanded (`none` for the expansion markers, for `PROCFS_ROOT` and
when the parent identity cannot be computed). -/
def static_child_entry (H : Nat) (nodes : List procfs_structure_node_t)
    (dir_pnp : procfsnode_t) (snode : procfs_structure_node_t) : Option dirent :=
  let pid := dir_pnp.node_id.nodeid_pid
  let objectid := dir_pnp.node_id.nodeid_objectid
  let size := procfs_calc_dirent_size H snode.psn_name
  match snode.psn_node_type with
  | PROCFS_DIR =>
    some ⟨to_ino_t (procfs_get_fileid pid objectid snode.psn_base_node_id), size, DT_DIR, snode.psn_name⟩
  | PROCFS_FILE =>
    some ⟨to_ino_t (procfs_get_fileid pid objectid snode.psn_base_node_id), size, DT_REG, snode.psn_name⟩
  | PROCFS_DIR_THIS =>
    some ⟨to_ino_t (procfs_get_fileid pid objectid dir_pnp.node_id.nodeid_base_id), size,
      DT_DIR, snode.psn_name⟩
  | PROCFS_DIR_PARENT =>
    (procfs_get_parent_node_id nodes dir_pnp).map (fun parent_node_id =>
      ⟨to_ino_t (procfs_get_fileid parent_node_id.nodeid_pid parent_node_id.nodeid_objectid
        parent_node_id.nodeid_base_id), size, DT_DIR, snode.psn_name⟩)
  | PROCFS_CURPROC =>
    some ⟨to_ino_t (procfs_get_fileid pid objectid snode.psn_base_node_id), size, DT_LNK, snode.psn_name⟩
  | _ => none

/-- The entry an inner loop copies out for a candidate. -/
def dynamic_entry (H : Nat) (c : Nat × String) : dirent :=
  ⟨to_ino_t c.1, procfs_calc_dirent_size H c.2, VDIR, c.2⟩

/-- Sum of the record lengths of a list of entries. -/
def total_reclen (es : List dirent) : Int := (es.map (fun e => e.d_reclen)).sum

theorem calc_dirent_size_pos {H : Nat} (hH : 0 < H) (name : String) :
    0 < procfs_calc_dirent_size H name := by
  unfold procfs_calc_dirent_size
  omega

theorem total_reclen_cons (e : dirent) (es : List dirent) :
    total_reclen (e :: es) = e.d_reclen + total_reclen es := by
  simp [total_reclen]

theorem emit_all_cons (st : readdir_state) (e : dirent) (es : List dirent) :
    st.emit_all (e :: es) = (st.emit e).emit_all es := rfl

theorem emit_all_append (st : readdir_state) (es fs : List dirent) :
    st.emit_all (es ++ fs) = (st.emit_all es).emit_all fs := by
  simp [readdir_state.emit_all, List.foldl_append]

theorem emit_all_eq (es : List dirent) : ∀ st : readdir_state,
    st.emit_all es =
      { copied := st.copied ++ es, uio_resid := st.uio_resid - total_reclen es,
        nextpos := st.nextpos + total_reclen es,
        numentries := st.numentries + (es.length : Int) } := by
  induction es with
  | nil => intro st; simp [readdir_state.emit_all, total_reclen]
  | cons e es ih =>
    intro st
    rw [emit_all_cons, ih, total_reclen_cons]
    simp only [readdir_state.emit, List.append_assoc, List.singleton_append, List.length_cons,
      Nat.cast_add, Nat.cast_one]
    congr 1 <;> omega

theorem total_reclen_nonneg {H : Nat} {es : List dirent}
    (h : ∀ e ∈ es, e.d_reclen = procfs_calc_dirent_size H e.d_name) : 0 ≤ total_reclen es := by
  induction es with
  | nil => simp [total_reclen]
  | cons e es ih =>
    rw [total_reclen_cons]
    have h1 := h e (List.mem_cons_self _ _)
    have h2 := ih (fun x hx => h x (List.mem_cons_of_mem _ hx))
    have h3 : 0 ≤ procfs_calc_dirent_size H e.d_name := by
      unfold procfs_calc_dirent_size; omega
    omega

theorem static_child_entry_reclen {H : Nat} {nodes : List procfs_structure_node_t}
    {dir_pnp : procfsnode_t} {snode : procfs_structure_node_t} {e : dirent}
    (h : static_child_entry H nodes dir_pnp snode = some e) :
    e.d_reclen = procfs_calc_dirent_size H snode.psn_name ∧ e.d_name = snode.psn_name := by
  unfold static_child_entry at h
  dsimp only at h
  split at h
  all_goals first
    | (simp only [Option.some.injEq] at h; subst h; exact ⟨rfl, rfl⟩)
    | (cases hp : procfs_get_parent_node_id nodes dir_pnp with
       | none => rw [hp] at h; simp at h
       | some a =>
         rw [hp] at h
         simp only [Option.map_some', Option.some.injEq] at h
         subst h
         exact ⟨rfl, rfl⟩)
    | (simp at h)

/-- The loop body on a child that is not expanded, when the guard passes, the
start offset has been reached and the entry fits: the entry is copied out. -/
theorem readdir_child_static {H : Nat} (hH : 0 < H) {nodes : List procfs_structure_node_t}
    {allproc : List proc_t} {check_access : Bool} {creds : kauth_cred_t}
    {dir_pnp : procfsnode_t} {startpos : Int} {snode : procfs_structure_node_t}
    {st : readdir_state} {e : dirent}
    (hacc : readdir_access_ok allproc check_access creds dir_pnp.node_id.nodeid_pid = true)
    (he : static_child_entry H nodes dir_pnp snode = some e)
    (hpos : startpos ≤ st.nextpos) (hfit : e.d_reclen ≤ st.uio_resid) :
    readdir_child H nodes allproc check_access creds dir_pnp startpos snode st
      = .next (st.emit e) := by
  have hr := static_child_entry_reclen he
  have hsz := calc_dirent_size_pos hH snode.psn_name
  have hfit2 : procfs_calc_dirent_size H snode.psn_name ≤ st.uio_resid := hr.1 ▸ hfit
  have hne : procfs_calc_dirent_size H snode.psn_name ≠ 0 := by omega
  unfold static_child_entry at he
  unfold readdir_child
  simp only [hacc, if_true]
  dsimp only at he ⊢
  split at he
  all_goals first
    | (simp only [Option.some.injEq] at he; subst he
       simp [readdir_static, hpos, procfs_copyout_dirent, hfit2, hne, readdir_state.emit, *])
    | (cases hp : procfs_get_parent_node_id nodes dir_pnp with
       | none => rw [hp] at he; simp at he
       | some a =>
         rw [hp] at he
         simp only [Option.map_some', Option.some.injEq] at he
         subst he
         simp [readdir_static, hpos, procfs_copyout_dirent, hfit2, hne, readdir_state.emit, hp, *])
    | (simp at he)

/-- The entries copied out for a run of children that are not expanded. -/
def static_entries (H : Nat) (nodes : List procfs_structure_node_t) (dir_pnp : procfsnode_t)
    (statics : List procfs_structure_node_t) : List dirent :=
  statics.filterMap (static_child_entry H nodes dir_pnp)

theorem static_entries_cons {H : Nat} {nodes : List procfs_structure_node_t}
    {dir_pnp : procfsnode_t} {sn : procfs_structure_node_t}
    {ss : List procfs_structure_node_t} {e : dirent}
    (he : static_child_entry H nodes dir_pnp sn = some e) :
    static_entries H nodes dir_pnp (sn :: ss) = e :: static_entries H nodes dir_pnp ss := by
  simp [static_entries, List.filterMap_cons, he]

theorem static_entries_reclen {H : Nat} {nodes : List procfs_structure_node_t}
    {dir_pnp : procfsnode_t} (statics : List procfs_structure_node_t) :
    ∀ e ∈ static_entries H nodes dir_pnp statics,
      e.d_reclen = procfs_calc_dirent_size H e.d_name := by
  intro e he
  simp only [static_entries, List.mem_filterMap] at he
  obtain ⟨sn, _, hsn⟩ := he
  have := static_child_entry_reclen hsn
  rw [this.1, this.2]

theorem static_entries_names {H : Nat} {nodes : List procfs_structure_node_t}
    {dir_pnp : procfsnode_t} (statics : List procfs_structure_node_t)
    (hall : ∀ c ∈ statics, (static_child_entry H nodes dir_pnp c).isSome = true) :
    (static_entries H nodes dir_pnp statics).map (fun e => e.d_name)
      = statics.map (fun c => c.psn_name) := by
  induction statics with
  | nil => rfl
  | cons sn ss ih =>
    obtain ⟨e, he⟩ := Option.isSome_iff_exists.mp (hall sn (List.mem_cons_self _ _))
    rw [static_entries_cons he, List.map_cons, List.map_cons,
      ih (fun c hc => hall c (List.mem_cons_of_mem _ hc)), (static_child_entry_reclen he).2]

theorem static_entries_length {H : Nat} {nodes : List procfs_structure_node_t}
    {dir_pnp : procfsnode_t} (statics : List procfs_structure_node_t)
    (hall : ∀ c ∈ statics, (static_child_entry H nodes dir_pnp c).isSome = true) :
    (static_entries H nodes dir_pnp statics).length = statics.length := by
  have := congrArg List.length (static_entries_names statics hall)
  simpa using this

/-- The outer loop over a run of children that are not expanded, with the
guard passing, the start offset reached and room for all of them: every one is
copied out and the loop goes on with what follows. -/
theorem readdir_loop_statics {H : Nat} (hH : 0 < H) {nodes : List procfs_structure_node_t}
    {allproc : List proc_t} {check_access : Bool} {creds : kauth_cred_t}
    {dir_pnp : procfsnode_t} {startpos : Int}
    (hacc : readdir_access_ok allproc check_access creds dir_pnp.node_id.nodeid_pid = true)
    (rest : List procfs_structure_node_t) (fuel : Nat) :
    ∀ (statics : List procfs_structure_node_t) (st : readdir_state),
      (∀ c ∈ statics, (static_child_entry H nodes dir_pnp c).isSome = true) →
      startpos ≤ st.nextpos →
      total_reclen (static_entries H nodes dir_pnp statics) ≤ st.uio_resid →
      readdir_loop H nodes allproc check_access creds dir_pnp startpos
          (fuel + statics.length) (statics ++ rest) st
        = readdir_loop H nodes allproc check_access creds dir_pnp startpos fuel rest
            (st.emit_all (static_entries H nodes dir_pnp statics)) := by
  intro statics
  induction statics with
  | nil => intro st _ _ _; rfl
  | cons sn ss ih =>
    intro st hall hpos hroom
    obtain ⟨e, he⟩ := Option.isSome_iff_exists.mp (hall sn (List.mem_cons_self _ _))
    have hall2 : ∀ c ∈ ss, (static_child_entry H nodes dir_pnp c).isSome = true :=
      fun c hc => hall c (List.mem_cons_of_mem _ hc)
    rw [static_entries_cons he] at hroom ⊢
    rw [total_reclen_cons] at hroom
    have hnn := total_reclen_nonneg (@static_entries_reclen H nodes dir_pnp ss)
    have hsz : 0 < e.d_reclen := by
      rw [(static_child_entry_reclen he).1]; exact calc_dirent_size_pos hH _
    have hfit : e.d_reclen ≤ st.uio_resid := by omega
    have hres : st.uio_resid > 0 := by omega
    have hchild := @readdir_child_static H hH nodes allproc check_access creds dir_pnp
      startpos sn st e hacc he hpos hfit
    rw [List.length_cons, ← Nat.add_assoc, List.cons_append]
    simp only [readdir_loop, hres, if_true, hchild]
    rw [emit_all_cons]
    apply ih _ hall2
    · simp only [readdir_state.emit]; omega
    · simp only [readdir_state.emit]; omega

/-- An inner loop with the start offset reached and room for all candidates
copies every one of them out. -/
theorem readdir_dynamic_all {H : Nat} (hH : 0 < H) {startpos : Int} :
    ∀ (cands : List (Nat × String)) (st : readdir_state),
      startpos ≤ st.nextpos →
      total_reclen (cands.map (dynamic_entry H)) ≤ st.uio_resid →
      readdir_dynamic H startpos cands st = st.emit_all (cands.map (dynamic_entry H)) := by
  intro cands
  induction cands with
  | nil => intro st _ _; rfl
  | cons c cs ih =>
    intro st hpos hroom
    obtain ⟨file_id, name⟩ := c
    rw [List.map_cons, total_reclen_cons] at hroom
    have hnn : 0 ≤ total_reclen (cs.map (dynamic_entry H)) := by
      apply total_reclen_nonneg (H := H)
      intro e he
      simp only [List.mem_map] at he
      obtain ⟨c, _, rfl⟩ := he
      rfl
    have hsz := calc_dirent_size_pos hH name
    have hd : (dynamic_entry H (file_id, name)).d_reclen = procfs_calc_dirent_size H name := rfl
    rw [hd] at hroom
    have hfit : procfs_calc_dirent_size H name ≤ st.uio_resid := by omega
    have hne : procfs_calc_dirent_size H name ≠ 0 := by omega
    have hge : st.nextpos ≥ startpos := hpos
    rw [List.map_cons, emit_all_cons]
    simp only [readdir_dynamic, hge, if_true, procfs_copyout_dirent, hfit, hne, if_false]
    apply ih
    · simp only []; omega
    · simp only []; omega

/-- `check_access` as `procfs_vnop_readdir` computes it. -/
def readdir_check_access (pmp : procfs_mount_t) (creds : kauth_cred_t) : Bool :=
  !(suser creds == 0) && procfs_should_access_check pmp

/-- A listing from offset 0 of a directory all of whose children are entries
that are not expanded, with the guard passing and room for all of them: every
child is copied out and end of directory is reported. -/
theorem readdir_all_static {H : Nat} (hH : 0 < H) {nodes : List procfs_structure_node_t}
    {allproc : List proc_t} {pmp : procfs_mount_t} {creds : kauth_cred_t}
    {dir_pnp : procfsnode_t} {dir_snode : procfs_structure_node_t}
    {children : List procfs_structure_node_t} {resid : Int} {fuel : Nat}
    (hdir : dir_pnp.node_structure_node.bind (fun i => nodes[i]?) = some dir_snode)
    (htype : vnode_type_for_structure_node_type dir_snode.psn_node_type = .VDIR)
    (hch : dir_snode.psn_children.filterMap (fun i => nodes[i]?) = children)
    (hall : ∀ c ∈ children, (static_child_entry H nodes dir_pnp c).isSome = true)
    (hacc : readdir_access_ok allproc (readdir_check_access pmp creds) creds
      dir_pnp.node_id.nodeid_pid = true)
    (hroom : total_reclen (static_entries H nodes dir_pnp children) ≤ resid)
    (hfuel : children.length < fuel) :
    procfs_vnop_readdir H nodes allproc pmp creds dir_pnp
        { uio_offset := 0, uio_resid := resid } fuel
      = some { error := 0, copied := static_entries H nodes dir_pnp children,
               uio_offset := total_reclen (static_entries H nodes dir_pnp children),
               eofflag := true, numdirent := (children.length : Int) } := by
  obtain ⟨k, rfl⟩ : ∃ k, fuel = (k + 1) + children.length := ⟨fuel - children.length - 1, by omega⟩
  have hl := @readdir_loop_statics H hH nodes allproc _ creds dir_pnp 0 hacc [] (k + 1) children
    { copied := [], uio_resid := resid, nextpos := 0, numentries := 0 } hall (le_refl _) hroom
  rw [List.append_nil] at hl
  unfold readdir_check_access at hl
  simp only [procfs_vnop_readdir, hdir, htype, ne_eq, not_true_eq_false, if_false, hch, hl,
    readdir_loop, emit_all_eq, static_entries_length children hall]
  simp

/-- A listing from offset 0 of a directory whose children are a run of entries
that are not expanded followed by a child on which the loop body stops after
copying out the entries `dyn` (with error `err`), the guard passing and the
buffer larger than all entries together: the static entries and then `dyn` are
copied out, and end of directory is not reported. -/
theorem readdir_with_marker {H : Nat} (hH : 0 < H) {nodes : List procfs_structure_node_t}
    {allproc : List proc_t} {pmp : procfs_mount_t} {creds : kauth_cred_t}
    {dir_pnp : procfsnode_t} {dir_snode : procfs_structure_node_t}
    {statics : List procfs_structure_node_t} {marker : procfs_structure_node_t}
    {rest : List procfs_structure_node_t} {dyn : List dirent} {err : Int}
    {resid : Int} {fuel : Nat}
    (hdir : dir_pnp.node_structure_node.bind (fun i => nodes[i]?) = some dir_snode)
    (htype : vnode_type_for_structure_node_type dir_snode.psn_node_type = .VDIR)
    (hch : dir_snode.psn_children.filterMap (fun i => nodes[i]?) = statics ++ marker :: rest)
    (hall : ∀ c ∈ statics, (static_child_entry H nodes dir_pnp c).isSome = true)
    (hacc : readdir_access_ok allproc (readdir_check_access pmp creds) creds
      dir_pnp.node_id.nodeid_pid = true)
    (hmarker : ∀ st : readdir_state, 0 ≤ st.nextpos → total_reclen dyn ≤ st.uio_resid →
      readdir_child H nodes allproc (readdir_check_access pmp creds) creds dir_pnp 0 marker st
        = .stop (st.emit_all dyn) err)
    (hdyn : 0 ≤ total_reclen dyn)
    (hroom : total_reclen (static_entries H nodes dir_pnp statics) + total_reclen dyn < resid)
    (hfuel : statics.length < fuel) :
    procfs_vnop_readdir H nodes allproc pmp creds dir_pnp
        { uio_offset := 0, uio_resid := resid } fuel
      = some { error := err, copied := static_entries H nodes dir_pnp statics ++ dyn,
               uio_offset := total_reclen (static_entries H nodes dir_pnp statics)
                 + total_reclen dyn,
               eofflag := false,
               numdirent := (statics.length : Int) + (dyn.length : Int) } := by
  obtain ⟨k, rfl⟩ : ∃ k, fuel = (k + 1) + statics.length := ⟨fuel - statics.length - 1, by omega⟩
  have hnn := total_reclen_nonneg (@static_entries_reclen H nodes dir_pnp statics)
  have hl := @readdir_loop_statics H hH nodes allproc _ creds dir_pnp 0 hacc (marker :: rest)
    (k + 1) statics { copied := [], uio_resid := resid, nextpos := 0, numentries := 0 } hall
    (le_refl _) (by simp only []; omega)
  have hm := hmarker (readdir_state.emit_all
      { copied := [], uio_resid := resid, nextpos := 0, numentries := 0 }
      (static_entries H nodes dir_pnp statics))
    (by rw [emit_all_eq]; simp only []; omega) (by rw [emit_all_eq]; simp only []; omega)
  have hres : (readdir_state.emit_all
      { copied := [], uio_resid := resid, nextpos := 0, numentries := 0 }
      (static_entries H nodes dir_pnp statics)).uio_resid > 0 := by
    rw [emit_all_eq]; simp only []; omega
  unfold readdir_check_access at hl hm
  simp only [procfs_vnop_readdir, hdir, htype, ne_eq, not_true_eq_false, if_false, hch, hl,
    readdir_loop, hres, if_true, hm]
  simp only [emit_all_eq, static_entries_length statics hall]
  simp [add_assoc]

/-- What the loop body does on an expansion marker when there is room for
everything: the entries it copies out and the error it leaves the loop with. -/
def marker_entries (H : Nat) (allproc : List proc_t) (check_access : Bool)
    (creds : kauth_cred_t) (dir_pnp : procfsnode_t) (marker : procfs_structure_node_t) :
    List dirent × Int :=
  let pid := dir_pnp.node_id.nodeid_pid
  let pid_list := procfs_get_pids allproc (if check_access then some creds else none)
  match marker.psn_node_type with
  | PROCFS_PROCDIR =>
    ((process_candidates allproc true marker.psn_base_node_id pid_list).map
      (dynamic_entry H), 0)
  | PROCFS_PROCNAME_DIR =>
    ((process_candidates allproc false marker.psn_base_node_id pid_list).map
      (dynamic_entry H), 0)
  | PROCFS_THREADDIR =>
    match proc_find allproc pid with
    | some p =>
      if (procfs_get_thread_ids_for_task p.task_threads).1 = 0 then
        ((thread_candidates pid marker.psn_base_node_id
          (procfs_get_thread_ids_for_task p.task_threads).2).map (dynamic_entry H), 0)
      else ([], (procfs_get_thread_ids_for_task p.task_threads).1)
    | none => ([], ENOENT)
  | PROCFS_FD_DIR =>
    match proc_find allproc pid with
    | some p => ((fd_candidates pid marker.psn_base_node_id p.fd_ofiles).map (dynamic_entry H), 0)
    | none => ([], ENOENT)
  | _ => ([], 0)

/-- The four expansion markers. -/
def is_expansion_type : procfs_structure_node_type_t → Bool
  | PROCFS_PROCDIR => true
  | PROCFS_PROCNAME_DIR => true
  | PROCFS_THREADDIR => true
  | PROCFS_FD_DIR => true
  | _ => false

theorem marker_entries_nonneg (H : Nat) (allproc : List proc_t) (check_access : Bool)
    (creds : kauth_cred_t) (dir_pnp : procfsnode_t) (marker : procfs_structure_node_t) :
    0 ≤ total_reclen (marker_entries H allproc check_access creds dir_pnp marker).1 := by
  apply total_reclen_nonneg (H := H)
  intro e he
  unfold marker_entries at he
  dsimp only at he
  split at he
  · simp only [List.mem_map] at he; obtain ⟨c, _, rfl⟩ := he; rfl
  · simp only [List.mem_map] at he; obtain ⟨c, _, rfl⟩ := he; rfl
  · split at he
    · split at he
      · simp only [List.mem_map] at he; obtain ⟨c, _, rfl⟩ := he; rfl
      · simp at he
    · simp at he
  · split at he
    · simp only [List.mem_map] at he; obtain ⟨c, _, rfl⟩ := he; rfl
    · simp at he
  · simp at he

/-- The loop body on an expansion marker, with the guard passing, the start
offset reached and room for every candidate. -/
theorem readdir_child_marker {H : Nat} (hH : 0 < H) {nodes : List procfs_structure_node_t}
    {allproc : List proc_t} {check_access : Bool} {creds : kauth_cred_t}
    {dir_pnp : procfsnode_t} {startpos : Int} {marker : procfs_structure_node_t}
    (hacc : readdir_access_ok allproc check_access creds dir_pnp.node_id.nodeid_pid = true)
    (hm : is_expansion_type marker.psn_node_type = true)
    (st : readdir_state) (hpos : startpos ≤ st.nextpos)
    (hroom : total_reclen (marker_entries H allproc check_access creds dir_pnp marker).1
      ≤ st.uio_resid) :
    readdir_child H nodes allproc check_access creds dir_pnp startpos marker st
      = .stop (st.emit_all (marker_entries H allproc check_access creds dir_pnp marker).1)
          (marker_entries H allproc check_access creds dir_pnp marker).2 := by
  unfold marker_entries at hroom ⊢
  unfold readdir_child
  simp only [hacc, if_true]
  dsimp only at hroom ⊢
  cases hty : marker.psn_node_type
  all_goals (rw [hty] at hm hroom; try dsimp only at hroom ⊢)
  case PROCFS_PROCDIR => rw [readdir_dynamic_all hH _ st hpos hroom]
  case PROCFS_PROCNAME_DIR => rw [readdir_dynamic_all hH _ st hpos hroom]
  case PROCFS_THREADDIR =>
    cases hp : proc_find allproc dir_pnp.node_id.nodeid_pid with
    | none => simp [readdir_state.emit_all]
    | some p =>
      rw [hp] at hroom
      dsimp only at hroom ⊢
      by_cases hk : (procfs_get_thread_ids_for_task p.task_threads).1 = 0
      · rw [if_pos hk] at hroom ⊢
        rw [if_pos hk, readdir_dynamic_all hH _ st hpos hroom]
      · rw [if_neg hk, if_neg hk]
        simp [readdir_state.emit_all]
  case PROCFS_FD_DIR =>
    cases hp : proc_find allproc dir_pnp.node_id.nodeid_pid with
    | none => simp [readdir_state.emit_all]
    | some p =>
      rw [hp] at hroom
      dsimp only at hroom ⊢
      rw [readdir_dynamic_all hH _ st hpos hroom]
  all_goals (simp [is_expansion_type] at hm)

/-! ## The layout that `procfs_structure_init` builds -/

/-- The structure nodes in allocation order; a pointer to a node is its index
in this list (the base id minus one). -/
def schema_table (sz : kernel_sizes) : List procfs_structure_node_t :=
  [
    ⟨PROCFS_ROOT, "/", 1, 0, none, [1, 2, 3, 4, 10], 0, none, none⟩,
    ⟨PROCFS_DIR_THIS, ".", 2, 0, some 0, [], 0, none, none⟩,
    ⟨PROCFS_DIR_PARENT, "..", 3, 0, some 0, [], 0, none, none⟩,
    ⟨PROCFS_CURPROC, "curproc", 4, 0, some 0, [], 0, none, none⟩,
    ⟨PROCFS_DIR, "byname", 5, 0, some 0, [5, 6, 7], 0, none, none⟩,
    ⟨PROCFS_DIR_THIS, ".", 6, 0, some 4, [], 0, none, none⟩,
    ⟨PROCFS_DIR_PARENT, "..", 7, 0, some 4, [], 0, none, none⟩,
    ⟨PROCFS_PROCNAME_DIR, "__Process_N__", 8, 1, some 4, [8, 9], 0, some (.procfs_process_node_size), none⟩,
    ⟨PROCFS_DIR_THIS, ".", 9, 1, some 7, [], 0, none, none⟩,
    ⟨PROCFS_DIR_PARENT, "..", 10, 1, some 7, [], 0, none, none⟩,
    ⟨PROCFS_PROCDIR, "__Process__", 11, 1, some 0, [11, 12, 13, 19, 25, 26, 27, 28, 29, 30, 31], 0, some (.procfs_process_node_size), none⟩,
    ⟨PROCFS_DIR_THIS, ".", 12, 1, some 10, [], 0, none, none⟩,
    ⟨PROCFS_DIR_PARENT, "..", 13, 1, some 10, [], 0, none, none⟩,
    ⟨PROCFS_DIR, "fd", 14, 1, some 10, [14, 15, 16], 0, none, none⟩,
    ⟨PROCFS_DIR_THIS, ".", 15, 1, some 13, [], 0, none, none⟩,
    ⟨PROCFS_DIR_PARENT, "..", 16, 1, some 13, [], 0, none, none⟩,
    ⟨PROCFS_FD_DIR, "__File__", 17, 1, some 13, [17, 18, 33, 34], 0, some (.procfs_fd_node_size), none⟩,
    ⟨PROCFS_DIR_THIS, ".", 18, 1, some 16, [], 0, none, none⟩,
    ⟨PROCFS_DIR_PARENT, "..", 19, 1, some 16, [], 0, none, none⟩,
    ⟨PROCFS_DIR, "threads", 20, 1, some 10, [20, 21, 22], 0, none, none⟩,
    ⟨PROCFS_DIR_THIS, ".", 21, 1, some 19, [], 0, none, none⟩,
    ⟨PROCFS_DIR_PARENT, "..", 22, 1, some 19, [], 0, none, none⟩,
    ⟨PROCFS_THREADDIR, "__Thread__", 23, 3, some 19, [23, 24, 32], 0, some (.procfs_thread_node_size), none⟩,
    ⟨PROCFS_DIR_THIS, ".", 24, 3, some 22, [], 0, none, none⟩,
    ⟨PROCFS_DIR_PARENT, "..", 25, 3, some 22, [], 0, none, none⟩,
    ⟨PROCFS_FILE, "pid", 26, 1, some 10, [], sz.sizeof_pid_t, none, some (.procfs_read_pid_data)⟩,
    ⟨PROCFS_FILE, "ppid", 27, 1, some 10, [], sz.sizeof_pid_t, none, some (.procfs_read_ppid_data)⟩,
    ⟨PROCFS_FILE, "pgid", 28, 1, some 10, [], sz.sizeof_pid_t, none, some (.procfs_read_pgid_data)⟩,
    ⟨PROCFS_FILE, "sid", 29, 1, some 10, [], sz.sizeof_pid_t, none, some (.procfs_read_sid_data)⟩,
    ⟨PROCFS_FILE, "tty", 30, 1, some 10, [], 0, none, some (.procfs_read_tty_data)⟩,
    ⟨PROCFS_FILE, "info", 31, 1, some 10, [], sz.sizeof_proc_bsdinfo, none, some (.procfs_read_proc_info)⟩,
    ⟨PROCFS_FILE, "taskinfo", 32, 1, some 10, [], sz.sizeof_proc_taskinfo, none, some (.procfs_read_task_info)⟩,
    ⟨PROCFS_FILE, "info", 33, 3, some 22, [], sz.sizeof_proc_taskinfo, none, some (.procfs_read_thread_info)⟩,
    ⟨PROCFS_FILE, "details", 34, 1, some 16, [], sz.sizeof_proc_threadinfo, none, some (.procfs_read_fd_data)⟩,
    ⟨PROCFS_FILE, "socket", 35, 1, some 16, [], 0, none, some (.procfs_read_socket_data)⟩
  ]

/-- A structure node with its recorded size replaced by `f` of it. -/
def relabel_node (f : Nat → Nat) (n : procfs_structure_node_t) : procfs_structure_node_t :=
  { n with psn_node_size := f n.psn_node_size }

/-- The static data with every recorded size replaced by `f` of it. -/
def relabel_state (f : Nat → Nat) (st : structure_state) : structure_state :=
  { st with nodes := st.nodes.map (relabel_node f) }

/-- Kernel sizes with `f` applied to each. -/
def relabel_sizes (f : Nat → Nat) (sz : kernel_sizes) : kernel_sizes :=
  { sizeof_pid_t := f sz.sizeof_pid_t, sizeof_proc_bsdinfo := f sz.sizeof_proc_bsdinfo,
    sizeof_proc_taskinfo := f sz.sizeof_proc_taskinfo,
    sizeof_proc_threadinfo := f sz.sizeof_proc_threadinfo }

theorem modify_map_comm {α : Type} (g h : α → α) (hc : ∀ x, h (g x) = g (h x)) (l : List α) :
    ∀ i : Nat, (l.map g).modify h i = (l.modify h i).map g := by
  induction l with
  | nil => intro i; cases i <;> simp [List.modify]
  | cons a l ih =>
    intro i
    cases i with
    | zero => simp [List.modify, List.modifyTailIdx, hc]
    | succ i => simpa [List.modify, List.modifyTailIdx] using ih i

/-- `add_node` does not look at the sizes recorded in the nodes. -/
theorem add_node_relabel (f : Nat → Nat) (st : structure_state) (parent : Option Nat)
    (name : String) (type : procfs_structure_node_type_t) (node_id flags size : Nat)
    (fn : Option procfs_node_size_fn) (rfn : Option procfs_read_data_fn) :
    add_node (relabel_state f st) parent name type node_id flags (f size) fn rfn
      = (relabel_state f (add_node st parent name type node_id flags size fn rfn).1,
         (add_node st parent name type node_id flags size fn rfn).2) := by
  cases parent with
  | none =>
    simp [add_node, relabel_state, relabel_node]
  | some pp =>
    have hm := modify_map_comm (relabel_node f)
      (fun pn : procfs_structure_node_t =>
        { pn with psn_children := pn.psn_children ++ [st.nodes.length] })
      (fun _ => rfl) st.nodes pp
    cases hpp : st.nodes[pp]? with
    | none =>
      simp only [add_node, relabel_state, List.length_map, List.getElem?_map, hpp,
        Option.map_none', hm, List.map_append, List.map_cons, List.map_nil, relabel_node]
    | some pn =>
      simp only [add_node, relabel_state, List.length_map, List.getElem?_map, hpp,
        Option.map_some', hm, List.map_append, List.map_cons, List.map_nil, relabel_node]

theorem take_node_id_relabel (f : Nat → Nat) (st : structure_state) :
    take_node_id (relabel_state f st)
      = ((take_node_id st).1, relabel_state f (take_node_id st).2) := rfl

theorem add_directory_relabel (f : Nat → Nat) (hf : f 0 = 0) (st : structure_state)
    (parent : Option Nat) (name : String) (type : procfs_structure_node_type_t)
    (node_id flags : Nat) (raw : Bool)
    (fn : Option procfs_node_size_fn) (rfn : Option procfs_read_data_fn) :
    add_directory (relabel_state f st) parent name type node_id flags raw fn rfn
      = (relabel_state f (add_directory st parent name type node_id flags raw fn rfn).1,
         (add_directory st parent name type node_id flags raw fn rfn).2) := by
  have h0 := fun st parent name type node_id flags fn rfn =>
    add_node_relabel f st parent name type node_id flags 0 fn rfn
  rw [hf] at h0
  unfold add_directory
  cases raw with
  | true => simp only [h0, if_true]
  | false => simp only [h0, take_node_id_relabel, Bool.false_eq_true, if_false]

theorem add_file_relabel (f : Nat → Nat) (st : structure_state) (parent : Option Nat)
    (name : String) (node_id flags size : Nat)
    (fn : Option procfs_node_size_fn) (rfn : Option procfs_read_data_fn) :
    add_file (relabel_state f st) parent name node_id flags (f size) fn rfn
      = (relabel_state f (add_file st parent name node_id flags size fn rfn).1,
         (add_file st parent name node_id flags size fn rfn).2) :=
  add_node_relabel f st parent name _ node_id flags size fn rfn

theorem relabel_state_root (f : Nat → Nat) (st : structure_state) (r : Option Nat) :
    ({ relabel_state f st with root_node := r } : structure_state)
      = relabel_state f { st with root_node := r } := rfl

/-- `procfs_structure_init` treats the sizes it records as opaque values. -/
theorem procfs_structure_init_relabel (f : Nat → Nat) (hf : f 0 = 0) (sz : kernel_sizes)
    (st : structure_state) :
    procfs_structure_init (relabel_sizes f sz) (relabel_state f st)
      = relabel_state f (procfs_structure_init sz st) := by
  have h0 := fun st parent name type node_id flags fn rfn =>
    add_node_relabel f st parent name type node_id flags 0 fn rfn
  have hf0 := fun st parent name node_id flags fn rfn =>
    add_file_relabel f st parent name node_id flags 0 fn rfn
  rw [hf] at h0 hf0
  unfold procfs_structure_init
  cases hr : st.root_node with
  | some r =>
    have : (relabel_state f st).root_node = some r := hr
    simp only [this]
  | none =>
    have : (relabel_state f st).root_node = none := hr
    simp only [this, relabel_sizes, add_directory_relabel f hf, h0, hf0, add_file_relabel,
      take_node_id_relabel, relabel_state_root]

/-- Four distinct values standing for the four sizes. -/
def size_tags : kernel_sizes :=
  { sizeof_pid_t := 1, sizeof_proc_bsdinfo := 2, sizeof_proc_taskinfo := 3,
    sizeof_proc_threadinfo := 4 }

/-- The size a tag stands for. -/
def size_of_tag (sz : kernel_sizes) : Nat → Nat
  | 1 => sz.sizeof_pid_t
  | 2 => sz.sizeof_proc_bsdinfo
  | 3 => sz.sizeof_proc_taskinfo
  | 4 => sz.sizeof_proc_threadinfo
  | _ => 0

theorem structure_nodes_tags :
    (procfs_structure size_tags).nodes = schema_table size_tags := by
  decide

theorem structure_nodes_eq (sz : kernel_sizes) :
    (procfs_structure sz).nodes = schema_table sz := by
  have h := procfs_structure_init_relabel (size_of_tag sz) rfl size_tags structure_state_initial
  have h1 : relabel_sizes (size_of_tag sz) size_tags = sz := rfl
  have h2 : relabel_state (size_of_tag sz) structure_state_initial = structure_state_initial :=
    rfl
  rw [h1, h2] at h
  unfold procfs_structure
  rw [h]
  show ((procfs_structure size_tags).nodes).map (relabel_node (size_of_tag sz)) = _
  rw [structure_nodes_tags]
  rfl

/-- The types of children that the loop body of `procfs_vnop_readdir` copies
out as they are. -/
def is_static_type : procfs_structure_node_type_t → Bool
  | PROCFS_DIR => true
  | PROCFS_FILE => true
  | PROCFS_DIR_THIS => true
  | PROCFS_DIR_PARENT => true
  | PROCFS_CURPROC => true
  | _ => false

theorem static_child_entry_isSome {H : Nat} {nodes : List procfs_structure_node_t}
    {dir_pnp : procfsnode_t} {snode : procfs_structure_node_t}
    (ht : is_static_type snode.psn_node_type = true)
    (hp : (procfs_get_parent_node_id nodes dir_pnp).isSome = true) :
    (static_child_entry H nodes dir_pnp snode).isSome = true := by
  unfold static_child_entry
  dsimp only
  cases hty : snode.psn_node_type <;> rw [hty] at ht <;> simp [is_static_type] at ht ⊢
  exact hp

/-- In the built layout the parent identity of a node whose structure node
exists can always be computed. -/
theorem parent_node_id_isSome (sz : kernel_sizes) (dir_pnp : procfsnode_t) (i : Nat)
    (hi : dir_pnp.node_structure_node = some i) (hlt : i < 35) :
    (procfs_get_parent_node_id (procfs_structure sz).nodes dir_pnp).isSome = true := by
  rw [structure_nodes_eq]
  unfold procfs_get_parent_node_id
  rw [hi]
  interval_cases i <;> rfl

theorem static_entries_total {H : Nat} {nodes : List procfs_structure_node_t}
    {dir_pnp : procfsnode_t} (statics : List procfs_structure_node_t)
    (hall : ∀ c ∈ statics, (static_child_entry H nodes dir_pnp c).isSome = true) :
    total_reclen (static_entries H nodes dir_pnp statics)
      = ((statics.map (fun c => c.psn_name)).map (procfs_calc_dirent_size H)).sum := by
  induction statics with
  | nil => rfl
  | cons sn ss ih =>
    obtain ⟨e, he⟩ := Option.isSome_iff_exists.mp (hall sn (List.mem_cons_self _ _))
    rw [static_entries_cons he, total_reclen_cons,
      ih (fun c hc => hall c (List.mem_cons_of_mem _ hc)), (static_child_entry_reclen he).1]
    simp

/-- The guard of the loop body passes for the superuser, on a mount without
access checks, for a directory without owning process, and when the owning
process is live and accessible. -/
theorem readdir_access_ok_of {allproc : List proc_t} {pmp : procfs_mount_t}
    {creds : kauth_cred_t} {pid : Int}
    (h : suser creds = 0 ∨ procfs_should_access_check pmp = false ∨ pid = PRNODE_NO_PID
      ∨ ∃ p, proc_find allproc pid = some p ∧ procfs_check_can_access_process creds p = 0) :
    readdir_access_ok allproc (readdir_check_access pmp creds) creds pid = true := by
  unfold readdir_access_ok readdir_check_access
  rcases h with h | h | h | ⟨p, hp, ha⟩
  · simp [h]
  · simp [h]
  · simp [h]
  · simp [procfs_check_can_access_proc_pid, hp, ha]

/-- A structure node pointer that resolves in the built layout is below 35. -/
theorem schema_index_lt {sz : kernel_sizes} {i : Nat} {sn : procfs_structure_node_t}
    (hsn : (procfs_structure sz).nodes[i]? = some sn) : i < 35 := by
  rw [structure_nodes_eq] at hsn
  have := (List.getElem?_eq_some.mp hsn).1
  simpa [schema_table] using this

/-- The process directory node is the node at index 10. -/
theorem schema_procdir_index {sz : kernel_sizes} {i : Nat} {sn : procfs_structure_node_t}
    (hsn : (procfs_structure sz).nodes[i]? = some sn)
    (hty : sn.psn_node_type = PROCFS_PROCDIR) : i = 10 := by
  have hlt := schema_index_lt hsn
  rw [structure_nodes_eq] at hsn
  interval_cases i <;> simp [schema_table] at hsn <;> subst hsn <;> simp at hty
  rfl

/-- The structure node at index `k` of the built layout. -/
def schema_node (sz : kernel_sizes) (k : Nat) : procfs_structure_node_t :=
  ((schema_table sz)[k]?).getD ⟨PROCFS_ROOT, "", 0, 0, none, [], 0, none, none⟩

/-- The names of the schema children of the process directory node, in schema
order. -/
def process_directory_names : List String :=
  [".", "..", "fd", "threads", "pid", "ppid", "pgid", "sid", "tty", "info", "taskinfo"]

/-- If every listed type is one that is copied out as it is and the parent
identity can be computed, every node of the list has a static entry. -/
theorem all_static_of_types {H : Nat} {nodes : List procfs_structure_node_t}
    {dir_pnp : procfsnode_t} {children : List procfs_structure_node_t}
    (ht : (children.map (fun c => is_static_type c.psn_node_type)).all id = true)
    (hp : (procfs_get_parent_node_id nodes dir_pnp).isSome = true) :
    ∀ c ∈ children, (static_child_entry H nodes dir_pnp c).isSome = true := by
  intro c hc
  apply static_child_entry_isSome _ hp
  simp only [List.all_eq_true, List.mem_map, id] at ht
  exact ht _ ⟨c, hc, rfl⟩

theorem schema_root_index {sz : kernel_sizes} {i : Nat} {sn : procfs_structure_node_t}
    (hsn : (procfs_structure sz).nodes[i]? = some sn)
    (hty : sn.psn_node_type = PROCFS_ROOT) : i = 0 := by
  have hlt := schema_index_lt hsn
  rw [structure_nodes_eq] at hsn
  interval_cases i <;> simp [schema_table] at hsn <;> subst hsn <;> simp at hty
  rfl

theorem schema_fd_dir_index {sz : kernel_sizes} {i : Nat} {sn : procfs_structure_node_t}
    (hsn : (procfs_structure sz).nodes[i]? = some sn)
    (hty : sn.psn_node_type = PROCFS_FD_DIR) : i = 16 := by
  have hlt := schema_index_lt hsn
  rw [structure_nodes_eq] at hsn
  interval_cases i <;> simp [schema_table] at hsn <;> subst hsn <;> simp at hty
  rfl

theorem schema_threaddir_index {sz : kernel_sizes} {i : Nat} {sn : procfs_structure_node_t}
    (hsn : (procfs_structure sz).nodes[i]? = some sn)
    (hty : sn.psn_node_type = PROCFS_THREADDIR) : i = 22 := by
  have hlt := schema_index_lt hsn
  rw [structure_nodes_eq] at hsn
  interval_cases i <;> simp [schema_table] at hsn <;> subst hsn <;> simp at hty
  rfl

/-- The plain directories of the layout are found by their names: "byname" at
index 4, "fd" at 13 and "threads" at 19. -/
theorem schema_plain_dir_index {sz : kernel_sizes} {i : Nat} {sn : procfs_structure_node_t}
    (hsn : (procfs_structure sz).nodes[i]? = some sn)
    (hty : sn.psn_node_type = PROCFS_DIR) :
    (sn.psn_name = "byname" → i = 4) ∧ (sn.psn_name = "fd" → i = 13)
      ∧ (sn.psn_name = "threads" → i = 19) := by
  have hlt := schema_index_lt hsn
  rw [structure_nodes_eq] at hsn
  interval_cases i <;> simp [schema_table] at hsn <;> subst hsn <;> simp at hty <;> decide

theorem proc_find_of_mem {allproc : List proc_t}
    (hnd : (allproc.map (fun p => p.p_pid)).Nodup) {p : proc_t} (hp : p ∈ allproc) :
    proc_find allproc p.p_pid = some p := by
  induction allproc with
  | nil => simp at hp
  | cons a l ih =>
    rw [List.map_cons, List.nodup_cons] at hnd
    unfold proc_find
    rcases List.mem_cons.mp hp with rfl | hl
    · simp
    · have hne : a.p_pid ≠ p.p_pid := by
        intro e
        apply hnd.1
        rw [e]
        exact List.mem_map_of_mem _ hl
      rw [List.find?_cons_of_neg _ (by simpa using hne)]
      exact ih hnd.2 hl

theorem proc_find_some_of_mem {allproc : List proc_t} {p : proc_t} (hp : p ∈ allproc) :
    (proc_find allproc p.p_pid).isSome = true := by
  unfold proc_find
  rw [List.find?_isSome]
  exact ⟨p, hp, by simp⟩

/-- The processes a caller sees: all of them for the superuser and on a mount
without access checks, otherwise those that pass the credential check. -/
def visible_processes (allproc : List proc_t) (pmp : procfs_mount_t) (creds : kauth_cred_t) :
    List proc_t :=
  allproc.filter (fun p => suser creds == 0 || !procfs_should_access_check pmp
    || procfs_check_can_access_process creds p == 0)

theorem get_pids_visible (allproc : List proc_t) (pmp : procfs_mount_t) (creds : kauth_cred_t) :
    procfs_get_pids allproc
        (if readdir_check_access pmp creds then some creds else none)
      = (visible_processes allproc pmp creds).map (fun p => p.p_pid) := by
  unfold procfs_get_pids visible_processes readdir_check_access
  congr 1
  apply List.filter_congr
  intro p _
  cases h1 : (suser creds == 0) <;> cases h2 : procfs_should_access_check pmp <;> simp

theorem total_reclen_of_names {H : Nat} {es : List dirent}
    (h : ∀ e ∈ es, e.d_reclen = procfs_calc_dirent_size H e.d_name) :
    total_reclen es = ((es.map (fun e => e.d_name)).map (procfs_calc_dirent_size H)).sum := by
  induction es with
  | nil => rfl
  | cons e es ih =>
    rw [total_reclen_cons, h e (List.mem_cons_self _ _),
      ih (fun x hx => h x (List.mem_cons_of_mem _ hx))]
    simp

theorem marker_entries_reclen (H : Nat) (allproc : List proc_t) (check_access : Bool)
    (creds : kauth_cred_t) (dir_pnp : procfsnode_t) (marker : procfs_structure_node_t) :
    ∀ e ∈ (marker_entries H allproc check_access creds dir_pnp marker).1,
      e.d_reclen = procfs_calc_dirent_size H e.d_name := by
  intro e he
  unfold marker_entries at he
  dsimp only at he
  split at he
  · simp only [List.mem_map] at he; obtain ⟨c, _, rfl⟩ := he; rfl
  · simp only [List.mem_map] at he; obtain ⟨c, _, rfl⟩ := he; rfl
  · split at he
    · split at he
      · simp only [List.mem_map] at he; obtain ⟨c, _, rfl⟩ := he; rfl
      · simp at he
    · simp at he
  · split at he
    · simp only [List.mem_map] at he; obtain ⟨c, _, rfl⟩ := he; rfl
    · simp at he
  · simp at he

/-- A listing from offset 0 of a directory whose children are entries that are
not expanded followed by an expansion marker, with the guard passing and the
buffer larger than all entries together: the names copied out, the error, the
end-of-directory flag and the number of entries. -/
theorem readdir_marker_listing {H : Nat} (hH : 0 < H) {nodes : List procfs_structure_node_t}
    {allproc : List proc_t} {pmp : procfs_mount_t} {creds : kauth_cred_t}
    {dir_pnp : procfsnode_t} {dir_snode : procfs_structure_node_t}
    {statics : List procfs_structure_node_t} {marker : procfs_structure_node_t}
    {rest : List procfs_structure_node_t} {resid : Int} {fuel : Nat}
    (hdir : dir_pnp.node_structure_node.bind (fun i => nodes[i]?) = some dir_snode)
    (htype : vnode_type_for_structure_node_type dir_snode.psn_node_type = .VDIR)
    (hch : dir_snode.psn_children.filterMap (fun i => nodes[i]?) = statics ++ marker :: rest)
    (hall : ∀ c ∈ statics, (static_child_entry H nodes dir_pnp c).isSome = true)
    (hacc : readdir_access_ok allproc (readdir_check_access pmp creds) creds
      dir_pnp.node_id.nodeid_pid = true)
    (hm : is_expansion_type marker.psn_node_type = true)
    (hroom : ((statics.map (fun c => c.psn_name)
        ++ (marker_entries H allproc (readdir_check_access pmp creds) creds dir_pnp marker).1.map
            (fun e => e.d_name)).map (procfs_calc_dirent_size H)).sum < resid)
    (hfuel : statics.length < fuel) :
    ∃ r, procfs_vnop_readdir H nodes allproc pmp creds dir_pnp
          { uio_offset := 0, uio_resid := resid } fuel = some r
      ∧ r.copied.map (fun d => d.d_name) = statics.map (fun c => c.psn_name)
          ++ (marker_entries H allproc (readdir_check_access pmp creds) creds dir_pnp
                marker).1.map (fun e => e.d_name)
      ∧ r.error = (marker_entries H allproc (readdir_check_access pmp creds) creds dir_pnp
          marker).2
      ∧ r.eofflag = false
      ∧ r.copied.length = statics.length
          + (marker_entries H allproc (readdir_check_access pmp creds) creds dir_pnp
              marker).1.length
      ∧ r.numdirent = (r.copied.length : Int) := by
  have ht := total_reclen_of_names
    (marker_entries_reclen H allproc (readdir_check_access pmp creds) creds dir_pnp marker)
  have hs := static_entries_total statics hall
  rw [List.map_append, List.sum_append] at hroom
  have hr := @readdir_with_marker H hH nodes allproc pmp creds dir_pnp dir_snode statics marker
    rest _ _ resid fuel hdir htype hch hall hacc
    (fun st hpos hfit => readdir_child_marker hH hacc hm st hpos hfit)
    (marker_entries_nonneg H allproc _ creds dir_pnp marker)
    (by rw [hs, ht]; exact hroom) hfuel
  refine ⟨_, hr, ?_, rfl, rfl, ?_, ?_⟩
  · simp only [List.map_append]
    rw [static_entries_names _ hall]
  · simp only [List.length_append]
    rw [static_entries_length _ hall]
  · simp only [List.length_append, Nat.cast_add]
    rw [static_entries_length _ hall]

theorem filterMap_some_eq_map {α β : Type} (f : α → β) (l : List α) :
    l.filterMap (fun x => some (f x)) = l.map f := by
  induction l with
  | nil => rfl
  | cons a l ih => simp [List.filterMap_cons, ih]

theorem format_lld_of_lt {x : Nat} (h : x < 9223372036854775808) :
    format_lld x = toString x := by
  unfold format_lld
  have h1 : x % 18446744073709551616 = x := Nat.mod_eq_of_lt (by omega)
  rw [h1, if_pos h]
  rfl

theorem marker_entries_procdir (H : Nat) (allproc : List proc_t) (pmp : procfs_mount_t)
    (creds : kauth_cred_t) (dir_pnp : procfsnode_t) (marker : procfs_structure_node_t)
    (hm : marker.psn_node_type = PROCFS_PROCDIR) :
    (marker_entries H allproc (readdir_check_access pmp creds) creds dir_pnp marker).1.map
        (fun e => e.d_name)
      = (visible_processes allproc pmp creds).map (fun p => toString p.p_pid)
    ∧ (marker_entries H allproc (readdir_check_access pmp creds) creds dir_pnp marker).2
      = 0 := by
  unfold marker_entries
  simp only [hm, get_pids_visible, process_candidates, if_true, List.filterMap_map]
  refine ⟨?_, trivial⟩
  simp only [Function.comp_def, filterMap_some_eq_map, List.map_map, dynamic_entry]

theorem marker_entries_procname (H : Nat) (allproc : List proc_t) (pmp : procfs_mount_t)
    (creds : kauth_cred_t) (dir_pnp : procfsnode_t) (marker : procfs_structure_node_t)
    (hnd : (allproc.map (fun p => p.p_pid)).Nodup)
    (hm : marker.psn_node_type = PROCFS_PROCNAME_DIR) :
    (marker_entries H allproc (readdir_check_access pmp creds) creds dir_pnp marker).1.map
        (fun e => e.d_name)
      = (visible_processes allproc pmp creds).map
          (fun p => toString p.p_pid ++ " " ++ String.mk (p.p_comm.data.take MAXCOMLEN))
    ∧ (marker_entries H allproc (readdir_check_access pmp creds) creds dir_pnp marker).2
      = 0 := by
  unfold marker_entries
  simp only [hm, get_pids_visible, process_candidates, Bool.false_eq_true, if_false,
    List.filterMap_map]
  refine ⟨?_, trivial⟩
  have hcongr : ∀ p ∈ visible_processes allproc pmp creds,
      ((fun this_pid => match proc_find allproc this_pid with
          | none => none
          | some q => some (procfs_get_fileid this_pid PRNODE_NO_OBJECTID
              marker.psn_base_node_id, procfs_construct_process_dir_name q))
        ∘ fun p => p.p_pid) p
      = (some ∘ fun p : proc_t => (procfs_get_fileid p.p_pid PRNODE_NO_OBJECTID
              marker.psn_base_node_id, procfs_construct_process_dir_name p)) p := by
    intro p hp
    have hmem : p ∈ allproc := (List.mem_filter.mp hp).1
    simp only [Function.comp, proc_find_of_mem hnd hmem]
  rw [List.filterMap_congr hcongr, List.filterMap_eq_map]
  simp [dynamic_entry, procfs_construct_process_dir_name, Function.comp_def]

/-- The thread ids of the process with the given pid as
`procfs_get_thread_ids_for_task` delivers them; none when there is no such
process or the ids cannot be obtained. -/
def thread_ids_of (allproc : List proc_t) (pid : Int) : List Nat :=
  match proc_find allproc pid with
  | some p => (procfs_get_thread_ids_for_task p.task_threads).2
  | none => []

/-- The numbers of the open, non-reserved descriptors of the process with the
given pid; none when there is no such process. -/
def open_descriptors_of (allproc : List proc_t) (pid : Int) : List Nat :=
  match proc_find allproc pid with
  | some p => open_descriptors p.fd_ofiles
  | none => []

theorem thread_ids_failure {task : List thread_act}
    (h : (procfs_get_thread_ids_for_task task).1 ≠ 0) :
    (procfs_get_thread_ids_for_task task).2 = [] := by
  unfold procfs_get_thread_ids_for_task at h ⊢
  by_cases h2 : (thread_ids_loop task []).1 = 0
  · simp [h2] at h
  · simp [h2]

theorem marker_entries_thread (H : Nat) (allproc : List proc_t) (check_access : Bool)
    (creds : kauth_cred_t) (dir_pnp : procfsnode_t) (marker : procfs_structure_node_t)
    (hm : marker.psn_node_type = PROCFS_THREADDIR)
    (hlt : ∀ t ∈ thread_ids_of allproc dir_pnp.node_id.nodeid_pid, t < 9223372036854775808) :
    (marker_entries H allproc check_access creds dir_pnp marker).1.map (fun e => e.d_name)
      = (thread_ids_of allproc dir_pnp.node_id.nodeid_pid).map (fun t => toString t)
    ∧ (∀ p, proc_find allproc dir_pnp.node_id.nodeid_pid = some p →
        (procfs_get_thread_ids_for_task p.task_threads).1 = 0 →
        (marker_entries H allproc check_access creds dir_pnp marker).2 = 0) := by
  unfold marker_entries thread_ids_of at *
  simp only [hm]
  cases hp : proc_find allproc dir_pnp.node_id.nodeid_pid with
  | none => simp
  | some p =>
    rw [hp] at hlt
    simp only at hlt ⊢
    by_cases hok : (procfs_get_thread_ids_for_task p.task_threads).1 = 0
    · simp only [hok, if_true]
      refine ⟨?_, by simp⟩
      simp only [thread_candidates, List.map_map]
      apply List.map_congr_left
      intro t ht
      simp only [Function.comp, dynamic_entry]
      exact format_lld_of_lt (hlt t ht)
    · simp only [hok, if_false, thread_ids_failure hok, List.map_nil, true_and]
      intro q hq hq0
      rw [Option.some.inj hq] at hok
      exact absurd hq0 hok

theorem marker_entries_fd (H : Nat) (allproc : List proc_t) (check_access : Bool)
    (creds : kauth_cred_t) (dir_pnp : procfsnode_t) (marker : procfs_structure_node_t)
    (hm : marker.psn_node_type = PROCFS_FD_DIR) :
    (marker_entries H allproc check_access creds dir_pnp marker).1.map (fun e => e.d_name)
      = (open_descriptors_of allproc dir_pnp.node_id.nodeid_pid).map (fun n => toString n)
    ∧ (∀ p, proc_find allproc dir_pnp.node_id.nodeid_pid = some p →
        (marker_entries H allproc check_access creds dir_pnp marker).2 = 0) := by
  unfold marker_entries open_descriptors_of
  simp only [hm]
  cases hp : proc_find allproc dir_pnp.node_id.nodeid_pid with
  | none => simp
  | some p => simp [fd_candidates, dynamic_entry, Function.comp_def]

/-- The names a complete listing of the root directory shows. -/
def root_listing_names (allproc : List proc_t) (pmp : procfs_mount_t) (creds : kauth_cred_t) :
    List String :=
  [".", "..", "curproc", "byname"]
    ++ (visible_processes allproc pmp creds).map (fun p => toString p.p_pid)

/-- The names a complete listing of the byname directory shows: for every
visible process the pid, a space and the command name (`p_comm` holds at most
`MAXCOMLEN` characters). -/
def byname_listing_names (allproc : List proc_t) (pmp : procfs_mount_t)
    (creds : kauth_cred_t) : List String :=
  [".", ".."]
    ++ (visible_processes allproc pmp creds).map
        (fun p => toString p.p_pid ++ " " ++ String.mk (p.p_comm.data.take MAXCOMLEN))

/-- The names a complete listing of the threads directory of the process with
the given pid shows: ".", ".." and the decimal thread ids. -/
def threads_listing_names (allproc : List proc_t) (pid : Int) : List String :=
  [".", ".."] ++ (thread_ids_of allproc pid).map (fun t => toString t)

/-- The names a complete listing of the fd directory of the process with the
given pid shows: ".", ".." and the decimal numbers of the open descriptors. -/
def fd_listing_names (allproc : List proc_t) (pid : Int) : List String :=
  [".", ".."] ++ (open_descriptors_of allproc pid).map (fun n => toString n)

/-- A listing from offset 0 of one of the directories of the built layout that
end in an expansion marker (`k` is the index of the directory, `a` and `b`
those of "." and "..", `m` that of the marker), with the guard passing and a
buffer larger than all entries together. -/
theorem readdir_schema_marker_dir {H : Nat} (hH : 0 < H) (sz : kernel_sizes)
    (allproc : List proc_t) (pmp : procfs_mount_t) (creds : kauth_cred_t)
    (dir_pnp : procfsnode_t) (k : Nat) (statics : List Nat) (m : Nat) (resid : Int)
    (fuel : Nat)
    (hi : dir_pnp.node_structure_node = some k) (hk : k < 35)
    (hkd : vnode_type_for_structure_node_type (schema_node sz k).psn_node_type = .VDIR)
    (hkn : (schema_table sz)[k]? = some (schema_node sz k))
    (hch : (schema_node sz k).psn_children.filterMap (fun i => (schema_table sz)[i]?)
      = statics.map (schema_node sz) ++ [schema_node sz m])
    (hst : ((statics.map (schema_node sz)).map
      (fun c => is_static_type c.psn_node_type)).all id = true)
    (hm : is_expansion_type (schema_node sz m).psn_node_type = true)
    (hacc : readdir_access_ok allproc (readdir_check_access pmp creds) creds
      dir_pnp.node_id.nodeid_pid = true)
    (hroom : (((statics.map (schema_node sz)).map (fun c => c.psn_name)
        ++ (marker_entries H allproc (readdir_check_access pmp creds) creds dir_pnp
              (schema_node sz m)).1.map (fun e => e.d_name)).map
          (procfs_calc_dirent_size H)).sum < resid)
    (hfuel : statics.length < fuel) :
    ∃ r, procfs_vnop_readdir H (procfs_structure sz).nodes allproc pmp creds dir_pnp
          { uio_offset := 0, uio_resid := resid } fuel = some r
      ∧ r.copied.map (fun d => d.d_name) = (statics.map (schema_node sz)).map
            (fun c => c.psn_name)
          ++ (marker_entries H allproc (readdir_check_access pmp creds) creds dir_pnp
                (schema_node sz m)).1.map (fun e => e.d_name)
      ∧ r.error = (marker_entries H allproc (readdir_check_access pmp creds) creds dir_pnp
          (schema_node sz m)).2
      ∧ r.eofflag = false
      ∧ r.copied.length = statics.length
          + (marker_entries H allproc (readdir_check_access pmp creds) creds dir_pnp
              (schema_node sz m)).1.length
      ∧ r.numdirent = (r.copied.length : Int) := by
  have hpar := parent_node_id_isSome sz dir_pnp k hi hk
  have hdir : dir_pnp.node_structure_node.bind (fun i => (procfs_structure sz).nodes[i]?)
      = some (schema_node sz k) := by
    rw [hi, structure_nodes_eq]; exact hkn
  have hall := @all_static_of_types H _ dir_pnp (statics.map (schema_node sz)) hst hpar
  have h := @readdir_marker_listing H hH (procfs_structure sz).nodes allproc pmp creds dir_pnp
    (schema_node sz k) (statics.map (schema_node sz)) (schema_node sz m) [] resid fuel hdir hkd
    (by rw [structure_nodes_eq]; exact hch) hall hacc hm hroom (by simpa using hfuel)
  simpa using h

/-! ## Lemmas on node sizes -/

theorem size_attr_root (sz : kernel_sizes) (allproc : List proc_t) (dir_pnp : procfsnode_t)
    (creds : kauth_cred_t) (hi : dir_pnp.node_structure_node = some 0) :
    procfs_get_node_size_attr (procfs_structure sz).nodes allproc dir_pnp creds
      = some (4 + procfs_get_process_count allproc creds) := by
  rw [structure_nodes_eq]
  unfold procfs_get_node_size_attr
  rw [hi]
  rfl

theorem size_attr_byname (sz : kernel_sizes) (allproc : List proc_t) (dir_pnp : procfsnode_t)
    (creds : kauth_cred_t) (hi : dir_pnp.node_structure_node = some 4) :
    procfs_get_node_size_attr (procfs_structure sz).nodes allproc dir_pnp creds
      = some (2 + procfs_get_process_count allproc creds) := by
  rw [structure_nodes_eq]
  unfold procfs_get_node_size_attr
  rw [hi]
  rfl

theorem size_attr_procdir (sz : kernel_sizes) (allproc : List proc_t) (dir_pnp : procfsnode_t)
    (creds : kauth_cred_t) (hi : dir_pnp.node_structure_node = some 10) :
    procfs_get_node_size_attr (procfs_structure sz).nodes allproc dir_pnp creds = some 11 := by
  rw [structure_nodes_eq]
  unfold procfs_get_node_size_attr
  rw [hi]
  rfl

theorem size_attr_fd (sz : kernel_sizes) (allproc : List proc_t) (dir_pnp : procfsnode_t)
    (creds : kauth_cred_t) (hi : dir_pnp.node_structure_node = some 13) :
    procfs_get_node_size_attr (procfs_structure sz).nodes allproc dir_pnp creds
      = some (2 + procfs_fd_node_size allproc dir_pnp) := by
  rw [structure_nodes_eq]
  unfold procfs_get_node_size_attr
  rw [hi]
  rfl

theorem size_attr_fd_dir (sz : kernel_sizes) (allproc : List proc_t) (dir_pnp : procfsnode_t)
    (creds : kauth_cred_t) (hi : dir_pnp.node_structure_node = some 16) :
    procfs_get_node_size_attr (procfs_structure sz).nodes allproc dir_pnp creds = some 4 := by
  rw [structure_nodes_eq]
  unfold procfs_get_node_size_attr
  rw [hi]
  rfl

theorem size_attr_threads (sz : kernel_sizes) (allproc : List proc_t) (dir_pnp : procfsnode_t)
    (creds : kauth_cred_t) (hi : dir_pnp.node_structure_node = some 19) :
    procfs_get_node_size_attr (procfs_structure sz).nodes allproc dir_pnp creds
      = some (2 + procfs_thread_node_size allproc dir_pnp) := by
  rw [structure_nodes_eq]
  unfold procfs_get_node_size_attr
  rw [hi]
  rfl

theorem size_attr_threaddir (sz : kernel_sizes) (allproc : List proc_t)
    (dir_pnp : procfsnode_t) (creds : kauth_cred_t)
    (hi : dir_pnp.node_structure_node = some 22) :
    procfs_get_node_size_attr (procfs_structure sz).nodes allproc dir_pnp creds = some 3 := by
  rw [structure_nodes_eq]
  unfold procfs_get_node_size_attr
  rw [hi]
  rfl

theorem filterMap_length_of_isSome {α β : Type} (f : α → Option β) (l : List α)
    (h : ∀ x ∈ l, (f x).isSome = true) : (l.filterMap f).length = l.length := by
  induction l with
  | nil => rfl
  | cons a l ih =>
    obtain ⟨b, hb⟩ := Option.isSome_iff_exists.mp (h a (List.mem_cons_self _ _))
    rw [List.filterMap_cons_some hb, List.length_cons, List.length_cons,
      ih (fun x hx => h x (List.mem_cons_of_mem _ hx))]

theorem process_candidates_length (allproc : List proc_t) (procdir : Bool) (base : Nat)
    (creds : Option kauth_cred_t) :
    (process_candidates allproc procdir base (procfs_get_pids allproc creds)).length
      = (procfs_get_pids allproc creds).length := by
  unfold process_candidates
  apply filterMap_length_of_isSome
  intro pid hpid
  cases procdir with
  | true => rfl
  | false =>
    simp only [procfs_get_pids, List.mem_map, List.mem_filter] at hpid
    obtain ⟨p, ⟨hp, _⟩, rfl⟩ := hpid
    obtain ⟨q, hq⟩ := Option.isSome_iff_exists.mp (proc_find_some_of_mem hp)
    simp [hq]

theorem process_count_eq (allproc : List proc_t) (pmp : procfs_mount_t) (creds : kauth_cred_t)
    (h : suser creds = 0 ∨ procfs_should_access_check pmp = true) :
    procfs_get_process_count allproc creds
      = (procfs_get_pids allproc
          (if readdir_check_access pmp creds then some creds else none)).length := by
  unfold procfs_get_process_count readdir_check_access
  by_cases hs : suser creds = 0
  · simp [hs]
  · rcases h with h | h
    · exact absurd h hs
    · simp [hs, h]

theorem marker_length_process (H : Nat) (allproc : List proc_t) (pmp : procfs_mount_t)
    (creds : kauth_cred_t) (dir_pnp : procfsnode_t) (marker : procfs_structure_node_t)
    (hm : marker.psn_node_type = PROCFS_PROCDIR ∨ marker.psn_node_type = PROCFS_PROCNAME_DIR)
    (h : suser creds = 0 ∨ procfs_should_access_check pmp = true) :
    (marker_entries H allproc (readdir_check_access pmp creds) creds dir_pnp marker).1.length
      = procfs_get_process_count allproc creds := by
  rw [process_count_eq allproc pmp creds h]
  unfold marker_entries
  rcases hm with hm | hm
  · simp only [hm, List.length_map, process_candidates_length]
  · simp only [hm, List.length_map, process_candidates_length]

theorem marker_length_fd (H : Nat) (allproc : List proc_t) (check_access : Bool)
    (creds : kauth_cred_t) (dir_pnp : procfsnode_t) (marker : procfs_structure_node_t)
    (hm : marker.psn_node_type = PROCFS_FD_DIR) :
    (marker_entries H allproc check_access creds dir_pnp marker).1.length
      = procfs_fd_node_size allproc dir_pnp := by
  unfold marker_entries procfs_fd_node_size
  simp only [hm]
  cases proc_find allproc dir_pnp.node_id.nodeid_pid with
  | none => rfl
  | some p => simp [fd_candidates]

theorem marker_length_thread (H : Nat) (allproc : List proc_t) (check_access : Bool)
    (creds : kauth_cred_t) (dir_pnp : procfsnode_t) (marker : procfs_structure_node_t)
    (hm : marker.psn_node_type = PROCFS_THREADDIR) :
    (marker_entries H allproc check_access creds dir_pnp marker).1.length
      = procfs_thread_node_size allproc dir_pnp := by
  unfold marker_entries procfs_thread_node_size procfs_get_task_thread_count
  simp only [hm]
  cases proc_find allproc dir_pnp.node_id.nodeid_pid with
  | none => rfl
  | some p =>
    by_cases hk : (procfs_get_thread_ids_for_task p.task_threads).1 = 0
    · simp [hk, thread_candidates]
    · simp only [hk, if_false, List.length_nil]
      unfold procfs_get_thread_ids_for_task at hk ⊢
      by_cases h2 : (thread_ids_loop p.task_threads []).1 = 0
      · simp [h2] at hk
      · simp [h2]

/-- The plain directories of the built layout are byname, fd and threads. -/
theorem schema_plain_dir_cases {sz : kernel_sizes} {i : Nat} {sn : procfs_structure_node_t}
    (hsn : (procfs_structure sz).nodes[i]? = some sn)
    (hty : sn.psn_node_type = PROCFS_DIR) :
    (i = 4 ∧ sn.psn_name = "byname") ∨ i = 13 ∨ i = 19 := by
  have hlt := schema_index_lt hsn
  rw [structure_nodes_eq] at hsn
  interval_cases i <;> simp [schema_table] at hsn <;> subst hsn <;> simp at hty <;> simp

/-- A complete listing of a directory of the built layout that ends in an
expansion marker, in the form needed to compare it with the size attribute. -/
theorem marker_dir_entry_count {H : Nat} (hH : 0 < H) (sz : kernel_sizes)
    (allproc : List proc_t) (pmp : procfs_mount_t) (creds : kauth_cred_t)
    (dir_pnp : procfsnode_t) (k : Nat) (statics : List Nat) (m : Nat) (n : Nat)
    (hi : dir_pnp.node_structure_node = some k) (hk : k < 35)
    (hkd : vnode_type_for_structure_node_type (schema_node sz k).psn_node_type = .VDIR)
    (hkn : (schema_table sz)[k]? = some (schema_node sz k))
    (hch : (schema_node sz k).psn_children.filterMap (fun i => (schema_table sz)[i]?)
      = statics.map (schema_node sz) ++ [schema_node sz m])
    (hst : ((statics.map (schema_node sz)).map
      (fun c => is_static_type c.psn_node_type)).all id = true)
    (hm : is_expansion_type (schema_node sz m).psn_node_type = true)
    (hacc : readdir_access_ok allproc (readdir_check_access pmp creds) creds
      dir_pnp.node_id.nodeid_pid = true)
    (hsl : statics.length < 12)
    (hn : n = statics.length
      + (marker_entries H allproc (readdir_check_access pmp creds) creds dir_pnp
          (schema_node sz m)).1.length) :
    ∃ bound : Int, ∀ (resid : Int) (fuel : Nat), bound ≤ resid → 12 ≤ fuel →
      ∃ r, procfs_vnop_readdir H (procfs_structure sz).nodes allproc pmp creds dir_pnp
            { uio_offset := 0, uio_resid := resid } fuel = some r
        ∧ n = r.copied.length ∧ r.numdirent = (r.copied.length : Int) := by
  refine ⟨(((statics.map (schema_node sz)).map (fun c => c.psn_name)
        ++ (marker_entries H allproc (readdir_check_access pmp creds) creds dir_pnp
              (schema_node sz m)).1.map (fun e => e.d_name)).map
          (procfs_calc_dirent_size H)).sum + 1, ?_⟩
  intro resid fuel hroom hfuel
  obtain ⟨r, hr, -, -, -, hlen, hnum⟩ := readdir_schema_marker_dir hH sz allproc pmp creds
    dir_pnp k statics m resid fuel hi hk hkd hkn hch hst hm hacc (by omega) (by omega)
  exact ⟨r, hr, by rw [hn, hlen], hnum⟩

/-- A complete listing of a directory of the built layout all of whose
children are entries that are not expanded. -/
theorem static_dir_entry_count {H : Nat} (hH : 0 < H) (sz : kernel_sizes)
    (allproc : List proc_t) (pmp : procfs_mount_t) (creds : kauth_cred_t)
    (dir_pnp : procfsnode_t) (k : Nat) (statics : List Nat)
    (hi : dir_pnp.node_structure_node = some k) (hk : k < 35)
    (hkd : vnode_type_for_structure_node_type (schema_node sz k).psn_node_type = .VDIR)
    (hkn : (schema_table sz)[k]? = some (schema_node sz k))
    (hch : (schema_node sz k).psn_children.filterMap (fun i => (schema_table sz)[i]?)
      = statics.map (schema_node sz))
    (hst : ((statics.map (schema_node sz)).map
      (fun c => is_static_type c.psn_node_type)).all id = true)
    (hacc : readdir_access_ok allproc (readdir_check_access pmp creds) creds
      dir_pnp.node_id.nodeid_pid = true)
    (hsl : statics.length < 12) :
    ∃ bound : Int, ∀ (resid : Int) (fuel : Nat), bound ≤ resid → 12 ≤ fuel →
      ∃ r, procfs_vnop_readdir H (procfs_structure sz).nodes allproc pmp creds dir_pnp
            { uio_offset := 0, uio_resid := resid } fuel = some r
        ∧ statics.length = r.copied.length ∧ r.numdirent = (r.copied.length : Int) := by
  have hpar := parent_node_id_isSome sz dir_pnp k hi hk
  have hdir : dir_pnp.node_structure_node.bind (fun i => (procfs_structure sz).nodes[i]?)
      = some (schema_node sz k) := by
    rw [hi, structure_nodes_eq]; exact hkn
  have hall := @all_static_of_types H _ dir_pnp (statics.map (schema_node sz)) hst hpar
  refine ⟨total_reclen (static_entries H (procfs_structure sz).nodes dir_pnp
    (statics.map (schema_node sz))), ?_⟩
  intro resid fuel hroom hfuel
  have hr := @readdir_all_static H hH _ allproc pmp creds dir_pnp _ _ resid fuel hdir hkd
    (by rw [structure_nodes_eq]; exact hch) hall hacc hroom (by simp; omega)
  refine ⟨_, hr, ?_, ?_⟩
  · simp only []
    rw [static_entries_length _ hall, List.length_map]
  · simp only []
    rw [static_entries_length _ hall]

/-! ## The node identity cache: one call at a time -/

/-- A host in which allocation succeeds with address `a`, every vnode stamp is
still valid and the creation callback produces vnode `v`. -/
def host_ok (a v : Nat) : find_host :=
  { OSMalloc := fun _ => some a,
    vnode_getwithvid := fun _ _ => 0,
    create_vnode_func := fun _ => (0, some v) }

/-- A host in which allocation succeeds with address `a` and the creation
callback fails with error `e`. -/
def host_create_fails (a : Nat) (e : Int) : find_host :=
  { OSMalloc := fun _ => some a,
    vnode_getwithvid := fun _ _ => 0,
    create_vnode_func := fun _ => (e, none) }

/-- A sample identity: pid 7, no object, schema base id 11. -/
def sample_id : procfsnode_id_t :=
  { nodeid_pid := 7, nodeid_objectid := 0, nodeid_base_id := 11 }

/-- A sample mount with id 3 and no option set. -/
def sample_mount : procfs_mount_t := { pmnt_id := 3, pmnt_flags := 0 }

/-- The node a successful find of `sample_id` on `sample_mount` creates at
address 100 with vnode 5. -/
def sample_node : procfsnode_t :=
  { addr := 100, node_vnode := some 5, node_attaching_vnode := false,
    node_thread_waiting_attach := false, node_mnt_id := 3,
    node_id := sample_id, node_structure_node := some 11 }

/-- A find of `sample_id` on `sample_mount` with a host that cooperates. -/
def sample_find : cache_op :=
  cache_op.find (host_ok 100 5) 3 sample_mount sample_id (some 11)

/-- The table after `sample_find` holds exactly `sample_node`. -/
theorem all_nodes_sample :
    all_nodes (cache_run procfsnode_hash_init [sample_find]) = [sample_node] := by
  decide

/-- C1: starting from the empty node table, after every finite sequence of
`procfsnode_find` and `procfsnode_reclaim` calls executed one at a time
(whatever the identities, the host's answers and the callback outcomes), no
two nodes of the table agree in mount id, owning pid, owning object id and
schema base id; the comparison of `procfsnode_find` accepts a node exactly
when these four fields equal the requested ones, and its scan of the hash
bucket returns a node of the table exactly in that case. -/
theorem procfsnode_identity_unique (ops : List cache_op) :
    (all_nodes (cache_run procfsnode_hash_init ops)).Pairwise
        (fun x y => ¬ (x.node_mnt_id = y.node_mnt_id
          ∧ x.node_id.nodeid_pid = y.node_id.nodeid_pid
          ∧ x.node_id.nodeid_objectid = y.node_id.nodeid_objectid
          ∧ x.node_id.nodeid_base_id = y.node_id.nodeid_base_id))
    ∧ (∀ (mount_id : Int) (node_id : procfsnode_id_t) (n : procfsnode_t),
        node_matches mount_id node_id n = true ↔
          (n.node_mnt_id = mount_id ∧ n.node_id.nodeid_pid = node_id.nodeid_pid
            ∧ n.node_id.nodeid_objectid = node_id.nodeid_objectid
            ∧ n.node_id.nodeid_base_id = node_id.nodeid_base_id))
    ∧ (∀ (mount_id : Int) (node_id : procfsnode_id_t) (n : procfsnode_t),
        n ∈ all_nodes (cache_run procfsnode_hash_init ops) →
        (procfsnode_find_scan (cache_run procfsnode_hash_init ops) mount_id node_id = some n ↔
          (n.node_mnt_id = mount_id ∧ n.node_id.nodeid_pid = node_id.nodeid_pid
            ∧ n.node_id.nodeid_objectid = node_id.nodeid_objectid
            ∧ n.node_id.nodeid_base_id = node_id.nodeid_base_id))) := by
  have hinv := table_inv_run ops _ table_inv_init
  refine ⟨?_, node_matches_iff, ?_⟩
  · refine (all_nodes_pairwise hinv).imp ?_
    intro x y hxy hs
    exact hxy ((same_identity_iff x y).mp hs)
  · intro mount_id node_id n hn
    rw [scan_eq_some_iff hinv mount_id node_id n hn, ← node_matches_iff_key, node_matches_iff]

/-- Witness for C1: after one successful find of identity (7, 0, 11) on mount
3 the table holds the created node, and the scan for that identity returns
it. -/
theorem procfsnode_identity_unique_witness :
    sample_node ∈ all_nodes (cache_run procfsnode_hash_init [sample_find])
    ∧ procfsnode_find_scan (cache_run procfsnode_hash_init [sample_find]) 3 sample_id
        = some sample_node :=
  have hmem : sample_node ∈ all_nodes (cache_run procfsnode_hash_init [sample_find]) := by
    rw [all_nodes_sample]; decide
  ⟨hmem, ((procfsnode_identity_unique _).2.2 3 _ _ hmem).mpr ⟨rfl, rfl, rfl, rfl⟩⟩

/-- C2: `procfsnode_find` run on its own.  (1) If the table holds a node with
the requested mount id and node id that has a vnode attached (no attachment
in progress) and `vnode_getwithvid` accepts its stamp, the call returns that
node and that vnode with error 0, does not call the creation callback and
leaves the table as it was.  (2) If no node of the table carries the requested
identity, the allocation succeeds at a fresh address and the callback succeeds
with vnode `v`, the call invokes the callback once, returns the new node and
`v` with error 0, and the table is the old one with exactly one node added at
the head of the identity's bucket: it carries the requested mount id, node id
and structure node and is attached to `v`.  (3) A second find of the same
identity then returns the same node and vnode without calling the callback,
so the two calls together invoke it once. -/
theorem procfsnode_find_existing_or_create (t : procfsnode_hash_table) (pmp : procfs_mount_t)
    (node_id : procfsnode_id_t) (snode : Option Nat) (hinv : table_inv t) :
    (∀ (host : find_host) (fuel : Nat) (n : procfsnode_t) (v : Nat),
      n ∈ all_nodes t → n.node_mnt_id = pmp.pmnt_id → n.node_id = node_id →
      n.node_vnode = some v → n.node_attaching_vnode = false →
      host.vnode_getwithvid 0 v = 0 →
        (procfsnode_find host (fuel + 1) t pmp node_id snode).returned
            = some { error := 0, pnpp := some n.addr, vnpp := some v }
        ∧ (procfsnode_find host (fuel + 1) t pmp node_id snode).create_calls = 0
        ∧ (procfsnode_find host (fuel + 1) t pmp node_id snode).table = t)
    ∧ (∀ (host : find_host) (fuel a v : Nat),
      (∀ n ∈ all_nodes t, ¬ (n.node_mnt_id = pmp.pmnt_id ∧ n.node_id = node_id)) →
      (∀ n ∈ all_nodes t, n.addr ≠ a) →
      host.OSMalloc 0 = some a →
      host.create_vnode_func
          { fresh_node a pmp.pmnt_id node_id snode with node_attaching_vnode := true }
        = (0, some v) →
        (procfsnode_find host (fuel + 2) t pmp node_id snode).returned
            = some { error := 0, pnpp := some a, vnpp := some v }
        ∧ (procfsnode_find host (fuel + 2) t pmp node_id snode).create_calls = 1
        ∧ (procfsnode_find host (fuel + 2) t pmp node_id snode).table
            = Function.update t (hash_bucket_for pmp.pmnt_id node_id)
                ({ fresh_node a pmp.pmnt_id node_id snode with node_vnode := some v }
                  :: t (hash_bucket_for pmp.pmnt_id node_id))
        ∧ ∀ (host2 : find_host) (fuel2 : Nat), host2.vnode_getwithvid 0 v = 0 →
            (procfsnode_find host2 (fuel2 + 1)
                (procfsnode_find host (fuel + 2) t pmp node_id snode).table
                pmp node_id snode).returned
              = (procfsnode_find host (fuel + 2) t pmp node_id snode).returned
            ∧ (procfsnode_find host (fuel + 2) t pmp node_id snode).create_calls
                + (procfsnode_find host2 (fuel2 + 1)
                    (procfsnode_find host (fuel + 2) t pmp node_id snode).table
                    pmp node_id snode).create_calls = 1) := by
  refine ⟨?_, ?_⟩
  · intro host fuel n v hn hm hid hv hatt hvalid
    have hk : key_of n = (pmp.pmnt_id, node_id) := by simp [key_of, hm, hid]
    exact find_existing hinv host fuel pmp node_id snode n v hn hk hv hatt hvalid
  · intro host fuel a v habs hfresh halloc hcb
    have habs2 : ∀ n ∈ all_nodes t, key_of n ≠ (pmp.pmnt_id, node_id) := by
      intro n hn hk
      apply habs n hn
      have h1 := congrArg Prod.fst hk
      have h2 := congrArg Prod.snd hk
      exact ⟨h1, h2⟩
    have hf := find_absent host fuel pmp node_id snode a habs2 hfresh halloc
    rw [hcb, if_neg (by simp)] at hf
    have hinv2 := table_inv_loop host pmp.pmnt_id node_id snode (fuel + 2) 0 t none hinv
    change table_inv (procfsnode_find host (fuel + 2) t pmp node_id snode).table at hinv2
    rw [hf] at hinv2 ⊢
    dsimp only at hinv2 ⊢
    refine ⟨rfl, rfl, rfl, ?_⟩
    intro host2 fuel2 hvalid
    have hmem : ({ fresh_node a pmp.pmnt_id node_id snode with node_vnode := some v }
        : procfsnode_t) ∈ all_nodes (Function.update t (hash_bucket_for pmp.pmnt_id node_id)
          ({ fresh_node a pmp.pmnt_id node_id snode with node_vnode := some v }
            :: t (hash_bucket_for pmp.pmnt_id node_id))) := by
      rw [mem_all_nodes]
      exact ⟨hash_bucket_for pmp.pmnt_id node_id, by simp⟩
    have h2 := find_existing hinv2 host2 fuel2 pmp node_id snode _ v hmem rfl rfl rfl hvalid
    refine ⟨h2.1, ?_⟩
    rw [h2.2.1]

/-- Witness for C2: the first part on the table that one find has filled, the
second and third part on the empty table. -/
theorem procfsnode_find_existing_or_create_witness :
    ((procfsnode_find (host_ok 200 9) 1 (cache_run procfsnode_hash_init [sample_find])
          sample_mount sample_id (some 11)).returned
        = some { error := 0, pnpp := some 100, vnpp := some 5 }
      ∧ (procfsnode_find (host_ok 200 9) 1 (cache_run procfsnode_hash_init [sample_find])
          sample_mount sample_id (some 11)).create_calls = 0
      ∧ (procfsnode_find (host_ok 200 9) 1 (cache_run procfsnode_hash_init [sample_find])
          sample_mount sample_id (some 11)).table
          = cache_run procfsnode_hash_init [sample_find])
    ∧ (procfsnode_find (host_ok 100 5) 2 procfsnode_hash_init
          sample_mount sample_id (some 11)).create_calls = 1 :=
  ⟨(procfsnode_find_existing_or_create (cache_run procfsnode_hash_init [sample_find])
      sample_mount sample_id (some 11) (table_inv_run _ _ table_inv_init)).1
      (host_ok 200 9) 0 sample_node 5 (by rw [all_nodes_sample]; decide) rfl rfl rfl rfl rfl,
   ((procfsnode_find_existing_or_create procfsnode_hash_init
      sample_mount sample_id (some 11) table_inv_init).2
      (host_ok 100 5) 0 100 5 (by simp [all_nodes, procfsnode_hash_init])
      (by simp [all_nodes, procfsnode_hash_init]) rfl rfl).2.1⟩

/-- C3: if `procfsnode_find` is called for an identity that no node of the
table carries, the allocation succeeds (at a fresh address) and the creation
callback returns a non-zero error `e`, then the call returns `e`, both output
parameters are `NULL`, and the table afterwards equals the table before. -/
theorem procfsnode_find_create_error (t : procfsnode_hash_table) (host : find_host)
    (fuel : Nat) (pmp : procfs_mount_t) (node_id : procfsnode_id_t) (snode : Option Nat)
    (a : Nat) (e : Int) (w : Option Nat)
    (habs : ∀ n ∈ all_nodes t, ¬ (n.node_mnt_id = pmp.pmnt_id ∧ n.node_id = node_id))
    (hfresh : ∀ n ∈ all_nodes t, n.addr ≠ a)
    (halloc : host.OSMalloc 0 = some a)
    (hcb : host.create_vnode_func
        { fresh_node a pmp.pmnt_id node_id snode with node_attaching_vnode := true } = (e, w))
    (he : e ≠ 0) :
    (procfsnode_find host (fuel + 2) t pmp node_id snode).returned
        = some { error := e, pnpp := none, vnpp := none }
    ∧ (procfsnode_find host (fuel + 2) t pmp node_id snode).table = t
    ∧ (procfsnode_find host (fuel + 2) t pmp node_id snode).create_calls = 1 := by
  have habs2 : ∀ n ∈ all_nodes t, key_of n ≠ (pmp.pmnt_id, node_id) := by
    intro n hn hk
    apply habs n hn
    have h1 := congrArg Prod.fst hk
    have h2 := congrArg Prod.snd hk
    exact ⟨h1, h2⟩
  have hf := find_absent host fuel pmp node_id snode a habs2 hfresh halloc
  rw [hcb, if_pos (by simpa using he)] at hf
  rw [hf]
  exact ⟨rfl, rfl, rfl⟩

/-- Witness for C3: on the table holding `sample_node`, a find of another
identity whose callback fails with `ENOMEM`. -/
theorem procfsnode_find_create_error_witness :
    (procfsnode_find (host_create_fails 300 ENOMEM) 2
        (cache_run procfsnode_hash_init [sample_find]) sample_mount
        { nodeid_pid := 8, nodeid_objectid := 0, nodeid_base_id := 11 } (some 11)).returned
        = some { error := ENOMEM, pnpp := none, vnpp := none }
    ∧ (procfsnode_find (host_create_fails 300 ENOMEM) 2
        (cache_run procfsnode_hash_init [sample_find]) sample_mount
        { nodeid_pid := 8, nodeid_objectid := 0, nodeid_base_id := 11 } (some 11)).table
        = cache_run procfsnode_hash_init [sample_find]
    ∧ (procfsnode_find (host_create_fails 300 ENOMEM) 2
        (cache_run procfsnode_hash_init [sample_find]) sample_mount
        { nodeid_pid := 8, nodeid_objectid := 0, nodeid_base_id := 11 } (some 11)).create_calls
        = 1 :=
  procfsnode_find_create_error (cache_run procfsnode_hash_init [sample_find])
    (host_create_fails 300 ENOMEM) 0 sample_mount
    { nodeid_pid := 8, nodeid_objectid := 0, nodeid_base_id := 11 } (some 11)
    300 ENOMEM none (by rw [all_nodes_sample]; decide) (by rw [all_nodes_sample]; decide)
    rfl rfl (by decide)

/-- C4: `procfsnode_reclaim` of the vnode attached to node `n` (the vnode's
file-system link points at `n`, node addresses are distinct) removes exactly
`n` from the table: every bucket keeps its other nodes, unchanged and in
order.  Afterwards no node carries the identity of `n`, the scan of a find for
that identity comes back empty, and such a find (allocation and callback
succeeding) creates a fresh node and invokes the creation callback again. -/
theorem procfsnode_reclaim_removes_node (t : procfsnode_hash_table) (hinv : table_inv t)
    (haddr : ((all_nodes t).map (fun m => m.addr)).Nodup)
    (vnode_fsnode : Nat → Option Nat) (vp : Nat) (n : procfsnode_t)
    (hn : n ∈ all_nodes t) (_hv : n.node_vnode = some vp)
    (hlink : vnode_fsnode vp = some n.addr) :
    all_nodes (procfsnode_reclaim vnode_fsnode t vp) = (all_nodes t).erase n
    ∧ (∀ b, procfsnode_reclaim vnode_fsnode t vp b = (t b).filter (fun m => decide (m ≠ n)))
    ∧ (∀ m ∈ all_nodes (procfsnode_reclaim vnode_fsnode t vp),
        ¬ (m.node_mnt_id = n.node_mnt_id ∧ m.node_id = n.node_id))
    ∧ procfsnode_find_scan (procfsnode_reclaim vnode_fsnode t vp) n.node_mnt_id n.node_id = none
    ∧ ∀ (host : find_host) (fuel a v : Nat) (pmp : procfs_mount_t) (snode : Option Nat),
        pmp.pmnt_id = n.node_mnt_id →
        (∀ m ∈ all_nodes (procfsnode_reclaim vnode_fsnode t vp), m.addr ≠ a) →
        host.OSMalloc 0 = some a →
        host.create_vnode_func
            { fresh_node a pmp.pmnt_id n.node_id snode with node_attaching_vnode := true }
          = (0, some v) →
        (procfsnode_find host (fuel + 2) (procfsnode_reclaim vnode_fsnode t vp)
            pmp n.node_id snode).create_calls = 1
        ∧ (procfsnode_find host (fuel + 2) (procfsnode_reclaim vnode_fsnode t vp)
            pmp n.node_id snode).returned = some { error := 0, pnpp := some a, vnpp := some v }
        ∧ (procfsnode_find host (fuel + 2) (procfsnode_reclaim vnode_fsnode t vp)
            pmp n.node_id snode).table
            = Function.update (procfsnode_reclaim vnode_fsnode t vp)
                (hash_bucket_for pmp.pmnt_id n.node_id)
                ({ fresh_node a pmp.pmnt_id n.node_id snode with node_vnode := some v }
                  :: procfsnode_reclaim vnode_fsnode t vp
                      (hash_bucket_for pmp.pmnt_id n.node_id)) := by
  have hrec : procfsnode_reclaim vnode_fsnode t vp = procfsnode_free_node t n.addr := by
    simp only [procfsnode_reclaim, hlink]
  have her := free_node_erases haddr hn
  have hnd : (all_nodes t).Nodup := List.Nodup.of_map _ haddr
  have habs : ∀ m ∈ all_nodes (procfsnode_reclaim vnode_fsnode t vp),
      key_of m ≠ key_of n := by
    intro m hm hk
    rw [hrec, her.1, hnd.mem_erase_iff] at hm
    obtain ⟨b1, h1⟩ := mem_all_nodes.mp hm.2
    obtain ⟨b2, h2⟩ := mem_all_nodes.mp hn
    have hb : b1 = b2 := by
      rw [← hinv.1 b1 m h1, ← hinv.1 b2 n h2]
      have e1 := congrArg Prod.fst hk
      have e2 := congrArg Prod.snd hk
      simp only [key_of] at e1 e2
      rw [e1, e2]
    subst hb
    exact hm.1 (pairwise_key_inj (hinv.2 b1) h1 h2 hk)
  refine ⟨hrec ▸ her.1, fun b => by rw [hrec]; exact her.2 b, ?_, ?_, ?_⟩
  · intro m hm hc
    apply habs m hm
    simp [key_of, hc.1, hc.2]
  · exact scan_none_of_absent habs
  · intro host fuel a v pmp snode hp hfresh halloc hcb
    have habs2 : ∀ m ∈ all_nodes (procfsnode_reclaim vnode_fsnode t vp),
        key_of m ≠ (pmp.pmnt_id, n.node_id) := by
      intro m hm
      rw [hp]
      exact habs m hm
    have hf := find_absent host fuel pmp n.node_id snode a habs2 hfresh halloc
    rw [hcb, if_neg (by simp)] at hf
    rw [hf]
    dsimp only
    exact ⟨rfl, rfl, rfl⟩

/-- Witness for C4: reclaim of vnode 5, attached to `sample_node`, on the
table that holds just that node. -/
theorem procfsnode_reclaim_removes_node_witness :
    all_nodes (procfsnode_reclaim (fun _ => some 100)
        (cache_run procfsnode_hash_init [sample_find]) 5)
      = (all_nodes (cache_run procfsnode_hash_init [sample_find])).erase sample_node
    ∧ procfsnode_find_scan (procfsnode_reclaim (fun _ => some 100)
        (cache_run procfsnode_hash_init [sample_find]) 5) 3 sample_id = none :=
  have h := procfsnode_reclaim_removes_node (cache_run procfsnode_hash_init [sample_find])
    (table_inv_run _ _ table_inv_init) (by rw [all_nodes_sample]; decide)
    (fun _ => some 100) 5 sample_node (by rw [all_nodes_sample]; decide) rfl rfl
  ⟨h.1, h.2.2.2.1⟩

/-! ## Directory listing -/

/-- C6, evaluated where the code departs from it: the root directory with
header size 8, processes 1 and 2, superuser, start offset 12 (the cumulative
offset of "..") and room for 1000 bytes.  The full sequence is ".", "..",
"curproc", "byname", "1", "2" with sizes 12, 12, 16, 16, 12, 12, so the claim
asks for "..", "curproc", "byname", "1", "2" and offset 80.  The code emits
only "2" and returns offset 24: static children that are skipped do not
advance `nextpos`. -/
theorem readdir_resume_skips_static_offsets :
    (procfs_vnop_readdir 8 demo_nodes demo_allproc demo_mount demo_superuser demo_root
        { uio_offset := 0, uio_resid := 1000 } 100).map
          (fun r => r.copied.map (fun d => (d.d_name, d.d_reclen)))
      = some [(".", 12), ("..", 12), ("curproc", 16), ("byname", 16), ("1", 12), ("2", 12)]
    ∧ (procfs_vnop_readdir 8 demo_nodes demo_allproc demo_mount demo_superuser demo_root
        { uio_offset := 12, uio_resid := 1000 } 100).map
          (fun r => (r.copied.map (fun d => d.d_name), r.uio_offset))
      = some (["2"], 24)
    ∧ (procfs_vnop_readdir 8 demo_nodes demo_allproc demo_mount demo_superuser demo_root
        { uio_offset := 0, uio_resid := 1000 } 100).map
          (fun r => ((listing_from_offset r.copied 0 12 1000).1.map (fun d => d.d_name),
                     (listing_from_offset r.copied 0 12 1000).2))
      = some (["..", "curproc", "byname", "1", "2"], 80) := by
  decide

/-- C7, evaluated where the code departs from it: the directory of process 2
read by the superuser (header size 8) in calls of 24 bytes.  A single call from
offset 0 with room for 1000 bytes yields the eleven entries; the first short
call yields "." and ".." and returns offset 24; the call started there emits
nothing, returns offset 0 and reports end of directory, so the chunked read
yields only "." and "..". -/
theorem readdir_chunked_loses_entries :
    (procfs_vnop_readdir 8 demo_nodes demo_allproc demo_mount demo_superuser (demo_dir 2 0 10)
        { uio_offset := 0, uio_resid := 1000 } 100).map
          (fun r => r.copied.map (fun d => d.d_name))
      = some [".", "..", "fd", "threads", "pid", "ppid", "pgid", "sid", "tty", "info",
              "taskinfo"]
    ∧ (procfs_vnop_readdir 8 demo_nodes demo_allproc demo_mount demo_superuser (demo_dir 2 0 10)
        { uio_offset := 0, uio_resid := 24 } 100).map
          (fun r => (r.copied.map (fun d => d.d_name), r.uio_offset, r.eofflag))
      = some ([".", ".."], 24, false)
    ∧ (procfs_vnop_readdir 8 demo_nodes demo_allproc demo_mount demo_superuser (demo_dir 2 0 10)
        { uio_offset := 24, uio_resid := 24 } 100).map
          (fun r => (r.copied.map (fun d => d.d_name), r.uio_offset, r.eofflag))
      = some ([], 0, true)
    ∧ (readdir_in_chunks 8 demo_nodes demo_allproc demo_mount demo_superuser (demo_dir 2 0 10)
        24 100 10 0).map (fun d => d.d_name) = [".", ".."] := by
  decide

/-- C9: for every live process P that the caller may access (the caller is the
superuser, or the mount has access checks turned off, or the credential check
on P succeeds), a listing of the process directory of P from offset 0 into a
buffer with room for all entries emits exactly the eleven entries ".", "..",
"fd", "threads", "pid", "ppid", "pgid", "sid", "tty", "info", "taskinfo" in
this order (the schema children of the process directory node) and reports
end of directory, with error 0. -/
theorem readdir_process_directory (H : Nat) (hH : 0 < H) (sz : kernel_sizes)
    (allproc : List proc_t) (pmp : procfs_mount_t) (creds : kauth_cred_t)
    (dir_pnp : procfsnode_t) (i : Nat) (sn : procfs_structure_node_t) (p : proc_t)
    (resid : Int) (fuel : Nat)
    (hi : dir_pnp.node_structure_node = some i)
    (hsn : (procfs_structure sz).nodes[i]? = some sn)
    (hty : sn.psn_node_type = PROCFS_PROCDIR)
    (hlive : proc_find allproc dir_pnp.node_id.nodeid_pid = some p)
    (haccess : suser creds = 0 ∨ procfs_should_access_check pmp = false
      ∨ procfs_check_can_access_process creds p = 0)
    (hroom : (process_directory_names.map (procfs_calc_dirent_size H)).sum ≤ resid)
    (hfuel : 12 ≤ fuel) :
    ∃ r, procfs_vnop_readdir H (procfs_structure sz).nodes allproc pmp creds dir_pnp
          { uio_offset := 0, uio_resid := resid } fuel = some r
      ∧ r.copied.map (fun d => d.d_name) = process_directory_names
      ∧ r.eofflag = true ∧ r.error = 0 ∧ r.numdirent = 11 := by
  have h10 := schema_procdir_index hsn hty
  subst h10
  have hpar := parent_node_id_isSome sz dir_pnp 10 hi (by decide)
  have hacc : readdir_access_ok allproc (readdir_check_access pmp creds) creds
      dir_pnp.node_id.nodeid_pid = true := by
    apply readdir_access_ok_of
    rcases haccess with h | h | h
    · exact Or.inl h
    · exact Or.inr (Or.inl h)
    · exact Or.inr (Or.inr (Or.inr ⟨p, hlive, h⟩))
  have hdir : dir_pnp.node_structure_node.bind (fun i => (procfs_structure sz).nodes[i]?)
      = some (schema_node sz 10) := by
    rw [hi, structure_nodes_eq]; rfl
  have hch : (schema_node sz 10).psn_children.filterMap
      (fun i => (procfs_structure sz).nodes[i]?)
      = [11, 12, 13, 19, 25, 26, 27, 28, 29, 30, 31].map (schema_node sz) := by
    rw [structure_nodes_eq]; rfl
  have hall := @all_static_of_types H _ dir_pnp
    ([11, 12, 13, 19, 25, 26, 27, 28, 29, 30, 31].map (schema_node sz)) (by rfl) hpar
  have hnames : ([11, 12, 13, 19, 25, 26, 27, 28, 29, 30, 31].map (schema_node sz)).map
      (fun c => c.psn_name) = process_directory_names := by rfl
  have hr := @readdir_all_static H hH _ allproc pmp creds dir_pnp _ _ resid fuel hdir (by rfl)
    hch hall hacc
    (by rw [static_entries_total _ hall, hnames]; exact hroom) (by simp; omega)
  refine ⟨_, hr, ?_, rfl, rfl, ?_⟩
  · simp only []
    rw [static_entries_names _ hall, hnames]
  · simp

/-- Witness for C9: user 501 lists the directory of its own process 2 on a
mount with access checks, with header size 8 and room for 1000 bytes. -/
theorem readdir_process_directory_witness :
    ∃ r, procfs_vnop_readdir 8 (procfs_structure demo_sizes).nodes demo_allproc demo_mount
          demo_user (demo_dir 2 0 10) { uio_offset := 0, uio_resid := 1000 } 12 = some r
      ∧ r.copied.map (fun d => d.d_name) = process_directory_names
      ∧ r.eofflag = true ∧ r.error = 0 ∧ r.numdirent = 11 :=
  readdir_process_directory 8 (by decide) demo_sizes demo_allproc demo_mount demo_user
    (demo_dir 2 0 10) 10 (schema_node demo_sizes 10) (demo_proc 2 "bash" 501) 1000 12
    rfl (by decide) rfl (by decide) (Or.inr (Or.inr (by decide))) (by decide) (by decide)

/-- A process of user 501 whose single thread has the id 2^63. -/
def demo_proc_big_thread : proc_t :=
  { p_pid := 7, p_comm := "big", p_uid := 501, p_ruid := 501, p_gid := 501, p_rgid := 501,
    fd_ofiles := [], task_threads := [.info 0 9223372036854775808] }

/-- C8 fails as stated, at two inputs (header size 8, room for 1000 bytes, mount
with access checks).  (1) User 502 lists the threads directory of process 2,
which belongs to user 501 and has the threads 100 and 101: the static children
"." and ".." precede the marker, yet nothing at all is emitted.  (2) User 501
lists the threads directory of its process 7, whose thread has the id 2^63: the
entry is named "-9223372036854775808", not by the decimal id. -/
theorem readdir_marker_listing_counterexample :
    (procfs_vnop_readdir 8 demo_nodes demo_allproc demo_mount demo_other_user (demo_dir 2 0 19)
        { uio_offset := 0, uio_resid := 1000 } 100).map
          (fun r => r.copied.map (fun d => d.d_name)) = some []
    ∧ threads_listing_names demo_allproc 2 = [".", "..", "100", "101"]
    ∧ (procfs_vnop_readdir 8 demo_nodes [demo_proc_big_thread] demo_mount demo_user
        (demo_dir 7 0 19) { uio_offset := 0, uio_resid := 1000 } 100).map
          (fun r => r.copied.map (fun d => d.d_name))
        = some [".", "..", "-9223372036854775808"]
    ∧ threads_listing_names [demo_proc_big_thread] 7 = [".", "..", "9223372036854775808"] := by
  decide

/-- C8 as amended: in the layout built by `procfs_structure_init`, for a caller
that passes the guard of the listing (superuser, or access checks off, or a
directory without owning process such as root and byname, or an owning
process that is live and passes the credential check), a listing from offset
0 into a buffer larger than all entries together emits the static children
before the expansion marker under their schema names, then one entry per
element of the registry sequence in registry order, and nothing else.  Root:
".", "..", "curproc", "byname", then the decimal pid of every process visible to
the caller.  Byname (pids unique in the registry): ".", "..", then pid, space
and command name of every visible process.  Threads: ".", "..", then the
decimal thread ids of the owning process, for ids below 2^63.  Fd: ".", "..",
then the decimal numbers of the open, non-reserved descriptors of the owning
process.  A process that is not visible contributes no entry.  The error is 0
for root and byname, and for threads and fd when the owning process is live
(and its thread ids are obtained). -/
theorem readdir_marker_directories (H : Nat) (hH : 0 < H) (sz : kernel_sizes)
    (allproc : List proc_t) (pmp : procfs_mount_t) (creds : kauth_cred_t)
    (dir_pnp : procfsnode_t) (i : Nat) (sn : procfs_structure_node_t) (resid : Int)
    (fuel : Nat)
    (hi : dir_pnp.node_structure_node = some i)
    (hsn : (procfs_structure sz).nodes[i]? = some sn)
    (hguard : suser creds = 0 ∨ procfs_should_access_check pmp = false
      ∨ dir_pnp.node_id.nodeid_pid = PRNODE_NO_PID
      ∨ ∃ p, proc_find allproc dir_pnp.node_id.nodeid_pid = some p
          ∧ procfs_check_can_access_process creds p = 0)
    (hfuel : 5 ≤ fuel) :
    (sn.psn_node_type = PROCFS_ROOT →
      ((root_listing_names allproc pmp creds).map (procfs_calc_dirent_size H)).sum < resid →
      ∃ r, procfs_vnop_readdir H (procfs_structure sz).nodes allproc pmp creds dir_pnp
            { uio_offset := 0, uio_resid := resid } fuel = some r
        ∧ r.copied.map (fun d => d.d_name) = root_listing_names allproc pmp creds
        ∧ r.error = 0)
    ∧ (sn.psn_node_type = PROCFS_DIR → sn.psn_name = "byname" →
      (allproc.map (fun p => p.p_pid)).Nodup →
      ((byname_listing_names allproc pmp creds).map (procfs_calc_dirent_size H)).sum < resid →
      ∃ r, procfs_vnop_readdir H (procfs_structure sz).nodes allproc pmp creds dir_pnp
            { uio_offset := 0, uio_resid := resid } fuel = some r
        ∧ r.copied.map (fun d => d.d_name) = byname_listing_names allproc pmp creds
        ∧ r.error = 0)
    ∧ (sn.psn_node_type = PROCFS_DIR → sn.psn_name = "threads" →
      (∀ t ∈ thread_ids_of allproc dir_pnp.node_id.nodeid_pid, t < 9223372036854775808) →
      ((threads_listing_names allproc dir_pnp.node_id.nodeid_pid).map
        (procfs_calc_dirent_size H)).sum < resid →
      ∃ r, procfs_vnop_readdir H (procfs_structure sz).nodes allproc pmp creds dir_pnp
            { uio_offset := 0, uio_resid := resid } fuel = some r
        ∧ r.copied.map (fun d => d.d_name)
            = threads_listing_names allproc dir_pnp.node_id.nodeid_pid
        ∧ (∀ p, proc_find allproc dir_pnp.node_id.nodeid_pid = some p →
            (procfs_get_thread_ids_for_task p.task_threads).1 = 0 → r.error = 0))
    ∧ (sn.psn_node_type = PROCFS_DIR → sn.psn_name = "fd" →
      ((fd_listing_names allproc dir_pnp.node_id.nodeid_pid).map
        (procfs_calc_dirent_size H)).sum < resid →
      ∃ r, procfs_vnop_readdir H (procfs_structure sz).nodes allproc pmp creds dir_pnp
            { uio_offset := 0, uio_resid := resid } fuel = some r
        ∧ r.copied.map (fun d => d.d_name)
            = fd_listing_names allproc dir_pnp.node_id.nodeid_pid
        ∧ (∀ p, proc_find allproc dir_pnp.node_id.nodeid_pid = some p → r.error = 0)) := by
  have hacc := @readdir_access_ok_of allproc pmp creds dir_pnp.node_id.nodeid_pid hguard
  refine ⟨?_, ?_, ?_, ?_⟩
  · intro hty hroom
    have h0 := schema_root_index hsn hty
    subst h0
    have hn := marker_entries_procdir H allproc pmp creds dir_pnp (schema_node sz 10) rfl
    obtain ⟨r, hr, hnames, herr, -⟩ := readdir_schema_marker_dir hH sz allproc pmp creds
      dir_pnp 0 [1, 2, 3, 4] 10 resid fuel hi (by decide) rfl rfl rfl rfl rfl hacc
      (by rw [hn.1]; exact hroom) (by simp; omega)
    exact ⟨r, hr, by rw [hnames, hn.1]; rfl, by rw [herr, hn.2]⟩
  · intro hty hname hnd hroom
    have h0 := (schema_plain_dir_index hsn hty).1 hname
    subst h0
    have hn := marker_entries_procname H allproc pmp creds dir_pnp (schema_node sz 7) hnd rfl
    obtain ⟨r, hr, hnames, herr, -⟩ := readdir_schema_marker_dir hH sz allproc pmp creds
      dir_pnp 4 [5, 6] 7 resid fuel hi (by decide) rfl rfl rfl rfl rfl hacc
      (by rw [hn.1]; exact hroom) (by simp; omega)
    exact ⟨r, hr, by rw [hnames, hn.1]; rfl, by rw [herr, hn.2]⟩
  · intro hty hname hlt hroom
    have h0 := (schema_plain_dir_index hsn hty).2.2 hname
    subst h0
    have hn := marker_entries_thread H allproc (readdir_check_access pmp creds) creds dir_pnp
      (schema_node sz 22) rfl hlt
    obtain ⟨r, hr, hnames, herr, -⟩ := readdir_schema_marker_dir hH sz allproc pmp creds
      dir_pnp 19 [20, 21] 22 resid fuel hi (by decide) rfl rfl rfl rfl rfl hacc
      (by rw [hn.1]; exact hroom) (by simp; omega)
    exact ⟨r, hr, by rw [hnames, hn.1]; rfl, fun p hp hok => by rw [herr, hn.2 p hp hok]⟩
  · intro hty hname hroom
    have h0 := (schema_plain_dir_index hsn hty).2.1 hname
    subst h0
    have hn := marker_entries_fd H allproc (readdir_check_access pmp creds) creds dir_pnp
      (schema_node sz 16) rfl
    obtain ⟨r, hr, hnames, herr, -⟩ := readdir_schema_marker_dir hH sz allproc pmp creds
      dir_pnp 13 [14, 15] 16 resid fuel hi (by decide) rfl rfl rfl rfl rfl hacc
      (by rw [hn.1]; exact hroom) (by simp; omega)
    exact ⟨r, hr, by rw [hnames, hn.1]; rfl, fun p hp => by rw [herr, hn.2 p hp]⟩

/-- Witness for C8 as amended: user 501 on a mount with access checks lists
the root, byname, and the threads and fd directories of its process 2 (header
size 8, room for 1000 bytes). -/
theorem readdir_marker_directories_witness :
    (∃ r, procfs_vnop_readdir 8 (procfs_structure demo_sizes).nodes demo_allproc demo_mount
          demo_user demo_root { uio_offset := 0, uio_resid := 1000 } 5 = some r
        ∧ r.copied.map (fun d => d.d_name) = root_listing_names demo_allproc demo_mount demo_user
        ∧ r.error = 0)
    ∧ (∃ r, procfs_vnop_readdir 8 (procfs_structure demo_sizes).nodes demo_allproc demo_mount
          demo_user (demo_dir PRNODE_NO_PID 0 4) { uio_offset := 0, uio_resid := 1000 } 5
          = some r
        ∧ r.copied.map (fun d => d.d_name)
            = byname_listing_names demo_allproc demo_mount demo_user
        ∧ r.error = 0)
    ∧ (∃ r, procfs_vnop_readdir 8 (procfs_structure demo_sizes).nodes demo_allproc demo_mount
          demo_user (demo_dir 2 0 19) { uio_offset := 0, uio_resid := 1000 } 5 = some r
        ∧ r.copied.map (fun d => d.d_name) = threads_listing_names demo_allproc 2
        ∧ (∀ p, proc_find demo_allproc 2 = some p →
            (procfs_get_thread_ids_for_task p.task_threads).1 = 0 → r.error = 0))
    ∧ (∃ r, procfs_vnop_readdir 8 (procfs_structure demo_sizes).nodes demo_allproc demo_mount
          demo_user (demo_dir 2 0 13) { uio_offset := 0, uio_resid := 1000 } 5 = some r
        ∧ r.copied.map (fun d => d.d_name) = fd_listing_names demo_allproc 2
        ∧ (∀ p, proc_find demo_allproc 2 = some p → r.error = 0)) :=
  ⟨(readdir_marker_directories 8 (by decide) demo_sizes demo_allproc demo_mount demo_user
      demo_root 0 (schema_node demo_sizes 0) 1000 5 rfl (by decide)
      (Or.inr (Or.inr (Or.inl rfl))) (by decide)).1 rfl (by decide),
   (readdir_marker_directories 8 (by decide) demo_sizes demo_allproc demo_mount demo_user
      (demo_dir PRNODE_NO_PID 0 4) 4 (schema_node demo_sizes 4) 1000 5 rfl (by decide)
      (Or.inr (Or.inr (Or.inl rfl))) (by decide)).2.1 rfl rfl (by decide) (by decide),
   (readdir_marker_directories 8 (by decide) demo_sizes demo_allproc demo_mount demo_user
      (demo_dir 2 0 19) 19 (schema_node demo_sizes 19) 1000 5 rfl (by decide)
      (Or.inr (Or.inr (Or.inr ⟨demo_proc 2 "bash" 501, by decide, by decide⟩)))
      (by decide)).2.2.1 rfl rfl (by decide) (by decide),
   (readdir_marker_directories 8 (by decide) demo_sizes demo_allproc demo_mount demo_user
      (demo_dir 2 0 13) 13 (schema_node demo_sizes 13) 1000 5 rfl (by decide)
      (Or.inr (Or.inr (Or.inr ⟨demo_proc 2 "bash" 501, by decide, by decide⟩)))
      (by decide)).2.2.2 rfl rfl (by decide)⟩

/-! ## Node sizes -/

/-- C10 fails as stated, at two inputs (header size 8, processes 1 of the
superuser and 2 of user 501, room for 1000 bytes).  (1) Mount with access
checks turned off, user 501, root directory: the listing emits six entries
(".", "..", "curproc", "byname", "1", "2") but the size attribute is 5, because
`procfs_get_process_count` filters by credential whatever the mount mode.
(2) Mount with access checks, user 502, directory of process 2: the listing
emits nothing, the size attribute is 11. -/
theorem node_size_attr_counterexample :
    (procfs_vnop_readdir 8 demo_nodes demo_allproc demo_mount_open demo_user demo_root
        { uio_offset := 0, uio_resid := 1000 } 100).map (fun r => r.copied.length) = some 6
    ∧ procfs_get_node_size_attr demo_nodes demo_allproc demo_root demo_user = some 5
    ∧ (procfs_vnop_readdir 8 demo_nodes demo_allproc demo_mount demo_other_user
        (demo_dir 2 0 10) { uio_offset := 0, uio_resid := 1000 } 100).map
          (fun r => r.copied.length) = some 0
    ∧ procfs_get_node_size_attr demo_nodes demo_allproc (demo_dir 2 0 10) demo_other_user
        = some 11 := by
  decide

/-- C10 as amended: for every directory node of the built layout (root, byname,
a process directory, its fd and threads directories, a descriptor directory, a
thread directory), every registry and every caller that passes the guard of
the listing (superuser, or access checks off, or no owning process, or the
owning process is live and passes the credential check) and, for root and
byname, is the superuser or is on a mount with access checks on: the size
`procfs_get_node_size_attr` computes equals the number of entries a listing
from offset 0 emits, for every buffer from some size on, "." and ".."
included. -/
theorem node_size_attr_counts_entries (H : Nat) (hH : 0 < H) (sz : kernel_sizes)
    (allproc : List proc_t) (pmp : procfs_mount_t) (creds : kauth_cred_t)
    (dir_pnp : procfsnode_t) (i : Nat) (sn : procfs_structure_node_t)
    (hi : dir_pnp.node_structure_node = some i)
    (hsn : (procfs_structure sz).nodes[i]? = some sn)
    (hkind : sn.psn_node_type = PROCFS_ROOT ∨ sn.psn_node_type = PROCFS_DIR
      ∨ sn.psn_node_type = PROCFS_PROCDIR ∨ sn.psn_node_type = PROCFS_FD_DIR
      ∨ sn.psn_node_type = PROCFS_THREADDIR)
    (hguard : suser creds = 0 ∨ procfs_should_access_check pmp = false
      ∨ dir_pnp.node_id.nodeid_pid = PRNODE_NO_PID
      ∨ ∃ p, proc_find allproc dir_pnp.node_id.nodeid_pid = some p
          ∧ procfs_check_can_access_process creds p = 0)
    (hexp : sn.psn_node_type = PROCFS_ROOT ∨ sn.psn_name = "byname" →
      suser creds = 0 ∨ procfs_should_access_check pmp = true) :
    ∃ bound : Int, ∀ (resid : Int) (fuel : Nat), bound ≤ resid → 12 ≤ fuel →
      ∃ r, procfs_vnop_readdir H (procfs_structure sz).nodes allproc pmp creds dir_pnp
            { uio_offset := 0, uio_resid := resid } fuel = some r
        ∧ procfs_get_node_size_attr (procfs_structure sz).nodes allproc dir_pnp creds
            = some r.copied.length
        ∧ r.numdirent = (r.copied.length : Int) := by
  have hacc := @readdir_access_ok_of allproc pmp creds dir_pnp.node_id.nodeid_pid hguard
  rcases hkind with hty | hty | hty | hty | hty
  · have h0 := schema_root_index hsn hty
    subst h0
    have hlen := marker_length_process H allproc pmp creds dir_pnp (schema_node sz 10)
      (Or.inl rfl) (hexp (Or.inl hty))
    obtain ⟨bound, hb⟩ := marker_dir_entry_count hH sz allproc pmp creds dir_pnp 0
      [1, 2, 3, 4] 10 (4 + procfs_get_process_count allproc creds) hi (by decide) rfl rfl rfl
      rfl rfl hacc (by decide) (by rw [hlen]; rfl)
    refine ⟨bound, fun resid fuel h1 h2 => ?_⟩
    obtain ⟨r, hr, hn, hnum⟩ := hb resid fuel h1 h2
    exact ⟨r, hr, by rw [size_attr_root sz allproc dir_pnp creds hi, hn], hnum⟩
  · rcases schema_plain_dir_cases hsn hty with ⟨h0, hname⟩ | h0 | h0
    · subst h0
      have hlen := marker_length_process H allproc pmp creds dir_pnp (schema_node sz 7)
        (Or.inr rfl) (hexp (Or.inr hname))
      obtain ⟨bound, hb⟩ := marker_dir_entry_count hH sz allproc pmp creds dir_pnp 4
        [5, 6] 7 (2 + procfs_get_process_count allproc creds) hi (by decide) rfl rfl rfl
        rfl rfl hacc (by decide) (by rw [hlen]; rfl)
      refine ⟨bound, fun resid fuel h1 h2 => ?_⟩
      obtain ⟨r, hr, hn, hnum⟩ := hb resid fuel h1 h2
      exact ⟨r, hr, by rw [size_attr_byname sz allproc dir_pnp creds hi, hn], hnum⟩
    · subst h0
      have hlen := marker_length_fd H allproc (readdir_check_access pmp creds) creds dir_pnp
        (schema_node sz 16) rfl
      obtain ⟨bound, hb⟩ := marker_dir_entry_count hH sz allproc pmp creds dir_pnp 13
        [14, 15] 16 (2 + procfs_fd_node_size allproc dir_pnp) hi (by decide) rfl rfl rfl
        rfl rfl hacc (by decide) (by rw [hlen]; rfl)
      refine ⟨bound, fun resid fuel h1 h2 => ?_⟩
      obtain ⟨r, hr, hn, hnum⟩ := hb resid fuel h1 h2
      exact ⟨r, hr, by rw [size_attr_fd sz allproc dir_pnp creds hi, hn], hnum⟩
    · subst h0
      have hlen := marker_length_thread H allproc (readdir_check_access pmp creds) creds
        dir_pnp (schema_node sz 22) rfl
      obtain ⟨bound, hb⟩ := marker_dir_entry_count hH sz allproc pmp creds dir_pnp 19
        [20, 21] 22 (2 + procfs_thread_node_size allproc dir_pnp) hi (by decide) rfl rfl rfl
        rfl rfl hacc (by decide) (by rw [hlen]; rfl)
      refine ⟨bound, fun resid fuel h1 h2 => ?_⟩
      obtain ⟨r, hr, hn, hnum⟩ := hb resid fuel h1 h2
      exact ⟨r, hr, by rw [size_attr_threads sz allproc dir_pnp creds hi, hn], hnum⟩
  · have h0 := schema_procdir_index hsn hty
    subst h0
    obtain ⟨bound, hb⟩ := static_dir_entry_count hH sz allproc pmp creds dir_pnp 10
      [11, 12, 13, 19, 25, 26, 27, 28, 29, 30, 31] hi (by decide) rfl rfl rfl rfl hacc
      (by decide)
    refine ⟨bound, fun resid fuel h1 h2 => ?_⟩
    obtain ⟨r, hr, hn, hnum⟩ := hb resid fuel h1 h2
    exact ⟨r, hr, by rw [size_attr_procdir sz allproc dir_pnp creds hi, ← hn]; rfl, hnum⟩
  · have h0 := schema_fd_dir_index hsn hty
    subst h0
    obtain ⟨bound, hb⟩ := static_dir_entry_count hH sz allproc pmp creds dir_pnp 16
      [17, 18, 33, 34] hi (by decide) rfl rfl rfl rfl hacc (by decide)
    refine ⟨bound, fun resid fuel h1 h2 => ?_⟩
    obtain ⟨r, hr, hn, hnum⟩ := hb resid fuel h1 h2
    exact ⟨r, hr, by rw [size_attr_fd_dir sz allproc dir_pnp creds hi, ← hn]; rfl, hnum⟩
  · have h0 := schema_threaddir_index hsn hty
    subst h0
    obtain ⟨bound, hb⟩ := static_dir_entry_count hH sz allproc pmp creds dir_pnp 22
      [23, 24, 32] hi (by decide) rfl rfl rfl rfl hacc (by decide)
    refine ⟨bound, fun resid fuel h1 h2 => ?_⟩
    obtain ⟨r, hr, hn, hnum⟩ := hb resid fuel h1 h2
    exact ⟨r, hr, by rw [size_attr_threaddir sz allproc dir_pnp creds hi, ← hn]; rfl, hnum⟩

/-- Witness for C10 as amended: user 501 on a mount with access checks and the
threads directory of its process 2. -/
theorem node_size_attr_counts_entries_witness :
    ∃ bound : Int, ∀ (resid : Int) (fuel : Nat), bound ≤ resid → 12 ≤ fuel →
      ∃ r, procfs_vnop_readdir 8 (procfs_structure demo_sizes).nodes demo_allproc demo_mount
            demo_user (demo_dir 2 0 19) { uio_offset := 0, uio_resid := resid } fuel = some r
        ∧ procfs_get_node_size_attr (procfs_structure demo_sizes).nodes demo_allproc
            (demo_dir 2 0 19) demo_user = some r.copied.length
        ∧ r.numdirent = (r.copied.length : Int) :=
  node_size_attr_counts_entries 8 (by decide) demo_sizes demo_allproc demo_mount demo_user
    (demo_dir 2 0 19) 19 (schema_node demo_sizes 19) rfl (by decide)
    (Or.inr (Or.inl rfl))
    (Or.inr (Or.inr (Or.inr ⟨demo_proc 2 "bash" 501, by decide, by decide⟩)))
    (fun h => Or.inr (by decide))

/-! ## Lemmas on `procfs_atoi` and decimal names -/

/-- A decimal digit. -/
def is_digit (c : Char) : Bool := decide ('0' ≤ c ∧ c ≤ '9')

/-- The maximal leading run of decimal digits of a name. -/
def leading_digits (name : String) : List Char := name.data.takeWhile is_digit

/-- The number that a run of decimal digits denotes, on top of `v`. -/
def digits_value_from (v : Nat) (ds : List Char) : Nat :=
  ds.foldl (fun v c => v * 10 + (c.toNat - 48)) v

/-- The number that a run of decimal digits denotes. -/
def digits_value (ds : List Char) : Nat := digits_value_from 0 ds

theorem wrap_int32_of_range {x : Int} (h0 : -2147483648 ≤ x) (h1 : x < 2147483648) :
    wrap_int32 x = x := by
  unfold wrap_int32; omega

theorem wrap_int32_step (a b : Int) :
    wrap_int32 (wrap_int32 a * 10 + b) = wrap_int32 (a * 10 + b) := by
  unfold wrap_int32; omega

theorem is_digit_toNat {c : Char} (h : is_digit c = true) : 48 ≤ c.toNat ∧ c.toNat ≤ 57 := by
  simp only [is_digit, decide_eq_true_eq] at h
  obtain ⟨h1, h2⟩ := h
  have h1' : ('0' : Char).val ≤ c.val := h1
  have h2' : c.val ≤ ('9' : Char).val := h2
  rw [UInt32.le_def] at h1' h2'
  constructor
  · exact h1'
  · exact h2'

theorem procfs_atoi_loop_eq (cs : List Char) (v : Nat) (n : Nat) :
    procfs_atoi_loop cs (wrap_int32 v) n
      = (wrap_int32 (digits_value_from v (cs.takeWhile is_digit)),
         n + (cs.takeWhile is_digit).length) := by
  induction cs generalizing v n with
  | nil => simp [procfs_atoi_loop, digits_value_from]
  | cons c rest ih =>
    unfold procfs_atoi_loop
    by_cases hc : is_digit c = true
    · have hc' : '0' ≤ c ∧ c ≤ '9' := by simpa [is_digit] using hc
      have hr := is_digit_toNat hc
      rw [if_pos hc', List.takeWhile_cons_of_pos hc]
      have h1 : wrap_int32 (wrap_int32 (v : Int) * 10 + (c.toNat : Int) - 48)
          = wrap_int32 (((v * 10 + (c.toNat - 48) : Nat) : Int)) := by
        unfold wrap_int32; omega
      rw [h1, ih]
      simp only [digits_value_from, List.foldl_cons, List.length_cons]
      rw [Nat.add_assoc, Nat.add_comm 1]
    · have hc' : ¬ ('0' ≤ c ∧ c ≤ '9') := by simpa [is_digit] using hc
      rw [if_neg hc', List.takeWhile_cons_of_neg hc]
      simp [digits_value_from]

theorem procfs_atoi_eq (name : String) :
    procfs_atoi name
      = (if leading_digits name = [] then -1 else wrap_int32 (digits_value (leading_digits name)),
         (leading_digits name).length) := by
  unfold procfs_atoi
  have h := procfs_atoi_loop_eq name.data 0 0
  have h0 : wrap_int32 ((0 : Nat) : Int) = 0 := by decide
  rw [h0] at h
  rw [h]
  simp only [Nat.zero_add, List.length_eq_zero]
  rfl

theorem digitChar_digit {n : Nat} (h : n < 10) :
    is_digit (Nat.digitChar n) = true ∧ (Nat.digitChar n).toNat - 48 = n := by
  interval_cases n <;> decide

theorem digits_value_from_snoc (v : Nat) (L : List Char) (d : Char) :
    digits_value_from v (L ++ [d]) = digits_value_from v L * 10 + (d.toNat - 48) := by
  simp [digits_value_from, List.foldl_append]

theorem toDigitsCore_spec (fuel : Nat) : ∀ (n : Nat) (ds : List Char), n < fuel →
    ∃ L, Nat.toDigitsCore 10 fuel n ds = L ++ ds ∧ L ≠ []
      ∧ (∀ c ∈ L, is_digit c = true) ∧ digits_value_from 0 L = n := by
  induction fuel with
  | zero => intro n ds h; omega
  | succ fuel ih =>
    intro n ds h
    have hd := digitChar_digit (Nat.mod_lt n (by decide : 0 < 10))
    unfold Nat.toDigitsCore
    by_cases h0 : n / 10 = 0
    · simp only [h0, if_true]
      refine ⟨[Nat.digitChar (n % 10)], rfl, by simp, ?_, ?_⟩
      · intro c hc
        rw [List.mem_singleton] at hc
        rw [hc]; exact hd.1
      · simp only [digits_value_from, List.foldl_cons, List.foldl_nil, hd.2]
        omega
    · simp only [h0, if_false]
      obtain ⟨L, hL, hne, hdig, hval⟩ := ih (n / 10) (Nat.digitChar (n % 10) :: ds) (by omega)
      refine ⟨L ++ [Nat.digitChar (n % 10)], ?_, by simp, ?_, ?_⟩
      · rw [hL]; simp
      · intro c hc
        rw [List.mem_append, List.mem_singleton] at hc
        rcases hc with hc | hc
        · exact hdig c hc
        · rw [hc]; exact hd.1
      · rw [digits_value_from_snoc, hval, hd.2]
        omega

/-- The decimal representation of a natural number: a non-empty run of
digits that denotes the number. -/
theorem toString_nat_digits (n : Nat) :
    (toString n).data ≠ [] ∧ (∀ c ∈ (toString n).data, is_digit c = true)
      ∧ digits_value (toString n).data = n := by
  obtain ⟨L, hL, hne, hdig, hval⟩ := toDigitsCore_spec (n + 1) n [] (by omega)
  have h : (toString n).data = L := by
    show (Nat.repr n).data = L
    unfold Nat.repr Nat.toDigits
    rw [hL]; simp [List.asString]
  rw [h]
  exact ⟨hne, hdig, hval⟩

theorem toString_int_of_nat (n : Nat) : toString ((n : Nat) : Int) = toString n := rfl

/-! ## Lemmas on name lookup -/

/-- The loop passes over a child whose name differs and which is not an
expansion marker. -/
theorem lookup_match_loop_skip {nodes : List procfs_structure_node_t} {allproc : List proc_t}
    {pmp : procfs_mount_t} {creds : kauth_cred_t} {dir_pnp : procfsnode_t} {name : String}
    {k : Nat} {rest : List Nat} {mn : procfs_structure_node_t}
    (hk : nodes[k]? = some mn) (hn : name ≠ mn.psn_name)
    (ht : is_expansion_type mn.psn_node_type = false) :
    lookup_match_loop nodes allproc pmp creds dir_pnp name (k :: rest)
      = lookup_match_loop nodes allproc pmp creds dir_pnp name rest := by
  rw [lookup_match_loop, hk]
  simp only [hn, if_false]
  cases hty : mn.psn_node_type <;> rw [hty] at ht <;> simp [is_expansion_type] at ht ⊢

/-- The loop ends at a child whose name is the one looked up. -/
theorem lookup_match_loop_hit {nodes : List procfs_structure_node_t} {allproc : List proc_t}
    {pmp : procfs_mount_t} {creds : kauth_cred_t} {dir_pnp : procfsnode_t} {name : String}
    {k : Nat} {rest : List Nat} {mn : procfs_structure_node_t}
    (hk : nodes[k]? = some mn) (hn : name = mn.psn_name) :
    lookup_match_loop nodes allproc pmp creds dir_pnp name (k :: rest)
      = .found k { nodeid_base_id := mn.psn_base_node_id,
                   nodeid_pid := dir_pnp.node_id.nodeid_pid,
                   nodeid_objectid := dir_pnp.node_id.nodeid_objectid } := by
  rw [lookup_match_loop, hk]
  simp only [hn, if_true]

/-- The loop at a process, process-by-name or thread marker. -/
theorem lookup_match_loop_proc {nodes : List procfs_structure_node_t} {allproc : List proc_t}
    {pmp : procfs_mount_t} {creds : kauth_cred_t} {dir_pnp : procfsnode_t} {name : String}
    {k : Nat} {rest : List Nat} {mn : procfs_structure_node_t}
    (hk : nodes[k]? = some mn) (hn : name ≠ mn.psn_name)
    (ht : mn.psn_node_type = PROCFS_PROCDIR ∨ mn.psn_node_type = PROCFS_PROCNAME_DIR
      ∨ mn.psn_node_type = PROCFS_THREADDIR) :
    lookup_match_loop nodes allproc pmp creds dir_pnp name (k :: rest)
      = match lookup_proc_entry allproc pmp creds dir_pnp name k mn with
        | some r => r
        | none => lookup_match_loop nodes allproc pmp creds dir_pnp name rest := by
  rw [lookup_match_loop, hk]
  simp only [hn, if_false]
  have hfd : mn.psn_node_type ≠ PROCFS_FD_DIR := by
    rcases ht with h | h | h <;> rw [h] <;> decide
  rw [if_neg hfd, if_pos ht]

/-- The loop at a descriptor marker. -/
theorem lookup_match_loop_fd {nodes : List procfs_structure_node_t} {allproc : List proc_t}
    {pmp : procfs_mount_t} {creds : kauth_cred_t} {dir_pnp : procfsnode_t} {name : String}
    {k : Nat} {rest : List Nat} {mn : procfs_structure_node_t}
    (hk : nodes[k]? = some mn) (hn : name ≠ mn.psn_name)
    (ht : mn.psn_node_type = PROCFS_FD_DIR) :
    lookup_match_loop nodes allproc pmp creds dir_pnp name (k :: rest)
      = lookup_fd_entry allproc dir_pnp name k mn := by
  rw [lookup_match_loop, hk]
  simp only [hn, if_false, ht, if_true]

/-- The loop over children none of which has the name or is an expansion
marker finds nothing. -/
theorem lookup_match_loop_none {nodes : List procfs_structure_node_t} {allproc : List proc_t}
    {pmp : procfs_mount_t} {creds : kauth_cred_t} {dir_pnp : procfsnode_t} {name : String}
    (children : List Nat)
    (h : ∀ k ∈ children, ∃ mn, nodes[k]? = some mn ∧ name ≠ mn.psn_name
      ∧ is_expansion_type mn.psn_node_type = false) :
    lookup_match_loop nodes allproc pmp creds dir_pnp name children = .no_match := by
  induction children with
  | nil => rfl
  | cons k rest ih =>
    obtain ⟨mn, hk, hn, ht⟩ := h k (List.mem_cons_self _ _)
    rw [lookup_match_loop_skip hk hn ht]
    exact ih (fun c hc => h c (List.mem_cons_of_mem _ hc))

/-- The loop over children that are passed over, followed by more children. -/
theorem lookup_match_loop_append {nodes : List procfs_structure_node_t} {allproc : List proc_t}
    {pmp : procfs_mount_t} {creds : kauth_cred_t} {dir_pnp : procfsnode_t} {name : String}
    (pre rest : List Nat)
    (h : ∀ k ∈ pre, ∃ mn, nodes[k]? = some mn ∧ name ≠ mn.psn_name
      ∧ is_expansion_type mn.psn_node_type = false) :
    lookup_match_loop nodes allproc pmp creds dir_pnp name (pre ++ rest)
      = lookup_match_loop nodes allproc pmp creds dir_pnp name rest := by
  induction pre with
  | nil => rfl
  | cons k pre ih =>
    obtain ⟨mn, hk, hn, ht⟩ := h k (List.mem_cons_self _ _)
    rw [List.cons_append, lookup_match_loop_skip hk hn ht]
    exact ih (fun c hc => h c (List.mem_cons_of_mem _ hc))

/-- The component that `procfs_vnop_lookup` copies is "." when `cn_namelen` is
1 and the first character is a dot. -/
theorem lookup_name_dot {cnp : componentname} (h1 : cnp.cn_namelen = 1)
    (h2 : (lookup_name cnp).data.head? = some '.') : lookup_name cnp = "." := by
  unfold lookup_name strlcpy at *
  rw [h1] at h2 ⊢
  have hm : min (NAME_MAX + 1) (1 + 1) - 1 = 1 := by decide
  rw [hm] at h2 ⊢
  cases hd : cnp.cn_nameptr.data with
  | nil => rw [hd] at h2; simp at h2
  | cons c cs =>
    rw [hd] at h2
    simp at h2
    simp [h2]

/-- Resolution of a component other than "." and ".." in a directory vnode:
the loop over the children of its structure node. -/
theorem lookup_resolve_children {nodes : List procfs_structure_node_t}
    {allproc : List proc_t} {pmp : procfs_mount_t} {creds : kauth_cred_t} {dv : vnode_t}
    {dir_pnp : procfsnode_t} {cnp : componentname} {dir_snode : procfs_structure_node_t}
    (hty : dv.v_type = .VDIR) (hfs : dv.v_fsnode = some dir_pnp)
    (hlen : 1 ≤ cnp.cn_namelen) (hdd : cnp.cn_flags_isdotdot = false)
    (hdot : lookup_name cnp ≠ ".")
    (hsn : dir_pnp.node_structure_node.bind (fun i => nodes[i]?) = some dir_snode) :
    lookup_resolve nodes allproc pmp creds (some dv) cnp
      = lookup_after_match dv.v_addr
          (lookup_match_loop nodes allproc pmp creds dir_pnp (lookup_name cnp)
            dir_snode.psn_children) := by
  unfold lookup_resolve
  have h1 : ¬ (dv.v_type ≠ .VDIR ∨ cnp.cn_namelen < 1) := by
    rw [hty]; simp; omega
  have h2 : ¬ (cnp.cn_namelen = 1 ∧ (lookup_name cnp).data.head? = some '.') :=
    fun h => hdot (lookup_name_dot h.1 h.2)
  simp only [h1, if_false, hfs, hdd, Bool.false_eq_true, h2, hsn]

/-! ## More facts on the layout that `procfs_structure_init` builds -/

theorem structure_root_tags : (procfs_structure size_tags).root_node = some 0 := by
  decide

/-- The root pointer after the first mount is the first allocated node. -/
theorem structure_root_eq (sz : kernel_sizes) : (procfs_structure sz).root_node = some 0 := by
  have h := procfs_structure_init_relabel (size_of_tag sz) rfl size_tags structure_state_initial
  have h1 : relabel_sizes (size_of_tag sz) size_tags = sz := rfl
  have h2 : relabel_state (size_of_tag sz) structure_state_initial = structure_state_initial :=
    rfl
  rw [h1, h2] at h
  unfold procfs_structure
  rw [h]
  exact structure_root_tags

/-- The structure node at an index below 35 of the built layout. -/
theorem schema_getElem (sz : kernel_sizes) {k : Nat} (hk : k < 35) :
    (schema_table sz)[k]? = some (schema_node sz k) := by
  unfold schema_node
  interval_cases k <;> rfl

/-- Every structure node of the built layout is `schema_node` of its index. -/
theorem schema_node_of {sz : kernel_sizes} {i : Nat} {sn : procfs_structure_node_t}
    (hsn : (procfs_structure sz).nodes[i]? = some sn) : i < 35 ∧ sn = schema_node sz i := by
  have hlt := schema_index_lt hsn
  rw [structure_nodes_eq, schema_getElem sz hlt] at hsn
  exact ⟨hlt, (Option.some.inj hsn).symm⟩

/-- The parts of the structure nodes that do not depend on the kernel sizes:
type, name, base id, flags, parent and children. -/
def schema_shape (n : procfs_structure_node_t) :
    procfs_structure_node_type_t × String × Nat × Nat × Option Nat × List Nat :=
  (n.psn_node_type, n.psn_name, n.psn_base_node_id, n.psn_flags, n.psn_parent, n.psn_children)

theorem schema_shape_eq (sz : kernel_sizes) (k : Nat) :
    schema_shape (schema_node sz k) = schema_shape (schema_node size_tags k) := by
  by_cases hk : k < 35
  · interval_cases k <;> rfl
  · have h1 : ∀ s, (schema_table s)[k]? = none := by
      intro s; apply List.getElem?_eq_none; simp [schema_table]; omega
    unfold schema_node
    rw [h1, h1]


theorem schema_type_eq (sz : kernel_sizes) (k : Nat) :
    (schema_node sz k).psn_node_type = (schema_node size_tags k).psn_node_type :=
  congrArg (fun x => x.1) (schema_shape_eq sz k)

theorem schema_name_eq (sz : kernel_sizes) (k : Nat) :
    (schema_node sz k).psn_name = (schema_node size_tags k).psn_name :=
  congrArg (fun x => x.2.1) (schema_shape_eq sz k)

theorem schema_base_eq (sz : kernel_sizes) (k : Nat) :
    (schema_node sz k).psn_base_node_id = (schema_node size_tags k).psn_base_node_id :=
  congrArg (fun x => x.2.2.1) (schema_shape_eq sz k)

theorem schema_flags_eq (sz : kernel_sizes) (k : Nat) :
    (schema_node sz k).psn_flags = (schema_node size_tags k).psn_flags :=
  congrArg (fun x => x.2.2.2.1) (schema_shape_eq sz k)

theorem schema_parent_eq (sz : kernel_sizes) (k : Nat) :
    (schema_node sz k).psn_parent = (schema_node size_tags k).psn_parent :=
  congrArg (fun x => x.2.2.2.2.1) (schema_shape_eq sz k)

theorem schema_children_eq (sz : kernel_sizes) (k : Nat) :
    (schema_node sz k).psn_children = (schema_node size_tags k).psn_children :=
  congrArg (fun x => x.2.2.2.2.2) (schema_shape_eq sz k)

/-- Whether the child pointer `c` leads to an expansion marker. -/
def expansion_at (nodes : List procfs_structure_node_t) (c : Nat) : Bool :=
  match nodes[c]? with
  | some cn => is_expansion_type cn.psn_node_type
  | none => false

theorem tags_children_lt :
    ∀ k, k < 35 → ∀ c ∈ (schema_node size_tags k).psn_children, c < 35 := by
  decide

theorem tags_marker_parent :
    ∀ k, k < 35 → is_expansion_type (schema_node size_tags k).psn_node_type = true →
      (match (schema_node size_tags k).psn_parent with
       | some pp => decide (pp < 35 ∧ (schema_node size_tags pp).psn_children.getLast? = some k)
       | none => false) = true := by
  decide

theorem tags_marker_count :
    ∀ k, k < 35 → ((schema_node size_tags k).psn_children.filter
      (fun c => is_expansion_type (schema_node size_tags c).psn_node_type)).length ≤ 1 := by
  decide

theorem tags_markers_after_statics :
    ∀ k, k < 35 → ∀ c ∈ (schema_node size_tags k).psn_children.dropLast,
      is_expansion_type (schema_node size_tags c).psn_node_type = false := by
  decide

/-- Every child pointer of the built layout leads to a structure node. -/
theorem schema_children_exist {sz : kernel_sizes} {i : Nat} {sn : procfs_structure_node_t}
    (hsn : (procfs_structure sz).nodes[i]? = some sn) {c : Nat} (hc : c ∈ sn.psn_children) :
    (procfs_structure sz).nodes[c]? = some (schema_node sz c) := by
  obtain ⟨hlt, rfl⟩ := schema_node_of hsn
  rw [schema_children_eq] at hc
  rw [structure_nodes_eq]
  exact schema_getElem sz (tags_children_lt i hlt c hc)

theorem expansion_at_schema (sz : kernel_sizes) {c : Nat} (hc : c < 35) :
    expansion_at (procfs_structure sz).nodes c
      = is_expansion_type (schema_node size_tags c).psn_node_type := by
  unfold expansion_at
  rw [structure_nodes_eq, schema_getElem sz hc]
  exact congrArg is_expansion_type (schema_type_eq sz c)

/-! ## Lemmas on name lookup in the built layout -/

/-- In a directory of the built layout the loop of the lookup passes over the
children before the last one when none of them has the name looked up: they
are not expansion markers. -/
theorem lookup_loop_schema_statics (sz : kernel_sizes) (allproc : List proc_t)
    (pmp : procfs_mount_t) (creds : kauth_cred_t) (dir_pnp : procfsnode_t) (name : String)
    {k : Nat} (hk : k < 35) (pre rest : List Nat) (c : Nat)
    (hch : (schema_node sz k).psn_children = pre ++ c :: rest)
    (hname : ∀ x ∈ pre, name ≠ (schema_node sz x).psn_name) :
    lookup_match_loop (procfs_structure sz).nodes allproc pmp creds dir_pnp name
        (schema_node sz k).psn_children
      = lookup_match_loop (procfs_structure sz).nodes allproc pmp creds dir_pnp name
          (c :: rest) := by
  rw [hch]
  apply lookup_match_loop_append
  intro x hx
  have hmem : x ∈ (schema_node size_tags k).psn_children := by
    rw [← schema_children_eq sz k, hch]; exact List.mem_append_left _ hx
  have hdl : x ∈ (schema_node size_tags k).psn_children.dropLast := by
    rw [← schema_children_eq sz k, hch, List.dropLast_append_of_ne_nil _ (by simp)]
    exact List.mem_append_left _ hx
  refine ⟨schema_node sz x, ?_, hname x hx, ?_⟩
  · rw [structure_nodes_eq]; exact schema_getElem sz (tags_children_lt k hk x hmem)
  · rw [schema_type_eq]; exact tags_markers_after_statics k hk x hdl


/-- A name that `procfs_atoi` does not accept resolves through no expansion
marker: if, in addition, no child has the name, the loop finds nothing. -/
theorem lookup_match_loop_nondigit {nodes : List procfs_structure_node_t}
    {allproc : List proc_t} {pmp : procfs_mount_t} {creds : kauth_cred_t}
    {dir_pnp : procfsnode_t} {name : String} (children : List Nat)
    (h : ∀ k ∈ children, ∃ mn, nodes[k]? = some mn ∧ name ≠ mn.psn_name)
    (hid : (procfs_atoi name).1 = -1) :
    lookup_after_match 0 (lookup_match_loop nodes allproc pmp creds dir_pnp name children)
      = .error ENOENT := by
  induction children with
  | nil => rfl
  | cons k rest ih =>
    obtain ⟨mn, hk, hn⟩ := h k (List.mem_cons_self _ _)
    have ih1 := ih (fun c hc => h c (List.mem_cons_of_mem _ hc))
    by_cases hfd : mn.psn_node_type = PROCFS_FD_DIR
    · rw [lookup_match_loop_fd hk hn hfd]
      unfold lookup_fd_entry
      simp [hid, lookup_after_match]
    · by_cases hpr : mn.psn_node_type = PROCFS_PROCDIR ∨ mn.psn_node_type = PROCFS_PROCNAME_DIR
          ∨ mn.psn_node_type = PROCFS_THREADDIR
      · rw [lookup_match_loop_proc hk hn hpr]
        have hnone : lookup_proc_entry allproc pmp creds dir_pnp name k mn = none := by
          unfold lookup_proc_entry
          simp [hid]
        rw [hnone]
        exact ih1
      · have hex : is_expansion_type mn.psn_node_type = false := by
          cases hty : mn.psn_node_type <;> rw [hty] at hfd hpr <;>
            simp [is_expansion_type] at hfd hpr ⊢
        rw [lookup_match_loop_skip hk hn hex]
        exact ih1

theorem lookup_after_match_error {a b : Nat} {m : lookup_match} {e : Int}
    (h : lookup_after_match a m = .error e) : lookup_after_match b m = .error e := by
  cases m <;> simp [lookup_after_match] at h ⊢
  · exact h
  · exact h

/-! ## Sample vnodes, host and components for name lookup -/

/-- A directory vnode (address 1) of the node `pnp`. -/
def demo_vnode (pnp : procfsnode_t) : vnode_t :=
  { v_addr := 1, v_type := .VDIR, v_fsnode := some pnp }

/-- A host in which every allocation yields address 200, every vnode is still
valid and `procfs_create_vnode` produces vnode 77. -/
def demo_host : lookup_host :=
  { OSMalloc := fun _ => some 200,
    vnode_getwithvid := fun _ _ => 0,
    vnode_get := fun _ => 0,
    procfs_create_vnode := fun _ _ => (0, some 77) }

/-- The component `name` as the host passes it for a name other than "..". -/
def component (name : String) : componentname :=
  { cn_nameptr := name, cn_namelen := name.length, cn_flags_isdotdot := false }

/-- The component ".." as the host passes it. -/
def dotdot_component : componentname :=
  { cn_nameptr := "..", cn_namelen := 2, cn_flags_isdotdot := true }

/-- The fixed name of the structure node that the child pointer `c` leads to. -/
def child_name (nodes : List procfs_structure_node_t) (c : Nat) : Option String :=
  (nodes[c]?).map (fun cn => cn.psn_name)


/-- A name that is no child's fixed name differs from the name of each child
of a directory of the built layout. -/
theorem child_name_ne {sz : kernel_sizes} {k : Nat} (hk : k < 35) {name : String}
    (hname : ∀ c ∈ (schema_node sz k).psn_children,
      child_name (procfs_structure sz).nodes c ≠ some name)
    {c : Nat} (hc : c ∈ (schema_node sz k).psn_children) :
    name ≠ (schema_node sz c).psn_name := by
  intro h
  apply hname c hc
  have hsn : (procfs_structure sz).nodes[k]? = some (schema_node sz k) := by
    rw [structure_nodes_eq]; exact schema_getElem sz hk
  unfold child_name
  rw [schema_children_exist hsn hc, h]
  rfl

/-- Resolution in a directory of the built layout of a component that is no
child's fixed name: only the last child, the expansion marker if there is
one, is left to decide. -/
theorem lookup_resolve_last_child (sz : kernel_sizes) (allproc : List proc_t)
    (pmp : procfs_mount_t) (creds : kauth_cred_t) (dv : vnode_t) (dir_pnp : procfsnode_t)
    (cnp : componentname) (k m : Nat) (statics : List Nat)
    (hty : dv.v_type = .VDIR) (hfs : dv.v_fsnode = some dir_pnp)
    (hi : dir_pnp.node_structure_node = some k) (hk : k < 35)
    (hch : (schema_node sz k).psn_children = statics ++ [m])
    (hlen : 1 ≤ cnp.cn_namelen) (hdd : cnp.cn_flags_isdotdot = false)
    (hdot : lookup_name cnp ≠ ".")
    (hname : ∀ c ∈ (schema_node sz k).psn_children,
      child_name (procfs_structure sz).nodes c ≠ some (lookup_name cnp)) :
    lookup_resolve (procfs_structure sz).nodes allproc pmp creds (some dv) cnp
      = lookup_after_match dv.v_addr
          (lookup_match_loop (procfs_structure sz).nodes allproc pmp creds dir_pnp
            (lookup_name cnp) [m]) := by
  have hbind : dir_pnp.node_structure_node.bind (fun i => (procfs_structure sz).nodes[i]?)
      = some (schema_node sz k) := by
    rw [hi, structure_nodes_eq]; exact schema_getElem sz hk
  rw [lookup_resolve_children hty hfs hlen hdd hdot hbind,
    lookup_loop_schema_statics sz allproc pmp creds dir_pnp (lookup_name cnp) hk statics [] m hch
      (fun x hx => child_name_ne hk hname (by rw [hch]; exact List.mem_append_left _ hx))]

/-- The marker branch of the lookup for an unprivileged caller on a mount with
access checks, when the process that the name or the directory designates is
absent or may not be accessed: the loop goes on, or ends with `ENOENT`. -/
theorem lookup_proc_entry_hidden (allproc : List proc_t) (pmp : procfs_mount_t)
    (creds : kauth_cred_t) (dir_pnp : procfsnode_t) (name : String) (k : Nat)
    (mn : procfs_structure_node_t)
    (hunpriv : suser creds ≠ 0) (hchk : procfs_should_access_check pmp = true)
    (hhid : proc_find allproc
        (if mn.psn_node_type = PROCFS_PROCDIR ∨ mn.psn_node_type = PROCFS_PROCNAME_DIR
          then (procfs_atoi name).1 else dir_pnp.node_id.nodeid_pid) = none
      ∨ ∃ p, proc_find allproc
          (if mn.psn_node_type = PROCFS_PROCDIR ∨ mn.psn_node_type = PROCFS_PROCNAME_DIR
            then (procfs_atoi name).1 else dir_pnp.node_id.nodeid_pid) = some p
        ∧ procfs_check_can_access_process creds p ≠ 0) :
    lookup_proc_entry allproc pmp creds dir_pnp name k mn = none
      ∨ lookup_proc_entry allproc pmp creds dir_pnp name k mn = some (.failed ENOENT) := by
  unfold lookup_proc_entry
  simp only []
  split
  · exact Or.inl rfl
  · split
    · right
      rcases hhid with h | ⟨p, h, ha⟩
      · rw [h]
      · rw [h]
        simp only []
        split
        · rfl
        · have hs : (suser creds == 0) = false := by simpa using hunpriv
          rw [if_pos ⟨by simp [hs, hchk], ha⟩]
    · exact Or.inl rfl

/-- The leading digits of a run of digits followed by nothing or by a
character that is no digit. -/
theorem takeWhile_digits_append {L rest : List Char} (hL : ∀ c ∈ L, is_digit c = true)
    (hrest : ∀ c ∈ rest.head?, is_digit c = false) :
    (L ++ rest).takeWhile is_digit = L := by
  induction L with
  | nil =>
    cases rest with
    | nil => rfl
    | cons c cs =>
      have := hrest c (by simp)
      simp [List.takeWhile_cons, this]
  | cons d L ih =>
    have hd := hL d (List.mem_cons_self _ _)
    rw [List.cons_append, List.takeWhile_cons_of_pos hd,
      ih (fun c hc => hL c (List.mem_cons_of_mem _ hc))]

theorem leading_digits_toString (n : Nat) (rest : String)
    (hrest : ∀ c ∈ rest.data.head?, is_digit c = false) :
    leading_digits (toString n ++ rest) = (toString n).data := by
  unfold leading_digits
  rw [String.data_append]
  exact takeWhile_digits_append (toString_nat_digits n).2.1 hrest

/-- `procfs_atoi` on the decimal representation of `n`, followed by nothing or
by a character that is no digit: the value modulo 2^32 as an `int`, and the
end pointer after the digits. -/
theorem procfs_atoi_toString (n : Nat) (rest : String)
    (hrest : ∀ c ∈ rest.data.head?, is_digit c = false) :
    procfs_atoi (toString n ++ rest) = (wrap_int32 n, (toString n).length) := by
  rw [procfs_atoi_eq, leading_digits_toString n rest hrest,
    if_neg (toString_nat_digits n).1, (toString_nat_digits n).2.2]
  rfl

theorem procfs_atoi_toString_nat (n : Nat) :
    procfs_atoi (toString n) = (wrap_int32 n, (toString n).length) := by
  have h := procfs_atoi_toString n "" (by simp)
  rwa [String.append_empty] at h

/-- The decimal representation of a non-negative `int`. -/
theorem toString_int_toNat {x : Int} (h : 0 ≤ x) : toString x = toString x.toNat := by
  obtain ⟨n, rfl⟩ := Int.eq_ofNat_of_zero_le h
  rfl

/-- No fixed name of the built layout starts with a digit. -/
theorem tags_names_no_digit :
    ∀ k, k < 35 → leading_digits (schema_node size_tags k).psn_name = [] := by
  decide

/-- A name that starts with a digit is no child's fixed name in the built
layout. -/
theorem child_name_ne_of_digit (sz : kernel_sizes) {name : String}
    (h : leading_digits name ≠ []) (c : Nat) :
    child_name (procfs_structure sz).nodes c ≠ some name := by
  unfold child_name
  intro hc
  cases hn : (procfs_structure sz).nodes[c]? with
  | none => rw [hn] at hc; simp at hc
  | some cn =>
    rw [hn] at hc
    obtain ⟨hlt, rfl⟩ := schema_node_of hn
    simp only [Option.map_some', Option.some.injEq] at hc
    rw [schema_name_eq] at hc
    rw [← hc] at h
    exact h (tags_names_no_digit c hlt)

theorem proc_find_some {allproc : List proc_t} {x : Int} {p : proc_t}
    (h : proc_find allproc x = some p) : p.p_pid = x ∧ p ∈ allproc := by
  unfold proc_find at h
  exact ⟨by simpa using List.find?_some h, List.mem_of_find?_eq_some h⟩

/-- The access test of the marker branch of the lookup passes exactly for the
superuser, on a mount without access checks, and for a process that the
credential check admits. -/
theorem lookup_access_iff (pmp : procfs_mount_t) (creds : kauth_cred_t) (p : proc_t) :
    ¬ ((!(suser creds == 0) && procfs_should_access_check pmp) = true
        ∧ procfs_check_can_access_process creds p ≠ 0)
      ↔ (suser creds = 0 ∨ procfs_should_access_check pmp = false
          ∨ procfs_check_can_access_process creds p = 0) := by
  by_cases h1 : suser creds = 0 <;> by_cases h2 : procfs_should_access_check pmp = true <;>
    by_cases h3 : procfs_check_can_access_process creds p = 0 <;> simp [h1, h2, h3]

/-- The marker branch of the lookup at the process-by-name marker. -/
theorem lookup_proc_entry_procname (allproc : List proc_t) (pmp : procfs_mount_t)
    (creds : kauth_cred_t) (dir_pnp : procfsnode_t) (name : String) (k : Nat)
    (mn : procfs_structure_node_t) (hty : mn.psn_node_type = PROCFS_PROCNAME_DIR) :
    lookup_proc_entry allproc pmp creds dir_pnp name k mn
      = if (procfs_atoi name).1 = -1 then none
        else match proc_find allproc (procfs_atoi name).1 with
          | none => some (.failed ENOENT)
          | some p =>
            if name = procfs_construct_process_dir_name p
                ∧ (suser creds = 0 ∨ procfs_should_access_check pmp = false
                  ∨ procfs_check_can_access_process creds p = 0) then
              some (.found k
                { nodeid_base_id := mn.psn_base_node_id,
                  nodeid_pid := (procfs_atoi name).1,
                  nodeid_objectid := dir_pnp.node_id.nodeid_objectid })
            else some (.failed ENOENT) := by
  unfold lookup_proc_entry
  simp only [hty, ne_eq, not_true_eq_false, false_and, if_false, or_true, if_true, true_and,
    reduceCtorEq]
  by_cases hid : (procfs_atoi name).1 = -1
  · simp [hid]
  · simp only [hid, not_false_eq_true, if_true, if_false]
    cases hp : proc_find allproc (procfs_atoi name).1 with
    | none => rfl
    | some p =>
      simp only []
      by_cases hn : name = procfs_construct_process_dir_name p
      · have hacc := lookup_access_iff pmp creds p
        by_cases ha : (suser creds = 0 ∨ procfs_should_access_check pmp = false
            ∨ procfs_check_can_access_process creds p = 0)
        · have hna := hacc.mpr ha
          simp only [← hn, not_true_eq_false, if_false, ha, and_self, if_true]
          rw [if_neg hna]
        · have hna : ((!(suser creds == 0) && procfs_should_access_check pmp) = true
              ∧ procfs_check_can_access_process creds p ≠ 0) := by
            by_contra hc; exact ha (hacc.mp hc)
          simp only [← hn, not_true_eq_false, if_false, ha, and_false]
          rw [if_pos hna]
      · simp [hn]

/-- The name built for a process with a non-negative pid: the decimal pid, a
space, and the command name. -/
theorem construct_name_eq {p : proc_t} (h : 0 ≤ p.p_pid) :
    procfs_construct_process_dir_name p
      = toString p.p_pid.toNat ++ (" " ++ String.mk (p.p_comm.data.take MAXCOMLEN)) := by
  unfold procfs_construct_process_dir_name
  rw [toString_int_toNat h, String.append_assoc]

theorem space_then_no_digit (s : String) :
    ∀ c ∈ (" " ++ s).data.head?, is_digit c = false := by
  intro c hc
  rw [String.data_append] at hc
  simp at hc
  rw [← hc]
  decide

/-- The leading digits of the name built for a process are the decimal pid. -/
theorem construct_name_digits {p : proc_t} (h : 0 ≤ p.p_pid) :
    leading_digits (procfs_construct_process_dir_name p) ≠ []
      ∧ ((digits_value (leading_digits (procfs_construct_process_dir_name p)) : Nat) : Int)
          = p.p_pid := by
  rw [construct_name_eq h, leading_digits_toString _ _ (space_then_no_digit _)]
  refine ⟨(toString_nat_digits _).1, ?_⟩
  rw [(toString_nat_digits _).2.2]
  exact Int.toNat_of_nonneg h

/-- `procfs_atoi` of the name built for a process returns its pid. -/
theorem procfs_atoi_construct_name {p : proc_t} (h : 0 ≤ p.p_pid)
    (h2 : p.p_pid < 2147483648) :
    (procfs_atoi (procfs_construct_process_dir_name p)).1 = p.p_pid := by
  rw [construct_name_eq h, procfs_atoi_toString _ _ (space_then_no_digit _)]
  show wrap_int32 ((p.p_pid.toNat : Nat) : Int) = p.p_pid
  rw [Int.toNat_of_nonneg h]
  exact wrap_int32_of_range (by omega) h2

/-- `procfs_get_parent_node_id` for a node whose structure node has a parent. -/
theorem parent_node_id_eq {nodes : List procfs_structure_node_t} {pnp : procfsnode_t}
    {i pp : Nat} {sn ps : procfs_structure_node_t}
    (hi : pnp.node_structure_node = some i) (hsn : nodes[i]? = some sn)
    (hp : sn.psn_parent = some pp) (hps : nodes[pp]? = some ps) :
    procfs_get_parent_node_id nodes pnp = some
      { nodeid_base_id := ps.psn_base_node_id,
        nodeid_pid :=
          if Nat.land ps.psn_flags PSN_FLAG_PROCESS ≠ 0 then pnp.node_id.nodeid_pid
          else PRNODE_NO_PID,
        nodeid_objectid :=
          if Nat.land ps.psn_flags PSN_FLAG_THREAD ≠ 0 then pnp.node_id.nodeid_objectid
          else PRNODE_NO_OBJECTID } := by
  unfold procfs_get_parent_node_id
  simp [hi, hsn, hp, hps]

/-- Resolution of a component flagged `ISDOTDOT`: the parent identity and the
parent structure node go to `procfsnode_find`. -/
theorem lookup_resolve_dotdot {nodes : List procfs_structure_node_t} {allproc : List proc_t}
    {pmp : procfs_mount_t} {creds : kauth_cred_t} {dv : vnode_t} {dir_pnp : procfsnode_t}
    {cnp : componentname} {i : Nat} {sn : procfs_structure_node_t}
    {parent_node_id : procfsnode_id_t}
    (hty : dv.v_type = .VDIR) (hfs : dv.v_fsnode = some dir_pnp)
    (hlen : 1 ≤ cnp.cn_namelen) (hdd : cnp.cn_flags_isdotdot = true)
    (hi : dir_pnp.node_structure_node = some i) (hsn : nodes[i]? = some sn)
    (hp : procfs_get_parent_node_id nodes dir_pnp = some parent_node_id) :
    lookup_resolve nodes allproc pmp creds (some dv) cnp
      = .node none parent_node_id sn.psn_parent := by
  unfold lookup_resolve
  have h1 : ¬ (dv.v_type ≠ .VDIR ∨ cnp.cn_namelen < 1) := by
    rw [hty]; simp; omega
  have hb : dir_pnp.node_structure_node.bind (fun i => nodes[i]?) = some sn := by
    rw [hi]; exact hsn
  simp only [h1, if_false, hfs, hdd, if_true, hp, hb]

/-- Resolution in a directory of the built layout of the fixed name of a
child that no earlier child carries. -/
theorem lookup_resolve_static (sz : kernel_sizes) (allproc : List proc_t)
    (pmp : procfs_mount_t) (creds : kauth_cred_t) (dv : vnode_t) (dir_pnp : procfsnode_t)
    (cnp : componentname) (k c : Nat) (pre post : List Nat)
    (hty : dv.v_type = .VDIR) (hfs : dv.v_fsnode = some dir_pnp)
    (hi : dir_pnp.node_structure_node = some k) (hk : k < 35) (hc : c < 35)
    (hch : (schema_node sz k).psn_children = pre ++ c :: post)
    (hlen : 1 ≤ cnp.cn_namelen) (hdd : cnp.cn_flags_isdotdot = false)
    (hdot : lookup_name cnp ≠ ".")
    (hname : lookup_name cnp = (schema_node sz c).psn_name)
    (hfirst : ∀ x ∈ pre, lookup_name cnp ≠ (schema_node sz x).psn_name) :
    lookup_resolve (procfs_structure sz).nodes allproc pmp creds (some dv) cnp
      = .node (some dv.v_addr)
          { nodeid_base_id := (schema_node sz c).psn_base_node_id,
            nodeid_pid := dir_pnp.node_id.nodeid_pid,
            nodeid_objectid := dir_pnp.node_id.nodeid_objectid } (some c) := by
  have hbind : dir_pnp.node_structure_node.bind (fun i => (procfs_structure sz).nodes[i]?)
      = some (schema_node sz k) := by
    rw [hi, structure_nodes_eq]; exact schema_getElem sz hk
  have hcn : (procfs_structure sz).nodes[c]? = some (schema_node sz c) := by
    rw [structure_nodes_eq]; exact schema_getElem sz hc
  rw [lookup_resolve_children hty hfs hlen hdd hdot hbind,
    lookup_loop_schema_statics sz allproc pmp creds dir_pnp (lookup_name cnp) hk pre post c hch
      hfirst, lookup_match_loop_hit hcn hname]
  rfl

theorem leading_digits_toString_nat (n : Nat) :
    leading_digits (toString n) = (toString n).data ∧ leading_digits (toString n) ≠ [] := by
  have h := leading_digits_toString n "" (by simp)
  rw [String.append_empty] at h
  exact ⟨h, by rw [h]; exact (toString_nat_digits n).1⟩

theorem to_uint64_of_nat {n : Nat} (h : n < 18446744073709551616) :
    to_uint64 (n : Int) = n := by
  unfold to_uint64
  omega

/-- The marker branch at the process marker for the decimal name of the pid
of a live process that the caller may access. -/
theorem lookup_proc_entry_procdir_pid (allproc : List proc_t) (pmp : procfs_mount_t)
    (creds : kauth_cred_t) (dir_pnp : procfsnode_t) (k : Nat) (mn : procfs_structure_node_t)
    (hty : mn.psn_node_type = PROCFS_PROCDIR) (n : Nat) (hn : n < 2147483648) {p : proc_t}
    (hp : proc_find allproc (n : Int) = some p)
    (hacc : suser creds = 0 ∨ procfs_should_access_check pmp = false
      ∨ procfs_check_can_access_process creds p = 0) :
    lookup_proc_entry allproc pmp creds dir_pnp (toString n) k mn
      = some (.found k { nodeid_base_id := mn.psn_base_node_id,
                         nodeid_pid := (n : Int),
                         nodeid_objectid := dir_pnp.node_id.nodeid_objectid }) := by
  have ha : procfs_atoi (toString n) = ((n : Int), (toString n).length) := by
    rw [procfs_atoi_toString_nat, wrap_int32_of_range (by omega) (by omega)]
  have hna := (lookup_access_iff pmp creds p).mpr hacc
  unfold lookup_proc_entry
  simp only [hty, ha, lt_self_iff_false, and_false, if_false, true_or, if_true, reduceCtorEq,
    false_and]
  rw [if_pos (by omega), hp]
  simp only []
  rw [if_neg hna]

/-- The marker branch at the thread marker for the decimal name of a thread
id of the owning process, when `procfs_atoi` keeps the id. -/
theorem lookup_proc_entry_thread_id (allproc : List proc_t) (pmp : procfs_mount_t)
    (creds : kauth_cred_t) (dir_pnp : procfsnode_t) (k : Nat) (mn : procfs_structure_node_t)
    (hty : mn.psn_node_type = PROCFS_THREADDIR) (T : Nat)
    (hT : to_uint64 (wrap_int32 T) = T) (hT1 : wrap_int32 T ≠ -1) {p : proc_t}
    (hp : proc_find allproc dir_pnp.node_id.nodeid_pid = some p)
    (hacc : suser creds = 0 ∨ procfs_should_access_check pmp = false
      ∨ procfs_check_can_access_process creds p = 0)
    (hok : (procfs_get_thread_ids_for_task p.task_threads).1 = 0)
    (hmem : T ∈ (procfs_get_thread_ids_for_task p.task_threads).2) :
    lookup_proc_entry allproc pmp creds dir_pnp (toString T) k mn
      = some (.found k { nodeid_base_id := mn.psn_base_node_id,
                         nodeid_pid := dir_pnp.node_id.nodeid_pid,
                         nodeid_objectid := T }) := by
  have ha : procfs_atoi (toString T) = (wrap_int32 T, (toString T).length) :=
    procfs_atoi_toString_nat T
  have hna := (lookup_access_iff pmp creds p).mpr hacc
  unfold lookup_proc_entry
  simp only [hty, ha, lt_self_iff_false, and_false, if_false, reduceCtorEq, false_or, if_true,
    false_and, hT]
  rw [if_pos hT1, hp]
  simp only []
  rw [if_neg hna, if_pos hok, if_pos (by simpa using hmem)]

/-- The descriptor branch for the decimal name of an open, non-reserved
descriptor of the owning process. -/
theorem lookup_fd_entry_number (allproc : List proc_t) (dir_pnp : procfsnode_t) (k : Nat)
    (mn : procfs_structure_node_t) (N : Nat) (hN : N < 2147483648) {p : proc_t} {slot : fd_slot}
    (hp : proc_find allproc dir_pnp.node_id.nodeid_pid = some p)
    (hslot : p.fd_ofiles[N]? = some slot) (hfp : slot.fp = true)
    (hres : slot.reserved = false) :
    lookup_fd_entry allproc dir_pnp (toString N) k mn
      = .found k { nodeid_base_id := mn.psn_base_node_id,
                   nodeid_pid := dir_pnp.node_id.nodeid_pid,
                   nodeid_objectid := N } := by
  have ha : procfs_atoi (toString N) = ((N : Int), (toString N).length) := by
    rw [procfs_atoi_toString_nat, wrap_int32_of_range (by omega) (by omega)]
  have hlt : N < p.fd_ofiles.length := (List.getElem?_eq_some.mp hslot).1
  unfold lookup_fd_entry
  simp only [ha, hp]
  rw [if_pos (by omega), if_pos (by omega), if_neg (by omega)]
  simp only [Int.toNat_ofNat, hslot, Option.map_some', hfp, hres, Bool.not_false, Bool.and_self]
  rw [to_uint64_of_nat (by omega)]

theorem name_ne_dot_of_digit {name : String} (h : leading_digits name ≠ []) : name ≠ "." := by
  intro hn
  rw [hn] at h
  exact h (by decide)

/-- Resolution in the root of the decimal pid of a live process that the
caller may access. -/
theorem lookup_resolve_root_pid (sz : kernel_sizes) (allproc : List proc_t)
    (pmp : procfs_mount_t) (creds : kauth_cred_t) (qv : vnode_t) (qnode : procfsnode_t)
    (cnp : componentname) (hty : qv.v_type = .VDIR) (hfs : qv.v_fsnode = some qnode)
    (hi : qnode.node_structure_node = some 0)
    (hlen : 1 ≤ cnp.cn_namelen) (hdd : cnp.cn_flags_isdotdot = false)
    (n : Nat) (hn : n < 2147483648) (hname : lookup_name cnp = toString n) {p : proc_t}
    (hp : proc_find allproc (n : Int) = some p)
    (hacc : suser creds = 0 ∨ procfs_should_access_check pmp = false
      ∨ procfs_check_can_access_process creds p = 0) :
    lookup_resolve (procfs_structure sz).nodes allproc pmp creds (some qv) cnp
      = .node (some qv.v_addr)
          { nodeid_base_id := (schema_node sz 10).psn_base_node_id,
            nodeid_pid := (n : Int),
            nodeid_objectid := qnode.node_id.nodeid_objectid } (some 10) := by
  have hld : leading_digits (lookup_name cnp) ≠ [] := by
    rw [hname]; exact (leading_digits_toString_nat n).2
  have hmn : (procfs_structure sz).nodes[10]? = some (schema_node sz 10) := by
    rw [structure_nodes_eq]; rfl
  rw [lookup_resolve_last_child sz allproc pmp creds qv qnode cnp 0 10 [1, 2, 3, 4] hty hfs hi
      (by decide) rfl hlen hdd (name_ne_dot_of_digit hld)
      (fun c _ => child_name_ne_of_digit sz hld c),
    lookup_match_loop_proc hmn
      (fun h => child_name_ne_of_digit sz hld 10 (by unfold child_name; rw [hmn, h]; rfl))
      (Or.inl rfl),
    hname, lookup_proc_entry_procdir_pid allproc pmp creds qnode 10 (schema_node sz 10) rfl n hn
      hp hacc]
  rfl

/-- Resolution in an fd directory of the decimal number of an open,
non-reserved descriptor of the owning process. -/
theorem lookup_resolve_fd_number (sz : kernel_sizes) (allproc : List proc_t)
    (pmp : procfs_mount_t) (creds : kauth_cred_t) (qv : vnode_t) (qnode : procfsnode_t)
    (cnp : componentname) (hty : qv.v_type = .VDIR) (hfs : qv.v_fsnode = some qnode)
    (hi : qnode.node_structure_node = some 13)
    (hlen : 1 ≤ cnp.cn_namelen) (hdd : cnp.cn_flags_isdotdot = false)
    (N : Nat) (hN : N < 2147483648) (hname : lookup_name cnp = toString N) {p : proc_t}
    {slot : fd_slot} (hp : proc_find allproc qnode.node_id.nodeid_pid = some p)
    (hslot : p.fd_ofiles[N]? = some slot) (hfp : slot.fp = true)
    (hres : slot.reserved = false) :
    lookup_resolve (procfs_structure sz).nodes allproc pmp creds (some qv) cnp
      = .node (some qv.v_addr)
          { nodeid_base_id := (schema_node sz 16).psn_base_node_id,
            nodeid_pid := qnode.node_id.nodeid_pid,
            nodeid_objectid := N } (some 16) := by
  have hld : leading_digits (lookup_name cnp) ≠ [] := by
    rw [hname]; exact (leading_digits_toString_nat N).2
  have hmn : (procfs_structure sz).nodes[16]? = some (schema_node sz 16) := by
    rw [structure_nodes_eq]; rfl
  rw [lookup_resolve_last_child sz allproc pmp creds qv qnode cnp 13 16 [14, 15] hty hfs hi
      (by decide) rfl hlen hdd (name_ne_dot_of_digit hld)
      (fun c _ => child_name_ne_of_digit sz hld c),
    lookup_match_loop_fd hmn
      (fun h => child_name_ne_of_digit sz hld 16 (by unfold child_name; rw [hmn, h]; rfl))
      rfl,
    hname, lookup_fd_entry_number allproc qnode 16 (schema_node sz 16) N hN hp hslot hfp hres]
  rfl

/-- Resolution in a threads directory of the decimal id of a thread of the
owning process. -/
theorem lookup_resolve_thread_id (sz : kernel_sizes) (allproc : List proc_t)
    (pmp : procfs_mount_t) (creds : kauth_cred_t) (qv : vnode_t) (qnode : procfsnode_t)
    (cnp : componentname) (hty : qv.v_type = .VDIR) (hfs : qv.v_fsnode = some qnode)
    (hi : qnode.node_structure_node = some 19)
    (hlen : 1 ≤ cnp.cn_namelen) (hdd : cnp.cn_flags_isdotdot = false)
    (T : Nat) (hT : to_uint64 (wrap_int32 T) = T) (hT1 : wrap_int32 T ≠ -1)
    (hname : lookup_name cnp = toString T) {p : proc_t}
    (hp : proc_find allproc qnode.node_id.nodeid_pid = some p)
    (hacc : suser creds = 0 ∨ procfs_should_access_check pmp = false
      ∨ procfs_check_can_access_process creds p = 0)
    (hok : (procfs_get_thread_ids_for_task p.task_threads).1 = 0)
    (hmem : T ∈ (procfs_get_thread_ids_for_task p.task_threads).2) :
    lookup_resolve (procfs_structure sz).nodes allproc pmp creds (some qv) cnp
      = .node (some qv.v_addr)
          { nodeid_base_id := (schema_node sz 22).psn_base_node_id,
            nodeid_pid := qnode.node_id.nodeid_pid,
            nodeid_objectid := T } (some 22) := by
  have hld : leading_digits (lookup_name cnp) ≠ [] := by
    rw [hname]; exact (leading_digits_toString_nat T).2
  have hmn : (procfs_structure sz).nodes[22]? = some (schema_node sz 22) := by
    rw [structure_nodes_eq]; rfl
  rw [lookup_resolve_last_child sz allproc pmp creds qv qnode cnp 19 22 [20, 21] hty hfs hi
      (by decide) rfl hlen hdd (name_ne_dot_of_digit hld)
      (fun c _ => child_name_ne_of_digit sz hld c),
    lookup_match_loop_proc hmn
      (fun h => child_name_ne_of_digit sz hld 22 (by unfold child_name; rw [hmn, h]; rfl))
      (Or.inr (Or.inr rfl)),
    hname, lookup_proc_entry_thread_id allproc pmp creds qnode 22 (schema_node sz 22) rfl T hT
      hT1 hp hacc hok hmem]
  rfl

/-! ## The directories of the name space and their parents -/

/-- The non-root directories of the name space: byname, the directory of
process `P`, its fd directory, the directory of descriptor `N`, its threads
directory, and the directory of thread `T`. -/
inductive dir_path where
  | byname
  | process (P : Int)
  | fd (P : Int)
  | descriptor (P : Int) (N : Nat)
  | threads (P : Int)
  | thread (P : Int) (T : Nat)
deriving DecidableEq, Repr

/-- The structure node of a directory: the node named "byname", the process
marker, the node named "fd", the descriptor marker, the node named "threads"
and the thread marker. -/
def dir_path.snode : dir_path → Nat
  | .byname => 4
  | .process _ => 10
  | .fd _ => 13
  | .descriptor _ _ => 16
  | .threads _ => 19
  | .thread _ _ => 22

/-- The identity of a directory: the base id of its structure node, the pid
of the process and the descriptor number or thread id it belongs to. -/
def dir_path.node_id (sz : kernel_sizes) (d : dir_path) : procfsnode_id_t :=
  { nodeid_base_id := (schema_node sz d.snode).psn_base_node_id,
    nodeid_pid :=
      match d with
      | .byname => PRNODE_NO_PID
      | .process P => P
      | .fd P => P
      | .descriptor P _ => P
      | .threads P => P
      | .thread P _ => P,
    nodeid_objectid :=
      match d with
      | .descriptor _ N => N
      | .thread _ T => T
      | _ => PRNODE_NO_OBJECTID }

theorem lookup_fd_entry_cases (allproc : List proc_t) (dir_pnp : procfsnode_t) (name : String)
    (k : Nat) (mn : procfs_structure_node_t) :
    (∃ id, lookup_fd_entry allproc dir_pnp name k mn = .found k id)
      ∨ lookup_fd_entry allproc dir_pnp name k mn = .failed ENOENT
      ∨ lookup_fd_entry allproc dir_pnp name k mn = .fault := by
  unfold lookup_fd_entry
  simp only []
  split
  · exact Or.inr (Or.inr rfl)
  · exact Or.inl ⟨_, rfl⟩
  · exact Or.inr (Or.inl rfl)

theorem lookup_proc_entry_cases (allproc : List proc_t) (pmp : procfs_mount_t)
    (creds : kauth_cred_t) (dir_pnp : procfsnode_t) (name : String) (k : Nat)
    (mn : procfs_structure_node_t) :
    lookup_proc_entry allproc pmp creds dir_pnp name k mn = none
      ∨ (∃ id, lookup_proc_entry allproc pmp creds dir_pnp name k mn = some (.found k id))
      ∨ lookup_proc_entry allproc pmp creds dir_pnp name k mn = some (.failed ENOENT) := by
  unfold lookup_proc_entry
  simp only []
  split
  · exact Or.inl rfl
  · split
    · split
      · exact Or.inr (Or.inr rfl)
      · split
        · exact Or.inr (Or.inr rfl)
        · split
          · exact Or.inr (Or.inr rfl)
          · split
            · split
              · split
                · exact Or.inr (Or.inl ⟨_, rfl⟩)
                · exact Or.inr (Or.inr rfl)
              · exact Or.inr (Or.inr rfl)
            · exact Or.inr (Or.inl ⟨_, rfl⟩)
    · exact Or.inl rfl

/-- However the loop of the lookup ends, it ends with a child of the
directory as the match, with `ENOENT`, without a match, or in a fault: no
other error arises. -/
theorem lookup_match_loop_cases (nodes : List procfs_structure_node_t) (allproc : List proc_t)
    (pmp : procfs_mount_t) (creds : kauth_cred_t) (dir_pnp : procfsnode_t) (name : String)
    (children : List Nat) :
    (∃ c ∈ children, ∃ id,
        lookup_match_loop nodes allproc pmp creds dir_pnp name children = .found c id)
      ∨ lookup_match_loop nodes allproc pmp creds dir_pnp name children = .failed ENOENT
      ∨ lookup_match_loop nodes allproc pmp creds dir_pnp name children = .no_match
      ∨ lookup_match_loop nodes allproc pmp creds dir_pnp name children = .fault := by
  induction children with
  | nil => exact Or.inr (Or.inr (Or.inl rfl))
  | cons k rest ih =>
    have ih' : (∃ c ∈ k :: rest, ∃ id,
        lookup_match_loop nodes allproc pmp creds dir_pnp name rest = .found c id)
      ∨ lookup_match_loop nodes allproc pmp creds dir_pnp name rest = .failed ENOENT
      ∨ lookup_match_loop nodes allproc pmp creds dir_pnp name rest = .no_match
      ∨ lookup_match_loop nodes allproc pmp creds dir_pnp name rest = .fault := by
      rcases ih with ⟨c, hc, id, h⟩ | h | h | h
      · exact Or.inl ⟨c, List.mem_cons_of_mem _ hc, id, h⟩
      · exact Or.inr (Or.inl h)
      · exact Or.inr (Or.inr (Or.inl h))
      · exact Or.inr (Or.inr (Or.inr h))
    cases hk : nodes[k]? with
    | none =>
      right; right; right
      rw [lookup_match_loop, hk]
    | some mn =>
      by_cases hn : name = mn.psn_name
      · exact Or.inl ⟨k, List.mem_cons_self _ _, _, lookup_match_loop_hit hk hn⟩
      · by_cases hfd : mn.psn_node_type = PROCFS_FD_DIR
        · rw [lookup_match_loop_fd hk hn hfd]
          rcases lookup_fd_entry_cases allproc dir_pnp name k mn with ⟨id, h⟩ | h | h
          · exact Or.inl ⟨k, List.mem_cons_self _ _, id, h⟩
          · exact Or.inr (Or.inl h)
          · exact Or.inr (Or.inr (Or.inr h))
        · by_cases hpr : mn.psn_node_type = PROCFS_PROCDIR
              ∨ mn.psn_node_type = PROCFS_PROCNAME_DIR ∨ mn.psn_node_type = PROCFS_THREADDIR
          · rw [lookup_match_loop_proc hk hn hpr]
            rcases lookup_proc_entry_cases allproc pmp creds dir_pnp name k mn with
              h | ⟨id, h⟩ | h
            · rw [h]; exact ih'
            · rw [h]; exact Or.inl ⟨k, List.mem_cons_self _ _, id, rfl⟩
            · rw [h]; exact Or.inr (Or.inl rfl)
          · have hex : is_expansion_type mn.psn_node_type = false := by
              cases hty : mn.psn_node_type <;> rw [hty] at hfd hpr <;>
                simp [is_expansion_type] at hfd hpr ⊢
            rw [lookup_match_loop_skip hk hn hex]
            exact ih'

/-- The marker branch of the lookup at the process marker. -/
theorem lookup_proc_entry_procdir (allproc : List proc_t) (pmp : procfs_mount_t)
    (creds : kauth_cred_t) (dir_pnp : procfsnode_t) (name : String) (k : Nat)
    (mn : procfs_structure_node_t) (hty : mn.psn_node_type = PROCFS_PROCDIR) :
    lookup_proc_entry allproc pmp creds dir_pnp name k mn
      = if (procfs_atoi name).2 < name.length ∨ (procfs_atoi name).1 = -1 then none
        else match proc_find allproc (procfs_atoi name).1 with
          | none => some (.failed ENOENT)
          | some p =>
            if suser creds = 0 ∨ procfs_should_access_check pmp = false
                ∨ procfs_check_can_access_process creds p = 0 then
              some (.found k
                { nodeid_base_id := mn.psn_base_node_id,
                  nodeid_pid := (procfs_atoi name).1,
                  nodeid_objectid := dir_pnp.node_id.nodeid_objectid })
            else some (.failed ENOENT) := by
  unfold lookup_proc_entry
  simp only [hty, ne_eq, reduceCtorEq, not_false_eq_true, true_and, true_or, if_true, false_and,
    if_false]
  by_cases hend : (procfs_atoi name).2 < name.length
  · simp [hend]
  · by_cases hid : (procfs_atoi name).1 = -1
    · simp [hend, hid]
    · simp only [hend, hid, if_false, not_false_eq_true, if_true, or_self]
      cases hp : proc_find allproc (procfs_atoi name).1 with
      | none => rfl
      | some p =>
        simp only []
        have hacc := lookup_access_iff pmp creds p
        by_cases ha : (suser creds = 0 ∨ procfs_should_access_check pmp = false
            ∨ procfs_check_can_access_process creds p = 0)
        · rw [if_neg (hacc.mpr ha), if_pos ha]
        · have hna : ((!(suser creds == 0) && procfs_should_access_check pmp) = true
              ∧ procfs_check_can_access_process creds p ≠ 0) := by
            by_contra hc; exact ha (hacc.mp hc)
          rw [if_pos hna, if_neg ha]

/-- The marker branch of the lookup at the thread marker. -/
theorem lookup_proc_entry_threaddir (allproc : List proc_t) (pmp : procfs_mount_t)
    (creds : kauth_cred_t) (dir_pnp : procfsnode_t) (name : String) (k : Nat)
    (mn : procfs_structure_node_t) (hty : mn.psn_node_type = PROCFS_THREADDIR) :
    lookup_proc_entry allproc pmp creds dir_pnp name k mn
      = if (procfs_atoi name).2 < name.length ∨ (procfs_atoi name).1 = -1 then none
        else match proc_find allproc dir_pnp.node_id.nodeid_pid with
          | none => some (.failed ENOENT)
          | some p =>
            if (suser creds = 0 ∨ procfs_should_access_check pmp = false
                  ∨ procfs_check_can_access_process creds p = 0)
                ∧ (procfs_get_thread_ids_for_task p.task_threads).1 = 0
                ∧ to_uint64 (procfs_atoi name).1
                    ∈ (procfs_get_thread_ids_for_task p.task_threads).2 then
              some (.found k
                { nodeid_base_id := mn.psn_base_node_id,
                  nodeid_pid := dir_pnp.node_id.nodeid_pid,
                  nodeid_objectid := to_uint64 (procfs_atoi name).1 })
            else some (.failed ENOENT) := by
  unfold lookup_proc_entry
  simp only [hty, ne_eq, reduceCtorEq, not_false_eq_true, true_and, false_or, if_false, if_true,
    false_and]
  by_cases hend : (procfs_atoi name).2 < name.length
  · simp [hend]
  · by_cases hid : (procfs_atoi name).1 = -1
    · simp [hend, hid]
    · simp only [hend, hid, if_false, not_false_eq_true, if_true, or_self]
      cases hp : proc_find allproc dir_pnp.node_id.nodeid_pid with
      | none => rfl
      | some p =>
        simp only []
        have hacc := lookup_access_iff pmp creds p
        by_cases ha : (suser creds = 0 ∨ procfs_should_access_check pmp = false
            ∨ procfs_check_can_access_process creds p = 0)
        · rw [if_neg (hacc.mpr ha)]
          by_cases hok : (procfs_get_thread_ids_for_task p.task_threads).1 = 0
          · by_cases hm : to_uint64 (procfs_atoi name).1
                ∈ (procfs_get_thread_ids_for_task p.task_threads).2
            · rw [if_pos hok, if_pos (by simpa using hm), if_pos ⟨ha, hok, hm⟩]
            · rw [if_pos hok, if_neg (by simpa using hm), if_neg (fun h => hm h.2.2)]
          · rw [if_neg hok, if_neg (fun h => hok h.2.1)]
        · have hna : ((!(suser creds == 0) && procfs_should_access_check pmp) = true
              ∧ procfs_check_can_access_process creds p ≠ 0) := by
            by_contra hc; exact ha (hacc.mp hc)
          rw [if_pos hna, if_neg (fun h => ha h.1)]

/-- The end pointer of `procfs_atoi` is at the end of the name exactly when
the name consists of digits. -/
theorem procfs_atoi_end (name : String) :
    ¬ ((procfs_atoi name).2 < name.length) ↔ ∀ c ∈ name.data, is_digit c = true := by
  rw [procfs_atoi_eq]
  simp only [leading_digits, String.length]
  constructor
  · intro h
    have hle := (List.takeWhile_prefix is_digit (l := name.data)).length_le
    have heq : (name.data.takeWhile is_digit).length = name.data.length := by omega
    have := List.takeWhile_eq_self_iff.mp
      ((List.takeWhile_prefix is_digit).sublist.eq_of_length heq)
    exact this
  · intro h
    rw [List.takeWhile_eq_self_iff.mpr h]
    omega

/-! ## Numeric names whose value fits an `int` -/

/-- `procfs_atoi` on a non-empty name of digits whose value fits an `int`. -/
theorem procfs_atoi_digits_in_range {name : String} (hne : name.data ≠ [])
    (hdig : ∀ c ∈ name.data, is_digit c = true)
    (hrange : digits_value name.data < 2147483648) :
    procfs_atoi name = (((digits_value name.data : Nat) : Int), name.length) := by
  have hld : leading_digits name = name.data := List.takeWhile_eq_self_iff.mpr hdig
  rw [procfs_atoi_eq, hld, if_neg hne, wrap_int32_of_range (by omega) (by omega)]
  rfl

/-- Names whose digits fit an `int`, looked up in the root of the built layout
(C11 without the overflow): a non-empty name of digits whose value is the pid
of a live process that the caller may access resolves to that process's
directory; every other name that is no child's fixed name is `ENOENT`. -/
theorem lookup_resolve_root_in_int_range (sz : kernel_sizes) (allproc : List proc_t)
    (pmp : procfs_mount_t) (creds : kauth_cred_t) (qv : vnode_t) (qnode : procfsnode_t)
    (cnp : componentname) (hty : qv.v_type = .VDIR) (hfs : qv.v_fsnode = some qnode)
    (hi : qnode.node_structure_node = some 0)
    (hlen : 1 ≤ cnp.cn_namelen) (hdd : cnp.cn_flags_isdotdot = false)
    (hname : ∀ c ∈ (schema_node sz 0).psn_children,
      child_name (procfs_structure sz).nodes c ≠ some (lookup_name cnp))
    (hrange : digits_value (leading_digits (lookup_name cnp)) < 2147483648) :
    (∀ p : proc_t, (lookup_name cnp).data ≠ [] →
        (∀ c ∈ (lookup_name cnp).data, is_digit c = true) →
        proc_find allproc ((digits_value (lookup_name cnp).data : Nat) : Int) = some p →
        (suser creds = 0 ∨ procfs_should_access_check pmp = false
          ∨ procfs_check_can_access_process creds p = 0) →
        lookup_resolve (procfs_structure sz).nodes allproc pmp creds (some qv) cnp
          = .node (some qv.v_addr)
              { nodeid_base_id := (schema_node sz 10).psn_base_node_id,
                nodeid_pid := ((digits_value (lookup_name cnp).data : Nat) : Int),
                nodeid_objectid := qnode.node_id.nodeid_objectid } (some 10))
    ∧ ((¬ ∃ p : proc_t, (lookup_name cnp).data ≠ []
          ∧ (∀ c ∈ (lookup_name cnp).data, is_digit c = true)
          ∧ proc_find allproc ((digits_value (lookup_name cnp).data : Nat) : Int) = some p
          ∧ (suser creds = 0 ∨ procfs_should_access_check pmp = false
            ∨ procfs_check_can_access_process creds p = 0)) →
        lookup_resolve (procfs_structure sz).nodes allproc pmp creds (some qv) cnp
          = .error ENOENT) := by
  have hch : (schema_node sz 0).psn_children = [1, 2, 3, 4] ++ [10] := rfl
  have hdot : lookup_name cnp ≠ "." :=
    child_name_ne (by decide : 0 < 35) hname (c := 1) (by rw [hch]; decide)
  have hmn : (procfs_structure sz).nodes[10]? = some (schema_node sz 10) := by
    rw [structure_nodes_eq]; rfl
  have hmne : lookup_name cnp ≠ (schema_node sz 10).psn_name :=
    child_name_ne (by decide : 0 < 35) hname (by rw [hch]; decide)
  have hres : lookup_resolve (procfs_structure sz).nodes allproc pmp creds (some qv) cnp
      = lookup_after_match qv.v_addr
          (match lookup_proc_entry allproc pmp creds qnode (lookup_name cnp) 10
              (schema_node sz 10) with
            | some r => r
            | none => .no_match) := by
    rw [lookup_resolve_last_child sz allproc pmp creds qv qnode cnp 0 10 [1, 2, 3, 4] hty hfs hi
      (by decide) hch hlen hdd hdot hname, lookup_match_loop_proc hmn hmne (Or.inl rfl)]
    rfl
  rw [lookup_proc_entry_procdir allproc pmp creds qnode (lookup_name cnp) 10 (schema_node sz 10)
    rfl] at hres
  constructor
  · intro p hne hdig hp hacc
    have hld : leading_digits (lookup_name cnp) = (lookup_name cnp).data :=
      List.takeWhile_eq_self_iff.mpr hdig
    have ha := procfs_atoi_digits_in_range hne hdig (by rw [← hld]; exact hrange)
    rw [hres, ha]
    simp only []
    rw [if_neg (by simp), hp]
    simp only []
    rw [if_pos hacc]
    rfl
  · intro hnot
    rw [hres]
    by_cases hc : (procfs_atoi (lookup_name cnp)).2 < (lookup_name cnp).length
        ∨ (procfs_atoi (lookup_name cnp)).1 = -1
    · rw [if_pos hc]; rfl
    · rw [if_neg hc]
      have hdig := (procfs_atoi_end (lookup_name cnp)).mp (fun h => hc (Or.inl h))
      have hld : leading_digits (lookup_name cnp) = (lookup_name cnp).data :=
        List.takeWhile_eq_self_iff.mpr hdig
      have hne : (lookup_name cnp).data ≠ [] := by
        intro he
        apply hc
        right
        rw [procfs_atoi_eq, hld, if_pos he]
      have ha := procfs_atoi_digits_in_range hne hdig (by rw [← hld]; exact hrange)
      rw [ha]
      simp only []
      cases hp : proc_find allproc ((digits_value (lookup_name cnp).data : Nat) : Int) with
      | none => rfl
      | some p =>
        simp only []
        by_cases hacc : (suser creds = 0 ∨ procfs_should_access_check pmp = false
            ∨ procfs_check_can_access_process creds p = 0)
        · exact absurd ⟨p, hne, hdig, hp, hacc⟩ hnot
        · rw [if_neg hacc]; rfl


/-- Names whose digits fit an `int`, looked up in a threads directory of the
built layout (C14 without the overflow): a non-empty name of digits whose
value is a thread id of the owning process, which is live and accessible to
the caller and whose thread ids are obtained, resolves to that thread's
directory; every other name that is no child's fixed name is `ENOENT`. -/
theorem lookup_resolve_threads_in_int_range (sz : kernel_sizes) (allproc : List proc_t)
    (pmp : procfs_mount_t) (creds : kauth_cred_t) (qv : vnode_t) (qnode : procfsnode_t)
    (cnp : componentname) (hty : qv.v_type = .VDIR) (hfs : qv.v_fsnode = some qnode)
    (hi : qnode.node_structure_node = some 19)
    (hlen : 1 ≤ cnp.cn_namelen) (hdd : cnp.cn_flags_isdotdot = false)
    (hname : ∀ c ∈ (schema_node sz 19).psn_children,
      child_name (procfs_structure sz).nodes c ≠ some (lookup_name cnp))
    (hrange : digits_value (leading_digits (lookup_name cnp)) < 2147483648) :
    (∀ p : proc_t, (lookup_name cnp).data ≠ [] →
        (∀ c ∈ (lookup_name cnp).data, is_digit c = true) →
        proc_find allproc qnode.node_id.nodeid_pid = some p →
        (suser creds = 0 ∨ procfs_should_access_check pmp = false
          ∨ procfs_check_can_access_process creds p = 0) →
        (procfs_get_thread_ids_for_task p.task_threads).1 = 0 →
        digits_value (lookup_name cnp).data
          ∈ (procfs_get_thread_ids_for_task p.task_threads).2 →
        lookup_resolve (procfs_structure sz).nodes allproc pmp creds (some qv) cnp
          = .node (some qv.v_addr)
              { nodeid_base_id := (schema_node sz 22).psn_base_node_id,
                nodeid_pid := qnode.node_id.nodeid_pid,
                nodeid_objectid := digits_value (lookup_name cnp).data } (some 22))
    ∧ ((¬ ∃ p : proc_t, (lookup_name cnp).data ≠ []
          ∧ (∀ c ∈ (lookup_name cnp).data, is_digit c = true)
          ∧ proc_find allproc qnode.node_id.nodeid_pid = some p
          ∧ (suser creds = 0 ∨ procfs_should_access_check pmp = false
            ∨ procfs_check_can_access_process creds p = 0)
          ∧ (procfs_get_thread_ids_for_task p.task_threads).1 = 0
          ∧ digits_value (lookup_name cnp).data
              ∈ (procfs_get_thread_ids_for_task p.task_threads).2) →
        lookup_resolve (procfs_structure sz).nodes allproc pmp creds (some qv) cnp
          = .error ENOENT) := by
  have hch : (schema_node sz 19).psn_children = [20, 21] ++ [22] := rfl
  have hdot : lookup_name cnp ≠ "." :=
    child_name_ne (by decide : 19 < 35) hname (c := 20) (by rw [hch]; decide)
  have hmn : (procfs_structure sz).nodes[22]? = some (schema_node sz 22) := by
    rw [structure_nodes_eq]; rfl
  have hmne : lookup_name cnp ≠ (schema_node sz 22).psn_name :=
    child_name_ne (by decide : 19 < 35) hname (by rw [hch]; decide)
  have hres : lookup_resolve (procfs_structure sz).nodes allproc pmp creds (some qv) cnp
      = lookup_after_match qv.v_addr
          (match lookup_proc_entry allproc pmp creds qnode (lookup_name cnp) 22
              (schema_node sz 22) with
            | some r => r
            | none => .no_match) := by
    rw [lookup_resolve_last_child sz allproc pmp creds qv qnode cnp 19 22 [20, 21] hty hfs hi
      (by decide) hch hlen hdd hdot hname,
      lookup_match_loop_proc hmn hmne (Or.inr (Or.inr rfl))]
    rfl
  rw [lookup_proc_entry_threaddir allproc pmp creds qnode (lookup_name cnp) 22
    (schema_node sz 22) rfl] at hres
  constructor
  · intro p hne hdig hp hacc hok hmem
    have hld : leading_digits (lookup_name cnp) = (lookup_name cnp).data :=
      List.takeWhile_eq_self_iff.mpr hdig
    have hr : digits_value (lookup_name cnp).data < 2147483648 := by rw [← hld]; exact hrange
    have ha := procfs_atoi_digits_in_range hne hdig hr
    rw [hres, ha]
    simp only []
    rw [if_neg (by simp), hp]
    simp only []
    rw [to_uint64_of_nat (by omega), if_pos ⟨hacc, hok, hmem⟩]
    rfl
  · intro hnot
    rw [hres]
    by_cases hc : (procfs_atoi (lookup_name cnp)).2 < (lookup_name cnp).length
        ∨ (procfs_atoi (lookup_name cnp)).1 = -1
    · rw [if_pos hc]; rfl
    · rw [if_neg hc]
      have hdig := (procfs_atoi_end (lookup_name cnp)).mp (fun h => hc (Or.inl h))
      have hld : leading_digits (lookup_name cnp) = (lookup_name cnp).data :=
        List.takeWhile_eq_self_iff.mpr hdig
      have hne : (lookup_name cnp).data ≠ [] := by
        intro he
        apply hc
        right
        rw [procfs_atoi_eq, hld, if_pos he]
      have hr : digits_value (lookup_name cnp).data < 2147483648 := by
        rw [← hld]; exact hrange
      have ha := procfs_atoi_digits_in_range hne hdig hr
      rw [ha]
      simp only []
      cases hp : proc_find allproc qnode.node_id.nodeid_pid with
      | none => rfl
      | some p =>
        simp only []
        rw [to_uint64_of_nat (by omega)]
        by_cases hall : (suser creds = 0 ∨ procfs_should_access_check pmp = false
              ∨ procfs_check_can_access_process creds p = 0)
            ∧ (procfs_get_thread_ids_for_task p.task_threads).1 = 0
            ∧ digits_value (lookup_name cnp).data
                ∈ (procfs_get_thread_ids_for_task p.task_threads).2
        · exact absurd ⟨p, hne, hdig, hp, hall.1, hall.2.1, hall.2.2⟩ hnot
        · rw [if_neg hall]; rfl


/-- Names of digits whose value fits an `int`, looked up in an fd directory of
the built layout (C13 without trailing characters and without the overflow):
the number of an open, non-reserved descriptor of the live owning process
resolves to that descriptor's directory; every other such name is `ENOENT`,
and so is every name that does not start with a digit and is no child's fixed
name. -/
theorem lookup_resolve_fd_in_int_range (sz : kernel_sizes) (allproc : List proc_t)
    (pmp : procfs_mount_t) (creds : kauth_cred_t) (qv : vnode_t) (qnode : procfsnode_t)
    (cnp : componentname) (hty : qv.v_type = .VDIR) (hfs : qv.v_fsnode = some qnode)
    (hi : qnode.node_structure_node = some 13)
    (hlen : 1 ≤ cnp.cn_namelen) (hdd : cnp.cn_flags_isdotdot = false)
    (hname : ∀ c ∈ (schema_node sz 13).psn_children,
      child_name (procfs_structure sz).nodes c ≠ some (lookup_name cnp)) :
    (∀ (p : proc_t) (slot : fd_slot), (lookup_name cnp).data ≠ [] →
        (∀ c ∈ (lookup_name cnp).data, is_digit c = true) →
        digits_value (lookup_name cnp).data < 2147483648 →
        proc_find allproc qnode.node_id.nodeid_pid = some p →
        p.fd_ofiles[digits_value (lookup_name cnp).data]? = some slot →
        slot.fp = true → slot.reserved = false →
        lookup_resolve (procfs_structure sz).nodes allproc pmp creds (some qv) cnp
          = .node (some qv.v_addr)
              { nodeid_base_id := (schema_node sz 16).psn_base_node_id,
                nodeid_pid := qnode.node_id.nodeid_pid,
                nodeid_objectid := digits_value (lookup_name cnp).data } (some 16))
    ∧ ((lookup_name cnp).data ≠ [] →
        (∀ c ∈ (lookup_name cnp).data, is_digit c = true) →
        digits_value (lookup_name cnp).data < 2147483648 →
        (¬ ∃ (p : proc_t) (slot : fd_slot),
          proc_find allproc qnode.node_id.nodeid_pid = some p
          ∧ p.fd_ofiles[digits_value (lookup_name cnp).data]? = some slot
          ∧ slot.fp = true ∧ slot.reserved = false) →
        lookup_resolve (procfs_structure sz).nodes allproc pmp creds (some qv) cnp
          = .error ENOENT)
    ∧ (leading_digits (lookup_name cnp) = [] →
        lookup_resolve (procfs_structure sz).nodes allproc pmp creds (some qv) cnp
          = .error ENOENT) := by
  have hch : (schema_node sz 13).psn_children = [14, 15] ++ [16] := rfl
  have hdot : lookup_name cnp ≠ "." :=
    child_name_ne (by decide : 13 < 35) hname (c := 14) (by rw [hch]; decide)
  have hmn : (procfs_structure sz).nodes[16]? = some (schema_node sz 16) := by
    rw [structure_nodes_eq]; rfl
  have hmne : lookup_name cnp ≠ (schema_node sz 16).psn_name :=
    child_name_ne (by decide : 13 < 35) hname (by rw [hch]; decide)
  have hres : lookup_resolve (procfs_structure sz).nodes allproc pmp creds (some qv) cnp
      = lookup_after_match qv.v_addr
          (lookup_fd_entry allproc qnode (lookup_name cnp) 16 (schema_node sz 16)) := by
    rw [lookup_resolve_last_child sz allproc pmp creds qv qnode cnp 13 16 [14, 15] hty hfs hi
      (by decide) hch hlen hdd hdot hname, lookup_match_loop_fd hmn hmne rfl]
  refine ⟨?_, ?_, ?_⟩
  · intro p slot hne hdig hr hp hslot hfp hrs
    have ha := procfs_atoi_digits_in_range hne hdig hr
    have hlt : digits_value (lookup_name cnp).data < p.fd_ofiles.length :=
      (List.getElem?_eq_some.mp hslot).1
    rw [hres]
    unfold lookup_fd_entry
    simp only [ha, hp]
    rw [if_pos (by omega), if_pos (by omega), if_neg (by omega)]
    simp only [Int.toNat_ofNat, hslot, Option.map_some', hfp, hrs, Bool.not_false,
      Bool.and_self]
    rw [to_uint64_of_nat (by omega)]
    rfl
  · intro hne hdig hr hnot
    have ha := procfs_atoi_digits_in_range hne hdig hr
    rw [hres]
    unfold lookup_fd_entry
    simp only [ha]
    rw [if_pos (by omega)]
    cases hp : proc_find allproc qnode.node_id.nodeid_pid with
    | none => rfl
    | some p =>
      simp only []
      by_cases hlt : ((digits_value (lookup_name cnp).data : Nat) : Int)
          < (p.fd_ofiles.length : Int)
      · rw [if_pos hlt, if_neg (by omega)]
        have hlt2 : digits_value (lookup_name cnp).data < p.fd_ofiles.length := by omega
        have hget : p.fd_ofiles[digits_value (lookup_name cnp).data]?
            = some (p.fd_ofiles[digits_value (lookup_name cnp).data]) :=
          List.getElem?_eq_getElem hlt2
        simp only [Int.toNat_ofNat, hget, Option.map_some']
        cases hv : ((p.fd_ofiles[digits_value (lookup_name cnp).data]).fp
            && !(p.fd_ofiles[digits_value (lookup_name cnp).data]).reserved) with
        | false => rfl
        | true =>
          exfalso
          simp only [Bool.and_eq_true, Bool.not_eq_true'] at hv
          exact hnot ⟨p, _, hp, hget, hv.1, hv.2⟩
      · rw [if_neg hlt]; rfl
  · intro hld
    have ha : (procfs_atoi (lookup_name cnp)).1 = -1 := by
      rw [procfs_atoi_eq, if_pos hld]
    rw [hres]
    unfold lookup_fd_entry
    simp only [ha]
    rfl

/-! ## Ownership flags and the "." and ".." children in the built layout -/

/-- The node at index `k` descends from the node at index `a`: `a` is reached
from `k` by following `psn_parent` one or more times. -/
inductive descends (nodes : List procfs_structure_node_t) : Nat → Nat → Prop where
  | parent {k a : Nat} {n : procfs_structure_node_t} :
      nodes[k]? = some n → n.psn_parent = some a → descends nodes k a
  | step {k m a : Nat} {n : procfs_structure_node_t} :
      nodes[k]? = some n → n.psn_parent = some m → descends nodes m a → descends nodes k a

/-- The node that `add_node` allocates: the flags handed in, united with the
ownership flags of the parent. -/
theorem add_node_flags (st : structure_state) (pp : Nat) (pn : procfs_structure_node_t)
    (name : String) (type : procfs_structure_node_type_t) (node_id flags size : Nat)
    (node_size_fn : Option procfs_node_size_fn) (node_read_data_fn : Option procfs_read_data_fn)
    (hpn : st.nodes[pp]? = some pn) :
    ((add_node st (some pp) name type node_id flags size node_size_fn
        node_read_data_fn).1.nodes[(add_node st (some pp) name type node_id flags size
          node_size_fn node_read_data_fn).2]?).map (fun n => (n.psn_flags, n.psn_parent))
      = some (Nat.lor flags (Nat.land pn.psn_flags (Nat.lor PSN_FLAG_PROCESS PSN_FLAG_THREAD)),
          some pp) := by
  unfold add_node
  simp only [hpn]
  rw [List.getElem?_append_right (by simp)]
  simp

/-- Parents and flags in the built layout, on the table with the size tags:
only the root has no parent, and a node has each ownership flag of its
parent. -/
theorem tags_flags_inherited :
    ∀ k, k < 35 →
      (match (schema_node size_tags k).psn_parent with
       | some pp => decide (pp < 35
          ∧ Nat.land (schema_node size_tags k).psn_flags
              (Nat.land (schema_node size_tags pp).psn_flags
                (Nat.lor PSN_FLAG_PROCESS PSN_FLAG_THREAD))
            = Nat.land (schema_node size_tags pp).psn_flags
                (Nat.lor PSN_FLAG_PROCESS PSN_FLAG_THREAD)
          ∧ (Nat.land (schema_node size_tags pp).psn_flags PSN_FLAG_PROCESS ≠ 0 →
              Nat.land (schema_node size_tags k).psn_flags PSN_FLAG_PROCESS ≠ 0)
          ∧ (Nat.land (schema_node size_tags pp).psn_flags PSN_FLAG_THREAD ≠ 0 →
              Nat.land (schema_node size_tags k).psn_flags PSN_FLAG_THREAD ≠ 0))
       | none => decide (k = 0)) = true := by
  decide

/-- A node of the built layout with a parent: the parent is a node of the
layout, and each ownership flag of the parent is a flag of the node. -/
theorem schema_flags_inherited {sz : kernel_sizes} {k pp : Nat} {n : procfs_structure_node_t}
    (hk : (procfs_structure sz).nodes[k]? = some n) (hp : n.psn_parent = some pp) :
    (procfs_structure sz).nodes[pp]? = some (schema_node sz pp)
    ∧ Nat.land n.psn_flags
          (Nat.land (schema_node sz pp).psn_flags (Nat.lor PSN_FLAG_PROCESS PSN_FLAG_THREAD))
        = Nat.land (schema_node sz pp).psn_flags (Nat.lor PSN_FLAG_PROCESS PSN_FLAG_THREAD)
    ∧ (Nat.land (schema_node sz pp).psn_flags PSN_FLAG_PROCESS ≠ 0 →
        Nat.land n.psn_flags PSN_FLAG_PROCESS ≠ 0)
    ∧ (Nat.land (schema_node sz pp).psn_flags PSN_FLAG_THREAD ≠ 0 →
        Nat.land n.psn_flags PSN_FLAG_THREAD ≠ 0) := by
  obtain ⟨hlt, rfl⟩ := schema_node_of hk
  have h := tags_flags_inherited k hlt
  rw [schema_parent_eq] at hp
  rw [hp] at h
  simp only [decide_eq_true_eq] at h
  rw [schema_flags_eq sz k, schema_flags_eq sz pp, structure_nodes_eq]
  exact ⟨schema_getElem sz h.1, h.2.1, h.2.2.1, h.2.2.2⟩

/-- Ownership flags go down along `descends` in the built layout. -/
theorem descends_flags {sz : kernel_sizes} {k a : Nat}
    (h : descends (procfs_structure sz).nodes k a) :
    ∀ (n an : procfs_structure_node_t), (procfs_structure sz).nodes[k]? = some n →
      (procfs_structure sz).nodes[a]? = some an →
      (Nat.land an.psn_flags PSN_FLAG_PROCESS ≠ 0 → Nat.land n.psn_flags PSN_FLAG_PROCESS ≠ 0)
      ∧ (Nat.land an.psn_flags PSN_FLAG_THREAD ≠ 0 →
          Nat.land n.psn_flags PSN_FLAG_THREAD ≠ 0) := by
  induction h with
  | parent hk hp =>
    intro n an hn han
    rw [hk] at hn; cases hn
    obtain ⟨ha, -, h1, h2⟩ := schema_flags_inherited hk hp
    rw [ha] at han; cases han
    exact ⟨h1, h2⟩
  | step hk hp _ ih =>
    intro n an hn han
    rw [hk] at hn; cases hn
    obtain ⟨hm, -, h1, h2⟩ := schema_flags_inherited hk hp
    obtain ⟨i1, i2⟩ := ih _ an hm han
    exact ⟨fun h => h1 (i1 h), fun h => h2 (i2 h)⟩

/-- The first two children in the built layout, on the table with the size
tags. -/
theorem tags_dot_children :
    ∀ k, k < 35 →
      (if (schema_node size_tags k).psn_node_type = PROCFS_FILE
          ∨ (schema_node size_tags k).psn_node_type = PROCFS_CURPROC
          ∨ (schema_node size_tags k).psn_node_type = PROCFS_DIR_THIS
          ∨ (schema_node size_tags k).psn_node_type = PROCFS_DIR_PARENT then
        decide ((schema_node size_tags k).psn_children = [])
      else
        match (schema_node size_tags k).psn_children with
        | c1 :: c2 :: _ => decide (c1 < 35 ∧ c2 < 35
            ∧ (schema_node size_tags c1).psn_node_type = PROCFS_DIR_THIS
            ∧ (schema_node size_tags c1).psn_name = "."
            ∧ (schema_node size_tags c2).psn_node_type = PROCFS_DIR_PARENT
            ∧ (schema_node size_tags c2).psn_name = "..")
        | _ => false) = true := by
  decide

/-! ## The fixed names of the expansion markers -/

/-- The fixed names of the expansion markers, on the table with the size
tags. -/
theorem tags_marker_names :
    ∀ k, k < 35 → is_expansion_type (schema_node size_tags k).psn_node_type = true →
      ((schema_node size_tags k).psn_node_type = PROCFS_PROCDIR
          ∧ (schema_node size_tags k).psn_name = "__Process__")
      ∨ ((schema_node size_tags k).psn_node_type = PROCFS_PROCNAME_DIR
          ∧ (schema_node size_tags k).psn_name = "__Process_N__")
      ∨ ((schema_node size_tags k).psn_node_type = PROCFS_THREADDIR
          ∧ (schema_node size_tags k).psn_name = "__Thread__")
      ∨ ((schema_node size_tags k).psn_node_type = PROCFS_FD_DIR
          ∧ (schema_node size_tags k).psn_name = "__File__") := by
  decide

/-- Each expansion type has a marker in the built layout. -/
theorem tags_markers_exist :
    (schema_node size_tags 10).psn_node_type = PROCFS_PROCDIR
    ∧ (schema_node size_tags 7).psn_node_type = PROCFS_PROCNAME_DIR
    ∧ (schema_node size_tags 22).psn_node_type = PROCFS_THREADDIR
    ∧ (schema_node size_tags 16).psn_node_type = PROCFS_FD_DIR := by
  decide

/-! ## Lemmas on the packed size of a directory entry -/

/-- The mask `~3` of a `size_t` clears the two lowest bits. -/
theorem land_mask_eq {x : Nat} (h : x < 18446744073709551616) :
    Nat.land x 18446744073709551612 = x / 4 * 4 := by
  have hm : (18446744073709551612 : Nat) = (2 ^ 62 - 1) <<< 2 := by decide
  have hx : x / 4 * 4 = (x >>> 2) <<< 2 := by
    rw [Nat.shiftRight_eq_div_pow, Nat.shiftLeft_eq]
  show x &&& 18446744073709551612 = x / 4 * 4
  rw [hx, hm]
  apply Nat.eq_of_testBit_eq
  intro i
  rw [Nat.testBit_land, Nat.testBit_shiftLeft, Nat.testBit_shiftLeft, Nat.testBit_shiftRight,
    Nat.testBit_two_pow_sub_one]
  by_cases h2 : 2 ≤ i
  · have e : 2 + (i - 2) = i := by omega
    rw [e]
    by_cases h64 : i < 64
    · have : i - 2 < 62 := by omega
      simp [h2, this]
    · have hlt : x < 2 ^ i := lt_of_lt_of_le h (by
        have : (18446744073709551616 : Nat) = 2 ^ 64 := by decide
        rw [this]
        exact Nat.pow_le_pow_right (by decide) (by omega))
      simp [Nat.testBit_eq_false_of_lt hlt]
  · simp [h2]

/-- The packed size of a directory entry as a function of the length of the
name. -/
theorem calc_dirent_size_eq (H : Nat) (name : String)
    (h : name.length + 4 < 18446744073709551616) :
    procfs_calc_dirent_size H name = ((H + 4 * ((name.length + 4) / 4) : Nat) : Int) := by
  unfold procfs_calc_dirent_size
  rw [show name.length + 1 + 3 = name.length + 4 from rfl, land_mask_eq h, Nat.mul_comm]

/-! ## Lemmas on `procfs_copy_data` and the bytes of an object -/

/-- `uiomove` of nothing leaves the uio as it is. -/
theorem uiomove_zero {α : Type} (data : List α) (start : Int) (uio : uio_t) {n : Int}
    (h : min n uio.uio_resid ≤ 0) :
    uiomove data start n uio = { error := 0, moved := [], uio := uio } := by
  unfold uiomove
  have hc : (min n uio.uio_resid).toNat = 0 := Int.toNat_eq_zero.mpr h
  simp [hc]

/-- `procfs_copy_data` at an offset at or past the end of the data, as long as
the difference of `data_len` and the offset fits an `int`: nothing is moved. -/
theorem procfs_copy_data_past_end {α : Type} (data : List α) (data_len : Int) (uio : uio_t)
    (h1 : data_len ≤ uio.uio_offset) (h2 : -2147483648 ≤ data_len - uio.uio_offset) :
    procfs_copy_data data data_len uio = { error := 0, moved := [], uio := uio } := by
  unfold procfs_copy_data
  have hw : wrap_int32 (data_len - uio.uio_offset) = data_len - uio.uio_offset :=
    wrap_int32_of_range h2 (by omega)
  simp only [hw]
  split
  · exact uiomove_zero data _ uio (by omega)
  · rfl

/-- `uiomove` from inside a buffer: the elements of the buffer from `start`
on, as many as asked for and as the caller has room for. -/
theorem uiomove_inside {α : Type} (data : List α) (start n r : Nat) (o : Int)
    (h : start + n ≤ data.length) :
    uiomove data start n { uio_offset := o, uio_resid := r }
      = { error := 0,
          moved := ((data.drop start).take (min n r)).map some,
          uio := { uio_offset := o + (min n r : Nat), uio_resid := (r : Int) - (min n r : Nat) } } := by
  unfold uiomove
  have hc : (min (n : Int) (r : Int)).toNat = min n r := by omega
  simp only [hc]
  congr 1
  apply List.ext_getElem?
  intro k
  by_cases hk : k < min n r
  · have hk2 : k < n := lt_of_lt_of_le hk (Nat.min_le_left _ _)
    have hb : buffer_at data ((start : Int) + (k : Int)) = data[start + k]? := by
      unfold buffer_at
      rw [if_pos (by omega)]
      congr 1
    rw [List.getElem?_map, List.getElem?_range hk, Option.map_some', hb,
      List.getElem?_map, List.getElem?_take_of_lt hk, List.getElem?_drop,
      List.getElem?_eq_getElem (by omega)]
    rfl
  · rw [List.getElem?_eq_none (by simp only [List.length_map, List.length_range]; omega),
      List.getElem?_eq_none]
    simp only [List.length_map, List.length_take, List.length_drop]
    omega

/-- `procfs_copy_data` at an offset inside the data. -/
theorem procfs_copy_data_inside {α : Type} (data : List α) (o r : Nat)
    (hL : data.length ≤ 2147483647) (ho : o ≤ data.length) :
    procfs_copy_data data data.length { uio_offset := o, uio_resid := r }
      = { error := 0,
          moved := ((data.drop o).take (min (data.length - o) r)).map some,
          uio := { uio_offset := (o : Int) + (min (data.length - o) r : Nat),
                   uio_resid := (r : Int) - (min (data.length - o) r : Nat) } } := by
  unfold procfs_copy_data
  have hw : wrap_int32 ((data.length : Int) - (o : Int)) = ((data.length - o : Nat) : Int) := by
    rw [wrap_int32_of_range (by omega) (by omega)]
    omega
  simp only [hw]
  rw [if_pos (by omega)]
  exact uiomove_inside data o (data.length - o) r o (by omega)

/-- Division and remainder by a product, in two steps. -/
theorem int_ediv_emod_mul (a : Int) {b c : Int} (hb : 0 < b) (hc : 0 < c) :
    a / (b * c) = a / b / c ∧ a % (b * c) = a % b + b * (a / b % c) := by
  have h1 := Int.emod_add_ediv a b
  have h2 := Int.emod_add_ediv (a / b) c
  have n1 := Int.emod_nonneg a (ne_of_gt hb)
  have n2 := Int.emod_nonneg (a / b) (ne_of_gt hc)
  have l1 := Int.emod_lt_of_pos a hb
  have l2 := Int.emod_lt_of_pos (a / b) hc
  apply (Int.ediv_emod_unique (Int.mul_pos hb hc)).2
  refine ⟨by linear_combination h1 + b * h2, ?_, ?_⟩
  · have := mul_nonneg (le_of_lt hb) n2
    omega
  · have h3 : b * (a / b % c) ≤ b * (c - 1) :=
      Int.mul_le_mul_of_nonneg_left (by omega) (le_of_lt hb)
    have h4 : b * (c - 1) = b * c - b := by ring
    omega

/-- The number that the bytes of an object denote, lowest address first. -/
def object_value (bytes : List Nat) : Nat :=
  bytes.foldr (fun b v => b + 256 * v) 0

theorem object_bytes_length (size : Nat) (x : Int) : (object_bytes size x).length = size := by
  simp [object_bytes]

theorem object_bytes_succ (size : Nat) (x : Int) :
    object_bytes (size + 1) x = (x % 256).toNat :: object_bytes size (x / 256) := by
  unfold object_bytes
  rw [List.range_succ_eq_map, List.map_cons, List.map_map]
  congr 1
  · simp
  · apply List.map_congr_left
    intro k _
    simp only [Function.comp]
    rw [pow_succ, mul_comm,
      (int_ediv_emod_mul x (by norm_num : (0 : Int) < 256) (by positivity : (0 : Int) < 256 ^ k)).1]

/-- The bytes of an object of `size` bytes that holds `x` denote `x` modulo
`256 ^ size`: they are the two's complement pattern of `x`. -/
theorem object_value_bytes (size : Nat) : ∀ x : Int,
    ((object_value (object_bytes size x) : Nat) : Int) = x % 256 ^ size := by
  induction size with
  | zero => intro x; simp [object_bytes, object_value, Int.emod_one]
  | succ size ih =>
    intro x
    rw [object_bytes_succ]
    show (((x % 256).toNat + 256 * object_value (object_bytes size (x / 256)) : Nat) : Int) = _
    push_cast
    rw [ih (x / 256), Int.toNat_of_nonneg (Int.emod_nonneg _ (by norm_num)), pow_succ,
      mul_comm (256 ^ size : Int) 256,
      (int_ediv_emod_mul x (by norm_num : (0 : Int) < 256)
        (by positivity : (0 : Int) < 256 ^ size)).2]

/-! ## Lemmas on the files that hold a `pid_t` -/

/-- `procfs_copy_data` of a whole buffer from offset 0 into a caller's buffer
that has room for it. -/
theorem procfs_copy_data_whole {α : Type} (data : List α) (r : Nat)
    (hL : data.length ≤ 2147483647) (hr : data.length ≤ r) :
    procfs_copy_data data (wrap_int32 data.length) { uio_offset := 0, uio_resid := r }
      = { error := 0, moved := data.map some,
          uio := { uio_offset := data.length, uio_resid := (r : Int) - data.length } } := by
  rw [wrap_int32_of_range (by omega) (by omega)]
  have h := procfs_copy_data_inside data 0 r hL (Nat.zero_le _)
  have hm : min (data.length - 0) r = data.length := by omega
  rw [hm] at h
  simp only [List.drop_zero, List.take_length, Nat.cast_zero, zero_add] at h
  exact h

/-- `procfs_copy_data` at the offset that a read of the whole buffer leaves. -/
theorem procfs_copy_data_at_end {α : Type} (data : List α) (data_len : Nat) (resid : Int)
    (hL : data_len ≤ 2147483647) :
    procfs_copy_data data (wrap_int32 data_len) { uio_offset := data_len, uio_resid := resid }
      = { error := 0, moved := [], uio := { uio_offset := data_len, uio_resid := resid } } := by
  rw [wrap_int32_of_range (by omega) (by omega)]
  exact procfs_copy_data_past_end data _ _ (le_refl _) (by simp)

/-- A read of a `pid_t` object from offset 0 with room for it, and the read
that follows. -/
theorem procfs_copy_data_pid (sz : kernel_sizes) (x : Int) (r : Nat)
    (hs : sz.sizeof_pid_t ≤ 2147483647) (hr : sz.sizeof_pid_t ≤ r) :
    procfs_copy_data (object_bytes sz.sizeof_pid_t x) (wrap_int32 sz.sizeof_pid_t)
        { uio_offset := 0, uio_resid := r }
      = { error := 0, moved := (object_bytes sz.sizeof_pid_t x).map some,
          uio := { uio_offset := sz.sizeof_pid_t, uio_resid := (r : Int) - sz.sizeof_pid_t } }
    ∧ procfs_copy_data (object_bytes sz.sizeof_pid_t x) (wrap_int32 sz.sizeof_pid_t)
        { uio_offset := sz.sizeof_pid_t, uio_resid := (r : Int) - sz.sizeof_pid_t }
      = { error := 0, moved := [],
          uio := { uio_offset := sz.sizeof_pid_t, uio_resid := (r : Int) - sz.sizeof_pid_t } } := by
  have hlen := object_bytes_length sz.sizeof_pid_t x
  constructor
  · have h := procfs_copy_data_whole (object_bytes sz.sizeof_pid_t x) r (by rw [hlen]; exact hs)
      (by rw [hlen]; exact hr)
    rw [hlen] at h
    exact h
  · exact procfs_copy_data_at_end _ _ _ hs

/-- The files of a process directory that hold a `pid_t`, in the built
layout: names, read functions, declared sizes and parent. -/
theorem schema_pid_files (sz : kernel_sizes) :
    (procfs_structure sz).nodes[10]? = some (schema_node sz 10)
    ∧ (schema_node sz 10).psn_node_type = PROCFS_PROCDIR
    ∧ (∀ k name fn, (k, name, fn) ∈
          [(25, "pid", procfs_read_data_fn.procfs_read_pid_data),
           (26, "ppid", procfs_read_data_fn.procfs_read_ppid_data),
           (27, "pgid", procfs_read_data_fn.procfs_read_pgid_data),
           (28, "sid", procfs_read_data_fn.procfs_read_sid_data)] →
        (procfs_structure sz).nodes[k]? = some (schema_node sz k)
        ∧ (schema_node sz k).psn_node_type = PROCFS_FILE
        ∧ (schema_node sz k).psn_name = name
        ∧ (schema_node sz k).psn_parent = some 10
        ∧ (schema_node sz k).psn_read_data_fn = some fn
        ∧ (schema_node sz k).psn_node_size = sz.sizeof_pid_t) := by
  refine ⟨by rw [structure_nodes_eq]; exact schema_getElem sz (by decide), rfl, ?_⟩
  intro k name fn h
  simp only [List.mem_cons, Prod.mk.injEq, List.mem_singleton, List.not_mem_nil, or_false] at h
  rcases h with ⟨rfl, rfl, rfl⟩ | ⟨rfl, rfl, rfl⟩ | ⟨rfl, rfl, rfl⟩ | ⟨rfl, rfl, rfl⟩ <;>
    exact ⟨by rw [structure_nodes_eq]; exact schema_getElem sz (by decide), rfl, rfl, rfl, rfl, rfl⟩

/-! ## Lemmas on `procfs_vnop_getattr` -/

/-- In the built layout `procfs_get_node_size_attr` has a value for every node
whose structure node is one of the layout. -/
theorem size_attr_isSome (sz : kernel_sizes) (allproc : List proc_t) (pnp : procfsnode_t)
    (creds : kauth_cred_t) (k : Nat) (hi : pnp.node_structure_node = some k) (hk : k < 35) :
    (procfs_get_node_size_attr (procfs_structure sz).nodes allproc pnp creds).isSome = true := by
  rw [structure_nodes_eq]
  unfold procfs_get_node_size_attr
  rw [hi]
  interval_cases k <;> rfl

/-- The structure node of a node, as an index and a node of the list. -/
theorem structure_node_index {nodes : List procfs_structure_node_t} {pnp : procfsnode_t}
    {snode : procfs_structure_node_t}
    (hs : pnp.node_structure_node.bind (fun i => nodes[i]?) = some snode) :
    ∃ k, pnp.node_structure_node = some k ∧ nodes[k]? = some snode := by
  cases h : pnp.node_structure_node with
  | none => rw [h] at hs; simp at hs
  | some k => rw [h] at hs; exact ⟨k, rfl, by simpa using hs⟩

/-- The modes that `procfs_vnop_getattr` chooses from, in octal. -/
theorem mode_values :
    READ_EXECUTE_ALL = 0o555 ∧ ALL_ACCESS_ALL = 0o777
    ∧ RWX_OWNER_RX_ALL = 0o755 ∧ ALL_ACCESS_OWNER_GROUP_ONLY = 0o770
    ∧ Nat.land READ_EXECUTE_ALL RWX_OWNER_RX_ALL = 0o555
    ∧ Nat.land READ_EXECUTE_ALL ALL_ACCESS_OWNER_GROUP_ONLY = 0o550 := by
  decide

/-! ## Lemmas on `procfs_vnop_readlink` -/

/-- What a `procfs_vnop_readlink` call returns that hands the string `target`
to a caller with room for `room` characters: error 0, the first
`min(length, room)` characters of `target` (all of them when there is room),
and the uio moved by that count. -/
def link_result (target : String) (o : Int) (room : Nat) : uiomove_result Char :=
  { error := 0,
    moved := (target.data.take (min target.length room)).map some,
    uio := { uio_offset := o + (min target.length room : Nat),
             uio_resid := (room : Int) - (min target.length room : Nat) } }

/-- `uiomove` of a whole string buffer. -/
theorem uiomove_string (s : String) (o : Int) (room : Nat) :
    uiomove s.data 0 s.length { uio_offset := o, uio_resid := room } = link_result s o room := by
  have h := uiomove_inside s.data 0 s.length room o (by show 0 + s.data.length ≤ s.data.length; omega)
  simp only [Nat.cast_zero, List.drop_zero] at h
  exact h

/-- `procfs_vnop_readlink` on a `PROCFS_CURPROC` node. -/
theorem readlink_curproc {nodes : List procfs_structure_node_t} {vp : vnode_t}
    {pnp : procfsnode_t} {snode : procfs_structure_node_t} (p : proc_t) (o : Int) (room : Nat)
    (hv : vp.v_fsnode = some pnp)
    (hs : pnp.node_structure_node.bind (fun i => nodes[i]?) = some snode)
    (ht : snode.psn_node_type = PROCFS_CURPROC) :
    procfs_vnop_readlink nodes (some p) vp { uio_offset := o, uio_resid := room }
      = some (link_result (toString p.p_pid) o room) := by
  unfold procfs_vnop_readlink
  simp only [hv, hs, ht, if_true]
  rw [uiomove_string]

/-- `procfs_vnop_readlink` on a `PROCFS_PROCNAME_DIR` node. -/
theorem readlink_procname {nodes : List procfs_structure_node_t} {vp : vnode_t}
    {pnp : procfsnode_t} {snode : procfs_structure_node_t} (current_proc : Option proc_t)
    (o : Int) (room : Nat) (hv : vp.v_fsnode = some pnp)
    (hs : pnp.node_structure_node.bind (fun i => nodes[i]?) = some snode)
    (ht : snode.psn_node_type = PROCFS_PROCNAME_DIR) :
    procfs_vnop_readlink nodes current_proc vp { uio_offset := o, uio_resid := room }
      = some (link_result ("../" ++ toString pnp.node_id.nodeid_pid) o room) := by
  unfold procfs_vnop_readlink
  simp only [hv, hs, ht, if_true, reduceCtorEq, if_false]
  rw [uiomove_string]

/-- `procfs_vnop_readlink` on a node that is no symbolic link. -/
theorem readlink_other {nodes : List procfs_structure_node_t} {vp : vnode_t}
    {pnp : procfsnode_t} {snode : procfs_structure_node_t} (current_proc : Option proc_t)
    (uio : uio_t) (hv : vp.v_fsnode = some pnp)
    (hs : pnp.node_structure_node.bind (fun i => nodes[i]?) = some snode)
    (h1 : snode.psn_node_type ≠ PROCFS_CURPROC) (h2 : snode.psn_node_type ≠ PROCFS_PROCNAME_DIR) :
    procfs_vnop_readlink nodes current_proc vp uio
      = some { error := EINVAL, moved := [], uio := uio } := by
  unfold procfs_vnop_readlink
  simp only [hv, hs, h1, h2, if_false]

/-- A name that is no child's fixed name and that the lookup resolves in the
byname directory of the built layout: the result is a node of the
process-by-name marker (node 7) whose pid is that of a process in the registry,
and the name is the one `procfs_construct_process_dir_name` builds for that
process. -/
theorem lookup_byname_resolved (sz : kernel_sizes) (allproc : List proc_t)
    (pmp : procfs_mount_t) (creds : kauth_cred_t) (dv : vnode_t) (dir_pnp : procfsnode_t)
    (cnp : componentname) (i : Nat) (sn : procfs_structure_node_t)
    (hty : dv.v_type = .VDIR) (hfs : dv.v_fsnode = some dir_pnp)
    (hi : dir_pnp.node_structure_node = some i)
    (hsn : (procfs_structure sz).nodes[i]? = some sn)
    (hdir : sn.psn_node_type = PROCFS_DIR ∧ sn.psn_name = "byname")
    (hlen : 1 ≤ cnp.cn_namelen) (hdd : cnp.cn_flags_isdotdot = false)
    (hname : ∀ c ∈ sn.psn_children,
      child_name (procfs_structure sz).nodes c ≠ some (lookup_name cnp))
    {parent : Option Nat} {id : procfsnode_id_t} {m : Option Nat}
    (hres : lookup_resolve (procfs_structure sz).nodes allproc pmp creds (some dv) cnp
      = .node parent id m) :
    m = some 7 ∧ ∃ p : proc_t, proc_find allproc id.nodeid_pid = some p
      ∧ lookup_name cnp = procfs_construct_process_dir_name p := by
  have h4 := (schema_plain_dir_index hsn hdir.1).1 hdir.2
  subst h4
  obtain ⟨hlt, hsn_eq⟩ := schema_node_of hsn
  subst hsn_eq
  have hch : (schema_node sz 4).psn_children = [5, 6] ++ [7] := rfl
  have hdot : lookup_name cnp ≠ "." :=
    child_name_ne hlt hname (c := 5) (by rw [hch]; decide)
  have hmn : (procfs_structure sz).nodes[7]? = some (schema_node sz 7) := by
    rw [structure_nodes_eq]; rfl
  have hmne : lookup_name cnp ≠ (schema_node sz 7).psn_name :=
    child_name_ne hlt hname (by rw [hch]; decide)
  have hres0 : lookup_resolve (procfs_structure sz).nodes allproc pmp creds (some dv) cnp
      = lookup_after_match dv.v_addr
          (match lookup_proc_entry allproc pmp creds dir_pnp (lookup_name cnp) 7
              (schema_node sz 7) with
            | some r => r
            | none => .no_match) := by
    rw [lookup_resolve_last_child sz allproc pmp creds dv dir_pnp cnp 4 7 [5, 6] hty hfs hi hlt
      hch hlen hdd hdot hname, lookup_match_loop_proc hmn hmne (Or.inr (Or.inl rfl))]
    rfl
  rw [lookup_proc_entry_procname allproc pmp creds dir_pnp (lookup_name cnp) 7 (schema_node sz 7)
    rfl] at hres0
  rw [hres0] at hres
  by_cases hid : (procfs_atoi (lookup_name cnp)).1 = -1
  · rw [if_pos hid] at hres
    cases hres
  · rw [if_neg hid] at hres
    cases hf : proc_find allproc (procfs_atoi (lookup_name cnp)).1 with
    | none => rw [hf] at hres; cases hres
    | some p =>
      rw [hf] at hres
      simp only [] at hres
      by_cases hc : lookup_name cnp = procfs_construct_process_dir_name p
          ∧ (suser creds = 0 ∨ procfs_should_access_check pmp = false
            ∨ procfs_check_can_access_process creds p = 0)
      · rw [if_pos hc] at hres
        simp only [lookup_after_match, lookup_target.node.injEq] at hres
        obtain ⟨-, hidq, hm⟩ := hres
        refine ⟨hm.symm, p, ?_, hc.1⟩
        rw [← hidq]
        exact hf
      · rw [if_neg hc] at hres
        cases hres

/-- The link target of a process-by-name node, for the name built for a
process with a non-negative pid: "../" and the leading digits of the name. -/
theorem link_target_of_name {p : proc_t} (h0 : 0 ≤ p.p_pid) :
    "../" ++ toString p.p_pid
      = "../" ++ String.mk (leading_digits (procfs_construct_process_dir_name p)) := by
  rw [construct_name_eq h0, leading_digits_toString _ _ (space_then_no_digit _),
    toString_int_toNat h0]

/-! ## Lemmas on the end pointer of `procfs_atoi` and on file ids -/

/-- The character after the maximal leading run of digits, when there is one,
is no digit. -/
theorem after_leading_digits (s : String) :
    (leading_digits s).length ≤ s.length
    ∧ s.data.take (leading_digits s).length = leading_digits s
    ∧ ∀ c : Char, s.data[(leading_digits s).length]? = some c → is_digit c = false := by
  unfold leading_digits
  have hsplit := List.takeWhile_append_dropWhile is_digit s.data
  have hlen : (s.data.takeWhile is_digit).length ≤ s.data.length :=
    (List.takeWhile_prefix is_digit (l := s.data)).length_le
  refine ⟨hlen, ?_, ?_⟩
  · have h : s.data.take (s.data.takeWhile is_digit).length
        = (s.data.takeWhile is_digit ++ s.data.dropWhile is_digit).take
            (s.data.takeWhile is_digit).length := by rw [hsplit]
    rw [h, List.take_left']
    rfl
  · intro c hc
    have h1 : s.data[(s.data.takeWhile is_digit).length]?
        = (s.data.dropWhile is_digit).head? := by
      have h : s.data[(s.data.takeWhile is_digit).length]?
          = (s.data.takeWhile is_digit ++ s.data.dropWhile is_digit)[
              (s.data.takeWhile is_digit).length]? := by rw [hsplit]
      rw [h, List.getElem?_append_right (le_refl _), Nat.sub_self, List.head?_eq_getElem?]
    rw [h1] at hc
    have h2 := List.head?_dropWhile_not is_digit s.data
    rw [hc] at h2
    simpa using h2

/-- The file id as a sum: the base id in bits 0 to 7, the pid from bit 8 on,
the object id from bit 24 on, for a pid below 2^16. -/
theorem get_fileid_sum {pid : Int} {objectid base_id : Nat} (hb : base_id < 256)
    (hp : 0 ≤ pid) (hp2 : pid < 65536) (ho : objectid < 1099511627776) :
    procfs_get_fileid pid objectid base_id
      = base_id + 256 * pid.toNat + 16777216 * objectid := by
  obtain ⟨n, rfl⟩ := Int.eq_ofNat_of_zero_le hp
  have hn : n < 65536 := by omega
  unfold procfs_get_fileid
  have hne : ((n : Nat) : Int) ≠ PRNODE_NO_PID := by unfold PRNODE_NO_PID; omega
  simp only [hne, ne_eq, not_false_eq_true, if_true]
  have hw : to_uint64 (wrap_int32 ((n : Int) * 256)) = 256 * n := by
    rw [wrap_int32_of_range (by omega) (by omega)]
    have : (n : Int) * 256 = ((256 * n : Nat) : Int) := by push_cast; ring
    rw [this, to_uint64_of_nat (by omega)]
  have hm : objectid * 16777216 % 18446744073709551616 = 16777216 * objectid := by
    rw [Nat.mod_eq_of_lt (by omega), Nat.mul_comm]
  rw [hw, hm]
  have h1 : Nat.lor base_id (256 * n) = 256 * n + base_id := by
    have := Nat.mul_add_lt_is_or (i := 8) (b := base_id) (by simpa using hb) n
    show base_id ||| 256 * n = _
    rw [Nat.lor_comm]
    simpa using this.symm
  rw [h1]
  have h2 : Nat.lor (256 * n + base_id) (16777216 * objectid)
      = 16777216 * objectid + (256 * n + base_id) := by
    have := Nat.mul_add_lt_is_or (i := 24) (b := 256 * n + base_id)
      (by show _ < 16777216; omega) objectid
    show (256 * n + base_id) ||| 16777216 * objectid = _
    rw [Nat.lor_comm]
    simpa using this.symm
  rw [h2, Int.toNat_ofNat]
  omega

/-- The file id of an identity without a process. -/
theorem get_fileid_no_pid {objectid base_id : Nat} (hb : base_id < 256)
    (ho : objectid < 1099511627776) :
    procfs_get_fileid PRNODE_NO_PID objectid base_id = base_id + 16777216 * objectid := by
  unfold procfs_get_fileid
  simp only [ne_eq, not_true_eq_false, if_false]
  have hm : objectid * 16777216 % 18446744073709551616 = 16777216 * objectid := by
    rw [Nat.mod_eq_of_lt (by omega), Nat.mul_comm]
  rw [hm]
  have := Nat.mul_add_lt_is_or (i := 24) (b := base_id) (by show _ < 16777216; omega) objectid
  show base_id ||| 16777216 * objectid = _
  rw [Nat.lor_comm]
  have e : (2 : Nat) ^ 24 = 16777216 := by norm_num
  rw [e] at this
  omega

/-! ## Lemmas on the outer loop of `procfs_vnop_readdir` -/

/-- The final `else` branch of the loop body goes on to the next child or
leaves the loop. -/
theorem readdir_static_cases (H : Nat) (startpos : Int) (type file_id : Nat) (name : String)
    (st : readdir_state) :
    (∃ st1, readdir_static H startpos type file_id name st = .next st1)
      ∨ (∃ st1, readdir_static H startpos type file_id name st = .stop st1 0) := by
  unfold readdir_static
  split
  · simp only []
    split
    · exact Or.inr ⟨_, rfl⟩
    · exact Or.inl ⟨_, rfl⟩
  · exact Or.inl ⟨_, rfl⟩

/-- The loop body for a child that is not of type `PROCFS_ROOT`, with the
parent identity computable: it goes on to the next child or leaves the loop;
for an expansion marker with the guard passing it leaves the loop. -/
theorem readdir_child_cases (H : Nat) (nodes : List procfs_structure_node_t)
    (allproc : List proc_t) (check_access : Bool) (creds : kauth_cred_t)
    (dir_pnp : procfsnode_t) (startpos : Int) (snode : procfs_structure_node_t)
    (st : readdir_state) (hroot : snode.psn_node_type ≠ PROCFS_ROOT)
    (hpar : (procfs_get_parent_node_id nodes dir_pnp).isSome = true) :
    ((∃ st1, readdir_child H nodes allproc check_access creds dir_pnp startpos snode st
          = .next st1)
        ∧ (is_expansion_type snode.psn_node_type = true →
            readdir_access_ok allproc check_access creds dir_pnp.node_id.nodeid_pid = false))
      ∨ (∃ st1 error, readdir_child H nodes allproc check_access creds dir_pnp startpos snode st
          = .stop st1 error) := by
  obtain ⟨pid_id, hpid⟩ := Option.isSome_iff_exists.mp hpar
  unfold readdir_child
  simp only []
  by_cases hacc : readdir_access_ok allproc check_access creds dir_pnp.node_id.nodeid_pid = true
  · rw [if_pos hacc]
    cases hty : snode.psn_node_type with
    | PROCFS_ROOT => exact absurd hty hroot
    | PROCFS_DIR =>
      simp only []
      rcases readdir_static_cases H startpos DT_DIR _ snode.psn_name st with ⟨s, h⟩ | ⟨s, h⟩
      · exact Or.inl ⟨⟨s, h⟩, by simp [is_expansion_type]⟩
      · exact Or.inr ⟨s, 0, h⟩
    | PROCFS_FILE =>
      simp only []
      rcases readdir_static_cases H startpos DT_REG _ snode.psn_name st with ⟨s, h⟩ | ⟨s, h⟩
      · exact Or.inl ⟨⟨s, h⟩, by simp [is_expansion_type]⟩
      · exact Or.inr ⟨s, 0, h⟩
    | PROCFS_DIR_THIS =>
      simp only []
      rcases readdir_static_cases H startpos DT_DIR _ snode.psn_name st with ⟨s, h⟩ | ⟨s, h⟩
      · exact Or.inl ⟨⟨s, h⟩, by simp [is_expansion_type]⟩
      · exact Or.inr ⟨s, 0, h⟩
    | PROCFS_DIR_PARENT =>
      simp only [hpid]
      rcases readdir_static_cases H startpos DT_DIR _ snode.psn_name st with ⟨s, h⟩ | ⟨s, h⟩
      · exact Or.inl ⟨⟨s, h⟩, by simp [is_expansion_type]⟩
      · exact Or.inr ⟨s, 0, h⟩
    | PROCFS_CURPROC =>
      simp only []
      rcases readdir_static_cases H startpos DT_LNK _ snode.psn_name st with ⟨s, h⟩ | ⟨s, h⟩
      · exact Or.inl ⟨⟨s, h⟩, by simp [is_expansion_type]⟩
      · exact Or.inr ⟨s, 0, h⟩
    | PROCFS_PROCDIR => exact Or.inr ⟨_, _, rfl⟩
    | PROCFS_PROCNAME_DIR => exact Or.inr ⟨_, _, rfl⟩
    | PROCFS_THREADDIR =>
      simp only []
      cases proc_find allproc dir_pnp.node_id.nodeid_pid with
      | none => exact Or.inr ⟨_, _, rfl⟩
      | some p =>
        simp only []
        split
        · exact Or.inr ⟨_, _, rfl⟩
        · exact Or.inr ⟨_, _, rfl⟩
    | PROCFS_FD_DIR =>
      simp only []
      cases proc_find allproc dir_pnp.node_id.nodeid_pid with
      | none => exact Or.inr ⟨_, _, rfl⟩
      | some p => exact Or.inr ⟨_, _, rfl⟩
  · rw [if_neg hacc]
    exact Or.inl ⟨⟨st, rfl⟩, fun _ => by simpa using hacc⟩

/-- The outer loop over children none of which is of type `PROCFS_ROOT`, with
the parent identity computable: with more rounds than children it returns, and
the result does not depend on the number of rounds. -/
theorem readdir_loop_total (H : Nat) (nodes : List procfs_structure_node_t)
    (allproc : List proc_t) (check_access : Bool) (creds : kauth_cred_t)
    (dir_pnp : procfsnode_t) (startpos : Int)
    (hpar : (procfs_get_parent_node_id nodes dir_pnp).isSome = true) :
    ∀ (children : List procfs_structure_node_t),
      (∀ c ∈ children, c.psn_node_type ≠ PROCFS_ROOT) →
      ∀ st : readdir_state, ∃ r, ∀ fuel, children.length < fuel →
        readdir_loop H nodes allproc check_access creds dir_pnp startpos fuel children st
          = some r := by
  intro children
  induction children with
  | nil =>
    intro _ st
    refine ⟨(st, 0, true), ?_⟩
    intro fuel hf
    obtain ⟨f, rfl⟩ : ∃ f, fuel = f + 1 := ⟨fuel - 1, by simp at hf; omega⟩
    rfl
  | cons c rest ih =>
    intro hroot st
    have hc := hroot c (List.mem_cons_self _ _)
    have hrest : ∀ x ∈ rest, x.psn_node_type ≠ PROCFS_ROOT :=
      fun x hx => hroot x (List.mem_cons_of_mem _ hx)
    by_cases hres : st.uio_resid > 0
    · rcases readdir_child_cases H nodes allproc check_access creds dir_pnp startpos c st hc hpar
        with ⟨⟨st1, h1⟩, -⟩ | ⟨st1, e, h1⟩
      · obtain ⟨r, hr⟩ := ih hrest st1
        refine ⟨r, ?_⟩
        intro fuel hf
        obtain ⟨f, rfl⟩ : ∃ f, fuel = f + 1 := ⟨fuel - 1, by simp at hf; omega⟩
        rw [readdir_loop, if_pos hres, h1]
        exact hr f (by simp at hf; omega)
      · refine ⟨(st1, e, false), ?_⟩
        intro fuel hf
        obtain ⟨f, rfl⟩ : ∃ f, fuel = f + 1 := ⟨fuel - 1, by simp at hf; omega⟩
        rw [readdir_loop, if_pos hres, h1]
    · refine ⟨(st, 0, false), ?_⟩
      intro fuel hf
      obtain ⟨f, rfl⟩ : ∃ f, fuel = f + 1 := ⟨fuel - 1, by simp at hf; omega⟩
      rw [readdir_loop, if_neg hres]

/-- When the outer loop ends with `snode == NULL` (end of directory), the loop
body went on to the next child for every child: the error is 0, and the guard
failed if one of the children is an expansion marker. -/
theorem readdir_loop_eof (H : Nat) (nodes : List procfs_structure_node_t)
    (allproc : List proc_t) (check_access : Bool) (creds : kauth_cred_t)
    (dir_pnp : procfsnode_t) (startpos : Int)
    (hpar : (procfs_get_parent_node_id nodes dir_pnp).isSome = true) :
    ∀ (fuel : Nat) (children : List procfs_structure_node_t),
      (∀ c ∈ children, c.psn_node_type ≠ PROCFS_ROOT) →
      ∀ (st st1 : readdir_state) (error : Int),
        readdir_loop H nodes allproc check_access creds dir_pnp startpos fuel children st
          = some (st1, error, true) →
        error = 0
        ∧ ∀ c ∈ children, is_expansion_type c.psn_node_type = true →
            readdir_access_ok allproc check_access creds dir_pnp.node_id.nodeid_pid = false := by
  intro fuel
  induction fuel with
  | zero => intro children _ st st1 error h; simp [readdir_loop] at h
  | succ f ih =>
    intro children hroot st st1 error h
    cases children with
    | nil =>
      simp only [readdir_loop, Option.some.injEq, Prod.mk.injEq] at h
      exact ⟨h.2.1.symm, fun c hc => by simp at hc⟩
    | cons c rest =>
      have hc := hroot c (List.mem_cons_self _ _)
      have hrest : ∀ x ∈ rest, x.psn_node_type ≠ PROCFS_ROOT :=
        fun x hx => hroot x (List.mem_cons_of_mem _ hx)
      rw [readdir_loop] at h
      by_cases hres : st.uio_resid > 0
      · rw [if_pos hres] at h
        rcases readdir_child_cases H nodes allproc check_access creds dir_pnp startpos c st hc
          hpar with ⟨⟨st2, h1⟩, hex⟩ | ⟨st2, e, h1⟩
        · rw [h1] at h
          obtain ⟨he, hall⟩ := ih rest hrest st2 st1 error h
          refine ⟨he, ?_⟩
          intro x hx
          rcases List.mem_cons.mp hx with rfl | hx
          · exact hex
          · exact hall x hx
        · rw [h1] at h
          simp at h
      · rw [if_neg hres] at h
        simp at h

/-- When the guard of the loop body fails, every child is skipped. -/
theorem readdir_loop_skip_all (H : Nat) (nodes : List procfs_structure_node_t)
    (allproc : List proc_t) (check_access : Bool) (creds : kauth_cred_t)
    (dir_pnp : procfsnode_t) (startpos : Int) (st : readdir_state)
    (hacc : readdir_access_ok allproc check_access creds dir_pnp.node_id.nodeid_pid = false)
    (hres : st.uio_resid > 0) :
    ∀ (children : List procfs_structure_node_t) (fuel : Nat), children.length < fuel →
      readdir_loop H nodes allproc check_access creds dir_pnp startpos fuel children st
        = some (st, 0, true) := by
  intro children
  induction children with
  | nil =>
    intro fuel hf
    obtain ⟨f, rfl⟩ : ∃ f, fuel = f + 1 := ⟨fuel - 1, by simp at hf; omega⟩
    rfl
  | cons c rest ih =>
    intro fuel hf
    obtain ⟨f, rfl⟩ : ∃ f, fuel = f + 1 := ⟨fuel - 1, by simp at hf; omega⟩
    have h1 : readdir_child H nodes allproc check_access creds dir_pnp startpos c st
        = .next st := by
      unfold readdir_child
      simp only [hacc, Bool.false_eq_true, if_false]
    rw [readdir_loop, if_pos hres, h1]
    exact ih f (by simp at hf; omega)

/-! ## The children of the built layout in the listing -/

/-- The children that `procfs_vnop_readdir` walks over in a directory of the
built layout. -/
theorem schema_children_nodes (sz : kernel_sizes) {k : Nat} (hk : k < 35) :
    (schema_node sz k).psn_children.filterMap (fun i => (procfs_structure sz).nodes[i]?)
      = (schema_node sz k).psn_children.map (schema_node sz) := by
  rw [← filterMap_some_eq_map]
  apply List.filterMap_congr
  intro i hi
  rw [schema_children_eq] at hi
  rw [structure_nodes_eq]
  exact schema_getElem sz (tags_children_lt k hk i hi)

theorem tags_no_root_child :
    ∀ k, k < 35 → ∀ c ∈ (schema_node size_tags k).psn_children,
      (schema_node size_tags c).psn_node_type ≠ PROCFS_ROOT := by
  decide

/-- No child in the built layout is of type `PROCFS_ROOT`. -/
theorem schema_children_no_root (sz : kernel_sizes) {k : Nat} (hk : k < 35) :
    ∀ c ∈ (schema_node sz k).psn_children.map (schema_node sz),
      c.psn_node_type ≠ PROCFS_ROOT := by
  intro c hc
  obtain ⟨i, hi, rfl⟩ := List.mem_map.mp hc
  rw [schema_children_eq] at hi
  rw [schema_type_eq]
  exact tags_no_root_child k hk i hi

/-- The directories of the built layout with an expansion marker among their
children: the root, byname, fd and threads. -/
theorem tags_marker_dirs :
    ∀ k, k < 35 →
      ((schema_node size_tags k).psn_children.any
          (fun c => is_expansion_type (schema_node size_tags c).psn_node_type)
        = decide (k = 0 ∨ k = 4 ∨ k = 13 ∨ k = 19)) := by
  decide

theorem schema_marker_dirs (sz : kernel_sizes) {k : Nat} (hk : k < 35) :
    (∃ c ∈ (schema_node sz k).psn_children,
        is_expansion_type (schema_node sz c).psn_node_type = true)
      ↔ (k = 0 ∨ k = 4 ∨ k = 13 ∨ k = 19) := by
  have h := tags_marker_dirs k hk
  rw [schema_children_eq]
  constructor
  · rintro ⟨c, hc, hex⟩
    rw [schema_type_eq] at hex
    have : (schema_node size_tags k).psn_children.any
        (fun c => is_expansion_type (schema_node size_tags c).psn_node_type) = true :=
      List.any_eq_true.mpr ⟨c, hc, hex⟩
    rw [this] at h
    exact of_decide_eq_true h.symm
  · intro hk4
    rw [decide_eq_true hk4] at h
    obtain ⟨c, hc, hex⟩ := List.any_eq_true.mp h
    exact ⟨c, hc, by rw [schema_type_eq]; exact hex⟩

/-- When the guard of the loop body fails, the outer loop leaves the state as
it is. -/
theorem readdir_loop_skip_state (H : Nat) (nodes : List procfs_structure_node_t)
    (allproc : List proc_t) (check_access : Bool) (creds : kauth_cred_t)
    (dir_pnp : procfsnode_t) (startpos : Int)
    (hacc : readdir_access_ok allproc check_access creds dir_pnp.node_id.nodeid_pid = false) :
    ∀ (fuel : Nat) (children : List procfs_structure_node_t) (st st1 : readdir_state)
      (error : Int) (eof : Bool),
      readdir_loop H nodes allproc check_access creds dir_pnp startpos fuel children st
        = some (st1, error, eof) → st1 = st := by
  intro fuel
  induction fuel with
  | zero => intro children st st1 error eof h; simp [readdir_loop] at h
  | succ f ih =>
    intro children st st1 error eof h
    cases children with
    | nil =>
      simp only [readdir_loop, Option.some.injEq, Prod.mk.injEq] at h
      exact h.1.symm
    | cons c rest =>
      rw [readdir_loop] at h
      by_cases hres : st.uio_resid > 0
      · have h1 : readdir_child H nodes allproc check_access creds dir_pnp startpos c st
            = .next st := by
          unfold readdir_child
          simp only [hacc, Bool.false_eq_true, if_false]
        rw [if_pos hres, h1] at h
        exact ih rest st st1 error eof h
      · rw [if_neg hres] at h
        simp only [Option.some.injEq, Prod.mk.injEq] at h
        exact h.1.symm

/-- What the final `else` branch of the loop body leaves in the caller's
buffer: what was there, and at most the entry of the child. -/
theorem readdir_static_copied (H : Nat) (startpos : Int) (type file_id : Nat) (name : String)
    (st : readdir_state) :
    ∀ st1 : readdir_state,
      (readdir_static H startpos type file_id name st = .next st1
        ∨ ∃ error, readdir_static H startpos type file_id name st = .stop st1 error) →
      ∀ d ∈ st1.copied, d ∈ st.copied
        ∨ d = ⟨to_ino_t file_id, procfs_calc_dirent_size H name, type, name⟩ := by
  intro st1 h d hd
  unfold readdir_static procfs_copyout_dirent at h
  by_cases hp : st.nextpos ≥ startpos
  · simp only [hp, if_true] at h
    by_cases hfit : procfs_calc_dirent_size H name ≤ st.uio_resid
    · simp only [hfit, if_true] at h
      by_cases hz : procfs_calc_dirent_size H name = 0
      · simp only [hz, if_true, reduceCtorEq, readdir_step.stop.injEq, false_or] at h
        obtain ⟨e, h, -⟩ := h
        rw [← h] at hd
        rw [hz]
        simpa using hd
      · simp only [hz, if_false, readdir_step.next.injEq, reduceCtorEq, exists_false,
          or_false] at h
        rw [← h] at hd
        simpa using hd
    · simp only [hfit, if_false, if_true, reduceCtorEq, readdir_step.stop.injEq, false_or] at h
      obtain ⟨e, h, -⟩ := h
      rw [← h] at hd
      exact Or.inl hd
  · simp only [hp, if_false, readdir_step.next.injEq, reduceCtorEq, exists_false, or_false] at h
    rw [← h] at hd
    exact Or.inl hd

/-- What an inner loop leaves in the caller's buffer: what was there, and
entries of candidates. -/
theorem readdir_dynamic_copied (H : Nat) (startpos : Int) :
    ∀ (cands : List (Nat × String)) (st : readdir_state),
      ∀ d ∈ (readdir_dynamic H startpos cands st).copied,
        d ∈ st.copied ∨ d ∈ cands.map (dynamic_entry H) := by
  intro cands
  induction cands with
  | nil => intro st d hd; exact Or.inl hd
  | cons c cs ih =>
    intro st d hd
    obtain ⟨file_id, name⟩ := c
    unfold readdir_dynamic procfs_copyout_dirent at hd
    by_cases hp : st.nextpos ≥ startpos
    · simp only [hp, if_true] at hd
      by_cases hfit : procfs_calc_dirent_size H name ≤ st.uio_resid
      · simp only [hfit, if_true] at hd
        by_cases hz : procfs_calc_dirent_size H name = 0
        · simp only [hz, if_true] at hd
          rcases List.mem_append.mp hd with h | h
          · exact Or.inl h
          · right
            simp only [List.mem_singleton] at h
            rw [h, List.map_cons]
            have e : dynamic_entry H (file_id, name)
                = { d_ino := to_ino_t file_id, d_reclen := 0, d_type := VDIR,
                    d_name := name } := by
              unfold dynamic_entry
              rw [hz]
            rw [e]
            exact List.mem_cons_self _ _
        · simp only [hz, if_false] at hd
          rcases ih _ d hd with h | h
          · rcases List.mem_append.mp h with h | h
            · exact Or.inl h
            · right
              simp only [List.mem_singleton] at h
              rw [h, List.map_cons]
              exact List.mem_cons_self _ _
          · right
            rw [List.map_cons]
            exact List.mem_cons_of_mem _ h
      · simp only [hfit, if_false, if_true] at hd
        exact Or.inl hd
    · simp only [hp, if_false] at hd
      rcases ih _ d hd with h | h
      · exact Or.inl h
      · right
        rw [List.map_cons]
        exact List.mem_cons_of_mem _ h

/-! ## Lemmas on declared sizes and the bytes a read delivers -/

theorem struct_bytes_length (size : Nat) (content : Nat → Nat) :
    (struct_bytes size content).length = size := by
  simp [struct_bytes]

/-- A read of a whole block of `size` bytes from offset 0 into a buffer with
room for it: `size` bytes are handed over, and the error is 0. -/
theorem procfs_copy_data_block (size : Nat) (content : Nat → Nat) (room : Nat)
    (hs : size ≤ 2147483647) (hr : size ≤ room) :
    (procfs_copy_data (struct_bytes size content) (wrap_int32 size)
        { uio_offset := 0, uio_resid := room }).error = 0
    ∧ (procfs_copy_data (struct_bytes size content) (wrap_int32 size)
        { uio_offset := 0, uio_resid := room }).moved.length = size := by
  have hlen := struct_bytes_length size content
  have h := procfs_copy_data_whole (struct_bytes size content) room (by rw [hlen]; exact hs)
    (by rw [hlen]; exact hr)
  rw [hlen] at h
  rw [h]
  exact ⟨rfl, by simp [hlen]⟩

/-- The files of the built layout with a declared size: name, parent, read
function and the size declared. -/
theorem schema_sized_files (sz : kernel_sizes) :
    ∀ k name parent fn size, (k, name, parent, fn, size) ∈
        [(25, "pid", 10, procfs_read_data_fn.procfs_read_pid_data, sz.sizeof_pid_t),
         (26, "ppid", 10, procfs_read_data_fn.procfs_read_ppid_data, sz.sizeof_pid_t),
         (27, "pgid", 10, procfs_read_data_fn.procfs_read_pgid_data, sz.sizeof_pid_t),
         (28, "sid", 10, procfs_read_data_fn.procfs_read_sid_data, sz.sizeof_pid_t),
         (30, "info", 10, procfs_read_data_fn.procfs_read_proc_info, sz.sizeof_proc_bsdinfo),
         (31, "taskinfo", 10, procfs_read_data_fn.procfs_read_task_info,
            sz.sizeof_proc_taskinfo),
         (32, "info", 22, procfs_read_data_fn.procfs_read_thread_info,
            sz.sizeof_proc_taskinfo),
         (33, "details", 16, procfs_read_data_fn.procfs_read_fd_data,
            sz.sizeof_proc_threadinfo)] →
      (procfs_structure sz).nodes[k]? = some (schema_node sz k)
      ∧ (schema_node sz k).psn_node_type = PROCFS_FILE
      ∧ (schema_node sz k).psn_name = name
      ∧ (schema_node sz k).psn_parent = some parent
      ∧ (schema_node sz k).psn_read_data_fn = some fn
      ∧ (schema_node sz k).psn_getsize_fn = none
      ∧ (schema_node sz k).psn_node_size = size := by
  intro k name parent fn size h
  simp only [List.mem_cons, Prod.mk.injEq, List.mem_singleton, List.not_mem_nil, or_false] at h
  rcases h with ⟨rfl, rfl, rfl, rfl, rfl⟩ | ⟨rfl, rfl, rfl, rfl, rfl⟩ | ⟨rfl, rfl, rfl, rfl, rfl⟩
    | ⟨rfl, rfl, rfl, rfl, rfl⟩ | ⟨rfl, rfl, rfl, rfl, rfl⟩ | ⟨rfl, rfl, rfl, rfl, rfl⟩
    | ⟨rfl, rfl, rfl, rfl, rfl⟩ | ⟨rfl, rfl, rfl, rfl, rfl⟩ <;>
    exact ⟨by rw [structure_nodes_eq]; exact schema_getElem sz (by decide), rfl, rfl, rfl, rfl,
      rfl, rfl⟩

/-- The files of the built layout: the files with a declared size and "tty"
and "socket", which declare size 0. -/
theorem tags_file_nodes :
    ∀ k, k < 35 → (schema_node size_tags k).psn_node_type = PROCFS_FILE →
      k ∈ [25, 26, 27, 28, 29, 30, 31, 32, 33, 34] := by
  decide

/-- The size attribute of a file of the built layout is the size its structure
node declares. -/
theorem size_attr_file (sz : kernel_sizes) (allproc : List proc_t) (pnp : procfsnode_t)
    (creds : kauth_cred_t) (k : Nat) (hi : pnp.node_structure_node = some k) (hk : k < 35)
    (hty : (schema_node sz k).psn_node_type = PROCFS_FILE) :
    procfs_get_node_size_attr (procfs_structure sz).nodes allproc pnp creds
      = some (schema_node sz k).psn_node_size := by
  rw [schema_type_eq] at hty
  have hmem := tags_file_nodes k hk hty
  rw [structure_nodes_eq]
  unfold procfs_get_node_size_attr
  rw [hi]
  simp only [List.mem_cons, List.mem_singleton, List.not_mem_nil, or_false] at hmem
  rcases hmem with rfl | rfl | rfl | rfl | rfl | rfl | rfl | rfl | rfl | rfl <;> rfl

/-! ## Lemmas on numeric names that resolve -/

/-- A name of digits only is its own leading run of digits and no child's
fixed name. -/
theorem digit_name_facts (sz : kernel_sizes) {name : String} (hne : name.data ≠ [])
    (hdig : ∀ c ∈ name.data, is_digit c = true) :
    leading_digits name = name.data
    ∧ ∀ c : Nat, child_name (procfs_structure sz).nodes c ≠ some name := by
  have hld : leading_digits name = name.data := List.takeWhile_eq_self_iff.mpr hdig
  exact ⟨hld, fun c => child_name_ne_of_digit sz (by rw [hld]; exact hne) c⟩

/-- A name that resolves in the root of the built layout, is no child's fixed
name and has digits that fit an `int`: it is a non-empty run of digits, and
the identity is that of the process directory of its value. -/
theorem lookup_root_resolved (sz : kernel_sizes) (allproc : List proc_t)
    (pmp : procfs_mount_t) (creds : kauth_cred_t) (qv : vnode_t) (qnode : procfsnode_t)
    (cnp : componentname) (hty : qv.v_type = .VDIR) (hfs : qv.v_fsnode = some qnode)
    (hi : qnode.node_structure_node = some 0)
    (hlen : 1 ≤ cnp.cn_namelen) (hdd : cnp.cn_flags_isdotdot = false)
    (hname : ∀ c ∈ (schema_node sz 0).psn_children,
      child_name (procfs_structure sz).nodes c ≠ some (lookup_name cnp))
    (hrange : digits_value (leading_digits (lookup_name cnp)) < 2147483648)
    {vp : Option Nat} {id : procfsnode_id_t} {m : Option Nat}
    (hres : lookup_resolve (procfs_structure sz).nodes allproc pmp creds (some qv) cnp
      = .node vp id m) :
    (lookup_name cnp).data ≠ [] ∧ (∀ c ∈ (lookup_name cnp).data, is_digit c = true)
    ∧ id = { nodeid_base_id := (schema_node sz 10).psn_base_node_id,
             nodeid_pid := ((digits_value (lookup_name cnp).data : Nat) : Int),
             nodeid_objectid := qnode.node_id.nodeid_objectid }
    ∧ m = some 10
    ∧ ∀ cnp2 : componentname, 1 ≤ cnp2.cn_namelen → cnp2.cn_flags_isdotdot = false →
        (lookup_name cnp2).data ≠ [] → (∀ c ∈ (lookup_name cnp2).data, is_digit c = true) →
        digits_value (lookup_name cnp2).data = digits_value (lookup_name cnp).data →
        lookup_resolve (procfs_structure sz).nodes allproc pmp creds (some qv) cnp2
          = lookup_resolve (procfs_structure sz).nodes allproc pmp creds (some qv) cnp := by
  obtain ⟨h1, h2⟩ := lookup_resolve_root_in_int_range sz allproc pmp creds qv qnode cnp hty hfs
    hi hlen hdd hname hrange
  by_cases hex : ∃ p : proc_t, (lookup_name cnp).data ≠ []
      ∧ (∀ c ∈ (lookup_name cnp).data, is_digit c = true)
      ∧ proc_find allproc ((digits_value (lookup_name cnp).data : Nat) : Int) = some p
      ∧ (suser creds = 0 ∨ procfs_should_access_check pmp = false
        ∨ procfs_check_can_access_process creds p = 0)
  · obtain ⟨p, hne, hdig, hp, hacc⟩ := hex
    have e := h1 p hne hdig hp hacc
    have hres2 := hres
    rw [e] at hres2
    simp only [lookup_target.node.injEq] at hres2
    refine ⟨hne, hdig, hres2.2.1.symm, hres2.2.2.symm, ?_⟩
    intro cnp2 hlen2 hdd2 hne2 hdig2 hval
    obtain ⟨hld2, hnm2⟩ := digit_name_facts sz hne2 hdig2
    obtain ⟨hld, -⟩ := digit_name_facts sz hne hdig
    have hr2 : digits_value (leading_digits (lookup_name cnp2)) < 2147483648 := by
      rw [hld2, hval, ← hld]; exact hrange
    rw [(lookup_resolve_root_in_int_range sz allproc pmp creds qv qnode cnp2 hty hfs hi hlen2
      hdd2 (fun c _ => hnm2 c) hr2).1 p hne2 hdig2 (by rw [hval]; exact hp) hacc, e, hval]
  · rw [h2 hex] at hres
    cases hres

/-- A name that resolves in a threads directory of the built layout, is no
child's fixed name and has digits that fit an `int`: it is a non-empty run of
digits, and the identity is that of the thread directory of its value. -/
theorem lookup_threads_resolved (sz : kernel_sizes) (allproc : List proc_t)
    (pmp : procfs_mount_t) (creds : kauth_cred_t) (qv : vnode_t) (qnode : procfsnode_t)
    (cnp : componentname) (hty : qv.v_type = .VDIR) (hfs : qv.v_fsnode = some qnode)
    (hi : qnode.node_structure_node = some 19)
    (hlen : 1 ≤ cnp.cn_namelen) (hdd : cnp.cn_flags_isdotdot = false)
    (hname : ∀ c ∈ (schema_node sz 19).psn_children,
      child_name (procfs_structure sz).nodes c ≠ some (lookup_name cnp))
    (hrange : digits_value (leading_digits (lookup_name cnp)) < 2147483648)
    {vp : Option Nat} {id : procfsnode_id_t} {m : Option Nat}
    (hres : lookup_resolve (procfs_structure sz).nodes allproc pmp creds (some qv) cnp
      = .node vp id m) :
    (lookup_name cnp).data ≠ [] ∧ (∀ c ∈ (lookup_name cnp).data, is_digit c = true)
    ∧ id = { nodeid_base_id := (schema_node sz 22).psn_base_node_id,
             nodeid_pid := qnode.node_id.nodeid_pid,
             nodeid_objectid := digits_value (lookup_name cnp).data }
    ∧ m = some 22
    ∧ ∀ cnp2 : componentname, 1 ≤ cnp2.cn_namelen → cnp2.cn_flags_isdotdot = false →
        (lookup_name cnp2).data ≠ [] → (∀ c ∈ (lookup_name cnp2).data, is_digit c = true) →
        digits_value (lookup_name cnp2).data = digits_value (lookup_name cnp).data →
        lookup_resolve (procfs_structure sz).nodes allproc pmp creds (some qv) cnp2
          = lookup_resolve (procfs_structure sz).nodes allproc pmp creds (some qv) cnp := by
  obtain ⟨h1, h2⟩ := lookup_resolve_threads_in_int_range sz allproc pmp creds qv qnode cnp hty
    hfs hi hlen hdd hname hrange
  by_cases hex : ∃ p : proc_t, (lookup_name cnp).data ≠ []
      ∧ (∀ c ∈ (lookup_name cnp).data, is_digit c = true)
      ∧ proc_find allproc qnode.node_id.nodeid_pid = some p
      ∧ (suser creds = 0 ∨ procfs_should_access_check pmp = false
        ∨ procfs_check_can_access_process creds p = 0)
      ∧ (procfs_get_thread_ids_for_task p.task_threads).1 = 0
      ∧ digits_value (lookup_name cnp).data
          ∈ (procfs_get_thread_ids_for_task p.task_threads).2
  · obtain ⟨p, hne, hdig, hp, hacc, hok, hmem⟩ := hex
    have e := h1 p hne hdig hp hacc hok hmem
    have hres2 := hres
    rw [e] at hres2
    simp only [lookup_target.node.injEq] at hres2
    refine ⟨hne, hdig, hres2.2.1.symm, hres2.2.2.symm, ?_⟩
    intro cnp2 hlen2 hdd2 hne2 hdig2 hval
    obtain ⟨hld2, hnm2⟩ := digit_name_facts sz hne2 hdig2
    obtain ⟨hld, -⟩ := digit_name_facts sz hne hdig
    have hr2 : digits_value (leading_digits (lookup_name cnp2)) < 2147483648 := by
      rw [hld2, hval, ← hld]; exact hrange
    rw [(lookup_resolve_threads_in_int_range sz allproc pmp creds qv qnode cnp2 hty hfs hi hlen2
      hdd2 (fun c _ => hnm2 c) hr2).1 p hne2 hdig2 hp hacc hok (by rw [hval]; exact hmem), e,
      hval]
  · rw [h2 hex] at hres
    cases hres

/-- A name that resolves in an fd directory of the built layout, is no
child's fixed name and, where it starts with a digit, consists of digits whose
value fits an `int`: it is a non-empty run of digits, and the identity is that
of the descriptor directory of its value. -/
theorem lookup_fd_resolved (sz : kernel_sizes) (allproc : List proc_t)
    (pmp : procfs_mount_t) (creds : kauth_cred_t) (qv : vnode_t) (qnode : procfsnode_t)
    (cnp : componentname) (hty : qv.v_type = .VDIR) (hfs : qv.v_fsnode = some qnode)
    (hi : qnode.node_structure_node = some 13)
    (hlen : 1 ≤ cnp.cn_namelen) (hdd : cnp.cn_flags_isdotdot = false)
    (hname : ∀ c ∈ (schema_node sz 13).psn_children,
      child_name (procfs_structure sz).nodes c ≠ some (lookup_name cnp))
    (hrange : digits_value (leading_digits (lookup_name cnp)) < 2147483648)
    (hall : leading_digits (lookup_name cnp) = []
      ∨ ∀ c ∈ (lookup_name cnp).data, is_digit c = true)
    {vp : Option Nat} {id : procfsnode_id_t} {m : Option Nat}
    (hres : lookup_resolve (procfs_structure sz).nodes allproc pmp creds (some qv) cnp
      = .node vp id m) :
    (lookup_name cnp).data ≠ [] ∧ (∀ c ∈ (lookup_name cnp).data, is_digit c = true)
    ∧ id = { nodeid_base_id := (schema_node sz 16).psn_base_node_id,
             nodeid_pid := qnode.node_id.nodeid_pid,
             nodeid_objectid := digits_value (lookup_name cnp).data }
    ∧ m = some 16
    ∧ ∀ cnp2 : componentname, 1 ≤ cnp2.cn_namelen → cnp2.cn_flags_isdotdot = false →
        (lookup_name cnp2).data ≠ [] → (∀ c ∈ (lookup_name cnp2).data, is_digit c = true) →
        digits_value (lookup_name cnp2).data = digits_value (lookup_name cnp).data →
        lookup_resolve (procfs_structure sz).nodes allproc pmp creds (some qv) cnp2
          = lookup_resolve (procfs_structure sz).nodes allproc pmp creds (some qv) cnp := by
  obtain ⟨h1, h2, h3⟩ := lookup_resolve_fd_in_int_range sz allproc pmp creds qv qnode cnp hty
    hfs hi hlen hdd hname
  have hl0 : leading_digits (lookup_name cnp) ≠ [] := by
    intro h0
    rw [h3 h0] at hres
    cases hres
  have hdig : ∀ c ∈ (lookup_name cnp).data, is_digit c = true := by
    rcases hall with h | h
    · exact absurd h hl0
    · exact h
  have hld : leading_digits (lookup_name cnp) = (lookup_name cnp).data :=
    List.takeWhile_eq_self_iff.mpr hdig
  have hne : (lookup_name cnp).data ≠ [] := by rw [← hld]; exact hl0
  have hv : digits_value (lookup_name cnp).data < 2147483648 := by rw [← hld]; exact hrange
  by_cases hex : ∃ (p : proc_t) (slot : fd_slot),
      proc_find allproc qnode.node_id.nodeid_pid = some p
      ∧ p.fd_ofiles[digits_value (lookup_name cnp).data]? = some slot
      ∧ slot.fp = true ∧ slot.reserved = false
  · obtain ⟨p, slot, hp, hslot, hfp, hrs⟩ := hex
    have e := h1 p slot hne hdig hv hp hslot hfp hrs
    have hres2 := hres
    rw [e] at hres2
    simp only [lookup_target.node.injEq] at hres2
    refine ⟨hne, hdig, hres2.2.1.symm, hres2.2.2.symm, ?_⟩
    intro cnp2 hlen2 hdd2 hne2 hdig2 hval
    obtain ⟨-, hnm2⟩ := digit_name_facts sz hne2 hdig2
    rw [(lookup_resolve_fd_in_int_range sz allproc pmp creds qv qnode cnp2 hty hfs hi hlen2
      hdd2 (fun c _ => hnm2 c)).1 p slot hne2 hdig2 (by rw [hval]; exact hv) hp
      (by rw [hval]; exact hslot) hfp hrs, e, hval]
  · rw [h2 hne hdig hv hex] at hres
    cases hres

/-! ## Sample host for the descriptor and socket readers -/

/-- A host whose routines for descriptors, sockets and terminals succeed; the
descriptor block has 1200 bytes and the socket block 792, as on a 64 bit
kernel. -/
def demo_file_host : file_host :=
  { vn_getpath := fun _ => (fun _ => 0, 1),
    fp_getfvpandvid := fun _ _ => (0, 5, 1),
    vnode_getwithvid := fun _ _ => 0,
    fill_vnodeinfo := fun _ => 0,
    sizeof_vnode_fdinfowithpath := 1200,
    fdinfo := fun _ _ _ _ => 7,
    fp_getfsock := fun _ _ => (0, 9),
    fill_socketinfo := fun _ => 0,
    sizeof_socket_fdinfo := 792,
    socketinfo := fun _ _ _ _ => 7 }

/-! ## Lemmas on the entries of a listing and their lookup -/

/-- What the loop body leaves in the caller's buffer for one child: what was
there, and, with the guard passing, the entry of a child that is not expanded
or entries of the expansion of a marker. -/
theorem readdir_child_copied (H : Nat) (nodes : List procfs_structure_node_t)
    (allproc : List proc_t) (check_access : Bool) (creds : kauth_cred_t)
    (dir_pnp : procfsnode_t) (startpos : Int) (snode : procfs_structure_node_t)
    (st st1 : readdir_state)
    (h : readdir_child H nodes allproc check_access creds dir_pnp startpos snode st = .next st1
      ∨ ∃ error, readdir_child H nodes allproc check_access creds dir_pnp startpos snode st
          = .stop st1 error) :
    ∀ e ∈ st1.copied, e ∈ st.copied
      ∨ (readdir_access_ok allproc check_access creds dir_pnp.node_id.nodeid_pid = true
        ∧ (static_child_entry H nodes dir_pnp snode = some e
          ∨ e ∈ (marker_entries H allproc check_access creds dir_pnp snode).1)) := by
  intro e he
  unfold readdir_child at h
  simp only [] at h
  by_cases hacc : readdir_access_ok allproc check_access creds dir_pnp.node_id.nodeid_pid = true
  · rw [if_pos hacc] at h
    cases hty : snode.psn_node_type with
    | PROCFS_ROOT =>
      rw [hty] at h
      simp at h
    | PROCFS_DIR =>
      rw [hty] at h
      rcases readdir_static_copied H startpos DT_DIR _ snode.psn_name st st1 h e he with h1 | h1
      · exact Or.inl h1
      · exact Or.inr ⟨hacc, Or.inl (by rw [h1]; simp [static_child_entry, hty])⟩
    | PROCFS_FILE =>
      rw [hty] at h
      rcases readdir_static_copied H startpos DT_REG _ snode.psn_name st st1 h e he with h1 | h1
      · exact Or.inl h1
      · exact Or.inr ⟨hacc, Or.inl (by rw [h1]; simp [static_child_entry, hty])⟩
    | PROCFS_DIR_THIS =>
      rw [hty] at h
      rcases readdir_static_copied H startpos DT_DIR _ snode.psn_name st st1 h e he with h1 | h1
      · exact Or.inl h1
      · exact Or.inr ⟨hacc, Or.inl (by rw [h1]; simp [static_child_entry, hty])⟩
    | PROCFS_DIR_PARENT =>
      rw [hty] at h
      cases hp : procfs_get_parent_node_id nodes dir_pnp with
      | none =>
        rw [hp] at h
        simp at h
      | some parent_node_id =>
        rw [hp] at h
        rcases readdir_static_copied H startpos DT_DIR _ snode.psn_name st st1 h e he with h1 | h1
        · exact Or.inl h1
        · exact Or.inr ⟨hacc, Or.inl (by rw [h1]; simp [static_child_entry, hty, hp])⟩
    | PROCFS_CURPROC =>
      rw [hty] at h
      rcases readdir_static_copied H startpos DT_LNK _ snode.psn_name st st1 h e he with h1 | h1
      · exact Or.inl h1
      · exact Or.inr ⟨hacc, Or.inl (by rw [h1]; simp [static_child_entry, hty])⟩
    | PROCFS_PROCDIR =>
      rw [hty] at h
      simp only [reduceCtorEq, readdir_step.stop.injEq, false_or] at h
      obtain ⟨_, h, -⟩ := h
      rw [← h] at he
      rcases readdir_dynamic_copied H startpos _ st e he with h1 | h1
      · exact Or.inl h1
      · exact Or.inr ⟨hacc, Or.inr (by simp only [marker_entries, hty]; exact h1)⟩
    | PROCFS_PROCNAME_DIR =>
      rw [hty] at h
      simp only [reduceCtorEq, readdir_step.stop.injEq, false_or] at h
      obtain ⟨_, h, -⟩ := h
      rw [← h] at he
      rcases readdir_dynamic_copied H startpos _ st e he with h1 | h1
      · exact Or.inl h1
      · exact Or.inr ⟨hacc, Or.inr (by simp only [marker_entries, hty]; exact h1)⟩
    | PROCFS_THREADDIR =>
      rw [hty] at h
      cases hp : proc_find allproc dir_pnp.node_id.nodeid_pid with
      | none =>
        rw [hp] at h
        simp only [reduceCtorEq, readdir_step.stop.injEq, false_or] at h
        obtain ⟨_, h, -⟩ := h
        rw [← h] at he
        exact Or.inl he
      | some p =>
        rw [hp] at h
        simp only [] at h
        by_cases hok : (procfs_get_thread_ids_for_task p.task_threads).1 = 0
        · rw [if_pos hok] at h
          simp only [reduceCtorEq, readdir_step.stop.injEq, false_or] at h
          obtain ⟨_, h, -⟩ := h
          rw [← h] at he
          rcases readdir_dynamic_copied H startpos _ st e he with h1 | h1
          · exact Or.inl h1
          · exact Or.inr ⟨hacc, Or.inr (by
              simp only [marker_entries, hty, hp, hok, if_true]; exact h1)⟩
        · rw [if_neg hok] at h
          simp only [reduceCtorEq, readdir_step.stop.injEq, false_or] at h
          obtain ⟨_, h, -⟩ := h
          rw [← h] at he
          exact Or.inl he
    | PROCFS_FD_DIR =>
      rw [hty] at h
      cases hp : proc_find allproc dir_pnp.node_id.nodeid_pid with
      | none =>
        rw [hp] at h
        simp only [reduceCtorEq, readdir_step.stop.injEq, false_or] at h
        obtain ⟨_, h, -⟩ := h
        rw [← h] at he
        exact Or.inl he
      | some p =>
        rw [hp] at h
        simp only [reduceCtorEq, readdir_step.stop.injEq, false_or] at h
        obtain ⟨_, h, -⟩ := h
        rw [← h] at he
        rcases readdir_dynamic_copied H startpos _ st e he with h1 | h1
        · exact Or.inl h1
        · exact Or.inr ⟨hacc, Or.inr (by simp only [marker_entries, hty, hp]; exact h1)⟩
  · rw [if_neg hacc] at h
    simp only [readdir_step.next.injEq, reduceCtorEq, exists_false, or_false] at h
    rw [← h] at he
    exact Or.inl he

/-- What the outer loop leaves in the caller's buffer: what was there, and,
with the guard passing, entries of children of the directory. -/
theorem readdir_loop_copied (H : Nat) (nodes : List procfs_structure_node_t)
    (allproc : List proc_t) (check_access : Bool) (creds : kauth_cred_t)
    (dir_pnp : procfsnode_t) (startpos : Int) :
    ∀ (fuel : Nat) (children : List procfs_structure_node_t) (st st1 : readdir_state)
      (error : Int) (eof : Bool),
      readdir_loop H nodes allproc check_access creds dir_pnp startpos fuel children st
        = some (st1, error, eof) →
      ∀ e ∈ st1.copied, e ∈ st.copied
        ∨ (readdir_access_ok allproc check_access creds dir_pnp.node_id.nodeid_pid = true
          ∧ ∃ snode ∈ children, static_child_entry H nodes dir_pnp snode = some e
            ∨ e ∈ (marker_entries H allproc check_access creds dir_pnp snode).1) := by
  intro fuel
  induction fuel with
  | zero => intro children st st1 error eof h; simp [readdir_loop] at h
  | succ f ih =>
    intro children st st1 error eof h e he
    cases children with
    | nil =>
      simp only [readdir_loop, Option.some.injEq, Prod.mk.injEq] at h
      rw [← h.1] at he
      exact Or.inl he
    | cons c rest =>
      rw [readdir_loop] at h
      by_cases hres : st.uio_resid > 0
      · rw [if_pos hres] at h
        cases hc : readdir_child H nodes allproc check_access creds dir_pnp startpos c st with
        | next s =>
          rw [hc] at h
          simp only [] at h
          rcases ih rest s st1 error eof h e he with h1 | ⟨ha, x, hx, h1⟩
          · rcases readdir_child_copied H nodes allproc check_access creds dir_pnp startpos c st s
              (Or.inl hc) e h1 with h2 | ⟨ha, h2⟩
            · exact Or.inl h2
            · exact Or.inr ⟨ha, c, List.mem_cons_self _ _, h2⟩
          · exact Or.inr ⟨ha, x, List.mem_cons_of_mem _ hx, h1⟩
        | again =>
          rw [hc] at h
          simp only [] at h
          rcases ih (c :: rest) st st1 error eof h e he with h1 | h1
          · exact Or.inl h1
          · exact Or.inr h1
        | stop s err =>
          rw [hc] at h
          simp only [Option.some.injEq, Prod.mk.injEq] at h
          rw [← h.1] at he
          rcases readdir_child_copied H nodes allproc check_access creds dir_pnp startpos c st s
            (Or.inr ⟨err, hc⟩) e he with h2 | ⟨ha, h2⟩
          · exact Or.inl h2
          · exact Or.inr ⟨ha, c, List.mem_cons_self _ _, h2⟩
        | fault =>
          rw [hc] at h
          simp at h
      · rw [if_neg hres] at h
        simp only [Option.some.injEq, Prod.mk.injEq] at h
        rw [← h.1] at he
        exact Or.inl he

/-- The entries `procfs_vnop_readdir` returns for a directory of the built
layout: the guard passed, and each is the entry of a child that is not
expanded or an entry of the expansion of a marker child. -/
theorem readdir_copied (H : Nat) (sz : kernel_sizes) (allproc : List proc_t)
    (pmp : procfs_mount_t) (creds : kauth_cred_t) (dir_pnp : procfsnode_t) (uio : uio_t)
    (fuel k : Nat) (r : readdir_result)
    (hi : dir_pnp.node_structure_node = some k) (hk : k < 35)
    (hr : procfs_vnop_readdir H (procfs_structure sz).nodes allproc pmp creds dir_pnp uio fuel
      = some r) :
    ∀ e ∈ r.copied,
      readdir_access_ok allproc (readdir_check_access pmp creds) creds
          dir_pnp.node_id.nodeid_pid = true
      ∧ ∃ c ∈ (schema_node sz k).psn_children,
        static_child_entry H (procfs_structure sz).nodes dir_pnp (schema_node sz c) = some e
        ∨ e ∈ (marker_entries H allproc (readdir_check_access pmp creds) creds dir_pnp
            (schema_node sz c)).1 := by
  intro e he
  have hbind : dir_pnp.node_structure_node.bind (fun i => (procfs_structure sz).nodes[i]?)
      = some (schema_node sz k) := by
    rw [hi, structure_nodes_eq]; exact schema_getElem sz hk
  unfold procfs_vnop_readdir at hr
  rw [hbind] at hr
  simp only [] at hr
  by_cases hv : vnode_type_for_structure_node_type (schema_node sz k).psn_node_type ≠ .VDIR
  · rw [if_pos hv] at hr
    simp only [Option.some.injEq] at hr
    rw [← hr] at he
    simp at he
  · rw [if_neg hv, schema_children_nodes sz hk] at hr
    cases hl : readdir_loop H (procfs_structure sz).nodes allproc
        (!(suser creds == 0) && procfs_should_access_check pmp) creds dir_pnp uio.uio_offset fuel
        ((schema_node sz k).psn_children.map (schema_node sz))
        { copied := [], uio_resid := uio.uio_resid, nextpos := 0, numentries := 0 } with
    | none =>
      rw [hl] at hr
      simp at hr
    | some res =>
      obtain ⟨st1, error, eof⟩ := res
      rw [hl] at hr
      simp only [Option.some.injEq] at hr
      rw [← hr] at he
      rcases readdir_loop_copied H _ allproc _ creds dir_pnp _ fuel _ _ st1 error eof hl e he
        with h1 | ⟨ha, x, hx, h1⟩
      · simp at h1
      · obtain ⟨c, hc, rfl⟩ := List.mem_map.mp hx
        exact ⟨ha, c, hc, h1⟩

/-- The listing of the root of the sample registry for the superuser, with
header size 21 and room for 4096 bytes. -/
def demo_root_listing : readdir_result :=
  { error := 0,
    copied := [{ d_ino := 1, d_reclen := 25, d_type := 4, d_name := "." },
               { d_ino := 1, d_reclen := 25, d_type := 4, d_name := ".." },
               { d_ino := 4, d_reclen := 29, d_type := 10, d_name := "curproc" },
               { d_ino := 5, d_reclen := 29, d_type := 4, d_name := "byname" },
               { d_ino := 267, d_reclen := 25, d_type := 2, d_name := "1" },
               { d_ino := 523, d_reclen := 25, d_type := 2, d_name := "2" }],
    uio_offset := 158,
    eofflag := false,
    numdirent := 6 }

/-- Process 2 of user 501 with the single thread 256. -/
def demo_proc_thread_256 : proc_t :=
  { p_pid := 2, p_comm := "bash", p_uid := 501, p_ruid := 501, p_gid := 501, p_rgid := 501,
    fd_ofiles := [], task_threads := [.info 0 256] }

/-- The component the host passes for a name read from a listing: ".." is
flagged `ISDOTDOT`. -/
def listed_component (name : String) : componentname :=
  if name = ".." then dotdot_component else component name

/-- The file id `procfs_get_node_fileid` computes for the node that a lookup
in the directory of `dir_pnp` ends with after name resolution: the directory's
own node for "."; otherwise a node with the identity and the structure node
handed to `procfsnode_find`.  When the structure node handed over is `NULL`
(".." in the root) the call only ends with a node that the table holds, which
for the directory's own identity is the directory node. -/
def lookup_target_fileid (nodes : List procfs_structure_node_t) (dir_pnp : procfsnode_t) :
    lookup_target → Option Nat
  | .self _ => procfs_get_node_fileid nodes dir_pnp
  | .node _ node_id (some s) =>
    procfs_get_node_fileid nodes
      { dir_pnp with node_id := node_id, node_structure_node := some s }
  | .node _ node_id none =>
    if node_id = dir_pnp.node_id then procfs_get_node_fileid nodes dir_pnp else none
  | _ => none

theorem toDigitsCore_length (fuel : Nat) : ∀ (n : Nat) (ds : List Char) (k : Nat),
    1 ≤ k → n < 10 ^ k → (Nat.toDigitsCore 10 fuel n ds).length ≤ ds.length + k := by
  induction fuel with
  | zero => intro n ds k hk h; unfold Nat.toDigitsCore; omega
  | succ fuel ih =>
    intro n ds k hk h
    unfold Nat.toDigitsCore
    by_cases h0 : n / 10 = 0
    · simp only [h0, if_true, List.length_cons]; omega
    · simp only [h0, if_false]
      have hk2 : 2 ≤ k := by
        by_contra hc
        have h1 : k = 1 := by omega
        subst h1
        exact h0 (Nat.div_eq_of_lt (by simpa using h))
      have hpow : 10 ^ k = 10 * 10 ^ (k - 1) := by
        rw [← pow_succ']; congr 1; omega
      have hdiv : n / 10 < 10 ^ (k - 1) := by
        rw [hpow] at h
        exact Nat.div_lt_of_lt_mul h
      have := ih (n / 10) (Nat.digitChar (n % 10) :: ds) (k - 1) (by omega) hdiv
      simp only [List.length_cons] at this
      omega

/-- The decimal representation of a number below 10^10 has at most 10
characters. -/
theorem toString_nat_length {n : Nat} (h : n < 10000000000) : (toString n).length ≤ 10 := by
  have h1 := toDigitsCore_length (n + 1) n [] 10 (by decide) (by simpa using h)
  show (Nat.repr n).data.length ≤ 10
  unfold Nat.repr Nat.toDigits
  simpa [List.asString] using h1

/-- A name of at most `NAME_MAX` characters is copied whole. -/
theorem lookup_name_component {name : String} (h : name.length ≤ 255) :
    lookup_name (component name) = name := by
  have h2 : name.data.length ≤ 255 := h
  unfold lookup_name component strlcpy NAME_MAX
  simp only []
  have e : min (255 + 1) (name.length + 1) - 1 = name.data.length := by
    show min (255 + 1) (name.data.length + 1) - 1 = name.data.length
    omega
  rw [e, List.take_length]

/-- A name that starts with a digit is not "..". -/
theorem name_ne_dotdot_of_digit {name : String} (h : leading_digits name ≠ []) :
    name ≠ ".." := by
  intro e
  rw [e] at h
  exact h (by decide)

/-- The component of a listed name that starts with a digit and has at most
`NAME_MAX` characters. -/
theorem listed_component_digit {name : String} (h : leading_digits name ≠ [])
    (hl : name.length ≤ 255) :
    listed_component name = component name
    ∧ 1 ≤ (component name).cn_namelen
    ∧ (component name).cn_flags_isdotdot = false
    ∧ lookup_name (component name) = name := by
  refine ⟨?_, ?_, rfl, lookup_name_component hl⟩
  · unfold listed_component
    rw [if_neg (name_ne_dotdot_of_digit h)]
  · show 1 ≤ name.data.length
    have : name.data ≠ [] := by
      intro e
      apply h
      unfold leading_digits
      rw [e]; rfl
    exact List.length_pos.mpr this

/-- The names of the children of a directory of the built layout are pairwise
distinct. -/
theorem tags_sibling_names :
    ∀ k, k < 35 → ((schema_node size_tags k).psn_children.map
      (fun c => (schema_node size_tags c).psn_name)).Nodup := by
  decide

/-- The children of the built layout that are entered under their fixed
name: it is neither "." nor "..", and has between 1 and 16 characters. -/
theorem tags_static_names :
    ∀ k, k < 35 → ∀ c ∈ (schema_node size_tags k).psn_children,
      ((schema_node size_tags c).psn_node_type = PROCFS_DIR
        ∨ (schema_node size_tags c).psn_node_type = PROCFS_FILE
        ∨ (schema_node size_tags c).psn_node_type = PROCFS_CURPROC) →
      (schema_node size_tags c).psn_name ≠ "." ∧ (schema_node size_tags c).psn_name ≠ ".."
        ∧ 1 ≤ (schema_node size_tags c).psn_name.length
        ∧ (schema_node size_tags c).psn_name.length ≤ 16 := by
  decide

/-- The "." and ".." children of the built layout carry these names. -/
theorem tags_dot_names :
    ∀ k, k < 35 → ∀ c ∈ (schema_node size_tags k).psn_children,
      ((schema_node size_tags c).psn_node_type = PROCFS_DIR_THIS →
        (schema_node size_tags c).psn_name = ".")
      ∧ ((schema_node size_tags c).psn_node_type = PROCFS_DIR_PARENT →
        (schema_node size_tags c).psn_name = "..") := by
  decide

/-- The expansion markers of the built layout sit in the root, byname, fd and
threads. -/
theorem tags_marker_places :
    ∀ k, k < 35 → ∀ c ∈ (schema_node size_tags k).psn_children,
      ((schema_node size_tags c).psn_node_type = PROCFS_PROCDIR → k = 0 ∧ c = 10)
      ∧ ((schema_node size_tags c).psn_node_type = PROCFS_PROCNAME_DIR → k = 4 ∧ c = 7)
      ∧ ((schema_node size_tags c).psn_node_type = PROCFS_FD_DIR → k = 13 ∧ c = 16)
      ∧ ((schema_node size_tags c).psn_node_type = PROCFS_THREADDIR → k = 19 ∧ c = 22) := by
  decide

/-- The root is the only structure node of the built layout without parent;
the parent of every other one is a structure node. -/
theorem tags_parents :
    ∀ k, k < 35 →
      ((schema_node size_tags k).psn_parent = none → k = 0)
      ∧ ∀ pp, (schema_node size_tags k).psn_parent = some pp → pp < 35 := by
  decide

/-- A child of a directory of the built layout splits the list of children
into those before it, none of which has its name, and those after it. -/
theorem schema_child_split (sz : kernel_sizes) {k c : Nat} (hk : k < 35)
    (hc : c ∈ (schema_node sz k).psn_children) :
    ∃ pre post, (schema_node sz k).psn_children = pre ++ c :: post
      ∧ ∀ x ∈ pre, (schema_node sz c).psn_name ≠ (schema_node sz x).psn_name := by
  obtain ⟨pre, post, hsplit⟩ := List.append_of_mem hc
  refine ⟨pre, post, hsplit, ?_⟩
  intro x hx hxe
  have hnd := tags_sibling_names k hk
  rw [← schema_children_eq sz k, hsplit, List.map_append, List.map_cons,
    List.nodup_middle] at hnd
  apply (List.nodup_cons.mp hnd).1
  rw [List.mem_append]
  left
  rw [List.mem_map]
  exact ⟨x, hx, by rw [← schema_name_eq sz x, ← schema_name_eq sz c]; exact hxe.symm⟩

/-- Resolution of the component ".": the directory itself. -/
theorem lookup_resolve_dot (nodes : List procfs_structure_node_t) (allproc : List proc_t)
    (pmp : procfs_mount_t) (creds : kauth_cred_t) (dv : vnode_t) (dir_pnp : procfsnode_t)
    (hty : dv.v_type = .VDIR) (hfs : dv.v_fsnode = some dir_pnp) :
    lookup_resolve nodes allproc pmp creds (some dv) (listed_component ".")
      = .self dv.v_addr := by
  have e : listed_component "." = component "." := by decide
  have h1 : (component ".").cn_namelen = 1 := by decide
  have h2 : (lookup_name (component ".")).data.head? = some '.' := by decide
  have h3 : (component ".").cn_flags_isdotdot = false := rfl
  rw [e]
  unfold lookup_resolve
  simp only [hty, hfs, h1, h2, h3]
  simp

/-- The file id of the node a lookup ends with when name resolution hands an
identity and a structure node of the built layout to `procfsnode_find`. -/
theorem lookup_target_fileid_node (sz : kernel_sizes) (dir_pnp : procfsnode_t)
    (vp : Option Nat) (id : procfsnode_id_t) {s : Nat} (hs : s < 35) :
    lookup_target_fileid (procfs_structure sz).nodes dir_pnp (.node vp id (some s))
      = some (procfs_get_fileid id.nodeid_pid id.nodeid_objectid
          (schema_node sz s).psn_base_node_id) := by
  have hget : (procfs_structure sz).nodes[s]? = some (schema_node sz s) := by
    rw [structure_nodes_eq]; exact schema_getElem sz hs
  show procfs_get_node_fileid _ _ = _
  unfold procfs_get_node_fileid
  simp only [Option.some_bind, hget]

/-- The file id of a directory node of the built layout. -/
theorem get_node_fileid_dir (sz : kernel_sizes) (dir_pnp : procfsnode_t) {k : Nat}
    (hi : dir_pnp.node_structure_node = some k) (hk : k < 35) :
    procfs_get_node_fileid (procfs_structure sz).nodes dir_pnp
      = some (procfs_get_fileid dir_pnp.node_id.nodeid_pid dir_pnp.node_id.nodeid_objectid
          (schema_node sz k).psn_base_node_id) := by
  have hget : (procfs_structure sz).nodes[k]? = some (schema_node sz k) := by
    rw [structure_nodes_eq]; exact schema_getElem sz hk
  unfold procfs_get_node_fileid
  simp only [hi, Option.some_bind, hget]

/-- With the guard of the listing passing, the live owning process of the
directory passes the access test of the lookup. -/
theorem access_of_guard {allproc : List proc_t} {pmp : procfs_mount_t} {creds : kauth_cred_t}
    {pid : Int} {p : proc_t}
    (hg : readdir_access_ok allproc (readdir_check_access pmp creds) creds pid = true)
    (hp : proc_find allproc pid = some p) (hne : pid ≠ PRNODE_NO_PID) :
    suser creds = 0 ∨ procfs_should_access_check pmp = false
      ∨ procfs_check_can_access_process creds p = 0 := by
  unfold readdir_access_ok readdir_check_access procfs_check_can_access_proc_pid at hg
  rw [hp] at hg
  by_cases h1 : suser creds = 0
  · exact Or.inl h1
  · by_cases h2 : procfs_should_access_check pmp = true
    · simp [h1, h2, hne] at hg
      exact Or.inr (Or.inr hg)
    · exact Or.inr (Or.inl (by simpa using h2))

/-- The pids that the listing of the root or of byname goes through are pids
of processes in the registry that pass the access test of the lookup. -/
theorem mem_listed_pids {allproc : List proc_t} {pmp : procfs_mount_t} {creds : kauth_cred_t}
    {this_pid : Int}
    (h : this_pid ∈ procfs_get_pids allproc
      (if readdir_check_access pmp creds = true then some creds else none)) :
    ∃ p ∈ allproc, p.p_pid = this_pid
      ∧ (suser creds = 0 ∨ procfs_should_access_check pmp = false
        ∨ procfs_check_can_access_process creds p = 0) := by
  unfold procfs_get_pids at h
  obtain ⟨p, hp, rfl⟩ := List.mem_map.mp h
  obtain ⟨hmem, hf⟩ := List.mem_filter.mp hp
  refine ⟨p, hmem, rfl, ?_⟩
  by_cases h1 : suser creds = 0
  · exact Or.inl h1
  · by_cases h2 : procfs_should_access_check pmp = true
    · have hc : readdir_check_access pmp creds = true := by
        simp [readdir_check_access, h1, h2]
      rw [hc] at hf
      simp only [if_true, beq_iff_eq] at hf
      exact Or.inr (Or.inr hf)
    · exact Or.inr (Or.inl (by simpa using h2))

/-- Resolution in a directory of the built layout of the name of a child that
is entered under its fixed name. -/
theorem listed_fixed_name (sz : kernel_sizes) (allproc : List proc_t) (pmp : procfs_mount_t)
    (creds : kauth_cred_t) (dv : vnode_t) (dir_pnp : procfsnode_t) (k c : Nat)
    (hty : dv.v_type = .VDIR) (hfs : dv.v_fsnode = some dir_pnp)
    (hi : dir_pnp.node_structure_node = some k) (hk : k < 35)
    (hc : c ∈ (schema_node sz k).psn_children)
    (htype : (schema_node sz c).psn_node_type = PROCFS_DIR
      ∨ (schema_node sz c).psn_node_type = PROCFS_FILE
      ∨ (schema_node sz c).psn_node_type = PROCFS_CURPROC) :
    lookup_target_fileid (procfs_structure sz).nodes dir_pnp
        (lookup_resolve (procfs_structure sz).nodes allproc pmp creds (some dv)
          (listed_component (schema_node sz c).psn_name))
      = some (procfs_get_fileid dir_pnp.node_id.nodeid_pid dir_pnp.node_id.nodeid_objectid
          (schema_node sz c).psn_base_node_id) := by
  have hc2 : c ∈ (schema_node size_tags k).psn_children := by
    rw [← schema_children_eq sz k]; exact hc
  have hc35 : c < 35 := tags_children_lt k hk c hc2
  rw [schema_type_eq sz c] at htype
  obtain ⟨n1, n2, n3, n4⟩ := tags_static_names k hk c hc2 htype
  rw [← schema_name_eq sz c] at n1 n2 n3 n4
  obtain ⟨pre, post, hch, hfirst⟩ := schema_child_split sz hk hc
  have hl : lookup_name (component (schema_node sz c).psn_name) = (schema_node sz c).psn_name :=
    lookup_name_component (by omega)
  have e : listed_component (schema_node sz c).psn_name
      = component (schema_node sz c).psn_name := by
    unfold listed_component
    rw [if_neg n2]
  rw [e, lookup_resolve_static sz allproc pmp creds dv dir_pnp _ k c pre post hty hfs hi hk hc35
    hch n3 rfl (by rw [hl]; exact n1) hl (by rw [hl]; exact hfirst),
    lookup_target_fileid_node sz dir_pnp _ _ hc35]

/-- Resolution in the byname directory of the built layout of the name built
for a live process that the caller may access. -/
theorem lookup_resolve_byname_name (sz : kernel_sizes) (allproc : List proc_t)
    (pmp : procfs_mount_t) (creds : kauth_cred_t) (dv : vnode_t) (dir_pnp : procfsnode_t)
    (cnp : componentname) (hty : dv.v_type = .VDIR) (hfs : dv.v_fsnode = some dir_pnp)
    (hi : dir_pnp.node_structure_node = some 4)
    (hlen : 1 ≤ cnp.cn_namelen) (hdd : cnp.cn_flags_isdotdot = false)
    {p : proc_t} (h0 : 0 ≤ p.p_pid) (h1 : p.p_pid < 2147483648)
    (hname : lookup_name cnp = procfs_construct_process_dir_name p)
    (hp : proc_find allproc p.p_pid = some p)
    (hacc : suser creds = 0 ∨ procfs_should_access_check pmp = false
      ∨ procfs_check_can_access_process creds p = 0) :
    lookup_resolve (procfs_structure sz).nodes allproc pmp creds (some dv) cnp
      = .node (some dv.v_addr)
          { nodeid_base_id := (schema_node sz 7).psn_base_node_id,
            nodeid_pid := p.p_pid,
            nodeid_objectid := dir_pnp.node_id.nodeid_objectid } (some 7) := by
  have hlt : 4 < 35 := by decide
  have hch : (schema_node sz 4).psn_children = [5, 6] ++ [7] := rfl
  have hld : leading_digits (lookup_name cnp) ≠ [] := by
    rw [hname]; exact (construct_name_digits h0).1
  have hnm : ∀ c ∈ (schema_node sz 4).psn_children,
      child_name (procfs_structure sz).nodes c ≠ some (lookup_name cnp) :=
    fun c _ => child_name_ne_of_digit sz hld c
  have hdot : lookup_name cnp ≠ "." := name_ne_dot_of_digit hld
  have hmn : (procfs_structure sz).nodes[7]? = some (schema_node sz 7) := by
    rw [structure_nodes_eq]; rfl
  have hmne : lookup_name cnp ≠ (schema_node sz 7).psn_name :=
    child_name_ne hlt hnm (by rw [hch]; decide)
  have ha : (procfs_atoi (lookup_name cnp)).1 = p.p_pid := by
    rw [hname]; exact procfs_atoi_construct_name h0 h1
  rw [lookup_resolve_last_child sz allproc pmp creds dv dir_pnp cnp 4 7 [5, 6] hty hfs hi hlt
    hch hlen hdd hdot hnm, lookup_match_loop_proc hmn hmne (Or.inr (Or.inl rfl)),
    lookup_proc_entry_procname allproc pmp creds dir_pnp (lookup_name cnp) 7 (schema_node sz 7)
      rfl, ha, if_neg (by omega), hp]
  simp only []
  rw [if_pos ⟨hname, hacc⟩]
  rfl

/-- The `d_ino` of an entry made for a file id that a lookup arrives at. -/
theorem map_ino_of_eq {o : Option Nat} {F : Nat} (h : o = some F) :
    o.map to_ino_t = some (to_ino_t F) := by
  rw [h]; rfl

/-- The name built for a process with a pid in the range of a non-negative
`int` has at most 27 characters. -/
theorem construct_name_length {p : proc_t} (h0 : 0 ≤ p.p_pid) (h1 : p.p_pid < 2147483648) :
    (procfs_construct_process_dir_name p).length ≤ 27 := by
  rw [construct_name_eq h0]
  simp only [String.length_append]
  have h2 := toString_nat_length (n := p.p_pid.toNat) (by omega)
  have h3 : (String.mk (p.p_comm.data.take MAXCOMLEN)).length ≤ 16 := by
    show (p.p_comm.data.take 16).length ≤ 16
    rw [List.length_take]; exact Nat.min_le_left _ _
  have h4 : " ".length = 1 := rfl
  omega

/-- An entry of the process expansion in the root resolves in the root, to a
node with the file id of the entry. -/
theorem listed_process (H : Nat) (sz : kernel_sizes) (allproc : List proc_t)
    (pmp : procfs_mount_t) (creds : kauth_cred_t) (dv : vnode_t) (dir_pnp : procfsnode_t)
    (hty : dv.v_type = .VDIR) (hfs : dv.v_fsnode = some dir_pnp)
    (hi : dir_pnp.node_structure_node = some 0)
    (hobj : dir_pnp.node_id.nodeid_objectid = PRNODE_NO_OBJECTID)
    (hpids : ∀ p ∈ allproc, 0 ≤ p.p_pid ∧ p.p_pid ≤ 2147483647)
    (hnd : (allproc.map (fun p => p.p_pid)).Nodup) {e : dirent}
    (he : e ∈ (marker_entries H allproc (readdir_check_access pmp creds) creds dir_pnp
      (schema_node sz 10)).1) :
    (lookup_target_fileid (procfs_structure sz).nodes dir_pnp
        (lookup_resolve (procfs_structure sz).nodes allproc pmp creds (some dv)
          (listed_component e.d_name))).map to_ino_t
      = some e.d_ino := by
  have hmt : (schema_node sz 10).psn_node_type = PROCFS_PROCDIR := rfl
  simp only [marker_entries, hmt] at he
  obtain ⟨cand, hcand, rfl⟩ := List.mem_map.mp he
  unfold process_candidates at hcand
  obtain ⟨this_pid, hpid, hc⟩ := List.mem_filterMap.mp hcand
  simp only [if_true, Option.some.injEq] at hc
  subst hc
  obtain ⟨p, hmem, rfl, hacc⟩ := mem_listed_pids hpid
  obtain ⟨h0, h1⟩ := hpids p hmem
  have hs : toString p.p_pid = toString p.p_pid.toNat := toString_int_toNat h0
  have hcast : ((p.p_pid.toNat : Nat) : Int) = p.p_pid := Int.toNat_of_nonneg h0
  have hld := (leading_digits_toString_nat p.p_pid.toNat).2
  have hlen := toString_nat_length (n := p.p_pid.toNat) (by omega)
  obtain ⟨c1, c2, c3, c4⟩ := listed_component_digit hld (by omega)
  refine map_ino_of_eq (?_ : lookup_target_fileid _ _ (lookup_resolve _ _ _ _ _
      (listed_component (toString p.p_pid)))
    = some (procfs_get_fileid p.p_pid PRNODE_NO_OBJECTID (schema_node sz 10).psn_base_node_id))
  rw [hs, c1, lookup_resolve_root_pid sz allproc pmp creds dv dir_pnp _ hty hfs hi c2 c3
    p.p_pid.toNat (by omega) c4 (by rw [hcast]; exact proc_find_of_mem hnd hmem) hacc,
    lookup_target_fileid_node sz dir_pnp _ _ (by decide), hcast, hobj]

/-- An entry of the process expansion in byname resolves in byname, to a node
with the file id of the entry. -/
theorem listed_process_name (H : Nat) (sz : kernel_sizes) (allproc : List proc_t)
    (pmp : procfs_mount_t) (creds : kauth_cred_t) (dv : vnode_t) (dir_pnp : procfsnode_t)
    (hty : dv.v_type = .VDIR) (hfs : dv.v_fsnode = some dir_pnp)
    (hi : dir_pnp.node_structure_node = some 4)
    (hobj : dir_pnp.node_id.nodeid_objectid = PRNODE_NO_OBJECTID)
    (hpids : ∀ p ∈ allproc, 0 ≤ p.p_pid ∧ p.p_pid ≤ 2147483647)
    (hnd : (allproc.map (fun p => p.p_pid)).Nodup) {e : dirent}
    (he : e ∈ (marker_entries H allproc (readdir_check_access pmp creds) creds dir_pnp
      (schema_node sz 7)).1) :
    (lookup_target_fileid (procfs_structure sz).nodes dir_pnp
        (lookup_resolve (procfs_structure sz).nodes allproc pmp creds (some dv)
          (listed_component e.d_name))).map to_ino_t
      = some e.d_ino := by
  have hmt : (schema_node sz 7).psn_node_type = PROCFS_PROCNAME_DIR := rfl
  simp only [marker_entries, hmt] at he
  obtain ⟨cand, hcand, rfl⟩ := List.mem_map.mp he
  unfold process_candidates at hcand
  obtain ⟨this_pid, hpid, hc⟩ := List.mem_filterMap.mp hcand
  obtain ⟨p, hmem, rfl, hacc⟩ := mem_listed_pids hpid
  have hp := proc_find_of_mem hnd hmem
  simp only [Bool.false_eq_true, if_false, hp, Option.some.injEq] at hc
  subst hc
  obtain ⟨h0, h1⟩ := hpids p hmem
  have hlen := construct_name_length h0 (by omega : p.p_pid < 2147483648)
  obtain ⟨c1, c2, c3, c4⟩ := listed_component_digit (construct_name_digits h0).1
    (by omega : (procfs_construct_process_dir_name p).length ≤ 255)
  refine map_ino_of_eq (?_ : lookup_target_fileid _ _ (lookup_resolve _ _ _ _ _
      (listed_component (procfs_construct_process_dir_name p)))
    = some (procfs_get_fileid p.p_pid PRNODE_NO_OBJECTID (schema_node sz 7).psn_base_node_id))
  rw [c1, lookup_resolve_byname_name sz allproc pmp creds dv dir_pnp _ hty hfs hi c2 c3 h0
    (by omega) c4 hp hacc, lookup_target_fileid_node sz dir_pnp _ _ (by decide), hobj]

/-- An entry of the thread expansion resolves in the threads directory, to a
node with the file id of the entry. -/
theorem listed_thread (H : Nat) (sz : kernel_sizes) (allproc : List proc_t)
    (pmp : procfs_mount_t) (creds : kauth_cred_t) (dv : vnode_t) (dir_pnp : procfsnode_t)
    (hty : dv.v_type = .VDIR) (hfs : dv.v_fsnode = some dir_pnp)
    (hi : dir_pnp.node_structure_node = some 19)
    (hpids : ∀ p ∈ allproc, 0 ≤ p.p_pid ∧ p.p_pid ≤ 2147483647)
    (hthreads : ∀ p ∈ allproc, ∀ T ∈ (procfs_get_thread_ids_for_task p.task_threads).2,
      T ≤ 2147483647)
    (hg : readdir_access_ok allproc (readdir_check_access pmp creds) creds
      dir_pnp.node_id.nodeid_pid = true) {e : dirent}
    (he : e ∈ (marker_entries H allproc (readdir_check_access pmp creds) creds dir_pnp
      (schema_node sz 22)).1) :
    (lookup_target_fileid (procfs_structure sz).nodes dir_pnp
        (lookup_resolve (procfs_structure sz).nodes allproc pmp creds (some dv)
          (listed_component e.d_name))).map to_ino_t
      = some e.d_ino := by
  have hmt : (schema_node sz 22).psn_node_type = PROCFS_THREADDIR := rfl
  simp only [marker_entries, hmt] at he
  cases hp : proc_find allproc dir_pnp.node_id.nodeid_pid with
  | none =>
    rw [hp] at he
    simp at he
  | some p =>
    rw [hp] at he
    simp only [] at he
    by_cases hok : (procfs_get_thread_ids_for_task p.task_threads).1 = 0
    · rw [if_pos hok] at he
      obtain ⟨cand, hcand, rfl⟩ := List.mem_map.mp he
      unfold thread_candidates at hcand
      obtain ⟨T, hT, rfl⟩ := List.mem_map.mp hcand
      obtain ⟨hpid, hmem⟩ := proc_find_some hp
      have hTle := hthreads p hmem T hT
      have hne : dir_pnp.node_id.nodeid_pid ≠ PRNODE_NO_PID := by
        have := (hpids p hmem).1
        rw [hpid] at this
        unfold PRNODE_NO_PID
        omega
      have hacc := access_of_guard hg hp hne
      have hw : wrap_int32 (T : Int) = (T : Int) := wrap_int32_of_range (by omega) (by omega)
      have hld := (leading_digits_toString_nat T).2
      have hlen := toString_nat_length (n := T) (by omega)
      obtain ⟨c1, c2, c3, c4⟩ := listed_component_digit hld (by omega)
      refine map_ino_of_eq (?_ : lookup_target_fileid _ _ (lookup_resolve _ _ _ _ _
          (listed_component (format_lld T)))
        = some (procfs_get_fileid dir_pnp.node_id.nodeid_pid T
            (schema_node sz 22).psn_base_node_id))
      rw [format_lld_of_lt (by omega), c1,
        lookup_resolve_thread_id sz allproc pmp creds dv dir_pnp _ hty hfs hi c2 c3 T
          (by rw [hw]; exact to_uint64_of_nat (by omega)) (by rw [hw]; omega) c4 hp hacc hok hT,
        lookup_target_fileid_node sz dir_pnp _ _ (by decide)]
    · rw [if_neg hok] at he
      simp at he

/-- An entry of the descriptor expansion resolves in the fd directory, to a
node with the file id of the entry. -/
theorem listed_descriptor (H : Nat) (sz : kernel_sizes) (allproc : List proc_t)
    (pmp : procfs_mount_t) (creds : kauth_cred_t) (dv : vnode_t) (dir_pnp : procfsnode_t)
    (hty : dv.v_type = .VDIR) (hfs : dv.v_fsnode = some dir_pnp)
    (hi : dir_pnp.node_structure_node = some 13)
    (hfds : ∀ p ∈ allproc, p.fd_ofiles.length ≤ 2147483648) {e : dirent}
    (he : e ∈ (marker_entries H allproc (readdir_check_access pmp creds) creds dir_pnp
      (schema_node sz 16)).1) :
    (lookup_target_fileid (procfs_structure sz).nodes dir_pnp
        (lookup_resolve (procfs_structure sz).nodes allproc pmp creds (some dv)
          (listed_component e.d_name))).map to_ino_t
      = some e.d_ino := by
  have hmt : (schema_node sz 16).psn_node_type = PROCFS_FD_DIR := rfl
  simp only [marker_entries, hmt] at he
  cases hp : proc_find allproc dir_pnp.node_id.nodeid_pid with
  | none =>
    rw [hp] at he
    simp at he
  | some p =>
    rw [hp] at he
    simp only [] at he
    obtain ⟨cand, hcand, rfl⟩ := List.mem_map.mp he
    unfold fd_candidates at hcand
    obtain ⟨i, hi2, rfl⟩ := List.mem_map.mp hcand
    unfold open_descriptors at hi2
    obtain ⟨hrange, hslot⟩ := List.mem_filter.mp hi2
    have hilt : i < p.fd_ofiles.length := List.mem_range.mp hrange
    have hlen2 := hfds p (proc_find_some hp).2
    cases hs : p.fd_ofiles[i]? with
    | none =>
      rw [hs] at hslot
      simp at hslot
    | some slot =>
      rw [hs] at hslot
      simp only [Bool.and_eq_true, Bool.not_eq_true', ] at hslot
      have hld := (leading_digits_toString_nat i).2
      have hlen := toString_nat_length (n := i) (by omega)
      obtain ⟨c1, c2, c3, c4⟩ := listed_component_digit hld (by omega)
      refine map_ino_of_eq (?_ : lookup_target_fileid _ _ (lookup_resolve _ _ _ _ _
          (listed_component (toString i)))
        = some (procfs_get_fileid dir_pnp.node_id.nodeid_pid i
            (schema_node sz 16).psn_base_node_id))
      rw [c1, lookup_resolve_fd_number sz allproc pmp creds dv dir_pnp _ hty hfs hi c2 c3 i
          (by omega) c4 hp hs hslot.1 hslot.2,
        lookup_target_fileid_node sz dir_pnp _ _ (by decide)]

/-- The entry "." resolves to the directory, whose file id is that of the
entry when the node carries the base id of its structure node. -/
theorem listed_dot (sz : kernel_sizes) (allproc : List proc_t)
    (pmp : procfs_mount_t) (creds : kauth_cred_t) (dv : vnode_t) (dir_pnp : procfsnode_t)
    (k : Nat) (hty : dv.v_type = .VDIR) (hfs : dv.v_fsnode = some dir_pnp)
    (hi : dir_pnp.node_structure_node = some k) (hk : k < 35)
    (hbase : dir_pnp.node_id.nodeid_base_id = (schema_node sz k).psn_base_node_id) :
    lookup_target_fileid (procfs_structure sz).nodes dir_pnp
        (lookup_resolve (procfs_structure sz).nodes allproc pmp creds (some dv)
          (listed_component "."))
      = some (procfs_get_fileid dir_pnp.node_id.nodeid_pid dir_pnp.node_id.nodeid_objectid
          dir_pnp.node_id.nodeid_base_id) := by
  rw [lookup_resolve_dot _ allproc pmp creds dv dir_pnp hty hfs]
  show procfs_get_node_fileid _ _ = _
  rw [get_node_fileid_dir sz dir_pnp hi hk, hbase]

/-- The entry ".." resolves to the parent identity, whose node has the file id
of the entry; in the root that is the root itself. -/
theorem listed_dotdot (sz : kernel_sizes) (allproc : List proc_t)
    (pmp : procfs_mount_t) (creds : kauth_cred_t) (dv : vnode_t) (dir_pnp : procfsnode_t)
    (k : Nat) (hty : dv.v_type = .VDIR) (hfs : dv.v_fsnode = some dir_pnp)
    (hi : dir_pnp.node_structure_node = some k) (hk : k < 35)
    (hbase : dir_pnp.node_id.nodeid_base_id = (schema_node sz k).psn_base_node_id)
    (hplain : (schema_node sz k).psn_flags = 0 →
      dir_pnp.node_id.nodeid_pid = PRNODE_NO_PID
        ∧ dir_pnp.node_id.nodeid_objectid = PRNODE_NO_OBJECTID)
    {parent : procfsnode_id_t}
    (hp : procfs_get_parent_node_id (procfs_structure sz).nodes dir_pnp = some parent) :
    lookup_target_fileid (procfs_structure sz).nodes dir_pnp
        (lookup_resolve (procfs_structure sz).nodes allproc pmp creds (some dv)
          (listed_component ".."))
      = some (procfs_get_fileid parent.nodeid_pid parent.nodeid_objectid
          parent.nodeid_base_id) := by
  have e : listed_component ".." = dotdot_component := by decide
  have hget : (procfs_structure sz).nodes[k]? = some (schema_node sz k) := by
    rw [structure_nodes_eq]; exact schema_getElem sz hk
  rw [e, lookup_resolve_dotdot hty hfs (by decide) rfl hi hget hp]
  cases hpp : (schema_node sz k).psn_parent with
  | some pp =>
    have hpp35 : pp < 35 := (tags_parents k hk).2 pp (by rw [← schema_parent_eq]; exact hpp)
    have hgp : (procfs_structure sz).nodes[pp]? = some (schema_node sz pp) := by
      rw [structure_nodes_eq]; exact schema_getElem sz hpp35
    have h2 := parent_node_id_eq hi hget hpp hgp
    rw [hp, Option.some.injEq] at h2
    have hb : parent.nodeid_base_id = (schema_node sz pp).psn_base_node_id := by rw [h2]
    rw [lookup_target_fileid_node sz dir_pnp _ _ hpp35, hb]
  | none =>
    have hk0 : k = 0 := (tags_parents k hk).1 (by rw [← schema_parent_eq]; exact hpp)
    subst hk0
    have hfl : (schema_node sz 0).psn_flags = 0 := rfl
    obtain ⟨h1, h2⟩ := hplain hfl
    have hpar : parent = dir_pnp.node_id := by
      unfold procfs_get_parent_node_id at hp
      simp only [hi, Option.some_bind, hget, hpp, hfl, Option.some.injEq] at hp
      rw [← hp]
      cases hid : dir_pnp.node_id with
      | mk a b c =>
        rw [hid] at h1 h2 hbase
        simp only [] at h1 h2 hbase
        rw [h1, h2, hbase]
        rfl
    show (if parent = dir_pnp.node_id then procfs_get_node_fileid _ dir_pnp else none) = _
    rw [if_pos hpar, get_node_fileid_dir sz dir_pnp hi (by decide), hpar, hbase]

/-- The entry of a child that is not expanded resolves in the directory, to a
node with the file id of the entry. -/
theorem listed_static (H : Nat) (sz : kernel_sizes) (allproc : List proc_t)
    (pmp : procfs_mount_t) (creds : kauth_cred_t) (dv : vnode_t) (dir_pnp : procfsnode_t)
    (k c : Nat) (hty : dv.v_type = .VDIR) (hfs : dv.v_fsnode = some dir_pnp)
    (hi : dir_pnp.node_structure_node = some k) (hk : k < 35)
    (hbase : dir_pnp.node_id.nodeid_base_id = (schema_node sz k).psn_base_node_id)
    (hplain : (schema_node sz k).psn_flags = 0 →
      dir_pnp.node_id.nodeid_pid = PRNODE_NO_PID
        ∧ dir_pnp.node_id.nodeid_objectid = PRNODE_NO_OBJECTID)
    (hc : c ∈ (schema_node sz k).psn_children) {e : dirent}
    (he : static_child_entry H (procfs_structure sz).nodes dir_pnp (schema_node sz c) = some e) :
    (lookup_target_fileid (procfs_structure sz).nodes dir_pnp
        (lookup_resolve (procfs_structure sz).nodes allproc pmp creds (some dv)
          (listed_component e.d_name))).map to_ino_t
      = some e.d_ino := by
  have hc2 : c ∈ (schema_node size_tags k).psn_children := by
    rw [← schema_children_eq sz k]; exact hc
  obtain ⟨d1, d2⟩ := tags_dot_names k hk c hc2
  rw [← schema_type_eq sz c, ← schema_name_eq sz c] at d1 d2
  unfold static_child_entry at he
  cases htype : (schema_node sz c).psn_node_type with
  | PROCFS_ROOT => simp [htype] at he
  | PROCFS_DIR =>
    simp only [htype, Option.some.injEq] at he
    subst he
    exact map_ino_of_eq
      (listed_fixed_name sz allproc pmp creds dv dir_pnp k c hty hfs hi hk hc (Or.inl htype))
  | PROCFS_FILE =>
    simp only [htype, Option.some.injEq] at he
    subst he
    exact map_ino_of_eq (listed_fixed_name sz allproc pmp creds dv dir_pnp k c hty hfs hi hk hc
      (Or.inr (Or.inl htype)))
  | PROCFS_CURPROC =>
    simp only [htype, Option.some.injEq] at he
    subst he
    exact map_ino_of_eq (listed_fixed_name sz allproc pmp creds dv dir_pnp k c hty hfs hi hk hc
      (Or.inr (Or.inr htype)))
  | PROCFS_DIR_THIS =>
    simp only [htype, Option.some.injEq] at he
    subst he
    refine map_ino_of_eq (?_ : lookup_target_fileid _ _ (lookup_resolve _ _ _ _ _
        (listed_component (schema_node sz c).psn_name))
      = some (procfs_get_fileid dir_pnp.node_id.nodeid_pid dir_pnp.node_id.nodeid_objectid
          dir_pnp.node_id.nodeid_base_id))
    rw [d1 htype]
    exact listed_dot sz allproc pmp creds dv dir_pnp k hty hfs hi hk hbase
  | PROCFS_DIR_PARENT =>
    simp only [htype] at he
    cases hp : procfs_get_parent_node_id (procfs_structure sz).nodes dir_pnp with
    | none =>
      rw [hp] at he
      simp at he
    | some parent =>
      rw [hp] at he
      simp only [Option.map_some', Option.some.injEq] at he
      subst he
      refine map_ino_of_eq (?_ : lookup_target_fileid _ _ (lookup_resolve _ _ _ _ _
          (listed_component (schema_node sz c).psn_name))
        = some (procfs_get_fileid parent.nodeid_pid parent.nodeid_objectid
            parent.nodeid_base_id))
      rw [d2 htype]
      exact listed_dotdot sz allproc pmp creds dv dir_pnp k hty hfs hi hk hbase hplain hp
  | PROCFS_PROCDIR => simp [htype] at he
  | PROCFS_PROCNAME_DIR => simp [htype] at he
  | PROCFS_THREADDIR => simp [htype] at he
  | PROCFS_FD_DIR => simp [htype] at he

/-- Every entry that the listing of a directory of the built layout makes for
a child resolves in that directory, to a node with the file id of the entry:
the registry has each pid once, pids are in the range of a non-negative `int`,
thread ids are at most `INT_MAX` and descriptor tables have at most 2^31
slots; the directory node carries the base id of its structure node, and
neither pid nor object id when that node has no flag. -/
theorem listed_entry_resolves (H : Nat) (sz : kernel_sizes) (allproc : List proc_t)
    (pmp : procfs_mount_t) (creds : kauth_cred_t) (dv : vnode_t) (dir_pnp : procfsnode_t)
    (k c : Nat) (hty : dv.v_type = .VDIR) (hfs : dv.v_fsnode = some dir_pnp)
    (hi : dir_pnp.node_structure_node = some k) (hk : k < 35)
    (hbase : dir_pnp.node_id.nodeid_base_id = (schema_node sz k).psn_base_node_id)
    (hplain : (schema_node sz k).psn_flags = 0 →
      dir_pnp.node_id.nodeid_pid = PRNODE_NO_PID
        ∧ dir_pnp.node_id.nodeid_objectid = PRNODE_NO_OBJECTID)
    (hpids : ∀ p ∈ allproc, 0 ≤ p.p_pid ∧ p.p_pid ≤ 2147483647)
    (hnd : (allproc.map (fun p => p.p_pid)).Nodup)
    (hthreads : ∀ p ∈ allproc, ∀ T ∈ (procfs_get_thread_ids_for_task p.task_threads).2,
      T ≤ 2147483647)
    (hfds : ∀ p ∈ allproc, p.fd_ofiles.length ≤ 2147483648)
    (hg : readdir_access_ok allproc (readdir_check_access pmp creds) creds
      dir_pnp.node_id.nodeid_pid = true)
    (hc : c ∈ (schema_node sz k).psn_children) {e : dirent}
    (he : static_child_entry H (procfs_structure sz).nodes dir_pnp (schema_node sz c) = some e
      ∨ e ∈ (marker_entries H allproc (readdir_check_access pmp creds) creds dir_pnp
          (schema_node sz c)).1) :
    (lookup_target_fileid (procfs_structure sz).nodes dir_pnp
        (lookup_resolve (procfs_structure sz).nodes allproc pmp creds (some dv)
          (listed_component e.d_name))).map to_ino_t
      = some e.d_ino := by
  rcases he with he | he
  · exact listed_static H sz allproc pmp creds dv dir_pnp k c hty hfs hi hk hbase hplain hc he
  · have hc2 : c ∈ (schema_node size_tags k).psn_children := by
      rw [← schema_children_eq sz k]; exact hc
    obtain ⟨m1, m2, m3, m4⟩ := tags_marker_places k hk c hc2
    rw [← schema_type_eq sz c] at m1 m2 m3 m4
    cases htype : (schema_node sz c).psn_node_type with
    | PROCFS_ROOT => simp [marker_entries, htype] at he
    | PROCFS_DIR => simp [marker_entries, htype] at he
    | PROCFS_FILE => simp [marker_entries, htype] at he
    | PROCFS_CURPROC => simp [marker_entries, htype] at he
    | PROCFS_DIR_THIS => simp [marker_entries, htype] at he
    | PROCFS_DIR_PARENT => simp [marker_entries, htype] at he
    | PROCFS_PROCDIR =>
      obtain ⟨rfl, rfl⟩ := m1 htype
      exact listed_process H sz allproc pmp creds dv dir_pnp hty hfs hi (hplain rfl).2 hpids hnd
        he
    | PROCFS_PROCNAME_DIR =>
      obtain ⟨rfl, rfl⟩ := m2 htype
      exact listed_process_name H sz allproc pmp creds dv dir_pnp hty hfs hi (hplain rfl).2 hpids
        hnd he
    | PROCFS_THREADDIR =>
      obtain ⟨rfl, rfl⟩ := m4 htype
      exact listed_thread H sz allproc pmp creds dv dir_pnp hty hfs hi hpids hthreads hg he
    | PROCFS_FD_DIR =>
      obtain ⟨rfl, rfl⟩ := m3 htype
      exact listed_descriptor H sz allproc pmp creds dv dir_pnp hty hfs hi hfds he

/-! ## Name lookup and the layout: parent identities and invariants -/

/-- C17: for a node `n` whose structure node has a parent in the layout,
`procfs_get_parent_node_id` returns the identity made of the parent structure
node's base id, the pid of `n` if the parent structure node carries
`PSN_FLAG_PROCESS` and `PRNODE_NO_PID` otherwise, and the object id of `n` if
the parent structure node carries `PSN_FLAG_THREAD` and `PRNODE_NO_OBJECTID`
otherwise.  For the root node (no parent in the layout, identity
`PROCFS_ROOT_NODE_ID`, base id `PROCFS_ROOT_NODE_BASE_ID`) it returns
`PROCFS_ROOT_NODE_ID`; in the layout that `procfs_structure_init` builds this
holds for every node whose structure node is the root. -/
theorem parent_node_id_from_schema_parent (nodes : List procfs_structure_node_t)
    (pnp : procfsnode_t) (i : Nat) (sn : procfs_structure_node_t)
    (hi : pnp.node_structure_node = some i) (hsn : nodes[i]? = some sn) :
    (∀ pp ps, sn.psn_parent = some pp → nodes[pp]? = some ps →
      procfs_get_parent_node_id nodes pnp = some
        { nodeid_base_id := ps.psn_base_node_id,
          nodeid_pid :=
            if Nat.land ps.psn_flags PSN_FLAG_PROCESS ≠ 0 then pnp.node_id.nodeid_pid
            else PRNODE_NO_PID,
          nodeid_objectid :=
            if Nat.land ps.psn_flags PSN_FLAG_THREAD ≠ 0 then pnp.node_id.nodeid_objectid
            else PRNODE_NO_OBJECTID })
    ∧ (sn.psn_parent = none → pnp.node_id = PROCFS_ROOT_NODE_ID →
        sn.psn_base_node_id = PROCFS_ROOT_NODE_BASE_ID →
        procfs_get_parent_node_id nodes pnp = some PROCFS_ROOT_NODE_ID)
    ∧ (∀ sz, nodes = (procfs_structure sz).nodes → (procfs_structure sz).root_node = some i →
        procfs_get_parent_node_id nodes pnp = some PROCFS_ROOT_NODE_ID) := by
  refine ⟨?_, ?_, ?_⟩
  · intro pp ps hp hps
    unfold procfs_get_parent_node_id
    simp [hi, hsn, hp, hps]
  · intro hp hid hbase
    unfold procfs_get_parent_node_id
    simp [hi, hsn, hp, hid, hbase, PROCFS_ROOT_NODE_ID]
  · intro sz hnodes hroot
    rw [structure_root_eq] at hroot
    have h0 : i = 0 := (Option.some.inj hroot).symm
    subst h0
    subst hnodes
    unfold procfs_get_parent_node_id
    rw [hi, structure_nodes_eq]
    have hP : Nat.land 0 PSN_FLAG_PROCESS = 0 := by decide
    have hT : Nat.land 0 PSN_FLAG_THREAD = 0 := by decide
    simp [schema_table, PROCFS_ROOT_NODE_ID, hP, hT, PROCFS_ROOT_NODE_BASE_ID]

/-- Witness for C17: the node of thread 7 of process 2 (structure node 22,
whose parent is the "threads" directory, node 19 with base id 20 and the
process flag only). -/
theorem parent_node_id_from_schema_parent_witness :
    procfs_get_parent_node_id demo_nodes (demo_dir 2 7 22) = some
      { nodeid_base_id := (schema_node demo_sizes 19).psn_base_node_id,
        nodeid_pid :=
          if Nat.land (schema_node demo_sizes 19).psn_flags PSN_FLAG_PROCESS ≠ 0 then
            (demo_dir 2 7 22).node_id.nodeid_pid
          else PRNODE_NO_PID,
        nodeid_objectid :=
          if Nat.land (schema_node demo_sizes 19).psn_flags PSN_FLAG_THREAD ≠ 0 then
            (demo_dir 2 7 22).node_id.nodeid_objectid
          else PRNODE_NO_OBJECTID }
    ∧ procfs_get_parent_node_id demo_nodes (demo_dir 2 7 22)
        = some { nodeid_pid := 2, nodeid_objectid := 0, nodeid_base_id := 20 } :=
  ⟨(parent_node_id_from_schema_parent demo_nodes (demo_dir 2 7 22) 22
      (schema_node demo_sizes 22) rfl (by decide)).1 19 (schema_node demo_sizes 19)
      (by decide) (by decide), by decide⟩


/-- C19: in the layout built by `procfs_structure_init`, every structure node
of an expansion type (`PROCFS_PROCDIR`, `PROCFS_PROCNAME_DIR`,
`PROCFS_THREADDIR`, `PROCFS_FD_DIR`) has a parent and is the last element of
that parent's child list, and no structure node has more than one child of an
expansion type. -/
theorem expansion_marker_is_last_child (sz : kernel_sizes) :
    (∀ (i : Nat) (n : procfs_structure_node_t), (procfs_structure sz).nodes[i]? = some n →
      is_expansion_type n.psn_node_type = true →
      ∃ (pp : Nat) (pn : procfs_structure_node_t), n.psn_parent = some pp
        ∧ (procfs_structure sz).nodes[pp]? = some pn
        ∧ pn.psn_children.getLast? = some i)
    ∧ (∀ (pp : Nat) (pn : procfs_structure_node_t), (procfs_structure sz).nodes[pp]? = some pn →
      (pn.psn_children.filter (expansion_at (procfs_structure sz).nodes)).length ≤ 1) := by
  constructor
  · intro i n hn hex
    obtain ⟨hlt, rfl⟩ := schema_node_of hn
    rw [schema_type_eq] at hex
    have h := tags_marker_parent i hlt hex
    rw [schema_parent_eq]
    cases hp : (schema_node size_tags i).psn_parent with
    | none => rw [hp] at h; simp at h
    | some pp =>
      rw [hp] at h
      simp only [decide_eq_true_eq] at h
      refine ⟨pp, schema_node sz pp, rfl, ?_, ?_⟩
      · rw [structure_nodes_eq]; exact schema_getElem sz h.1
      · rw [schema_children_eq]; exact h.2
  · intro pp pn hpn
    obtain ⟨hlt, rfl⟩ := schema_node_of hpn
    rw [schema_children_eq]
    have h := tags_marker_count pp hlt
    have hf : (schema_node size_tags pp).psn_children.filter
          (expansion_at (procfs_structure sz).nodes)
        = (schema_node size_tags pp).psn_children.filter
          (fun c => is_expansion_type (schema_node size_tags c).psn_node_type) := by
      apply List.filter_congr
      intro c hc
      exact expansion_at_schema sz (tags_children_lt pp hlt c hc)
    rw [hf]
    exact h

/-- Witness for C19: the process marker (node 10) is the last child of the
root (node 0), which has no second expansion child. -/
theorem expansion_marker_is_last_child_witness :
    (∃ (pp : Nat) (pn : procfs_structure_node_t), (schema_node demo_sizes 10).psn_parent = some pp
      ∧ (procfs_structure demo_sizes).nodes[pp]? = some pn
      ∧ pn.psn_children.getLast? = some 10)
    ∧ ((schema_node demo_sizes 0).psn_children.filter
        (expansion_at (procfs_structure demo_sizes).nodes)).length ≤ 1 :=
  ⟨(expansion_marker_is_last_child demo_sizes).1 10 (schema_node demo_sizes 10) (by decide)
      (by decide),
   (expansion_marker_is_last_child demo_sizes).2 0 (schema_node demo_sizes 0) (by decide)⟩

/-- C20: in the layout built by `procfs_structure_init` the base ids of all
structure nodes, the "." and ".." nodes included, are pairwise distinct; the
root pointer leads to the node with base id `PROCFS_ROOT_NODE_BASE_ID`, which
is 1, and no other node has that base id. -/
theorem base_node_ids_distinct (sz : kernel_sizes) :
    ((procfs_structure sz).nodes.map (fun n => n.psn_base_node_id)).Nodup
    ∧ PROCFS_ROOT_NODE_BASE_ID = 1
    ∧ ((procfs_structure sz).root_node.bind (fun r => (procfs_structure sz).nodes[r]?)).map
        (fun n => (n.psn_node_type, n.psn_base_node_id))
        = some (PROCFS_ROOT, PROCFS_ROOT_NODE_BASE_ID)
    ∧ (∀ (i : Nat) (n : procfs_structure_node_t), (procfs_structure sz).nodes[i]? = some n →
        n.psn_base_node_id = PROCFS_ROOT_NODE_BASE_ID →
        (procfs_structure sz).root_node = some i) := by
  have hids : (procfs_structure sz).nodes.map (fun n => n.psn_base_node_id)
      = List.range' 1 35 := by
    rw [structure_nodes_eq]; rfl
  refine ⟨?_, rfl, ?_, ?_⟩
  · rw [hids]; exact List.nodup_range' 1 35
  · rw [structure_root_eq, structure_nodes_eq]; rfl
  · intro i n hn hb
    obtain ⟨hlt, rfl⟩ := schema_node_of hn
    rw [structure_root_eq]
    rw [schema_base_eq] at hb
    have h : ∀ k, k < 35 →
        (schema_node size_tags k).psn_base_node_id = PROCFS_ROOT_NODE_BASE_ID → k = 0 := by
      decide
    rw [h i hlt hb]

/-- Witness for C20: the node at index 0 is the only one with base id 1. -/
theorem base_node_ids_distinct_witness :
    (procfs_structure demo_sizes).root_node = some 0 :=
  (base_node_ids_distinct demo_sizes).2.2.2 0 (schema_node demo_sizes 0) (by decide) (by decide)

/-- C16 fails as stated for the names "." and "..", which are fixed names of
schema children of every directory.  Looking up "." in the root (children 1,
2, 3, 4, 10; child 1 is named "." and has base id 2) does not resolve to the
identity (2, no pid, no object) with structure node 1: the function hands
back the directory's own vnode and does not call `procfsnode_find`.  Looking
up ".." (flagged `ISDOTDOT`) in the directory of process 2 (child 12 is named
".." and has base id 13) resolves to the root identity with structure node 0,
not to (13, 2, no object) with structure node 12. -/
theorem lookup_static_child_counterexample :
    (schema_node demo_sizes 0).psn_children = [1, 2, 3, 4, 10]
    ∧ ((schema_node demo_sizes 1).psn_name, (schema_node demo_sizes 1).psn_base_node_id)
        = (".", 2)
    ∧ lookup_resolve demo_nodes demo_allproc demo_mount demo_superuser
        (some (demo_vnode demo_root)) (component ".") = .self 1
    ∧ (procfs_vnop_lookup demo_nodes demo_allproc demo_host 3 procfsnode_hash_init demo_mount
        demo_superuser (some (demo_vnode demo_root)) (component ".")).map
          (fun r => (r.error, r.a_vpp, r.create_calls)) = some (0, some 1, 0)
    ∧ (schema_node demo_sizes 10).psn_children.take 2 = [11, 12]
    ∧ ((schema_node demo_sizes 12).psn_name, (schema_node demo_sizes 12).psn_base_node_id)
        = ("..", 13)
    ∧ lookup_resolve demo_nodes demo_allproc demo_mount demo_superuser
        (some (demo_vnode (demo_dir 2 0 10))) dotdot_component
        = .node none { nodeid_pid := -1, nodeid_objectid := 0, nodeid_base_id := 1 } (some 0) := by
  decide

/-- C16 as amended: in the layout built by `procfs_structure_init`, for every
directory node `d`, every component that is not flagged as the parent
reference and is not ".", and every registry: if the name is the fixed name of
a child `c` of the structure node of `d` and of no child before `c`, the
lookup resolves to the identity (base id of `c`, pid of `d`, object id of `d`)
with `c` as structure node, which is what it passes to `procfsnode_find`; the
result does not depend on the registry.  If no child has the name and either
the directory has no expansion marker or the name does not start with a
digit, the result is `ENOENT`, with `NULLVP`, the table left as it is and no
call of the creation callback.  In every case the lookup resolves to a child
of the directory, or it is `ENOENT` (no other error arises), or it reads
outside the descriptor table. -/
theorem lookup_static_child (sz : kernel_sizes) (allproc : List proc_t) (pmp : procfs_mount_t)
    (creds : kauth_cred_t) (dv : vnode_t) (dir_pnp : procfsnode_t) (cnp : componentname)
    (i : Nat) (sn : procfs_structure_node_t)
    (hty : dv.v_type = .VDIR) (hfs : dv.v_fsnode = some dir_pnp)
    (hi : dir_pnp.node_structure_node = some i)
    (hsn : (procfs_structure sz).nodes[i]? = some sn)
    (hlen : 1 ≤ cnp.cn_namelen) (hdd : cnp.cn_flags_isdotdot = false)
    (hdot : lookup_name cnp ≠ ".") :
    (∀ (pre post : List Nat) (c : Nat) (cn : procfs_structure_node_t),
        sn.psn_children = pre ++ c :: post →
        (procfs_structure sz).nodes[c]? = some cn →
        cn.psn_name = lookup_name cnp →
        (∀ x ∈ pre, child_name (procfs_structure sz).nodes x ≠ some (lookup_name cnp)) →
        lookup_resolve (procfs_structure sz).nodes allproc pmp creds (some dv) cnp
          = .node (some dv.v_addr)
              { nodeid_base_id := cn.psn_base_node_id,
                nodeid_pid := dir_pnp.node_id.nodeid_pid,
                nodeid_objectid := dir_pnp.node_id.nodeid_objectid } (some c)
        ∧ ∀ (host : lookup_host) (fuel : Nat) (t : procfsnode_hash_table),
            procfs_vnop_lookup (procfs_structure sz).nodes allproc host fuel t pmp creds
                (some dv) cnp
              = lookup_find host (some dv.v_addr) fuel t pmp
                  { nodeid_base_id := cn.psn_base_node_id,
                    nodeid_pid := dir_pnp.node_id.nodeid_pid,
                    nodeid_objectid := dir_pnp.node_id.nodeid_objectid } (some c))
    ∧ ((∀ c ∈ sn.psn_children,
          child_name (procfs_structure sz).nodes c ≠ some (lookup_name cnp)) →
        ((∀ c ∈ sn.psn_children, expansion_at (procfs_structure sz).nodes c = false)
          ∨ leading_digits (lookup_name cnp) = []) →
        lookup_resolve (procfs_structure sz).nodes allproc pmp creds (some dv) cnp
          = .error ENOENT
        ∧ ∀ (host : lookup_host) (fuel : Nat) (t : procfsnode_hash_table),
            procfs_vnop_lookup (procfs_structure sz).nodes allproc host fuel t pmp creds
                (some dv) cnp
              = some { error := ENOENT, a_vpp := none, table := t, create_calls := 0 })
    ∧ ((∃ c ∈ sn.psn_children, ∃ id : procfsnode_id_t,
          lookup_resolve (procfs_structure sz).nodes allproc pmp creds (some dv) cnp
            = .node (some dv.v_addr) id (some c))
        ∨ lookup_resolve (procfs_structure sz).nodes allproc pmp creds (some dv) cnp
            = .error ENOENT
        ∨ lookup_resolve (procfs_structure sz).nodes allproc pmp creds (some dv) cnp
            = .fault) := by
  have hbind : dir_pnp.node_structure_node.bind (fun i => (procfs_structure sz).nodes[i]?)
      = some sn := by rw [hi]; exact hsn
  have hres := @lookup_resolve_children (procfs_structure sz).nodes allproc pmp creds dv dir_pnp
    cnp sn hty hfs hlen hdd hdot hbind
  obtain ⟨hlt, hsn_eq⟩ := schema_node_of hsn
  refine ⟨?_, ?_, ?_⟩
  · intro pre post c cn hch hc hname hfirst
    have hloop : lookup_match_loop (procfs_structure sz).nodes allproc pmp creds dir_pnp
        (lookup_name cnp) sn.psn_children
        = .found c { nodeid_base_id := cn.psn_base_node_id,
                     nodeid_pid := dir_pnp.node_id.nodeid_pid,
                     nodeid_objectid := dir_pnp.node_id.nodeid_objectid } := by
      subst hsn_eq
      rw [lookup_loop_schema_statics sz allproc pmp creds dir_pnp (lookup_name cnp) hlt pre post c
        hch ?_]
      · exact lookup_match_loop_hit hc hname.symm
      · intro x hx hxe
        have hxin : x ∈ (schema_node sz i).psn_children := by
          rw [hch]; exact List.mem_append_left _ hx
        apply hfirst x hx
        unfold child_name
        rw [schema_children_exist hsn hxin, hxe]
        rfl
    have hr : lookup_resolve (procfs_structure sz).nodes allproc pmp creds (some dv) cnp
        = .node (some dv.v_addr)
            { nodeid_base_id := cn.psn_base_node_id,
              nodeid_pid := dir_pnp.node_id.nodeid_pid,
              nodeid_objectid := dir_pnp.node_id.nodeid_objectid } (some c) := by
      rw [hres, hloop]; rfl
    refine ⟨hr, fun host fuel t => ?_⟩
    unfold procfs_vnop_lookup
    rw [hr]
  · intro hnone hwhy
    have hne : ∀ k ∈ sn.psn_children, lookup_name cnp ≠ (schema_node sz k).psn_name := by
      intro k hk h
      apply hnone k hk
      unfold child_name
      rw [schema_children_exist hsn hk, h]
      rfl
    have hr : lookup_resolve (procfs_structure sz).nodes allproc pmp creds (some dv) cnp
        = .error ENOENT := by
      rw [hres]
      rcases hwhy with hno | hnd
      · rw [lookup_match_loop_none sn.psn_children ?_]
        · rfl
        · intro k hk
          refine ⟨schema_node sz k, schema_children_exist hsn hk, ?_, ?_⟩
          · exact hne k hk
          · have h := hno k hk
            unfold expansion_at at h
            rw [schema_children_exist hsn hk] at h
            exact h
      · apply lookup_after_match_error
        apply lookup_match_loop_nondigit
        · intro k hk
          exact ⟨schema_node sz k, schema_children_exist hsn hk, hne k hk⟩
        · rw [procfs_atoi_eq, if_pos hnd]
    refine ⟨hr, fun host fuel t => ?_⟩
    unfold procfs_vnop_lookup
    rw [hr]
  · rw [hres]
    rcases lookup_match_loop_cases (procfs_structure sz).nodes allproc pmp creds dir_pnp
      (lookup_name cnp) sn.psn_children with ⟨c, hc, id, h⟩ | h | h | h
    · exact Or.inl ⟨c, hc, id, by rw [h]; rfl⟩
    · exact Or.inr (Or.inl (by rw [h]; rfl))
    · exact Or.inr (Or.inl (by rw [h]; rfl))
    · exact Or.inr (Or.inr (by rw [h]; rfl))

/-- Witness for C16 as amended: in the directory of process 2, "threads" is the
name of child 19 and of no child before it; no child is named "nosuch" and
the directory has no expansion marker. -/
theorem lookup_static_child_witness :
    lookup_resolve (procfs_structure demo_sizes).nodes demo_allproc demo_mount demo_user
        (some (demo_vnode (demo_dir 2 0 10))) (component "threads")
      = .node (some 1) { nodeid_pid := 2, nodeid_objectid := 0, nodeid_base_id := 20 } (some 19)
    ∧ lookup_resolve (procfs_structure demo_sizes).nodes demo_allproc demo_mount demo_user
        (some (demo_vnode (demo_dir 2 0 10))) (component "nosuch") = .error ENOENT :=
  ⟨((lookup_static_child demo_sizes demo_allproc demo_mount demo_user
      (demo_vnode (demo_dir 2 0 10)) (demo_dir 2 0 10) (component "threads") 10
      (schema_node demo_sizes 10) rfl rfl rfl (by decide) (by decide) rfl (by decide)).1
      [11, 12, 13] [25, 26, 27, 28, 29, 30, 31] 19 (schema_node demo_sizes 19) (by decide)
      (by decide) (by decide) (by decide)).1,
   ((lookup_static_child demo_sizes demo_allproc demo_mount demo_user
      (demo_vnode (demo_dir 2 0 10)) (demo_dir 2 0 10) (component "nosuch") 10
      (schema_node demo_sizes 10) rfl rfl rfl (by decide) (by decide) rfl (by decide)).2.1
      (by decide) (Or.inl (by decide))).1⟩

/-- C12: on a mount with access checks an unprivileged caller looks up, in the
root, in byname or in a threads directory of the built layout, a component
that is no child's fixed name (any numeric name is such a component).  The
process concerned is the one the digits of the name denote (root, byname) or
the owner of the directory (threads).  With a registry in which that process
does not exist and with a registry in which it exists but the credential
check refuses the caller, `procfs_vnop_lookup` returns the same: `ENOENT`,
which is not `EACCES`, with `NULLVP`, the node table as it was and no call of
the creation callback. -/
theorem lookup_hides_existence (sz : kernel_sizes) (allproc_absent allproc_hidden : List proc_t)
    (pmp : procfs_mount_t) (creds : kauth_cred_t) (dv : vnode_t) (dir_pnp : procfsnode_t)
    (cnp : componentname) (i : Nat) (sn : procfs_structure_node_t) (pid : Int)
    (hty : dv.v_type = .VDIR) (hfs : dv.v_fsnode = some dir_pnp)
    (hi : dir_pnp.node_structure_node = some i)
    (hsn : (procfs_structure sz).nodes[i]? = some sn)
    (hdir : sn.psn_node_type = PROCFS_ROOT
      ∨ (sn.psn_node_type = PROCFS_DIR ∧ (sn.psn_name = "byname" ∨ sn.psn_name = "threads")))
    (hlen : 1 ≤ cnp.cn_namelen) (hdd : cnp.cn_flags_isdotdot = false)
    (hname : ∀ c ∈ sn.psn_children,
      child_name (procfs_structure sz).nodes c ≠ some (lookup_name cnp))
    (hunpriv : suser creds ≠ 0) (hchk : procfs_should_access_check pmp = true)
    (hpid : pid = if sn.psn_name = "threads" then dir_pnp.node_id.nodeid_pid
      else (procfs_atoi (lookup_name cnp)).1)
    (habsent : proc_find allproc_absent pid = none)
    (hhidden : ∃ p, proc_find allproc_hidden pid = some p
      ∧ procfs_check_can_access_process creds p ≠ 0) :
    ENOENT ≠ EACCES
    ∧ ∀ (host : lookup_host) (fuel : Nat) (t : procfsnode_hash_table),
      procfs_vnop_lookup (procfs_structure sz).nodes allproc_absent host fuel t pmp creds
          (some dv) cnp
        = some { error := ENOENT, a_vpp := none, table := t, create_calls := 0 }
      ∧ procfs_vnop_lookup (procfs_structure sz).nodes allproc_hidden host fuel t pmp creds
          (some dv) cnp
        = some { error := ENOENT, a_vpp := none, table := t, create_calls := 0 } := by
  refine ⟨by decide, ?_⟩
  obtain ⟨hlt, hsn_eq⟩ := schema_node_of hsn
  subst hsn_eq
  -- the directory, its static children and its marker
  have hshape : ∃ (statics : List Nat) (m : Nat),
      (schema_node sz i).psn_children = statics ++ [m] ∧ 1 + i ∈ statics ∧ m < 35
      ∧ (schema_node sz m).psn_node_type ≠ PROCFS_FD_DIR
      ∧ (((schema_node sz m).psn_node_type = PROCFS_PROCDIR
            ∨ (schema_node sz m).psn_node_type = PROCFS_PROCNAME_DIR)
          ∧ (schema_node sz i).psn_name ≠ "threads"
        ∨ (schema_node sz m).psn_node_type = PROCFS_THREADDIR
          ∧ (schema_node sz i).psn_name = "threads")
      ∧ (schema_node sz (1 + i)).psn_name = "." := by
    rcases hdir with hroot | ⟨hd, hbn | hth⟩
    · have h0 := schema_root_index hsn hroot
      subst h0
      exact ⟨[1, 2, 3, 4], 10, rfl, by decide, by decide, by rw [schema_type_eq]; decide,
        Or.inl ⟨Or.inl rfl, by rw [schema_name_eq]; decide⟩, rfl⟩
    · have h0 := (schema_plain_dir_index hsn hd).1 hbn
      subst h0
      exact ⟨[5, 6], 7, rfl, by decide, by decide, by rw [schema_type_eq]; decide,
        Or.inl ⟨Or.inr rfl, by rw [schema_name_eq]; decide⟩, rfl⟩
    · have h0 := (schema_plain_dir_index hsn hd).2.2 hth
      subst h0
      exact ⟨[20, 21], 22, rfl, by decide, by decide, by rw [schema_type_eq]; decide,
        Or.inr ⟨rfl, rfl⟩, rfl⟩
  obtain ⟨statics, m, hch, hdotc, hm, hnfd, hkind, hdotname⟩ := hshape
  have hdot : lookup_name cnp ≠ "." := by
    have := child_name_ne hlt hname (c := 1 + i) (by rw [hch]; exact List.mem_append_left _ hdotc)
    rw [hdotname] at this
    exact this
  have hmn : (procfs_structure sz).nodes[m]? = some (schema_node sz m) := by
    rw [structure_nodes_eq]; exact schema_getElem sz hm
  have hmne : lookup_name cnp ≠ (schema_node sz m).psn_name :=
    child_name_ne hlt hname (by rw [hch]; simp)
  have hproc : (schema_node sz m).psn_node_type = PROCFS_PROCDIR
      ∨ (schema_node sz m).psn_node_type = PROCFS_PROCNAME_DIR
      ∨ (schema_node sz m).psn_node_type = PROCFS_THREADDIR := by
    rcases hkind with ⟨h | h, -⟩ | ⟨h, -⟩
    · exact Or.inl h
    · exact Or.inr (Or.inl h)
    · exact Or.inr (Or.inr h)
  have hpid2 : pid = if (schema_node sz m).psn_node_type = PROCFS_PROCDIR
        ∨ (schema_node sz m).psn_node_type = PROCFS_PROCNAME_DIR
      then (procfs_atoi (lookup_name cnp)).1 else dir_pnp.node_id.nodeid_pid := by
    rw [hpid]
    rcases hkind with ⟨h, hn⟩ | ⟨h, hn⟩
    · rw [if_neg hn, if_pos h]
    · rw [if_pos hn, if_neg (by rw [h]; decide)]
  have key : ∀ allproc : List proc_t,
      (proc_find allproc pid = none
        ∨ ∃ p, proc_find allproc pid = some p ∧ procfs_check_can_access_process creds p ≠ 0) →
      lookup_resolve (procfs_structure sz).nodes allproc pmp creds (some dv) cnp
        = .error ENOENT := by
    intro allproc hh
    rw [lookup_resolve_last_child sz allproc pmp creds dv dir_pnp cnp i m statics hty hfs hi hlt
      hch hlen hdd hdot hname, lookup_match_loop_proc hmn hmne hproc]
    rw [hpid2] at hh
    rcases lookup_proc_entry_hidden allproc pmp creds dir_pnp (lookup_name cnp) m
      (schema_node sz m) hunpriv hchk hh with h | h
    · rw [h]; rfl
    · rw [h]; rfl
  intro host fuel t
  constructor
  · unfold procfs_vnop_lookup
    rw [key allproc_absent (Or.inl habsent)]
  · unfold procfs_vnop_lookup
    rw [key allproc_hidden (Or.inr hhidden)]

/-- Witness for C12: user 502 looks up "2" in the root, once with a registry
that holds process 1 only, once with process 2 of user 501 in it. -/
theorem lookup_hides_existence_witness :
    ENOENT ≠ EACCES
    ∧ ∀ (host : lookup_host) (fuel : Nat) (t : procfsnode_hash_table),
      procfs_vnop_lookup (procfs_structure demo_sizes).nodes [demo_proc 1 "launchd" 0] host fuel
          t demo_mount demo_other_user (some (demo_vnode demo_root)) (component "2")
        = some { error := ENOENT, a_vpp := none, table := t, create_calls := 0 }
      ∧ procfs_vnop_lookup (procfs_structure demo_sizes).nodes demo_allproc host fuel t
          demo_mount demo_other_user (some (demo_vnode demo_root)) (component "2")
        = some { error := ENOENT, a_vpp := none, table := t, create_calls := 0 } :=
  lookup_hides_existence demo_sizes [demo_proc 1 "launchd" 0] demo_allproc demo_mount
    demo_other_user (demo_vnode demo_root) demo_root (component "2") 0
    (schema_node demo_sizes 0) 2 rfl rfl rfl (by decide) (Or.inl rfl) (by decide) rfl
    (by decide) (by decide) (by decide) (by decide) (by decide)
    ⟨demo_proc 2 "bash" 501, by decide, by decide⟩

/-- A process of user 501 whose single thread has the id 2^32 + 100. -/
def demo_proc_wide_thread : proc_t :=
  { p_pid := 8, p_comm := "wide", p_uid := 501, p_ruid := 501, p_gid := 501, p_rgid := 501,
    fd_ofiles := [], task_threads := [.info 0 4294967396] }

/-- C11 at a name whose digits overflow the `int` of `procfs_atoi`: the root
directory, processes 1 and 2, superuser, name "4294967297".  The whole name
is a run of digits, its value 4294967297 (2^32 + 1) is above `INT_MAX` and is
the pid of no process, so the claim asks for `ENOENT`.  `procfs_atoi` returns
1, and the lookup resolves to the directory of process 1, identity (11, 1,
none), and succeeds.  The name "2" resolves as the claim says. -/
theorem lookup_root_overflowing_name :
    leading_digits "4294967297" = "4294967297".data
    ∧ digits_value "4294967297".data = 4294967297
    ∧ proc_find demo_allproc 4294967297 = none
    ∧ procfs_atoi "4294967297" = (1, 10)
    ∧ lookup_resolve demo_nodes demo_allproc demo_mount demo_superuser
        (some (demo_vnode demo_root)) (component "4294967297")
      = .node (some 1) { nodeid_pid := 1, nodeid_objectid := 0, nodeid_base_id := 11 } (some 10)
    ∧ (procfs_vnop_lookup demo_nodes demo_allproc demo_host 3 procfsnode_hash_init demo_mount
        demo_superuser (some (demo_vnode demo_root)) (component "4294967297")).map
          (fun r => (r.error, r.a_vpp, r.create_calls)) = some (0, some 77, 1)
    ∧ lookup_resolve demo_nodes demo_allproc demo_mount demo_superuser
        (some (demo_vnode demo_root)) (component "2")
      = .node (some 1) { nodeid_pid := 2, nodeid_objectid := 0, nodeid_base_id := 11 } (some 10)
    ∧ lookup_resolve demo_nodes demo_allproc demo_mount demo_superuser
        (some (demo_vnode demo_root)) (component "3") = .error ENOENT := by
  decide

/-- C13 at a name with characters after the digits: the fd directory of
process 2 (descriptors 0 and 3 open), superuser, name "3abc".  The claim asks
for `ENOENT`; the descriptor branch never looks at `*endp`, so the lookup
resolves to descriptor 3, identity (17, 2, 3), and succeeds.  The thread
branch does look: "100abc" in the threads directory is `ENOENT`. -/
theorem lookup_fd_trailing_characters :
    leading_digits "3abc" = ['3']
    ∧ procfs_atoi "3abc" = (3, 1)
    ∧ lookup_resolve demo_nodes demo_allproc demo_mount demo_superuser
        (some (demo_vnode (demo_dir 2 0 13))) (component "3abc")
      = .node (some 1) { nodeid_pid := 2, nodeid_objectid := 3, nodeid_base_id := 17 } (some 16)
    ∧ (procfs_vnop_lookup demo_nodes demo_allproc demo_host 3 procfsnode_hash_init demo_mount
        demo_superuser (some (demo_vnode (demo_dir 2 0 13))) (component "3abc")).map
          (fun r => (r.error, r.a_vpp, r.create_calls)) = some (0, some 77, 1)
    ∧ lookup_resolve demo_nodes demo_allproc demo_mount demo_superuser
        (some (demo_vnode (demo_dir 2 0 13))) (component "3")
      = .node (some 1) { nodeid_pid := 2, nodeid_objectid := 3, nodeid_base_id := 17 } (some 16)
    ∧ lookup_resolve demo_nodes demo_allproc demo_mount demo_superuser
        (some (demo_vnode (demo_dir 2 0 19))) (component "100abc") = .error ENOENT := by
  decide

/-- C14 at names whose digits overflow the `int` of `procfs_atoi`, superuser.
(1) Threads directory of process 2, whose thread ids are 100 and 101, name
"4294967396" (2^32 + 100): the list does not contain 4294967396, so the claim
asks for `ENOENT`; the lookup resolves to thread 100, identity (23, 2, 100).
(2) Threads directory of process 8, whose only thread has the id 4294967396,
same name: the claim asks for the identity (23, 8, 4294967396); the lookup
returns `ENOENT`. -/
theorem lookup_thread_overflowing_name :
    leading_digits "4294967396" = "4294967396".data
    ∧ digits_value "4294967396".data = 4294967396
    ∧ procfs_atoi "4294967396" = (100, 10)
    ∧ thread_ids_of demo_allproc 2 = [100, 101]
    ∧ lookup_resolve demo_nodes demo_allproc demo_mount demo_superuser
        (some (demo_vnode (demo_dir 2 0 19))) (component "4294967396")
      = .node (some 1) { nodeid_pid := 2, nodeid_objectid := 100, nodeid_base_id := 23 }
          (some 22)
    ∧ thread_ids_of [demo_proc_wide_thread] 8 = [4294967396]
    ∧ lookup_resolve demo_nodes [demo_proc_wide_thread] demo_mount demo_superuser
        (some (demo_vnode (demo_dir 8 0 19))) (component "4294967396") = .error ENOENT
    ∧ lookup_resolve demo_nodes demo_allproc demo_mount demo_superuser
        (some (demo_vnode (demo_dir 2 0 19))) (component "101")
      = .node (some 1) { nodeid_pid := 2, nodeid_objectid := 101, nodeid_base_id := 23 }
          (some 22) := by
  decide

/-- C15: in the byname directory of the built layout (registry pids in the
range of a non-negative `int`), for every component that is no child's fixed
name: if the name begins with decimal digits of value `p`, `p` is the pid of a
live process that the caller may access (superuser, access checks off, or the
credential check admits the caller) and the whole name is the string that
`procfs_construct_process_dir_name` builds for that process, the lookup
resolves to the identity (base id of the process-by-name marker, pid `p`, no
object id) with the marker (node 7) as structure node; in every other case it
is `ENOENT`.  Hence for a live visible process the names that resolve to its
identity are exactly one: the string built for it. -/
theorem lookup_byname_entry (sz : kernel_sizes) (allproc : List proc_t) (pmp : procfs_mount_t)
    (creds : kauth_cred_t) (dv : vnode_t) (dir_pnp : procfsnode_t) (cnp : componentname)
    (i : Nat) (sn : procfs_structure_node_t)
    (hty : dv.v_type = .VDIR) (hfs : dv.v_fsnode = some dir_pnp)
    (hi : dir_pnp.node_structure_node = some i)
    (hsn : (procfs_structure sz).nodes[i]? = some sn)
    (hdir : sn.psn_node_type = PROCFS_DIR ∧ sn.psn_name = "byname")
    (hobj : dir_pnp.node_id.nodeid_objectid = PRNODE_NO_OBJECTID)
    (hlen : 1 ≤ cnp.cn_namelen) (hdd : cnp.cn_flags_isdotdot = false)
    (hname : ∀ c ∈ sn.psn_children,
      child_name (procfs_structure sz).nodes c ≠ some (lookup_name cnp))
    (hpids : ∀ p ∈ allproc, 0 ≤ p.p_pid ∧ p.p_pid < 2147483648) :
    (schema_node sz 7).psn_node_type = PROCFS_PROCNAME_DIR
    ∧ (∀ p : proc_t, leading_digits (lookup_name cnp) ≠ [] →
        proc_find allproc (digits_value (leading_digits (lookup_name cnp))) = some p →
        (suser creds = 0 ∨ procfs_should_access_check pmp = false
          ∨ procfs_check_can_access_process creds p = 0) →
        lookup_name cnp = procfs_construct_process_dir_name p →
        lookup_resolve (procfs_structure sz).nodes allproc pmp creds (some dv) cnp
          = .node (some dv.v_addr)
              { nodeid_base_id := (schema_node sz 7).psn_base_node_id,
                nodeid_pid := p.p_pid,
                nodeid_objectid := PRNODE_NO_OBJECTID } (some 7))
    ∧ ((¬ ∃ p : proc_t, leading_digits (lookup_name cnp) ≠ []
          ∧ proc_find allproc (digits_value (leading_digits (lookup_name cnp))) = some p
          ∧ (suser creds = 0 ∨ procfs_should_access_check pmp = false
            ∨ procfs_check_can_access_process creds p = 0)
          ∧ lookup_name cnp = procfs_construct_process_dir_name p) →
        lookup_resolve (procfs_structure sz).nodes allproc pmp creds (some dv) cnp
          = .error ENOENT)
    ∧ (∀ p : proc_t, proc_find allproc p.p_pid = some p →
        (suser creds = 0 ∨ procfs_should_access_check pmp = false
          ∨ procfs_check_can_access_process creds p = 0) →
        (lookup_resolve (procfs_structure sz).nodes allproc pmp creds (some dv) cnp
            = .node (some dv.v_addr)
                { nodeid_base_id := (schema_node sz 7).psn_base_node_id,
                  nodeid_pid := p.p_pid,
                  nodeid_objectid := PRNODE_NO_OBJECTID } (some 7)
          ↔ lookup_name cnp = procfs_construct_process_dir_name p)) := by
  have h4 := (schema_plain_dir_index hsn hdir.1).1 hdir.2
  subst h4
  obtain ⟨hlt, hsn_eq⟩ := schema_node_of hsn
  subst hsn_eq
  have hch : (schema_node sz 4).psn_children = [5, 6] ++ [7] := rfl
  have hdot : lookup_name cnp ≠ "." :=
    child_name_ne hlt hname (c := 5) (by rw [hch]; decide)
  have hmn : (procfs_structure sz).nodes[7]? = some (schema_node sz 7) := by
    rw [structure_nodes_eq]; rfl
  have hmne : lookup_name cnp ≠ (schema_node sz 7).psn_name :=
    child_name_ne hlt hname (by rw [hch]; decide)
  have hres : lookup_resolve (procfs_structure sz).nodes allproc pmp creds (some dv) cnp
      = lookup_after_match dv.v_addr
          (match lookup_proc_entry allproc pmp creds dir_pnp (lookup_name cnp) 7
              (schema_node sz 7) with
            | some r => r
            | none => .no_match) := by
    rw [lookup_resolve_last_child sz allproc pmp creds dv dir_pnp cnp 4 7 [5, 6] hty hfs hi hlt
      hch hlen hdd hdot hname, lookup_match_loop_proc hmn hmne (Or.inr (Or.inl rfl))]
    rfl
  rw [lookup_proc_entry_procname allproc pmp creds dir_pnp (lookup_name cnp) 7 (schema_node sz 7)
    rfl, hobj] at hres
  -- what the claim's condition says about `procfs_atoi`
  have hcond : ∀ p : proc_t, leading_digits (lookup_name cnp) ≠ [] →
      proc_find allproc (digits_value (leading_digits (lookup_name cnp))) = some p →
      lookup_name cnp = procfs_construct_process_dir_name p →
      (procfs_atoi (lookup_name cnp)).1 = p.p_pid ∧ (procfs_atoi (lookup_name cnp)).1 ≠ -1
        ∧ proc_find allproc (procfs_atoi (lookup_name cnp)).1 = some p := by
    intro p _ hfind hn
    obtain ⟨hpid, hmem⟩ := proc_find_some hfind
    obtain ⟨h0, h1⟩ := hpids p hmem
    have ha : (procfs_atoi (lookup_name cnp)).1 = p.p_pid := by
      rw [hn]; exact procfs_atoi_construct_name h0 h1
    refine ⟨ha, by rw [ha]; omega, ?_⟩
    rw [ha, hpid]; exact hfind
  -- what a successful marker branch says about the claim's condition
  have hback : ∀ p : proc_t, (procfs_atoi (lookup_name cnp)).1 ≠ -1 →
      proc_find allproc (procfs_atoi (lookup_name cnp)).1 = some p →
      lookup_name cnp = procfs_construct_process_dir_name p →
      leading_digits (lookup_name cnp) ≠ []
        ∧ proc_find allproc (digits_value (leading_digits (lookup_name cnp))) = some p := by
    intro p _ hfind hn
    obtain ⟨hpid, hmem⟩ := proc_find_some hfind
    obtain ⟨h0, -⟩ := hpids p hmem
    have hd := construct_name_digits h0
    rw [← hn] at hd
    refine ⟨hd.1, ?_⟩
    rw [hd.2, hpid]; exact hfind
  have part1 : ∀ p : proc_t, leading_digits (lookup_name cnp) ≠ [] →
      proc_find allproc (digits_value (leading_digits (lookup_name cnp))) = some p →
      (suser creds = 0 ∨ procfs_should_access_check pmp = false
        ∨ procfs_check_can_access_process creds p = 0) →
      lookup_name cnp = procfs_construct_process_dir_name p →
      lookup_resolve (procfs_structure sz).nodes allproc pmp creds (some dv) cnp
        = .node (some dv.v_addr)
            { nodeid_base_id := (schema_node sz 7).psn_base_node_id,
              nodeid_pid := p.p_pid,
              nodeid_objectid := PRNODE_NO_OBJECTID } (some 7) := by
    intro p hld hfind hacc hn
    obtain ⟨ha, hne, hf⟩ := hcond p hld hfind hn
    rw [hres, if_neg hne, hf]
    simp only []
    rw [if_pos ⟨hn, hacc⟩, ha]
    rfl
  have part2 : (¬ ∃ p : proc_t, leading_digits (lookup_name cnp) ≠ []
        ∧ proc_find allproc (digits_value (leading_digits (lookup_name cnp))) = some p
        ∧ (suser creds = 0 ∨ procfs_should_access_check pmp = false
          ∨ procfs_check_can_access_process creds p = 0)
        ∧ lookup_name cnp = procfs_construct_process_dir_name p) →
      lookup_resolve (procfs_structure sz).nodes allproc pmp creds (some dv) cnp
        = .error ENOENT := by
    intro hnot
    rw [hres]
    by_cases hid : (procfs_atoi (lookup_name cnp)).1 = -1
    · rw [if_pos hid]; rfl
    · rw [if_neg hid]
      cases hf : proc_find allproc (procfs_atoi (lookup_name cnp)).1 with
      | none => rfl
      | some p =>
        simp only []
        by_cases hc : lookup_name cnp = procfs_construct_process_dir_name p
            ∧ (suser creds = 0 ∨ procfs_should_access_check pmp = false
              ∨ procfs_check_can_access_process creds p = 0)
        · exfalso
          obtain ⟨hld, hfind⟩ := hback p hid hf hc.1
          exact hnot ⟨p, hld, hfind, hc.2, hc.1⟩
        · rw [if_neg hc]; rfl
  refine ⟨rfl, part1, part2, ?_⟩
  intro p hlive hacc
  constructor
  · intro hr
    by_contra hn
    by_cases hex : ∃ q : proc_t, leading_digits (lookup_name cnp) ≠ []
        ∧ proc_find allproc (digits_value (leading_digits (lookup_name cnp))) = some q
        ∧ (suser creds = 0 ∨ procfs_should_access_check pmp = false
          ∨ procfs_check_can_access_process creds q = 0)
        ∧ lookup_name cnp = procfs_construct_process_dir_name q
    · obtain ⟨q, hld, hfind, hqacc, hqn⟩ := hex
      have h1 := part1 q hld hfind hqacc hqn
      rw [h1] at hr
      simp only [lookup_target.node.injEq, procfsnode_id_t.mk.injEq, true_and, and_true] at hr
      have hq : proc_find allproc q.p_pid = some q := by
        rw [(proc_find_some hfind).1]; exact hfind
      rw [hr, hlive] at hq
      rw [Option.some.inj hq] at hn
      exact hn hqn
    · rw [part2 hex] at hr
      cases hr
  · intro hn
    obtain ⟨-, hmem⟩ := proc_find_some hlive
    obtain ⟨h0, h1⟩ := hpids p hmem
    have hd := construct_name_digits h0
    rw [← hn] at hd
    exact part1 p hd.1 (by rw [hd.2]; exact hlive) hacc hn


/-- Witness for C15: user 501 looks up "2 bash" in byname with the processes 1
("launchd", superuser) and 2 ("bash", user 501) in the registry. -/
theorem lookup_byname_entry_witness :
    lookup_resolve (procfs_structure demo_sizes).nodes demo_allproc demo_mount demo_user
        (some (demo_vnode (demo_dir PRNODE_NO_PID 0 4))) (component "2 bash")
      = .node (some (demo_vnode (demo_dir PRNODE_NO_PID 0 4)).v_addr)
          { nodeid_base_id := (schema_node demo_sizes 7).psn_base_node_id,
            nodeid_pid := (demo_proc 2 "bash" 501).p_pid,
            nodeid_objectid := PRNODE_NO_OBJECTID } (some 7) :=
  (lookup_byname_entry demo_sizes demo_allproc demo_mount demo_user
    (demo_vnode (demo_dir PRNODE_NO_PID 0 4)) (demo_dir PRNODE_NO_PID 0 4) (component "2 bash")
    4 (schema_node demo_sizes 4) rfl rfl rfl (by decide) (by decide) rfl (by decide) rfl
    (by decide) (by decide)).2.1 (demo_proc 2 "bash" 501) (by decide) (by decide)
    (Or.inr (Or.inr (by decide))) (by decide)

/-- C21 fails: the process marker of the built layout (node 10, a child of the
root) has the fixed name "__Process__", which is not empty, and so have the
other three markers; the comparison of a lookup name of length 11 with that
fixed name succeeds. -/
theorem marker_names_counterexample :
    (procfs_structure demo_sizes).nodes[10]? = some (schema_node demo_sizes 10)
    ∧ (schema_node demo_sizes 10).psn_node_type = PROCFS_PROCDIR
    ∧ (schema_node demo_sizes 10).psn_name = "__Process__"
    ∧ (schema_node demo_sizes 10).psn_name ≠ ""
    ∧ (schema_node demo_sizes 7).psn_name = "__Process_N__"
    ∧ (schema_node demo_sizes 22).psn_name = "__Thread__"
    ∧ (schema_node demo_sizes 16).psn_name = "__File__"
    ∧ (lookup_name (component "__Process__")).length = 11
    ∧ lookup_name (component "__Process__") = (schema_node demo_sizes 10).psn_name
    ∧ lookup_resolve demo_nodes demo_allproc demo_mount demo_superuser
        (some (demo_vnode demo_root)) (component "__Process__")
      = .node (some 1) { nodeid_pid := -1, nodeid_objectid := 0, nodeid_base_id := 11 }
          (some 10) := by
  decide

/-- C21, amended: in the layout built by `procfs_structure_init` every
expansion marker has a placeholder as its fixed name ("__Process__" for the
process-by-pid marker, "__Process_N__" for the process-by-name marker,
"__Thread__" for the thread marker, "__File__" for the descriptor marker),
which is not empty and does not start with a decimal digit, so that no lookup
name that starts with a decimal digit equals the fixed name of a marker. -/
theorem marker_names_are_placeholders (sz : kernel_sizes) (k : Nat)
    (n : procfs_structure_node_t) (hk : (procfs_structure sz).nodes[k]? = some n)
    (hex : is_expansion_type n.psn_node_type = true) :
    ((n.psn_node_type = PROCFS_PROCDIR ∧ n.psn_name = "__Process__")
      ∨ (n.psn_node_type = PROCFS_PROCNAME_DIR ∧ n.psn_name = "__Process_N__")
      ∨ (n.psn_node_type = PROCFS_THREADDIR ∧ n.psn_name = "__Thread__")
      ∨ (n.psn_node_type = PROCFS_FD_DIR ∧ n.psn_name = "__File__"))
    ∧ n.psn_name ≠ ""
    ∧ leading_digits n.psn_name = []
    ∧ (∀ name : String, leading_digits name ≠ [] → name ≠ n.psn_name) := by
  obtain ⟨hlt, rfl⟩ := schema_node_of hk
  rw [schema_type_eq] at hex
  have h := tags_marker_names k hlt hex
  have hd := tags_names_no_digit k hlt
  rw [schema_type_eq, schema_name_eq]
  refine ⟨h, ?_, hd, ?_⟩
  · rcases h with h | h | h | h <;> rw [h.2] <;> decide
  · intro name hname heq
    rw [heq] at hname
    exact hname hd

/-- Witness for C21, amended: the thread marker (node 22) is named
"__Thread__", and the name "100" is not its fixed name. -/
theorem marker_names_are_placeholders_witness :
    (schema_node demo_sizes 22).psn_name ≠ ""
    ∧ "100" ≠ (schema_node demo_sizes 22).psn_name :=
  ⟨(marker_names_are_placeholders demo_sizes 22 (schema_node demo_sizes 22) (by decide)
      (by decide)).2.1,
   (marker_names_are_placeholders demo_sizes 22 (schema_node demo_sizes 22) (by decide)
      (by decide)).2.2.2 "100" (by decide)⟩

/-- C22: `add_node` gives the node it allocates under a parent the flags
handed in united with the parent's `PSN_FLAG_PROCESS` and `PSN_FLAG_THREAD`
flags; in the layout built by `procfs_structure_init` only the root (node 0)
has no parent, every other node has a parent in the layout and carries each of
`PSN_FLAG_PROCESS` and `PSN_FLAG_THREAD` that its parent carries, and hence
every node that descends from a node with `PSN_FLAG_PROCESS` (with
`PSN_FLAG_THREAD`) has that flag. -/
theorem ownership_flags_propagate (sz : kernel_sizes) :
    (∀ (st : structure_state) (pp : Nat) (pn : procfs_structure_node_t) (name : String)
        (type : procfs_structure_node_type_t) (node_id flags size : Nat)
        (node_size_fn : Option procfs_node_size_fn)
        (node_read_data_fn : Option procfs_read_data_fn),
        st.nodes[pp]? = some pn →
        ((add_node st (some pp) name type node_id flags size node_size_fn
            node_read_data_fn).1.nodes[(add_node st (some pp) name type node_id flags size
              node_size_fn node_read_data_fn).2]?).map (fun n => (n.psn_flags, n.psn_parent))
          = some (Nat.lor flags
              (Nat.land pn.psn_flags (Nat.lor PSN_FLAG_PROCESS PSN_FLAG_THREAD)), some pp))
    ∧ (∀ (k : Nat) (n : procfs_structure_node_t), (procfs_structure sz).nodes[k]? = some n →
        (n.psn_parent = none → (procfs_structure sz).root_node = some k)
        ∧ (∀ pp : Nat, n.psn_parent = some pp →
            ∃ pn : procfs_structure_node_t, (procfs_structure sz).nodes[pp]? = some pn
              ∧ Nat.land n.psn_flags
                  (Nat.land pn.psn_flags (Nat.lor PSN_FLAG_PROCESS PSN_FLAG_THREAD))
                = Nat.land pn.psn_flags (Nat.lor PSN_FLAG_PROCESS PSN_FLAG_THREAD)
              ∧ (Nat.land pn.psn_flags PSN_FLAG_PROCESS ≠ 0 →
                  Nat.land n.psn_flags PSN_FLAG_PROCESS ≠ 0)
              ∧ (Nat.land pn.psn_flags PSN_FLAG_THREAD ≠ 0 →
                  Nat.land n.psn_flags PSN_FLAG_THREAD ≠ 0))
        ∧ (∀ (a : Nat) (an : procfs_structure_node_t),
            descends (procfs_structure sz).nodes k a →
            (procfs_structure sz).nodes[a]? = some an →
            (Nat.land an.psn_flags PSN_FLAG_PROCESS ≠ 0 →
              Nat.land n.psn_flags PSN_FLAG_PROCESS ≠ 0)
            ∧ (Nat.land an.psn_flags PSN_FLAG_THREAD ≠ 0 →
              Nat.land n.psn_flags PSN_FLAG_THREAD ≠ 0))) := by
  refine ⟨fun st pp pn name type node_id flags size f g h =>
    add_node_flags st pp pn name type node_id flags size f g h, ?_⟩
  intro k n hk
  refine ⟨?_, ?_, ?_⟩
  · intro hnone
    obtain ⟨hlt, rfl⟩ := schema_node_of hk
    have h := tags_flags_inherited k hlt
    rw [schema_parent_eq] at hnone
    rw [hnone] at h
    simp only [decide_eq_true_eq] at h
    rw [h]
    exact structure_root_eq sz
  · intro pp hp
    exact ⟨schema_node sz pp, schema_flags_inherited hk hp⟩
  · intro a an hd han
    exact descends_flags hd n an hk han

/-- Witness for C22: the "info" file of a thread directory (node 32) descends
from the thread marker (node 22) and from the process marker (node 10), and
has both ownership flags. -/
theorem ownership_flags_propagate_witness :
    (Nat.land (schema_node demo_sizes 22).psn_flags PSN_FLAG_THREAD ≠ 0 →
      Nat.land (schema_node demo_sizes 32).psn_flags PSN_FLAG_THREAD ≠ 0)
    ∧ (Nat.land (schema_node demo_sizes 10).psn_flags PSN_FLAG_PROCESS ≠ 0 →
      Nat.land (schema_node demo_sizes 32).psn_flags PSN_FLAG_PROCESS ≠ 0)
    ∧ (schema_node demo_sizes 32).psn_flags = 3
    ∧ (schema_node demo_sizes 22).psn_flags = 3
    ∧ (schema_node demo_sizes 10).psn_flags = 1 :=
  ⟨(((ownership_flags_propagate demo_sizes).2 32 (schema_node demo_sizes 32)
      (by decide)).2.2 22 (schema_node demo_sizes 22)
      (descends.parent (n := schema_node demo_sizes 32) (by decide) (by decide))
      (by decide)).2,
   (((ownership_flags_propagate demo_sizes).2 32 (schema_node demo_sizes 32)
      (by decide)).2.2 10 (schema_node demo_sizes 10)
      (descends.step (n := schema_node demo_sizes 32) (m := 22) (by decide) (by decide)
        (descends.step (n := schema_node demo_sizes 22) (m := 19) (by decide) (by decide)
          (descends.parent (n := schema_node demo_sizes 19) (by decide) (by decide))))
      (by decide)).1,
   by decide, by decide, by decide⟩

/-- C23: in the layout built by `procfs_structure_init`, a structure node whose
type is none of `PROCFS_FILE`, `PROCFS_CURPROC`, `PROCFS_DIR_THIS` and
`PROCFS_DIR_PARENT` has as its first two children a `PROCFS_DIR_THIS` node
named "." and then a `PROCFS_DIR_PARENT` node named ".."; a node of one of
these four types has no children. -/
theorem directories_start_with_dot_entries (sz : kernel_sizes) (k : Nat)
    (n : procfs_structure_node_t) (hk : (procfs_structure sz).nodes[k]? = some n) :
    ((n.psn_node_type ≠ PROCFS_FILE ∧ n.psn_node_type ≠ PROCFS_CURPROC
        ∧ n.psn_node_type ≠ PROCFS_DIR_THIS ∧ n.psn_node_type ≠ PROCFS_DIR_PARENT) →
      ∃ (c1 c2 : Nat) (rest : List Nat) (n1 n2 : procfs_structure_node_t),
        n.psn_children = c1 :: c2 :: rest
        ∧ (procfs_structure sz).nodes[c1]? = some n1
        ∧ n1.psn_node_type = PROCFS_DIR_THIS ∧ n1.psn_name = "."
        ∧ (procfs_structure sz).nodes[c2]? = some n2
        ∧ n2.psn_node_type = PROCFS_DIR_PARENT ∧ n2.psn_name = "..")
    ∧ ((n.psn_node_type = PROCFS_FILE ∨ n.psn_node_type = PROCFS_CURPROC
        ∨ n.psn_node_type = PROCFS_DIR_THIS ∨ n.psn_node_type = PROCFS_DIR_PARENT) →
      n.psn_children = []) := by
  obtain ⟨hlt, rfl⟩ := schema_node_of hk
  have h := tags_dot_children k hlt
  rw [schema_type_eq, schema_children_eq]
  constructor
  · rintro ⟨h1, h2, h3, h4⟩
    rw [if_neg (by simp [h1, h2, h3, h4])] at h
    match hc : (schema_node size_tags k).psn_children, h with
    | [], h => simp at h
    | [_], h => simp at h
    | c1 :: c2 :: rest, h =>
      simp only [decide_eq_true_eq] at h
      obtain ⟨l1, l2, t1, m1, t2, m2⟩ := h
      refine ⟨c1, c2, rest, schema_node sz c1, schema_node sz c2, rfl, ?_, ?_, ?_, ?_, ?_, ?_⟩
      · rw [structure_nodes_eq]; exact schema_getElem sz l1
      · rw [schema_type_eq]; exact t1
      · rw [schema_name_eq]; exact m1
      · rw [structure_nodes_eq]; exact schema_getElem sz l2
      · rw [schema_type_eq]; exact t2
      · rw [schema_name_eq]; exact m2
  · intro hor
    rw [if_pos hor] at h
    simpa using h

/-- Witness for C23: the descriptor marker (node 16) starts with "." and
"..", and the "pid" file (node 25) has no children. -/
theorem directories_start_with_dot_entries_witness :
    (∃ (c1 c2 : Nat) (rest : List Nat) (n1 n2 : procfs_structure_node_t),
        (schema_node demo_sizes 16).psn_children = c1 :: c2 :: rest
        ∧ (procfs_structure demo_sizes).nodes[c1]? = some n1
        ∧ n1.psn_node_type = PROCFS_DIR_THIS ∧ n1.psn_name = "."
        ∧ (procfs_structure demo_sizes).nodes[c2]? = some n2
        ∧ n2.psn_node_type = PROCFS_DIR_PARENT ∧ n2.psn_name = "..")
    ∧ (schema_node demo_sizes 25).psn_children = [] :=
  ⟨(directories_start_with_dot_entries demo_sizes 16 (schema_node demo_sizes 16)
      (by decide)).1 (by decide),
   (directories_start_with_dot_entries demo_sizes 25 (schema_node demo_sizes 25)
      (by decide)).2 (by decide)⟩

/-! ## Reading the data of file nodes -/

/-- C24 at an offset whose distance from the end of the data does not fit an
`int`: the four bytes of a `pid_t` holding 2, read at offset 2^32 into a
buffer with room for four bytes.  The claim asks for no byte moved and no byte
read outside the data.  `data_len -= start_offset` leaves 4 - 2^32 converted
to `int`, which is 4, so `uiomove` is called with `data + 2^32` and length 4:
four bytes from outside the data are handed to the caller, and the offset of
the uio moves by 4.  The same happens in `procfs_read_pid_data` for the "pid"
file of process 2, and at offset 2^32 + 2 with two bytes.  At the offsets 4, 5
and 2^31 + 4 nothing is moved, as the claim says. -/
theorem copy_data_offset_beyond_int_range :
    object_bytes 4 2 = [2, 0, 0, 0]
    ∧ wrap_int32 (4 - 4294967296) = 4
    ∧ procfs_copy_data [2, 0, 0, 0] 4 { uio_offset := 4294967296, uio_resid := 4 }
      = { error := 0, moved := [none, none, none, none],
          uio := { uio_offset := 4294967300, uio_resid := 0 } }
    ∧ procfs_read_pid_data demo_sizes (demo_dir 2 0 25)
        { uio_offset := 4294967296, uio_resid := 4 }
      = { error := 0, moved := [none, none, none, none],
          uio := { uio_offset := 4294967300, uio_resid := 0 } }
    ∧ procfs_copy_data [2, 0, 0, 0] 4 { uio_offset := 4294967298, uio_resid := 4 }
      = { error := 0, moved := [none, none],
          uio := { uio_offset := 4294967300, uio_resid := 2 } }
    ∧ procfs_copy_data [2, 0, 0, 0] 4 { uio_offset := 4, uio_resid := 4 }
      = { error := 0, moved := [], uio := { uio_offset := 4, uio_resid := 4 } }
    ∧ procfs_copy_data [2, 0, 0, 0] 4 { uio_offset := 5, uio_resid := 4 }
      = { error := 0, moved := [], uio := { uio_offset := 5, uio_resid := 4 } }
    ∧ procfs_copy_data [2, 0, 0, 0] 4 { uio_offset := 2147483652, uio_resid := 4 }
      = { error := 0, moved := [], uio := { uio_offset := 2147483652, uio_resid := 4 } } := by
  decide

/-- C25: for a buffer of `L` elements (`L` an `int`), an offset `o` with
`0 ≤ o ≤ L` and a caller's buffer with room for `r ≥ 0` elements,
`procfs_copy_data` returns 0, hands the caller the elements
`data[o .. o + min(L - o, r))` in order and moves the uio by that count.  The
"pid" file of a process directory (node 25 of the built layout) is read by
`procfs_read_pid_data`, which looks at no registry: read from offset 0 with
room for `sizeof(pid_t)` bytes it returns 0 and hands over exactly the
`sizeof(pid_t)` bytes of the pid in the node's identity (the bytes denote the
pid modulo `256 ^ sizeof(pid_t)`), and the read that follows at offset
`sizeof(pid_t)` returns 0 and hands over nothing. -/
theorem copy_data_transfers_requested_range (α : Type) (data : List α) (o r : Nat)
    (hL : data.length ≤ 2147483647) (ho : o ≤ data.length) :
    procfs_copy_data data data.length { uio_offset := o, uio_resid := r }
      = { error := 0,
          moved := ((data.drop o).take (min (data.length - o) r)).map some,
          uio := { uio_offset := (o : Int) + (min (data.length - o) r : Nat),
                   uio_resid := (r : Int) - (min (data.length - o) r : Nat) } }
    ∧ (∀ (sz : kernel_sizes) (pnp : procfsnode_t) (room : Nat),
        sz.sizeof_pid_t ≤ 2147483647 → sz.sizeof_pid_t ≤ room →
        (procfs_structure sz).nodes[25]? = some (schema_node sz 25)
        ∧ (schema_node sz 25).psn_name = "pid"
        ∧ (schema_node sz 25).psn_parent = some 10
        ∧ (schema_node sz 10).psn_node_type = PROCFS_PROCDIR
        ∧ (schema_node sz 25).psn_read_data_fn = some .procfs_read_pid_data
        ∧ procfs_read_pid_data sz pnp { uio_offset := 0, uio_resid := room }
          = { error := 0,
              moved := (object_bytes sz.sizeof_pid_t pnp.node_id.nodeid_pid).map some,
              uio := { uio_offset := sz.sizeof_pid_t,
                       uio_resid := (room : Int) - sz.sizeof_pid_t } }
        ∧ (object_bytes sz.sizeof_pid_t pnp.node_id.nodeid_pid).length = sz.sizeof_pid_t
        ∧ ((object_value (object_bytes sz.sizeof_pid_t pnp.node_id.nodeid_pid) : Nat) : Int)
          = pnp.node_id.nodeid_pid % 256 ^ sz.sizeof_pid_t
        ∧ procfs_read_pid_data sz pnp
            { uio_offset := sz.sizeof_pid_t, uio_resid := (room : Int) - sz.sizeof_pid_t }
          = { error := 0, moved := [],
              uio := { uio_offset := sz.sizeof_pid_t,
                       uio_resid := (room : Int) - sz.sizeof_pid_t } }) := by
  refine ⟨procfs_copy_data_inside data o r hL ho, ?_⟩
  intro sz pnp room hs hr
  have hf := (schema_pid_files sz).2.2 25 "pid" .procfs_read_pid_data (by simp)
  have hc := procfs_copy_data_pid sz pnp.node_id.nodeid_pid room hs hr
  exact ⟨hf.1, hf.2.2.1, hf.2.2.2.1, (schema_pid_files sz).2.1, hf.2.2.2.2.1, hc.1,
    object_bytes_length _ _, object_value_bytes _ _, hc.2⟩

/-- Witness for C25: the bytes 10, 11, 12, 13, 14 read at offset 1 into a
buffer with room for 3, and the "pid" file of process 2 read with room for 16
bytes. -/
theorem copy_data_transfers_requested_range_witness :
    procfs_copy_data [10, 11, 12, 13, 14] 5 { uio_offset := 1, uio_resid := 3 }
      = { error := 0, moved := [some 11, some 12, some 13],
          uio := { uio_offset := 4, uio_resid := 0 } }
    ∧ procfs_read_pid_data demo_sizes (demo_dir 2 0 25) { uio_offset := 0, uio_resid := 16 }
      = { error := 0, moved := [some 2, some 0, some 0, some 0],
          uio := { uio_offset := 4, uio_resid := 12 } }
    ∧ procfs_read_pid_data demo_sizes (demo_dir 2 0 25) { uio_offset := 4, uio_resid := 12 }
      = { error := 0, moved := [], uio := { uio_offset := 4, uio_resid := 12 } } :=
  ⟨(copy_data_transfers_requested_range Nat [10, 11, 12, 13, 14] 1 3 (by decide)
      (by decide)).1,
   ((copy_data_transfers_requested_range Nat [] 0 0 (by decide) (by decide)).2 demo_sizes
      (demo_dir 2 0 25) 16 (by decide) (by decide)).2.2.2.2.2.1,
   ((copy_data_transfers_requested_range Nat [] 0 0 (by decide) (by decide)).2 demo_sizes
      (demo_dir 2 0 25) 16 (by decide) (by decide)).2.2.2.2.2.2.2.2⟩

/-- A host whose information routines succeed and fill each block with the
byte 7. -/
def demo_info_host : info_host :=
  { proc_pidbsdinfo := fun _ => (0, fun _ => 7),
    proc_pidtaskinfo := fun _ => (0, fun _ => 7),
    proc_pidthreadinfo := fun _ _ => (0, fun _ => 7) }

/-- Process 5 of user 501: parent 2, process group 5, session 2. -/
def demo_proc_session : proc_t :=
  { demo_proc 5 "zsh" 501 with
    p_ppid := 2, p_pgrpid := 5, p_pgrp := some { pg_session := some { s_sid := 2 } } }

/-- C26 fails on the code: when the process of the node is not in the
registry, `procfs_read_proc_info`, `procfs_read_task_info` and
`procfs_read_thread_info` return 0, not `ESRCH`, and move nothing: `error`
starts as 0 and there is no `else` branch for `p == NULL`.  The readers of
"ppid", "pgid" and "sid" return `ESRCH` in the same situation. -/
theorem info_readers_succeed_for_vanished_process (sz : kernel_sizes) (allproc : List proc_t)
    (host : info_host) (pnp : procfsnode_t) (uio : uio_t)
    (hgone : proc_find allproc pnp.node_id.nodeid_pid = none) :
    procfs_read_proc_info sz allproc host pnp uio = { error := 0, moved := [], uio := uio }
    ∧ procfs_read_task_info sz allproc host pnp uio = { error := 0, moved := [], uio := uio }
    ∧ procfs_read_thread_info sz allproc host pnp uio = { error := 0, moved := [], uio := uio }
    ∧ (procfs_read_proc_info sz allproc host pnp uio).error ≠ ESRCH
    ∧ procfs_read_ppid_data sz allproc pnp uio = { error := ESRCH, moved := [], uio := uio }
    ∧ procfs_read_pgid_data sz allproc pnp uio = { error := ESRCH, moved := [], uio := uio }
    ∧ procfs_read_sid_data sz allproc pnp uio = { error := ESRCH, moved := [], uio := uio } := by
  unfold procfs_read_proc_info procfs_read_task_info procfs_read_thread_info
    procfs_read_ppid_data procfs_read_pgid_data procfs_read_sid_data
  simp only [hgone]
  refine ⟨trivial, trivial, trivial, ?_, trivial, trivial, trivial⟩
  decide

/-- C26 at a concrete input: the registry holds the processes 1 and 2, the
nodes are "info" and "taskinfo" of process 9 and "info" of thread 100 of
process 9, read from offset 0 with room for 512 bytes. -/
theorem info_readers_succeed_for_vanished_process_witness :
    procfs_read_proc_info demo_sizes demo_allproc demo_info_host (demo_dir 9 0 30)
        { uio_offset := 0, uio_resid := 512 }
      = { error := 0, moved := [], uio := { uio_offset := 0, uio_resid := 512 } }
    ∧ procfs_read_task_info demo_sizes demo_allproc demo_info_host (demo_dir 9 0 31)
        { uio_offset := 0, uio_resid := 512 }
      = { error := 0, moved := [], uio := { uio_offset := 0, uio_resid := 512 } }
    ∧ procfs_read_thread_info demo_sizes demo_allproc demo_info_host (demo_dir 9 100 32)
        { uio_offset := 0, uio_resid := 512 }
      = { error := 0, moved := [], uio := { uio_offset := 0, uio_resid := 512 } } :=
  ⟨(info_readers_succeed_for_vanished_process demo_sizes demo_allproc demo_info_host
      (demo_dir 9 0 30) { uio_offset := 0, uio_resid := 512 } (by decide)).1,
   (info_readers_succeed_for_vanished_process demo_sizes demo_allproc demo_info_host
      (demo_dir 9 0 31) { uio_offset := 0, uio_resid := 512 } (by decide)).2.1,
   (info_readers_succeed_for_vanished_process demo_sizes demo_allproc demo_info_host
      (demo_dir 9 100 32) { uio_offset := 0, uio_resid := 512 } (by decide)).2.2.1⟩

/-- C27: the files "ppid", "pgid" and "sid" of a process directory (nodes 26,
27 and 28 of the built layout) are read by `procfs_read_ppid_data`,
`procfs_read_pgid_data` and `procfs_read_sid_data`.  If the process of the node
is in the registry, a read from offset 0 with room for `sizeof(pid_t)` bytes
returns 0 and hands over exactly the `sizeof(pid_t)` bytes of `p_ppid`, of
`p_pgrpid`, and of the session id `s_sid` of the session of the process group
(of 0 when the process has no process group or the group no session); if it is
not in the registry, each read returns `ESRCH` and hands over nothing. -/
theorem id_files_read_ids_or_esrch (sz : kernel_sizes) (allproc : List proc_t)
    (pnp : procfsnode_t) (room : Nat)
    (hs : sz.sizeof_pid_t ≤ 2147483647) (hr : sz.sizeof_pid_t ≤ room) :
    ((schema_node sz 26).psn_name = "ppid"
      ∧ (schema_node sz 26).psn_read_data_fn = some .procfs_read_ppid_data
      ∧ (schema_node sz 27).psn_name = "pgid"
      ∧ (schema_node sz 27).psn_read_data_fn = some .procfs_read_pgid_data
      ∧ (schema_node sz 28).psn_name = "sid"
      ∧ (schema_node sz 28).psn_read_data_fn = some .procfs_read_sid_data
      ∧ ∀ k ∈ [26, 27, 28], (procfs_structure sz).nodes[k]? = some (schema_node sz k)
          ∧ (schema_node sz k).psn_parent = some 10)
    ∧ (∀ p : proc_t, proc_find allproc pnp.node_id.nodeid_pid = some p →
        procfs_read_ppid_data sz allproc pnp { uio_offset := 0, uio_resid := room }
          = { error := 0, moved := (object_bytes sz.sizeof_pid_t p.p_ppid).map some,
              uio := { uio_offset := sz.sizeof_pid_t,
                       uio_resid := (room : Int) - sz.sizeof_pid_t } }
        ∧ procfs_read_pgid_data sz allproc pnp { uio_offset := 0, uio_resid := room }
          = { error := 0, moved := (object_bytes sz.sizeof_pid_t p.p_pgrpid).map some,
              uio := { uio_offset := sz.sizeof_pid_t,
                       uio_resid := (room : Int) - sz.sizeof_pid_t } }
        ∧ procfs_read_sid_data sz allproc pnp { uio_offset := 0, uio_resid := room }
          = { error := 0,
              moved := (object_bytes sz.sizeof_pid_t
                (match p.p_pgrp.bind (fun g => g.pg_session) with
                 | some sp => sp.s_sid
                 | none => 0)).map some,
              uio := { uio_offset := sz.sizeof_pid_t,
                       uio_resid := (room : Int) - sz.sizeof_pid_t } }
        ∧ ∀ x : Int, (object_bytes sz.sizeof_pid_t x).length = sz.sizeof_pid_t
            ∧ ((object_value (object_bytes sz.sizeof_pid_t x) : Nat) : Int)
                = x % 256 ^ sz.sizeof_pid_t)
    ∧ (proc_find allproc pnp.node_id.nodeid_pid = none →
        ∀ uio : uio_t,
          procfs_read_ppid_data sz allproc pnp uio = { error := ESRCH, moved := [], uio := uio }
          ∧ procfs_read_pgid_data sz allproc pnp uio
            = { error := ESRCH, moved := [], uio := uio }
          ∧ procfs_read_sid_data sz allproc pnp uio
            = { error := ESRCH, moved := [], uio := uio }) := by
  have hf := (schema_pid_files sz).2.2
  have h26 := hf 26 "ppid" .procfs_read_ppid_data (by simp)
  have h27 := hf 27 "pgid" .procfs_read_pgid_data (by simp)
  have h28 := hf 28 "sid" .procfs_read_sid_data (by simp)
  refine ⟨⟨h26.2.2.1, h26.2.2.2.2.1, h27.2.2.1, h27.2.2.2.2.1, h28.2.2.1, h28.2.2.2.2.1, ?_⟩,
    ?_, ?_⟩
  · intro k hk
    simp only [List.mem_cons, List.mem_singleton, List.not_mem_nil, or_false] at hk
    rcases hk with rfl | rfl | rfl
    · exact ⟨h26.1, h26.2.2.2.1⟩
    · exact ⟨h27.1, h27.2.2.2.1⟩
    · exact ⟨h28.1, h28.2.2.2.1⟩
  · intro p hp
    unfold procfs_read_ppid_data procfs_read_pgid_data procfs_read_sid_data
    simp only [hp]
    refine ⟨(procfs_copy_data_pid sz _ room hs hr).1, (procfs_copy_data_pid sz _ room hs hr).1,
      ?_, fun x => ⟨object_bytes_length _ _, object_value_bytes _ _⟩⟩
    rcases hg : p.p_pgrp with _ | g
    · exact (procfs_copy_data_pid sz _ room hs hr).1
    · simp only [Option.some_bind]
      rcases hg2 : g.pg_session with _ | sp
      · exact (procfs_copy_data_pid sz _ room hs hr).1
      · exact (procfs_copy_data_pid sz _ room hs hr).1
  · intro hgone uio
    unfold procfs_read_ppid_data procfs_read_pgid_data procfs_read_sid_data
    simp only [hgone]
    exact ⟨trivial, trivial, trivial⟩

/-- Witness for C27: process 5 (parent 2, group 5, session 2) and process 2
(no process group) in the registry, reads with room for 8 bytes; process 9 is
not in the registry. -/
theorem id_files_read_ids_or_esrch_witness :
    procfs_read_ppid_data demo_sizes [demo_proc_session, demo_proc 2 "bash" 501]
        (demo_dir 5 0 26) { uio_offset := 0, uio_resid := 8 }
      = { error := 0, moved := [some 2, some 0, some 0, some 0],
          uio := { uio_offset := 4, uio_resid := 4 } }
    ∧ procfs_read_sid_data demo_sizes [demo_proc_session, demo_proc 2 "bash" 501]
        (demo_dir 2 0 28) { uio_offset := 0, uio_resid := 8 }
      = { error := 0, moved := [some 0, some 0, some 0, some 0],
          uio := { uio_offset := 4, uio_resid := 4 } }
    ∧ procfs_read_pgid_data demo_sizes [demo_proc_session, demo_proc 2 "bash" 501]
        (demo_dir 9 0 27) { uio_offset := 0, uio_resid := 8 }
      = { error := ESRCH, moved := [], uio := { uio_offset := 0, uio_resid := 8 } } :=
  ⟨((id_files_read_ids_or_esrch demo_sizes [demo_proc_session, demo_proc 2 "bash" 501]
      (demo_dir 5 0 26) 8 (by decide) (by decide)).2.1 demo_proc_session (by decide)).1,
   ((id_files_read_ids_or_esrch demo_sizes [demo_proc_session, demo_proc 2 "bash" 501]
      (demo_dir 2 0 28) 8 (by decide) (by decide)).2.1 (demo_proc 2 "bash" 501)
      (by decide)).2.2.1,
   ((id_files_read_ids_or_esrch demo_sizes [demo_proc_session, demo_proc 2 "bash" 501]
      (demo_dir 9 0 27) 8 (by decide) (by decide)).2.2 (by decide)
      { uio_offset := 0, uio_resid := 8 }).2.1⟩

/-! ## Attributes, symbolic links and the size of a directory entry -/

/-- The type and permission bits of a node in the words of the
specification, as a function of the schema node type and of whether the mount
has `PROCFS_MOPT_NOPROCPERMS`: root and descriptor directories are directories
with mode 0555; `PROCFS_CURPROC` and `PROCFS_PROCNAME_DIR` are symbolic links
with mode 0777; the other directory types are directories and `PROCFS_FILE` is
a regular file, with mode 0550 by default and 0555 when the flag is set. -/
def spec_type_and_mode (node_type : procfs_structure_node_type_t) (noprocperms : Bool) :
    vtype × Nat :=
  match node_type with
  | PROCFS_ROOT => (.VDIR, 0o555)
  | PROCFS_FD_DIR => (.VDIR, 0o555)
  | PROCFS_CURPROC => (.VLNK, 0o777)
  | PROCFS_PROCNAME_DIR => (.VLNK, 0o777)
  | PROCFS_PROCDIR => (.VDIR, if noprocperms then 0o555 else 0o550)
  | PROCFS_THREADDIR => (.VDIR, if noprocperms then 0o555 else 0o550)
  | PROCFS_DIR => (.VDIR, if noprocperms then 0o555 else 0o550)
  | PROCFS_DIR_THIS => (.VDIR, if noprocperms then 0o555 else 0o550)
  | PROCFS_DIR_PARENT => (.VDIR, if noprocperms then 0o555 else 0o550)
  | PROCFS_FILE => (.VREG, if noprocperms then 0o555 else 0o550)

/-- C28: whenever `procfs_vnop_getattr` returns attributes for a vnode, the
type and the mode among them are the ones the specification names for the type
of the node's structure node and the `PROCFS_MOPT_NOPROCPERMS` flag of the
mount (`spec_type_and_mode`), whatever the registry, the caller and the
identity of the node are, and the mode of a node that is no symbolic link has
none of the write bits (0222).  In the layout built by `procfs_structure_init`
the call returns attributes when the type of the node needs no process
(`procfs_node_type_has_pid` is false) or the node's pid is that of a process
in the registry, and `ENOENT` otherwise. -/
theorem getattr_type_and_mode (nodes : List procfs_structure_node_t) (allproc : List proc_t)
    (current_proc : Option proc_t) (pmp : procfs_mount_t) (creds : kauth_cred_t) (vp : vnode_t)
    (pnode : procfsnode_t) (snode : procfs_structure_node_t)
    (hv : vp.v_fsnode = some pnode)
    (hs : pnode.node_structure_node.bind (fun i => nodes[i]?) = some snode) :
    (∀ vap : vnode_attr,
        procfs_vnop_getattr nodes allproc current_proc pmp creds vp = some (.attrs vap) →
        (vap.va_type, vap.va_mode)
          = spec_type_and_mode snode.psn_node_type
              (decide (Nat.land pmp.pmnt_flags PROCFS_MOPT_NOPROCPERMS ≠ 0))
        ∧ (vap.va_type ≠ .VLNK →
            Nat.land vap.va_mode (Nat.lor (Nat.lor S_IWUSR S_IWGRP) S_IWOTH) = 0))
    ∧ (∀ sz : kernel_sizes, nodes = (procfs_structure sz).nodes →
        ((procfs_node_type_has_pid snode.psn_node_type = false
            ∨ (pnode.node_id.nodeid_pid ≠ PRNODE_NO_PID
                ∧ (proc_find allproc pnode.node_id.nodeid_pid).isSome = true)) →
          ∃ vap : vnode_attr,
            procfs_vnop_getattr nodes allproc current_proc pmp creds vp = some (.attrs vap))
        ∧ (¬ (procfs_node_type_has_pid snode.psn_node_type = false
              ∨ (pnode.node_id.nodeid_pid ≠ PRNODE_NO_PID
                  ∧ (proc_find allproc pnode.node_id.nodeid_pid).isSome = true)) →
            procfs_vnop_getattr nodes allproc current_proc pmp creds vp
              = some (.error ENOENT))) := by
  constructor
  · intro vap h
    unfold procfs_vnop_getattr at h
    simp only [hv, hs] at h
    split at h
    · cases h
    · cases h
    · split at h
      · rename_i fileid data_size _ _
        simp only [Option.some.injEq, getattr_result.attrs.injEq] at h
        subst h
        by_cases hflag : Nat.land pmp.pmnt_flags PROCFS_MOPT_NOPROCPERMS ≠ 0
        · simp only [hflag, not_false_eq_true, if_true, decide_True, ne_eq]
          cases snode.psn_node_type <;> decide
        · simp only [hflag, if_false, decide_False, ne_eq]
          cases snode.psn_node_type <;> decide
      · cases h
  · intro sz hn
    subst hn
    obtain ⟨k, hk, hsn⟩ := structure_node_index hs
    have hlt := schema_index_lt hsn
    have hsize := size_attr_isSome sz allproc pnode creds k hk hlt
    obtain ⟨data_size, hds⟩ := Option.isSome_iff_exists.mp hsize
    have hfid : procfs_get_node_fileid (procfs_structure sz).nodes pnode
        = some (procfs_get_fileid pnode.node_id.nodeid_pid pnode.node_id.nodeid_objectid
            snode.psn_base_node_id) := by
      unfold procfs_get_node_fileid
      rw [hs]
    constructor
    · intro hok
      have hinfo : ∃ pid p, procfs_get_process_info (procfs_structure sz).nodes allproc pnode
          = some (.info pid p) := by
        unfold procfs_get_process_info
        simp only [hs]
        rcases hok with h1 | ⟨h2, h3⟩
        · exact ⟨_, _, by rw [if_neg (by simp [h1])]⟩
        · have hne : ¬ ((if pnode.node_id.nodeid_pid = PRNODE_NO_PID then none
                else proc_find allproc pnode.node_id.nodeid_pid) = none
              ∧ procfs_node_type_has_pid snode.psn_node_type = true) := by
            rw [if_neg h2]
            intro hc
            rw [hc.1] at h3
            simp at h3
          exact ⟨_, _, by rw [if_neg hne]⟩
      obtain ⟨pid, p, hinfo⟩ := hinfo
      unfold procfs_vnop_getattr
      simp only [hv, hs, hinfo, hfid, hds]
      exact ⟨_, rfl⟩
    · intro hbad
      have hinfo : procfs_get_process_info (procfs_structure sz).nodes allproc pnode
          = some (.error ENOENT) := by
        unfold procfs_get_process_info
        simp only [hs]
        rw [if_pos]
        constructor
        · by_cases hp : pnode.node_id.nodeid_pid = PRNODE_NO_PID
          · rw [if_pos hp]
          · rw [if_neg hp]
            cases hf : proc_find allproc pnode.node_id.nodeid_pid with
            | none => rfl
            | some q => exact absurd (Or.inr ⟨hp, by rw [hf]; rfl⟩) hbad
        · cases ht : procfs_node_type_has_pid snode.psn_node_type with
          | true => rfl
          | false => exact absurd (Or.inl ht) hbad
      unfold procfs_vnop_getattr
      simp only [hv, hs, hinfo]

/-- Witness for C28: on the default mount the root directory is a directory
with mode 0555, and the directory of the live process 2 is a directory with
mode 0550. -/
theorem getattr_type_and_mode_witness :
    (∃ vap : vnode_attr,
      procfs_vnop_getattr demo_nodes demo_allproc (some (demo_proc 2 "bash" 501)) demo_mount
          demo_user (demo_vnode demo_root) = some (.attrs vap)
      ∧ (vap.va_type, vap.va_mode) = (.VDIR, 0o555))
    ∧ (∃ vap : vnode_attr,
      procfs_vnop_getattr demo_nodes demo_allproc (some (demo_proc 2 "bash" 501)) demo_mount
          demo_user (demo_vnode (demo_dir 2 0 10)) = some (.attrs vap)
      ∧ (vap.va_type, vap.va_mode) = (.VDIR, 0o550)) :=
  ⟨(((getattr_type_and_mode demo_nodes demo_allproc (some (demo_proc 2 "bash" 501)) demo_mount
        demo_user (demo_vnode demo_root) demo_root (schema_node demo_sizes 0) rfl
        (by decide)).2 demo_sizes rfl).1 (Or.inl (by decide))).elim
      (fun vap h => ⟨vap, h,
        ((getattr_type_and_mode demo_nodes demo_allproc (some (demo_proc 2 "bash" 501))
          demo_mount demo_user (demo_vnode demo_root) demo_root (schema_node demo_sizes 0) rfl
          (by decide)).1 vap h).1⟩),
   (((getattr_type_and_mode demo_nodes demo_allproc (some (demo_proc 2 "bash" 501)) demo_mount
        demo_user (demo_vnode (demo_dir 2 0 10)) (demo_dir 2 0 10) (schema_node demo_sizes 10)
        rfl (by decide)).2 demo_sizes rfl).1 (Or.inr ⟨by decide, by decide⟩)).elim
      (fun vap h => ⟨vap, h,
        ((getattr_type_and_mode demo_nodes demo_allproc (some (demo_proc 2 "bash" 501))
          demo_mount demo_user (demo_vnode (demo_dir 2 0 10)) (demo_dir 2 0 10)
          (schema_node demo_sizes 10) rfl (by decide)).1 vap h).1⟩)⟩

/-- C29: for a vnode whose node has the structure node `snode`,
`procfs_vnop_readlink` hands the caller, with error 0, the string that
`snprintf` built, as far as the caller has room (`link_result`; all of it when
the room is at least its length).  For a `PROCFS_CURPROC` node the string is
the decimal form of the pid of the calling process, which for a pid that is not
negative consists of decimal digits only, has the pid as its value and nothing
before or after the digits.  For a `PROCFS_PROCNAME_DIR` node it is "../"
followed by the decimal form of the pid in the node's identity.  For a node of
any other type the call returns `EINVAL` and hands over nothing.  In the byname
directory of the built layout (registry pids not negative), when the lookup of
a name that is no child's fixed name resolves to the node, the node is a
`PROCFS_PROCNAME_DIR` node and its link target is "../" followed by the leading
digits of the name. -/
theorem readlink_targets (nodes : List procfs_structure_node_t) (current_proc : Option proc_t)
    (vp : vnode_t) (pnp : procfsnode_t) (snode : procfs_structure_node_t) (o : Int) (room : Nat)
    (hv : vp.v_fsnode = some pnp)
    (hs : pnp.node_structure_node.bind (fun i => nodes[i]?) = some snode) :
    (∀ target : String, target.length ≤ room →
        link_result target o room
          = { error := 0, moved := target.data.map some,
              uio := { uio_offset := o + target.length,
                       uio_resid := (room : Int) - target.length } })
    ∧ (snode.psn_node_type = PROCFS_CURPROC → ∀ p : proc_t, current_proc = some p →
        procfs_vnop_readlink nodes current_proc vp { uio_offset := o, uio_resid := room }
          = some (link_result (toString p.p_pid) o room)
        ∧ (0 ≤ p.p_pid →
            (toString p.p_pid).data ≠ []
            ∧ (∀ c ∈ (toString p.p_pid).data, is_digit c = true)
            ∧ ((digits_value (toString p.p_pid).data : Nat) : Int) = p.p_pid))
    ∧ (snode.psn_node_type = PROCFS_PROCNAME_DIR →
        procfs_vnop_readlink nodes current_proc vp { uio_offset := o, uio_resid := room }
          = some (link_result ("../" ++ toString pnp.node_id.nodeid_pid) o room)
        ∧ (0 ≤ pnp.node_id.nodeid_pid →
            (toString pnp.node_id.nodeid_pid).data ≠ []
            ∧ (∀ c ∈ (toString pnp.node_id.nodeid_pid).data, is_digit c = true)
            ∧ ((digits_value (toString pnp.node_id.nodeid_pid).data : Nat) : Int)
                = pnp.node_id.nodeid_pid))
    ∧ (snode.psn_node_type ≠ PROCFS_CURPROC → snode.psn_node_type ≠ PROCFS_PROCNAME_DIR →
        ∀ uio : uio_t, procfs_vnop_readlink nodes current_proc vp uio
          = some { error := EINVAL, moved := [], uio := uio })
    ∧ (∀ (sz : kernel_sizes) (allproc : List proc_t) (pmp : procfs_mount_t)
        (creds : kauth_cred_t) (dv : vnode_t) (dir_pnp : procfsnode_t) (cnp : componentname)
        (i : Nat) (sn : procfs_structure_node_t) (parent : Option Nat),
        nodes = (procfs_structure sz).nodes →
        dv.v_type = .VDIR → dv.v_fsnode = some dir_pnp →
        dir_pnp.node_structure_node = some i →
        (procfs_structure sz).nodes[i]? = some sn →
        (sn.psn_node_type = PROCFS_DIR ∧ sn.psn_name = "byname") →
        1 ≤ cnp.cn_namelen → cnp.cn_flags_isdotdot = false →
        (∀ c ∈ sn.psn_children,
          child_name (procfs_structure sz).nodes c ≠ some (lookup_name cnp)) →
        (∀ q ∈ allproc, 0 ≤ q.p_pid) →
        lookup_resolve (procfs_structure sz).nodes allproc pmp creds (some dv) cnp
          = .node parent pnp.node_id pnp.node_structure_node →
        snode.psn_node_type = PROCFS_PROCNAME_DIR
        ∧ procfs_vnop_readlink nodes current_proc vp { uio_offset := o, uio_resid := room }
          = some (link_result ("../" ++ String.mk (leading_digits (lookup_name cnp))) o room)) := by
  have hdig : ∀ x : Int, 0 ≤ x → (toString x).data ≠ []
      ∧ (∀ c ∈ (toString x).data, is_digit c = true)
      ∧ ((digits_value (toString x).data : Nat) : Int) = x := by
    intro x hx
    rw [toString_int_toNat hx]
    obtain ⟨h1, h2, h3⟩ := toString_nat_digits x.toNat
    exact ⟨h1, h2, by rw [h3]; exact Int.toNat_of_nonneg hx⟩
  refine ⟨?_, ?_, ?_, ?_, ?_⟩
  · intro target hlen
    unfold link_result
    have hm : min target.length room = target.length := Nat.min_eq_left hlen
    rw [hm]
    have ht : target.data.take target.length = target.data := List.take_length target.data
    rw [ht]
  · intro ht p hp
    subst hp
    exact ⟨readlink_curproc p o room hv hs ht, hdig _⟩
  · intro ht
    exact ⟨readlink_procname current_proc o room hv hs ht, hdig _⟩
  · intro h1 h2 uio
    exact readlink_other current_proc uio hv hs h1 h2
  · intro sz allproc pmp creds dv dir_pnp cnp i sn parent hn hty hfs hi hsn hdir hlen hdd hname
      hpids hres
    subst hn
    obtain ⟨hm, p, hfind, hnm⟩ := lookup_byname_resolved sz allproc pmp creds dv dir_pnp cnp i
      sn hty hfs hi hsn hdir hlen hdd hname hres
    have h7 : snode = schema_node sz 7 := by
      rw [hm] at hs
      have h : (procfs_structure sz).nodes[7]? = some (schema_node sz 7) := by
        rw [structure_nodes_eq]; rfl
      simp only [Option.some_bind, h, Option.some.injEq] at hs
      exact hs.symm
    have ht : snode.psn_node_type = PROCFS_PROCNAME_DIR := by rw [h7]; rfl
    refine ⟨ht, ?_⟩
    obtain ⟨hpid, hmem⟩ := proc_find_some hfind
    rw [readlink_procname current_proc o room hv hs ht, hnm, ← hpid,
      link_target_of_name (hpids p hmem)]

/-- Witness for C29: process 2 reads the "curproc" link and the link of the
byname entry "2 bash", with room for 64 characters; the "pid" file is no
link. -/
theorem readlink_targets_witness :
    procfs_vnop_readlink demo_nodes (some (demo_proc 2 "bash" 501))
        (demo_vnode (demo_dir PRNODE_NO_PID 0 3)) { uio_offset := 0, uio_resid := 64 }
      = some { error := 0, moved := [some '2'], uio := { uio_offset := 1, uio_resid := 63 } }
    ∧ procfs_vnop_readlink demo_nodes (some (demo_proc 2 "bash" 501))
        (demo_vnode (demo_dir 2 0 7)) { uio_offset := 0, uio_resid := 64 }
      = some (link_result ("../" ++ String.mk (leading_digits "2 bash")) 0 64)
    ∧ procfs_vnop_readlink demo_nodes (some (demo_proc 2 "bash" 501))
        (demo_vnode (demo_dir 2 0 25)) { uio_offset := 0, uio_resid := 64 }
      = some { error := EINVAL, moved := [], uio := { uio_offset := 0, uio_resid := 64 } } :=
  ⟨((readlink_targets demo_nodes (some (demo_proc 2 "bash" 501))
      (demo_vnode (demo_dir PRNODE_NO_PID 0 3)) (demo_dir PRNODE_NO_PID 0 3)
      (schema_node demo_sizes 3) 0 64 rfl (by decide)).2.1 (by decide) (demo_proc 2 "bash" 501)
      rfl).1,
   ((readlink_targets demo_nodes (some (demo_proc 2 "bash" 501))
      (demo_vnode (demo_dir 2 0 7)) (demo_dir 2 0 7) (schema_node demo_sizes 7) 0 64 rfl
      (by decide)).2.2.2.2 demo_sizes demo_allproc demo_mount demo_user
      (demo_vnode (demo_dir PRNODE_NO_PID 0 4)) (demo_dir PRNODE_NO_PID 0 4) (component "2 bash")
      4 (schema_node demo_sizes 4) (some 1) rfl rfl rfl rfl (by decide) (by decide) (by decide)
      rfl (by decide) (by decide) (by decide)).2,
   (readlink_targets demo_nodes (some (demo_proc 2 "bash" 501))
      (demo_vnode (demo_dir 2 0 25)) (demo_dir 2 0 25) (schema_node demo_sizes 25) 0 64 rfl
      (by decide)).2.2.2.1 (by decide) (by decide) { uio_offset := 0, uio_resid := 64 }⟩

/-- C30: for a name whose packed entry size fits the `int` that
`procfs_calc_dirent_size` returns, the size is `H + 4 * ceil((len + 1) / 4)`,
where `H` is `sizeof(struct dirent) - sizeof(entry.d_name)` and `len` the
length of the name: it exceeds `H` by a multiple `4 * c` of 4 with
`len + 1 ≤ 4 * c < len + 1 + 4`, it is at least `H + len + 1` and at most
`H + len + 4`, and a name that is not longer has a size that is not larger. -/
theorem calc_dirent_size_rounds_up (H : Nat) (name : String)
    (hfit : H + name.length + 4 ≤ 2147483647) :
    procfs_calc_dirent_size H name = ((H + 4 * ((name.length + 1 + 3) / 4) : Nat) : Int)
    ∧ (∃ c : Nat, procfs_calc_dirent_size H name = ((H + 4 * c : Nat) : Int)
        ∧ name.length + 1 ≤ 4 * c ∧ 4 * c < name.length + 1 + 4)
    ∧ ((H + name.length + 1 : Nat) : Int) ≤ procfs_calc_dirent_size H name
    ∧ procfs_calc_dirent_size H name ≤ ((H + name.length + 4 : Nat) : Int)
    ∧ procfs_calc_dirent_size H name ≤ 2147483647
    ∧ (∀ other : String, other.length ≤ name.length →
        procfs_calc_dirent_size H other ≤ procfs_calc_dirent_size H name) := by
  have h := calc_dirent_size_eq H name (by omega)
  refine ⟨h, ⟨(name.length + 4) / 4, h, by omega, by omega⟩, ?_, ?_, ?_, ?_⟩
  · rw [h]; omega
  · rw [h]; omega
  · rw [h]; omega
  · intro other ho
    rw [h, calc_dirent_size_eq H other (by omega)]
    have : (other.length + 4) / 4 ≤ (name.length + 4) / 4 := Nat.div_le_div_right (by omega)
    omega

/-- Witness for C30: with a header of 21 bytes the entry of "pid" takes 25
bytes and the entry of "info" 29. -/
theorem calc_dirent_size_rounds_up_witness :
    procfs_calc_dirent_size 21 "pid" = 25
    ∧ procfs_calc_dirent_size 21 "info" = 29
    ∧ procfs_calc_dirent_size 21 "pid" ≤ procfs_calc_dirent_size 21 "info" :=
  ⟨(calc_dirent_size_rounds_up 21 "pid" (by decide)).1,
   (calc_dirent_size_rounds_up 21 "info" (by decide)).1,
   (calc_dirent_size_rounds_up 21 "info" (by decide)).2.2.2.2.2 "pid" (by decide)⟩

/-! ## Numeric names, vanished processes, listing against lookup, declared sizes, file ids and termination -/

/-- C31: for every string `s` with maximal leading run of decimal digits of
length `k`: `*end_ptr` is `s + k`, where the characters before are the digits
and the character there, if there is one, is no digit; if `k = 0`,
`procfs_atoi` returns -1 (and `*end_ptr` is `s`); if `k > 0` and the decimal
value of the run is at most `INT_MAX`, it returns that value.  For every `n`
in `[0, INT_MAX]` the decimal representation of `n` yields `n` with
`*end_ptr` at its end, and the name that `procfs_construct_process_dir_name`
builds for a process with pid `p` in `[0, INT_MAX]` yields `p` with `*end_ptr`
at the space that follows the pid. -/
theorem procfs_atoi_leading_digits (s : String) :
    (procfs_atoi s).2 = (leading_digits s).length
    ∧ (leading_digits s).length ≤ s.length
    ∧ s.data.take (procfs_atoi s).2 = leading_digits s
    ∧ (∀ c : Char, s.data[(procfs_atoi s).2]? = some c → is_digit c = false)
    ∧ ((leading_digits s).length = 0 → procfs_atoi s = (-1, 0))
    ∧ (0 < (leading_digits s).length → digits_value (leading_digits s) ≤ 2147483647 →
        procfs_atoi s
          = (((digits_value (leading_digits s) : Nat) : Int), (leading_digits s).length))
    ∧ (∀ n : Nat, n ≤ 2147483647 →
        procfs_atoi (toString n) = ((n : Int), (toString n).length))
    ∧ (∀ p : proc_t, 0 ≤ p.p_pid → p.p_pid ≤ 2147483647 →
        procfs_atoi (procfs_construct_process_dir_name p)
          = (p.p_pid, (toString p.p_pid).length)
        ∧ (procfs_construct_process_dir_name p).data[(toString p.p_pid).length]?
          = some ' ') := by
  have he := procfs_atoi_eq s
  have h2 : (procfs_atoi s).2 = (leading_digits s).length := by rw [he]
  obtain ⟨a1, a2, a3⟩ := after_leading_digits s
  refine ⟨h2, a1, by rw [h2]; exact a2, by rw [h2]; exact a3, ?_, ?_, ?_, ?_⟩
  · intro h0
    rw [he, if_pos (List.length_eq_zero.mp h0), h0]
  · intro hpos hv
    rw [he, if_neg (fun h => by rw [h] at hpos; exact Nat.lt_irrefl 0 hpos),
      wrap_int32_of_range (by omega) (by omega)]
  · intro n hn
    rw [procfs_atoi_toString_nat, wrap_int32_of_range (by omega) (by omega)]
  · intro p h0 h1
    have hs : toString p.p_pid = toString p.p_pid.toNat := toString_int_toNat h0
    constructor
    · rw [construct_name_eq h0, procfs_atoi_toString _ _ (space_then_no_digit _), hs]
      show (wrap_int32 ((p.p_pid.toNat : Nat) : Int), _) = _
      rw [Int.toNat_of_nonneg h0, wrap_int32_of_range (by omega) (by omega)]
    · unfold procfs_construct_process_dir_name
      rw [String.append_assoc, String.data_append,
        show (toString p.p_pid).length = (toString p.p_pid).data.length from rfl,
        List.getElem?_append_right (le_refl _), Nat.sub_self, String.data_append]
      show ([' '] ++ _)[0]? = some ' '
      simp

/-- Witness for C31: "12ab" yields 12 with the end pointer at offset 2, "ab"
yields -1 with the end pointer at the start, "2147483647" yields `INT_MAX`,
and the name "2 bash" of process 2 yields 2 with the end pointer at the
space. -/
theorem procfs_atoi_leading_digits_witness :
    procfs_atoi "12ab" = (12, 2)
    ∧ procfs_atoi "ab" = (-1, 0)
    ∧ procfs_atoi (toString 2147483647) = (2147483647, (toString 2147483647).length)
    ∧ procfs_atoi (procfs_construct_process_dir_name (demo_proc 2 "bash" 501)) = (2, 1) :=
  ⟨(procfs_atoi_leading_digits "12ab").2.2.2.2.2.1 (by decide) (by decide),
   (procfs_atoi_leading_digits "ab").2.2.2.2.1 (by decide),
   (procfs_atoi_leading_digits "").2.2.2.2.2.2.1 2147483647 (by decide),
   ((procfs_atoi_leading_digits "").2.2.2.2.2.2.2 (demo_proc 2 "bash" 501) (by decide)
      (by decide)).1⟩

/-- C32 fails on the code for the plain directories of a vanished process:
`procfs_get_process_info` decides by the type of the structure node whether a
process is needed (`procfs_node_type_has_pid`), and `PROCFS_DIR` is a type that
needs none.  For a node without owning pid whose type needs no process (the
root) it returns 0 with `PRNODE_NO_PID` and a `NULL` process, and for a node
whose type needs a process and whose pid is that of no live process it returns
`ENOENT`, as the claim says; but for a node of type `PROCFS_DIR` (or
`PROCFS_CURPROC`, `PROCFS_ROOT`) that carries the pid of a process that is no
longer live it returns 0 with that pid and a `NULL` process. -/
theorem process_info_of_vanished_process (nodes : List procfs_structure_node_t)
    (allproc : List proc_t) (pnp : procfsnode_t) (snode : procfs_structure_node_t)
    (hs : pnp.node_structure_node.bind (fun i => nodes[i]?) = some snode) :
    (procfs_node_type_has_pid snode.psn_node_type = false
        ↔ (snode.psn_node_type = PROCFS_ROOT ∨ snode.psn_node_type = PROCFS_CURPROC
            ∨ snode.psn_node_type = PROCFS_DIR))
    ∧ (pnp.node_id.nodeid_pid = PRNODE_NO_PID →
        procfs_node_type_has_pid snode.psn_node_type = false →
        procfs_get_process_info nodes allproc pnp = some (.info PRNODE_NO_PID none))
    ∧ (procfs_node_type_has_pid snode.psn_node_type = true →
        (pnp.node_id.nodeid_pid = PRNODE_NO_PID
          ∨ proc_find allproc pnp.node_id.nodeid_pid = none) →
        procfs_get_process_info nodes allproc pnp = some (.error ENOENT))
    ∧ (procfs_node_type_has_pid snode.psn_node_type = false →
        pnp.node_id.nodeid_pid ≠ PRNODE_NO_PID →
        proc_find allproc pnp.node_id.nodeid_pid = none →
        procfs_get_process_info nodes allproc pnp
          = some (.info pnp.node_id.nodeid_pid none)) := by
  refine ⟨by cases snode.psn_node_type <;> decide, ?_, ?_, ?_⟩
  · intro hp ht
    unfold procfs_get_process_info
    simp only [hs, hp, ht, if_true, Bool.false_eq_true, and_false, if_false]
  · intro ht hgone
    unfold procfs_get_process_info
    simp only [hs, ht, and_true]
    rcases hgone with h | h
    · simp only [h, if_true]
    · simp only [h, ite_self, if_true]
  · intro ht hp hgone
    unfold procfs_get_process_info
    simp only [hs, ht, hp, hgone, if_false, Bool.false_eq_true, and_false]

/-- C32 at a concrete input: the registry holds the processes 1 and 2; the
nodes are the directories "fd" and "threads" of process 9.
`procfs_get_process_info` returns 0 with pid 9 and no process, and
`procfs_vnop_getattr` returns attributes; for the "pid" file of process 9 both
return `ENOENT`. -/
theorem process_info_of_vanished_process_witness :
    procfs_get_process_info demo_nodes demo_allproc (demo_dir 9 0 13) = some (.info 9 none)
    ∧ procfs_get_process_info demo_nodes demo_allproc (demo_dir 9 0 19) = some (.info 9 none)
    ∧ (procfs_vnop_getattr demo_nodes demo_allproc (some (demo_proc 2 "bash" 501)) demo_mount
        demo_user (demo_vnode (demo_dir 9 0 13))).map
          (fun r => match r with
            | .attrs vap => some (vap.va_type, vap.va_mode, vap.va_data_size)
            | .error _ => none)
        = some (some (.VDIR, 0o550, 2))
    ∧ procfs_get_process_info demo_nodes demo_allproc (demo_dir 9 0 25) = some (.error ENOENT)
    ∧ procfs_vnop_getattr demo_nodes demo_allproc (some (demo_proc 2 "bash" 501)) demo_mount
        demo_user (demo_vnode (demo_dir 9 0 25)) = some (.error ENOENT) :=
  ⟨(process_info_of_vanished_process demo_nodes demo_allproc (demo_dir 9 0 13)
      (schema_node demo_sizes 13) (by decide)).2.2.2 (by decide) (by decide) (by decide),
   (process_info_of_vanished_process demo_nodes demo_allproc (demo_dir 9 0 19)
      (schema_node demo_sizes 19) (by decide)).2.2.2 (by decide) (by decide) (by decide),
   by decide,
   (process_info_of_vanished_process demo_nodes demo_allproc (demo_dir 9 0 25)
      (schema_node demo_sizes 25) (by decide)).2.2.1 (by decide) (Or.inr (by decide)),
   by decide⟩

/-- C33: a `procfs_vnop_readdir` call on a node of the built layout that
returns.  The directories with an expansion marker among their children are
the root, byname, fd and threads (structure nodes 0, 4, 13, 19).  In such a
directory a call for which the guard of the loop body passes (the call reaches
the marker unless it stops before it) reports end of directory false, whatever
the start offset and the buffer are and however much it copied out.  End of
directory true comes with error 0 and only for a directory without a marker,
or when the guard fails, in which case every child is skipped and nothing is
copied out. -/
theorem readdir_eof_only_past_last_child (H : Nat) (sz : kernel_sizes) (allproc : List proc_t)
    (pmp : procfs_mount_t) (creds : kauth_cred_t) (dir_pnp : procfsnode_t) (uio : uio_t)
    (fuel k : Nat) (r : readdir_result)
    (hi : dir_pnp.node_structure_node = some k) (hk : k < 35)
    (hr : procfs_vnop_readdir H (procfs_structure sz).nodes allproc pmp creds dir_pnp uio fuel
      = some r) :
    ((∃ c ∈ (schema_node sz k).psn_children,
          is_expansion_type (schema_node sz c).psn_node_type = true)
        ↔ (k = 0 ∨ k = 4 ∨ k = 13 ∨ k = 19))
    ∧ ((∃ c ∈ (schema_node sz k).psn_children,
          is_expansion_type (schema_node sz c).psn_node_type = true) →
        readdir_access_ok allproc (readdir_check_access pmp creds) creds
          dir_pnp.node_id.nodeid_pid = true →
        r.eofflag = false)
    ∧ (r.eofflag = true →
        r.error = 0
        ∧ ((¬ ∃ c ∈ (schema_node sz k).psn_children,
              is_expansion_type (schema_node sz c).psn_node_type = true)
          ∨ (readdir_access_ok allproc (readdir_check_access pmp creds) creds
                dir_pnp.node_id.nodeid_pid = false
              ∧ r.copied = [] ∧ r.numdirent = 0))) := by
  have hpar := parent_node_id_isSome sz dir_pnp k hi hk
  have hdir : dir_pnp.node_structure_node.bind (fun i => (procfs_structure sz).nodes[i]?)
      = some (schema_node sz k) := by
    rw [hi, structure_nodes_eq]; exact schema_getElem sz hk
  have hroot := schema_children_no_root sz hk
  unfold procfs_vnop_readdir at hr
  simp only [hdir, schema_children_nodes sz hk] at hr
  refine ⟨schema_marker_dirs sz hk, ?_, ?_⟩
  · intro hm hacc
    split at hr
    · simp only [Option.some.injEq] at hr
      rw [← hr]
    · split at hr
      · cases hr
      · rename_i st error eof hloop
        simp only [Option.some.injEq] at hr
        rw [← hr]
        show eof = false
        cases eof with
        | false => rfl
        | true =>
          obtain ⟨c, hc, hex⟩ := hm
          have h := (readdir_loop_eof H _ allproc _ creds dir_pnp _ hpar fuel _ hroot _ st error
            hloop).2 (schema_node sz c) (List.mem_map_of_mem _ hc) hex
          unfold readdir_check_access at hacc
          rw [hacc] at h
          cases h
  · intro heof
    split at hr
    · simp only [Option.some.injEq] at hr
      rw [← hr] at heof
      cases heof
    · split at hr
      · cases hr
      · rename_i st error eof hloop
        simp only [Option.some.injEq] at hr
        rw [← hr] at heof ⊢
        have he : eof = true := heof
        subst he
        obtain ⟨h0, hall⟩ := readdir_loop_eof H _ allproc _ creds dir_pnp _ hpar fuel _ hroot _
          st error hloop
        refine ⟨h0, ?_⟩
        by_cases hm : ∃ c ∈ (schema_node sz k).psn_children,
            is_expansion_type (schema_node sz c).psn_node_type = true
        · right
          obtain ⟨c, hc, hex⟩ := hm
          have hacc := hall (schema_node sz c) (List.mem_map_of_mem _ hc) hex
          have hst := readdir_loop_skip_state H _ allproc _ creds dir_pnp _ hacc fuel _ _ st
            error true hloop
          refine ⟨hacc, ?_, ?_⟩
          · show st.copied = []
            rw [hst]
          · show st.numentries = 0
            rw [hst]
        · exact Or.inl hm

/-- Witness for C33: the superuser lists the root of the sample registry with
room for 4096 bytes: all six entries are copied out, they take 158 bytes of
the buffer, and end of directory is reported false. -/
theorem readdir_eof_only_past_last_child_witness :
    procfs_vnop_readdir 21 (procfs_structure demo_sizes).nodes demo_allproc demo_mount
        demo_superuser demo_root { uio_offset := 0, uio_resid := 4096 } 6
      = some demo_root_listing
    ∧ demo_root_listing.copied.map (fun d => d.d_name)
      = [".", "..", "curproc", "byname", "1", "2"]
    ∧ total_reclen demo_root_listing.copied = 158
    ∧ demo_root_listing.eofflag = false :=
  have hr : procfs_vnop_readdir 21 (procfs_structure demo_sizes).nodes demo_allproc demo_mount
      demo_superuser demo_root { uio_offset := 0, uio_resid := 4096 } 6
      = some demo_root_listing := by decide
  ⟨hr, by decide, by decide,
   (readdir_eof_only_past_last_child 21 demo_sizes demo_allproc demo_mount
      demo_superuser demo_root { uio_offset := 0, uio_resid := 4096 } 6 0 demo_root_listing rfl
      (by decide) hr).2.1 ⟨10, by decide, by decide⟩ (by decide)⟩

/-- C34 fails as stated: in the root of the sample registry the names "01" and
"1" are different and resolve to the same identity, that of the directory of
process 1, although "1" is the decimal representation of the pid; in the fd
directory of process 2 the names "03" and "3" resolve to the identity of
descriptor 3, and in its threads directory "0100" and "100" to that of thread
100. -/
theorem numeric_names_counterexample :
    lookup_resolve demo_nodes demo_allproc demo_mount demo_superuser
        (some (demo_vnode demo_root)) (component "01")
      = .node (some 1) { nodeid_pid := 1, nodeid_objectid := 0, nodeid_base_id := 11 } (some 10)
    ∧ lookup_resolve demo_nodes demo_allproc demo_mount demo_superuser
        (some (demo_vnode demo_root)) (component "1")
      = .node (some 1) { nodeid_pid := 1, nodeid_objectid := 0, nodeid_base_id := 11 } (some 10)
    ∧ "01" ≠ "1" ∧ toString (1 : Int) = "1"
    ∧ lookup_resolve demo_nodes demo_allproc demo_mount demo_superuser
        (some (demo_vnode (demo_dir 2 0 13))) (component "03")
      = .node (some 1) { nodeid_pid := 2, nodeid_objectid := 3, nodeid_base_id := 17 } (some 16)
    ∧ lookup_resolve demo_nodes demo_allproc demo_mount demo_superuser
        (some (demo_vnode (demo_dir 2 0 13))) (component "3")
      = .node (some 1) { nodeid_pid := 2, nodeid_objectid := 3, nodeid_base_id := 17 } (some 16)
    ∧ lookup_resolve demo_nodes demo_allproc demo_mount demo_superuser
        (some (demo_vnode (demo_dir 2 0 19))) (component "0100")
      = .node (some 1) { nodeid_pid := 2, nodeid_objectid := 100, nodeid_base_id := 23 } (some 22)
    ∧ lookup_resolve demo_nodes demo_allproc demo_mount demo_superuser
        (some (demo_vnode (demo_dir 2 0 19))) (component "100")
      = .node (some 1) { nodeid_pid := 2, nodeid_objectid := 100, nodeid_base_id := 23 }
          (some 22) := by
  decide

/-- C34 as amended: in the root (`k = 0`), an fd directory (`k = 13`) and a
threads directory (`k = 19`) of the built layout, for every component that is
no child's fixed name and whose leading digits have a value in the range of a
non-negative `int` (in an fd directory: that has no characters after its
leading digits): if the lookup resolves the name, the name is a non-empty run
of decimal digits, the structure node is the expansion marker of the
directory, and the identity is made of the marker's base id and the value of
the digits, as the pid in the root and as the object id (with the pid of the
directory) in the other two.  Every name of digits with the same value, such
as the decimal representation of the value (which has no leading zeros) and
the same digits after leading zeros, resolves to the same result, and two
names that resolve to the same identity have the same value. -/
theorem numeric_names_resolve_by_value (sz : kernel_sizes) (allproc : List proc_t)
    (pmp : procfs_mount_t) (creds : kauth_cred_t) (qv : vnode_t) (qnode : procfsnode_t)
    (k : Nat) (cnp : componentname)
    (hk : k = 0 ∨ k = 13 ∨ k = 19)
    (hty : qv.v_type = .VDIR) (hfs : qv.v_fsnode = some qnode)
    (hi : qnode.node_structure_node = some k)
    (hlen : 1 ≤ cnp.cn_namelen) (hdd : cnp.cn_flags_isdotdot = false)
    (hname : ∀ c ∈ (schema_node sz k).psn_children,
      child_name (procfs_structure sz).nodes c ≠ some (lookup_name cnp))
    (hrange : digits_value (leading_digits (lookup_name cnp)) < 2147483648)
    (hall : k = 13 → leading_digits (lookup_name cnp) = []
      ∨ ∀ c ∈ (lookup_name cnp).data, is_digit c = true)
    (vp : Option Nat) (id : procfsnode_id_t) (m : Option Nat)
    (hres : lookup_resolve (procfs_structure sz).nodes allproc pmp creds (some qv) cnp
      = .node vp id m) :
    ((lookup_name cnp).data ≠ [] ∧ ∀ c ∈ (lookup_name cnp).data, is_digit c = true)
    ∧ m = some (if k = 0 then 10 else if k = 13 then 16 else 22)
    ∧ id.nodeid_base_id
        = (schema_node sz (if k = 0 then 10 else if k = 13 then 16 else 22)).psn_base_node_id
    ∧ (k = 0 → id.nodeid_pid = ((digits_value (lookup_name cnp).data : Nat) : Int)
        ∧ id.nodeid_objectid = qnode.node_id.nodeid_objectid)
    ∧ (k ≠ 0 → id.nodeid_pid = qnode.node_id.nodeid_pid
        ∧ id.nodeid_objectid = digits_value (lookup_name cnp).data)
    ∧ (∀ cnp2 : componentname, 1 ≤ cnp2.cn_namelen → cnp2.cn_flags_isdotdot = false →
        (lookup_name cnp2).data ≠ [] → (∀ c ∈ (lookup_name cnp2).data, is_digit c = true) →
        digits_value (lookup_name cnp2).data = digits_value (lookup_name cnp).data →
        lookup_resolve (procfs_structure sz).nodes allproc pmp creds (some qv) cnp2
          = .node vp id m)
    ∧ ((toString (digits_value (lookup_name cnp).data)).data ≠ []
        ∧ (∀ c ∈ (toString (digits_value (lookup_name cnp).data)).data, is_digit c = true)
        ∧ digits_value (toString (digits_value (lookup_name cnp).data)).data
            = digits_value (lookup_name cnp).data)
    ∧ (∀ (cnp2 : componentname) (vp2 : Option Nat) (m2 : Option Nat),
        1 ≤ cnp2.cn_namelen → cnp2.cn_flags_isdotdot = false →
        (∀ c ∈ (schema_node sz k).psn_children,
          child_name (procfs_structure sz).nodes c ≠ some (lookup_name cnp2)) →
        digits_value (leading_digits (lookup_name cnp2)) < 2147483648 →
        (k = 13 → leading_digits (lookup_name cnp2) = []
          ∨ ∀ c ∈ (lookup_name cnp2).data, is_digit c = true) →
        lookup_resolve (procfs_structure sz).nodes allproc pmp creds (some qv) cnp2
          = .node vp2 id m2 →
        digits_value (lookup_name cnp2).data = digits_value (lookup_name cnp).data) := by
  have hts := toString_nat_digits (digits_value (lookup_name cnp).data)
  rcases hk with rfl | rfl | rfl
  · obtain ⟨a1, a2, a3, a4, a5⟩ := lookup_root_resolved sz allproc pmp creds qv qnode cnp hty
      hfs hi hlen hdd hname hrange hres
    refine ⟨⟨a1, a2⟩, a4, by rw [a3]; rfl, fun _ => by rw [a3]; exact ⟨rfl, rfl⟩,
      fun h => absurd rfl h, ?_, hts, ?_⟩
    · intro cnp2 l2 d2 n2 g2 v2
      rw [a5 cnp2 l2 d2 n2 g2 v2, hres]
    · intro cnp2 vp2 m2 l2 d2 nm2 r2 _ hres2
      have b := (lookup_root_resolved sz allproc pmp creds qv qnode cnp2 hty hfs hi l2 d2 nm2 r2
        hres2).2.2.1
      rw [a3] at b
      simp only [procfsnode_id_t.mk.injEq] at b
      have := b.1
      omega
  · obtain ⟨a1, a2, a3, a4, a5⟩ := lookup_fd_resolved sz allproc pmp creds qv qnode cnp hty
      hfs hi hlen hdd hname hrange (hall rfl) hres
    refine ⟨⟨a1, a2⟩, a4, by rw [a3]; rfl, fun h => absurd h (by decide),
      fun _ => by rw [a3]; exact ⟨rfl, rfl⟩, ?_, hts, ?_⟩
    · intro cnp2 l2 d2 n2 g2 v2
      rw [a5 cnp2 l2 d2 n2 g2 v2, hres]
    · intro cnp2 vp2 m2 l2 d2 nm2 r2 al2 hres2
      have b := (lookup_fd_resolved sz allproc pmp creds qv qnode cnp2 hty hfs hi l2 d2 nm2 r2
        (al2 rfl) hres2).2.2.1
      rw [a3] at b
      simp only [procfsnode_id_t.mk.injEq] at b
      exact b.2.1.symm
  · obtain ⟨a1, a2, a3, a4, a5⟩ := lookup_threads_resolved sz allproc pmp creds qv qnode cnp
      hty hfs hi hlen hdd hname hrange hres
    refine ⟨⟨a1, a2⟩, a4, by rw [a3]; rfl, fun h => absurd h (by decide),
      fun _ => by rw [a3]; exact ⟨rfl, rfl⟩, ?_, hts, ?_⟩
    · intro cnp2 l2 d2 n2 g2 v2
      rw [a5 cnp2 l2 d2 n2 g2 v2, hres]
    · intro cnp2 vp2 m2 l2 d2 nm2 r2 _ hres2
      have b := (lookup_threads_resolved sz allproc pmp creds qv qnode cnp2 hty hfs hi l2 d2 nm2
        r2 hres2).2.2.1
      rw [a3] at b
      simp only [procfsnode_id_t.mk.injEq] at b
      exact b.2.1.symm

/-- Witness for C34 as amended: the name "01" in the root of the sample
registry, which resolves to the directory of process 1; the theorem yields
that "1" resolves to the same result. -/
theorem numeric_names_resolve_by_value_witness :
    lookup_resolve (procfs_structure demo_sizes).nodes demo_allproc demo_mount demo_superuser
        (some (demo_vnode demo_root)) (component "01")
      = .node (some 1) { nodeid_pid := 1, nodeid_objectid := 0, nodeid_base_id := 11 } (some 10)
    ∧ lookup_resolve (procfs_structure demo_sizes).nodes demo_allproc demo_mount demo_superuser
        (some (demo_vnode demo_root)) (component "1")
      = .node (some 1) { nodeid_pid := 1, nodeid_objectid := 0, nodeid_base_id := 11 }
          (some 10) :=
  have h : lookup_resolve (procfs_structure demo_sizes).nodes demo_allproc demo_mount
      demo_superuser (some (demo_vnode demo_root)) (component "01")
      = .node (some 1) { nodeid_pid := 1, nodeid_objectid := 0, nodeid_base_id := 11 }
          (some 10) := by decide
  ⟨h, (numeric_names_resolve_by_value demo_sizes demo_allproc demo_mount demo_superuser
    (demo_vnode demo_root) demo_root 0 (component "01") (Or.inl rfl) rfl rfl rfl (by decide)
    rfl (by decide) (by decide) (by decide) _ _ _ h).2.2.2.2.2.1 (component "1") (by decide) rfl
    (by decide) (by decide) (by decide)⟩

/-- C35 at the fixed name of an expansion marker: the root directory,
processes 1 and 2, superuser, name "__Process__".  The name equals the fixed
name of the process marker (node 10, type `PROCFS_PROCDIR`, with
`PSN_FLAG_PROCESS`), the comparison comes before the test of the node type, and
the lookup succeeds with the identity (base id 11, pid `PRNODE_NO_PID`, no
object): a node of a process directory without a pid, and -1 is the pid of no
process.  In byname the name "__Process_N__" resolves in the same way to a
`PROCFS_PROCNAME_DIR` node with pid `PRNODE_NO_PID`.  The names "2" and
"2 bash" resolve to nodes with the pid of the live process 2. -/
theorem lookup_marker_name_without_pid :
    lookup_resolve demo_nodes demo_allproc demo_mount demo_superuser
        (some (demo_vnode demo_root)) (component "__Process__")
      = .node (some 1) { nodeid_pid := PRNODE_NO_PID, nodeid_objectid := 0, nodeid_base_id := 11 }
          (some 10)
    ∧ (procfs_vnop_lookup demo_nodes demo_allproc demo_host 3 procfsnode_hash_init demo_mount
        demo_superuser (some (demo_vnode demo_root)) (component "__Process__")).map
          (fun r => (r.error, r.a_vpp, r.create_calls)) = some (0, some 77, 1)
    ∧ (schema_node demo_sizes 10).psn_node_type = PROCFS_PROCDIR
    ∧ Nat.land (schema_node demo_sizes 10).psn_flags PSN_FLAG_PROCESS ≠ 0
    ∧ proc_find demo_allproc PRNODE_NO_PID = none
    ∧ lookup_resolve demo_nodes demo_allproc demo_mount demo_superuser
        (some (demo_vnode (demo_dir PRNODE_NO_PID 0 4))) (component "__Process_N__")
      = .node (some 1) { nodeid_pid := PRNODE_NO_PID, nodeid_objectid := 0, nodeid_base_id := 8 }
          (some 7)
    ∧ (schema_node demo_sizes 7).psn_node_type = PROCFS_PROCNAME_DIR
    ∧ Nat.land (schema_node demo_sizes 7).psn_flags PSN_FLAG_PROCESS ≠ 0
    ∧ lookup_resolve demo_nodes demo_allproc demo_mount demo_superuser
        (some (demo_vnode demo_root)) (component "2")
      = .node (some 1) { nodeid_pid := 2, nodeid_objectid := 0, nodeid_base_id := 11 } (some 10)
    ∧ lookup_resolve demo_nodes demo_allproc demo_mount demo_superuser
        (some (demo_vnode (demo_dir PRNODE_NO_PID 0 4))) (component "2 bash")
      = .node (some 1) { nodeid_pid := 2, nodeid_objectid := 0, nodeid_base_id := 8 } (some 7) := by
  decide

/-- C36 fails as stated: user 501 lists the threads directory of its process
2, whose thread has the id 256 (header size 8, room for 1000 bytes).  The
entry "256" carries the file id 535 in `d_ino`, because the cast to `ino_t`
keeps the low 32 bits of 23 + 2 * 2^8 + 256 * 2^24 = 4294967831; the lookup
of "256" in that directory resolves to the thread directory (pid 2, object
256, base id 23), and `procfs_get_node_fileid` and `procfs_vnop_getattr`
report the file id 4294967831 for it.  The thread id is well below
`INT_MAX`. -/
theorem listing_fileid_counterexample :
    (procfs_vnop_readdir 8 demo_nodes [demo_proc_thread_256] demo_mount demo_user
        (demo_dir 2 0 19) { uio_offset := 0, uio_resid := 1000 } 6).map
          (fun r => r.copied.map (fun e => (e.d_name, e.d_ino)))
      = some [(".", 532), ("..", 523), ("256", 535)]
    ∧ lookup_resolve demo_nodes [demo_proc_thread_256] demo_mount demo_user
        (some (demo_vnode (demo_dir 2 0 19))) (listed_component "256")
      = .node (some 1) { nodeid_pid := 2, nodeid_objectid := 256, nodeid_base_id := 23 }
          (some 22)
    ∧ lookup_target_fileid demo_nodes (demo_dir 2 0 19)
        (lookup_resolve demo_nodes [demo_proc_thread_256] demo_mount demo_user
          (some (demo_vnode (demo_dir 2 0 19))) (listed_component "256"))
      = some 4294967831
    ∧ procfs_get_node_fileid demo_nodes (demo_dir 2 256 22) = some 4294967831
    ∧ (procfs_vnop_getattr demo_nodes [demo_proc_thread_256] (some demo_proc_thread_256)
        demo_mount demo_user (demo_vnode (demo_dir 2 256 22))).map
          (fun r => match r with
            | .attrs vap => some vap.va_fileid
            | .error _ => none)
      = some (some 4294967831)
    ∧ (256 : Nat) ≤ 2147483647 ∧ (535 : Nat) ≠ 4294967831
    ∧ (4294967831 : Nat) % 4294967296 = 535 := by
  decide

/-- C36 as amended: in the layout built by `procfs_structure_init`, on a
registry that holds each pid once, with pids in `[0, INT_MAX]`, thread ids of
at most `INT_MAX` and descriptor tables of at most 2^31 slots, for every
directory node whose identity carries the base id of its structure node (and
neither pid nor object id when that structure node has no flag, as in the root
and byname), and for every caller, mount, start offset, buffer size and number
of rounds: for every entry with name `N` and file id `F` in `d_ino` that
`procfs_vnop_readdir` puts into the buffer (static, ".", ".." or synthesized),
the name resolution of `procfs_vnop_lookup` for `N` in the same directory, for
the same caller and registry (the component flagged `ISDOTDOT` when `N` is
".."), ends without error, with the directory itself or with an identity and
structure node for `procfsnode_find`, and `F` is the file id that
`procfs_get_node_fileid` computes for the node the lookup ends with, cut to
the 32 bits of an `ino_t`; so `F` is that file id whenever it is below 2^32,
which it is for an identity with a base id below 256, a pid of at most 65535
(or none) and an object id of at most 255. -/
theorem listing_and_lookup_agree (H : Nat) (sz : kernel_sizes) (allproc : List proc_t)
    (pmp : procfs_mount_t) (creds : kauth_cred_t) (dv : vnode_t) (dir_pnp : procfsnode_t)
    (uio : uio_t) (fuel k : Nat) (r : readdir_result)
    (hty : dv.v_type = .VDIR) (hfs : dv.v_fsnode = some dir_pnp)
    (hi : dir_pnp.node_structure_node = some k) (hk : k < 35)
    (hbase : dir_pnp.node_id.nodeid_base_id = (schema_node sz k).psn_base_node_id)
    (hplain : (schema_node sz k).psn_flags = 0 →
      dir_pnp.node_id.nodeid_pid = PRNODE_NO_PID
        ∧ dir_pnp.node_id.nodeid_objectid = PRNODE_NO_OBJECTID)
    (hpids : ∀ p ∈ allproc, 0 ≤ p.p_pid ∧ p.p_pid ≤ 2147483647)
    (hnd : (allproc.map (fun p => p.p_pid)).Nodup)
    (hthreads : ∀ p ∈ allproc, ∀ T ∈ (procfs_get_thread_ids_for_task p.task_threads).2,
      T ≤ 2147483647)
    (hfds : ∀ p ∈ allproc, p.fd_ofiles.length ≤ 2147483648)
    (hr : procfs_vnop_readdir H (procfs_structure sz).nodes allproc pmp creds dir_pnp uio fuel
      = some r) :
    (∀ e ∈ r.copied,
      ((∃ a, lookup_resolve (procfs_structure sz).nodes allproc pmp creds (some dv)
            (listed_component e.d_name) = .self a)
        ∨ ∃ vp id s, lookup_resolve (procfs_structure sz).nodes allproc pmp creds (some dv)
            (listed_component e.d_name) = .node vp id s)
      ∧ ∃ F, lookup_target_fileid (procfs_structure sz).nodes dir_pnp
            (lookup_resolve (procfs_structure sz).nodes allproc pmp creds (some dv)
              (listed_component e.d_name))
          = some F
        ∧ e.d_ino = F % 4294967296
        ∧ (F < 4294967296 → e.d_ino = F))
    ∧ (∀ (pid : Int) (objectid base_id : Nat),
        pid = PRNODE_NO_PID ∨ (0 ≤ pid ∧ pid ≤ 65535) → objectid ≤ 255 → base_id < 256 →
        procfs_get_fileid pid objectid base_id < 4294967296) := by
  refine ⟨?_, ?_⟩
  · intro e he
    obtain ⟨hg, c, hc, hce⟩ := readdir_copied H sz allproc pmp creds dir_pnp uio fuel k r hi hk
      hr e he
    have h := listed_entry_resolves H sz allproc pmp creds dv dir_pnp k c hty hfs hi hk hbase
      hplain hpids hnd hthreads hfds hg hc hce
    cases ht : lookup_target_fileid (procfs_structure sz).nodes dir_pnp
        (lookup_resolve (procfs_structure sz).nodes allproc pmp creds (some dv)
          (listed_component e.d_name)) with
    | none =>
      rw [ht] at h
      simp at h
    | some F =>
      rw [ht] at h
      simp only [Option.map_some', Option.some.injEq] at h
      have hino : e.d_ino = F % 4294967296 := h.symm
      refine ⟨?_, F, rfl, hino, fun hF => by rw [hino, Nat.mod_eq_of_lt hF]⟩
      cases hl : lookup_resolve (procfs_structure sz).nodes allproc pmp creds (some dv)
          (listed_component e.d_name) with
      | error x =>
        rw [hl] at ht
        simp [lookup_target_fileid] at ht
      | self a => exact Or.inl ⟨a, rfl⟩
      | node vp id s => exact Or.inr ⟨vp, id, s, rfl⟩
      | fault =>
        rw [hl] at ht
        simp [lookup_target_fileid] at ht
  · intro pid objectid base_id hp ho hb
    rcases hp with rfl | ⟨h0, h1⟩
    · rw [get_fileid_no_pid hb (by omega)]
      omega
    · rw [get_fileid_sum hb h0 (by omega) (by omega)]
      omega

/-- Witness for C36 as amended: the superuser lists the root of the sample
registry; the entry "2" with `d_ino` 523 is among the six entries, and the
lookup of "2" in the root ends with a node whose file id, cut to 32 bits, is
523. -/
theorem listing_and_lookup_agree_witness :
    procfs_vnop_readdir 21 (procfs_structure demo_sizes).nodes demo_allproc demo_mount
        demo_superuser demo_root { uio_offset := 0, uio_resid := 4096 } 6
      = some demo_root_listing
    ∧ demo_root_listing.copied.map (fun e => (e.d_name, e.d_ino))
      = [(".", 1), ("..", 1), ("curproc", 4), ("byname", 5), ("1", 267), ("2", 523)]
    ∧ ∃ F, lookup_target_fileid (procfs_structure demo_sizes).nodes demo_root
          (lookup_resolve (procfs_structure demo_sizes).nodes demo_allproc demo_mount
            demo_superuser (some (demo_vnode demo_root)) (listed_component "2"))
        = some F
      ∧ 523 = F % 4294967296
      ∧ (F < 4294967296 → 523 = F) :=
  have hr : procfs_vnop_readdir 21 (procfs_structure demo_sizes).nodes demo_allproc demo_mount
      demo_superuser demo_root { uio_offset := 0, uio_resid := 4096 } 6
      = some demo_root_listing := by decide
  ⟨hr, by decide,
   ((listing_and_lookup_agree 21 demo_sizes demo_allproc demo_mount demo_superuser
      (demo_vnode demo_root) demo_root { uio_offset := 0, uio_resid := 4096 } 6 0
      demo_root_listing rfl rfl rfl (by decide) (by decide) (by decide) (by decide) (by decide)
      (by decide) (by decide) hr).1
      { d_ino := 523, d_reclen := 25, d_type := 2, d_name := "2" } (by decide)).2⟩

/-- C37 fails on the code for two files: with the process of the node live,
the host routines succeeding and room for every block, a read from offset 0
returns 0 and hands over as many bytes as the structure node declares for
"pid", "ppid", "pgid", "sid", "info" and "taskinfo" of a process directory;
but "info" of a thread directory (node 32) declares
`sizeof(struct proc_taskinfo)` while `procfs_read_thread_info` hands over
`sizeof(struct proc_threadinfo)` bytes, and "details" of a descriptor
directory (node 33) declares `sizeof(struct proc_threadinfo)` while
`procfs_read_fd_data` hands over `sizeof(struct vnode_fdinfowithpath)` bytes.
The size attribute of each file is the declared size. -/
theorem declared_size_and_bytes_read (sz : kernel_sizes) (allproc : List proc_t)
    (ihost : info_host) (fhost : file_host) (pnp : procfsnode_t) (creds : kauth_cred_t)
    (room : Nat) (p : proc_t)
    (hp : proc_find allproc pnp.node_id.nodeid_pid = some p)
    (hbsd : (ihost.proc_pidbsdinfo p).1 = 0) (htask : (ihost.proc_pidtaskinfo p).1 = 0)
    (hthr : (ihost.proc_pidthreadinfo p pnp.node_id.nodeid_objectid).1 = 0)
    (hfd1 : (fhost.fp_getfvpandvid p (wrap_int32 pnp.node_id.nodeid_objectid)).1 = 0)
    (hfd2 : fhost.vnode_getwithvid
      (fhost.fp_getfvpandvid p (wrap_int32 pnp.node_id.nodeid_objectid)).2.1
      (fhost.fp_getfvpandvid p (wrap_int32 pnp.node_id.nodeid_objectid)).2.2 = 0)
    (hfd3 : fhost.fill_vnodeinfo
      (fhost.fp_getfvpandvid p (wrap_int32 pnp.node_id.nodeid_objectid)).2.1 = 0)
    (hroom : sz.sizeof_pid_t ≤ room ∧ sz.sizeof_proc_bsdinfo ≤ room
      ∧ sz.sizeof_proc_taskinfo ≤ room ∧ sz.sizeof_proc_threadinfo ≤ room
      ∧ fhost.sizeof_vnode_fdinfowithpath ≤ room)
    (hint : room ≤ 2147483647) :
    (∀ k ∈ [25, 26, 27, 28, 30, 31], ∀ fn : procfs_read_data_fn,
        (schema_node sz k).psn_read_data_fn = some fn →
        (call_read_data_fn sz allproc ihost fhost pnp { uio_offset := 0, uio_resid := room }
          fn).error = 0
        ∧ (call_read_data_fn sz allproc ihost fhost pnp { uio_offset := 0, uio_resid := room }
          fn).moved.length = (schema_node sz k).psn_node_size)
    ∧ ((schema_node sz 32).psn_name = "info" ∧ (schema_node sz 32).psn_parent = some 22
        ∧ (schema_node sz 22).psn_node_type = PROCFS_THREADDIR
        ∧ (schema_node sz 32).psn_read_data_fn = some .procfs_read_thread_info
        ∧ (schema_node sz 32).psn_node_size = sz.sizeof_proc_taskinfo
        ∧ (procfs_read_thread_info sz allproc ihost pnp
            { uio_offset := 0, uio_resid := room }).error = 0
        ∧ (procfs_read_thread_info sz allproc ihost pnp
            { uio_offset := 0, uio_resid := room }).moved.length = sz.sizeof_proc_threadinfo)
    ∧ ((schema_node sz 33).psn_name = "details" ∧ (schema_node sz 33).psn_parent = some 16
        ∧ (schema_node sz 16).psn_node_type = PROCFS_FD_DIR
        ∧ (schema_node sz 33).psn_read_data_fn = some .procfs_read_fd_data
        ∧ (schema_node sz 33).psn_node_size = sz.sizeof_proc_threadinfo
        ∧ (procfs_read_fd_data allproc fhost pnp
            { uio_offset := 0, uio_resid := room }).error = 0
        ∧ (procfs_read_fd_data allproc fhost pnp
            { uio_offset := 0, uio_resid := room }).moved.length
          = fhost.sizeof_vnode_fdinfowithpath)
    ∧ (∀ k ∈ [25, 26, 27, 28, 30, 31, 32, 33], pnp.node_structure_node = some k →
        procfs_get_node_size_attr (procfs_structure sz).nodes allproc pnp creds
          = some (schema_node sz k).psn_node_size) := by
  obtain ⟨r1, r2, r3, r4, r5⟩ := hroom
  have hpid : ∀ x : Int,
      (procfs_copy_data (object_bytes sz.sizeof_pid_t x) (wrap_int32 sz.sizeof_pid_t)
        { uio_offset := 0, uio_resid := room }).error = 0
      ∧ (procfs_copy_data (object_bytes sz.sizeof_pid_t x) (wrap_int32 sz.sizeof_pid_t)
        { uio_offset := 0, uio_resid := room }).moved.length = sz.sizeof_pid_t := by
    intro x
    rw [(procfs_copy_data_pid sz x room (by omega) r1).1]
    exact ⟨rfl, by simp [object_bytes_length]⟩
  refine ⟨?_, ?_, ?_, ?_⟩
  · intro k hk fn hfn
    simp only [List.mem_cons, List.mem_singleton, List.not_mem_nil, or_false] at hk
    rcases hk with rfl | rfl | rfl | rfl | rfl | rfl
    · have : fn = .procfs_read_pid_data := (Option.some.inj hfn).symm
      subst this
      simp only [call_read_data_fn, procfs_read_pid_data]
      exact hpid _
    · have : fn = .procfs_read_ppid_data := (Option.some.inj hfn).symm
      subst this
      simp only [call_read_data_fn, procfs_read_ppid_data, hp]
      exact hpid _
    · have : fn = .procfs_read_pgid_data := (Option.some.inj hfn).symm
      subst this
      simp only [call_read_data_fn, procfs_read_pgid_data, hp]
      exact hpid _
    · have : fn = .procfs_read_sid_data := (Option.some.inj hfn).symm
      subst this
      simp only [call_read_data_fn, procfs_read_sid_data, hp]
      exact hpid _
    · have : fn = .procfs_read_proc_info := (Option.some.inj hfn).symm
      subst this
      simp only [call_read_data_fn, procfs_read_proc_info, hp, hbsd, if_true]
      exact procfs_copy_data_block _ _ room (by omega) r2
    · have : fn = .procfs_read_task_info := (Option.some.inj hfn).symm
      subst this
      simp only [call_read_data_fn, procfs_read_task_info, hp, htask, if_true]
      exact procfs_copy_data_block _ _ room (by omega) r3
  · refine ⟨rfl, rfl, rfl, rfl, rfl, ?_⟩
    simp only [procfs_read_thread_info, hp, hthr, if_true]
    exact procfs_copy_data_block _ _ room (by omega) r4
  · refine ⟨rfl, rfl, rfl, rfl, rfl, ?_⟩
    simp only [procfs_read_fd_data, hp, hfd1, hfd2, hfd3, if_true]
    exact procfs_copy_data_block _ _ room (by omega) r5
  · intro k hk hi
    simp only [List.mem_cons, List.mem_singleton, List.not_mem_nil, or_false] at hk
    rcases hk with rfl | rfl | rfl | rfl | rfl | rfl | rfl | rfl <;>
      exact size_attr_file sz allproc pnp creds _ hi (by decide) rfl

/-- C37 at a concrete input: sizes as on a 64 bit kernel (a task information
block has 96 bytes, a thread information block 112, a descriptor block 1200),
process 2 live, room for 4096 bytes.  The file "info" of thread 100 has the
size attribute 96 and a read hands over 112 bytes; the file "details" of
descriptor 3 has the size attribute 112 and a read hands over 1200 bytes. -/
theorem declared_size_and_bytes_read_witness :
    (procfs_get_node_size_attr (procfs_structure demo_sizes).nodes demo_allproc
        (demo_dir 2 100 32) demo_user = some 96
      ∧ (procfs_read_thread_info demo_sizes demo_allproc demo_info_host (demo_dir 2 100 32)
          { uio_offset := 0, uio_resid := 4096 }).moved.length = 112)
    ∧ (procfs_get_node_size_attr (procfs_structure demo_sizes).nodes demo_allproc
        (demo_dir 2 3 33) demo_user = some 112
      ∧ (procfs_read_fd_data demo_allproc demo_file_host (demo_dir 2 3 33)
          { uio_offset := 0, uio_resid := 4096 }).moved.length = 1200) :=
  ⟨⟨(declared_size_and_bytes_read demo_sizes demo_allproc demo_info_host demo_file_host
        (demo_dir 2 100 32) demo_user 4096 (demo_proc 2 "bash" 501) (by decide) rfl rfl rfl rfl
        rfl rfl (by decide) (by decide)).2.2.2 32 (by decide) rfl,
     (declared_size_and_bytes_read demo_sizes demo_allproc demo_info_host demo_file_host
        (demo_dir 2 100 32) demo_user 4096 (demo_proc 2 "bash" 501) (by decide) rfl rfl rfl rfl
        rfl rfl (by decide) (by decide)).2.1.2.2.2.2.2.2⟩,
   ⟨(declared_size_and_bytes_read demo_sizes demo_allproc demo_info_host demo_file_host
        (demo_dir 2 3 33) demo_user 4096 (demo_proc 2 "bash" 501) (by decide) rfl rfl rfl rfl
        rfl rfl (by decide) (by decide)).2.2.2 33 (by decide) rfl,
     (declared_size_and_bytes_read demo_sizes demo_allproc demo_info_host demo_file_host
        (demo_dir 2 3 33) demo_user 4096 (demo_proc 2 "bash" 501) (by decide) rfl rfl rfl rfl
        rfl rfl (by decide) (by decide)).2.2.1.2.2.2.2.2.2⟩⟩

/-- C38 fails on the code for `PROCFS_PROCNAME_DIR`: `procfs_is_directory_type`
is true for it while `vnode_type_for_structure_node_type` makes it a symbolic
link (`VLNK`); for every other type the two agree.  So for a node of a byname
entry, which is presented as a symbolic link, `procfs_vnop_read` answers
`EISDIR`; for every node `procfs_vnop_read` answers `EISDIR` when
`procfs_is_directory_type` holds of the type, and otherwise calls the read
function of the structure node, or answers `EINVAL` when there is none. -/
theorem directory_type_and_vnode_type (nodes : List procfs_structure_node_t)
    (sz : kernel_sizes) (allproc : List proc_t) (ihost : info_host) (fhost : file_host)
    (vp : vnode_t) (pnp : procfsnode_t) (snode : procfs_structure_node_t) (uio : uio_t)
    (hv : vp.v_fsnode = some pnp)
    (hs : pnp.node_structure_node.bind (fun i => nodes[i]?) = some snode) :
    (∀ t : procfs_structure_node_type_t,
        (procfs_is_directory_type t = true ↔ vnode_type_for_structure_node_type t = .VDIR)
          ↔ t ≠ PROCFS_PROCNAME_DIR)
    ∧ procfs_is_directory_type PROCFS_PROCNAME_DIR = true
    ∧ vnode_type_for_structure_node_type PROCFS_PROCNAME_DIR = .VLNK
    ∧ (procfs_is_directory_type snode.psn_node_type = true →
        procfs_vnop_read nodes sz allproc ihost fhost vp uio
          = some { error := EISDIR, moved := [], uio := uio })
    ∧ (snode.psn_node_type = PROCFS_PROCNAME_DIR →
        vnode_type_for_structure_node_type snode.psn_node_type = .VLNK
        ∧ procfs_vnop_read nodes sz allproc ihost fhost vp uio
          = some { error := EISDIR, moved := [], uio := uio })
    ∧ (procfs_is_directory_type snode.psn_node_type = false →
        procfs_vnop_read nodes sz allproc ihost fhost vp uio
          = some (match snode.psn_read_data_fn with
              | some f => call_read_data_fn sz allproc ihost fhost pnp uio f
              | none => { error := EINVAL, moved := [], uio := uio })) := by
  refine ⟨by intro t; cases t <;> decide, rfl, rfl, ?_, ?_, ?_⟩
  · intro h
    unfold procfs_vnop_read
    simp only [hv, hs, h, if_true]
  · intro h
    refine ⟨by rw [h]; rfl, ?_⟩
    unfold procfs_vnop_read
    simp only [hv, hs, h]
    rfl
  · intro h
    unfold procfs_vnop_read
    simp only [hv, hs, h, Bool.false_eq_true, if_false]
    cases snode.psn_read_data_fn <;> rfl

/-- C38 at a concrete input: the node of the byname entry of process 2.
`procfs_vnop_getattr` presents it as a symbolic link whose size is 2, the
number of children of the process-by-name marker, and `procfs_vnop_read`
answers `EISDIR`; for the "curproc" link it answers `EINVAL`. -/
theorem directory_type_and_vnode_type_witness :
    procfs_vnop_read demo_nodes demo_sizes demo_allproc demo_info_host demo_file_host
        (demo_vnode (demo_dir 2 0 7)) { uio_offset := 0, uio_resid := 64 }
      = some { error := EISDIR, moved := [], uio := { uio_offset := 0, uio_resid := 64 } }
    ∧ (procfs_vnop_getattr demo_nodes demo_allproc (some (demo_proc 2 "bash" 501)) demo_mount
        demo_user (demo_vnode (demo_dir 2 0 7))).map
          (fun r => match r with
            | .attrs vap => some (vap.va_type, vap.va_data_size)
            | .error _ => none)
        = some (some (.VLNK, 2))
    ∧ procfs_vnop_read demo_nodes demo_sizes demo_allproc demo_info_host demo_file_host
        (demo_vnode (demo_dir PRNODE_NO_PID 0 3)) { uio_offset := 0, uio_resid := 64 }
      = some { error := EINVAL, moved := [], uio := { uio_offset := 0, uio_resid := 64 } } :=
  ⟨((directory_type_and_vnode_type demo_nodes demo_sizes demo_allproc demo_info_host
      demo_file_host (demo_vnode (demo_dir 2 0 7)) (demo_dir 2 0 7) (schema_node demo_sizes 7)
      { uio_offset := 0, uio_resid := 64 } rfl (by decide)).2.2.2.2.1 (by decide)).2,
   by decide,
   (directory_type_and_vnode_type demo_nodes demo_sizes demo_allproc demo_info_host
      demo_file_host (demo_vnode (demo_dir PRNODE_NO_PID 0 3)) (demo_dir PRNODE_NO_PID 0 3)
      (schema_node demo_sizes 3) { uio_offset := 0, uio_resid := 64 } rfl
      (by decide)).2.2.2.2.2 (by decide)⟩

/-- C39 fails: the identities (pid 65537, object 0, base id 17) and (pid 1,
object 1, base id 17), descriptor 0 of process 65537 and descriptor 1 of
process 1, are different, lie in the ranges of the claim and have the same
file id, because `pid << 8` reaches bit 24, where the object id starts; and
the identities (no pid, object 0, base id 11) and (pid 0, object 0, base id 11)
have the same file id, because no pid and pid 0 leave the same bits. -/
theorem fileid_collision_counterexample :
    procfs_get_fileid 65537 0 17 = procfs_get_fileid 1 1 17
    ∧ ((65537 : Int), (0 : Nat), (17 : Nat)) ≠ ((1 : Int), (1 : Nat), (17 : Nat))
    ∧ 17 ∈ (procfs_structure demo_sizes).nodes.map (fun n => n.psn_base_node_id)
    ∧ (schema_node demo_sizes 16).psn_base_node_id = 17
    ∧ (schema_node demo_sizes 16).psn_node_type = PROCFS_FD_DIR
    ∧ (0 : Int) ≤ 65537 ∧ (65537 : Int) ≤ 99999 ∧ (0 : Int) ≤ 1 ∧ (1 : Int) ≤ 99999
    ∧ (0 : Nat) < 2147483648 ∧ (1 : Nat) < 2147483648
    ∧ procfs_get_fileid PRNODE_NO_PID 0 11 = procfs_get_fileid 0 0 11
    ∧ 11 ∈ (procfs_structure demo_sizes).nodes.map (fun n => n.psn_base_node_id) := by
  decide

/-- C39, amended: for any two triples (pid, object id, base id) with base id a
base id of the built layout, pid in `[0, 65535]` or `PRNODE_NO_PID` (but not
pid 0 in one triple and `PRNODE_NO_PID` in the other), and object id below
2^31: the values of `procfs_get_fileid` are equal exactly when the triples
are equal.  The base id fills bits 0 to 7, the pid bits 8 to 23 and the object
id the bits from 24 on. -/
theorem fileid_unique_for_small_pids (sz : kernel_sizes) (pid1 pid2 : Int)
    (o1 o2 b1 b2 : Nat)
    (hb1 : b1 ∈ (procfs_structure sz).nodes.map (fun n => n.psn_base_node_id))
    (hb2 : b2 ∈ (procfs_structure sz).nodes.map (fun n => n.psn_base_node_id))
    (hp1 : pid1 = PRNODE_NO_PID ∨ (0 ≤ pid1 ∧ pid1 ≤ 65535))
    (hp2 : pid2 = PRNODE_NO_PID ∨ (0 ≤ pid2 ∧ pid2 ≤ 65535))
    (hmix : ¬ (pid1 = PRNODE_NO_PID ∧ pid2 = 0) ∧ ¬ (pid1 = 0 ∧ pid2 = PRNODE_NO_PID))
    (ho1 : o1 < 2147483648) (ho2 : o2 < 2147483648) :
    procfs_get_fileid pid1 o1 b1 = procfs_get_fileid pid2 o2 b2
      ↔ (pid1 = pid2 ∧ o1 = o2 ∧ b1 = b2) := by
  constructor
  · intro h
    have hids : (procfs_structure sz).nodes.map (fun n => n.psn_base_node_id)
        = List.range' 1 35 := by
      rw [structure_nodes_eq]; rfl
    rw [hids, List.mem_range'_1] at hb1 hb2
    have hno : PRNODE_NO_PID = -1 := rfl
    rcases hp1 with rfl | ⟨l1, u1⟩ <;> rcases hp2 with rfl | ⟨l2, u2⟩
    · rw [get_fileid_no_pid (by omega) (by omega), get_fileid_no_pid (by omega) (by omega)] at h
      exact ⟨rfl, by omega, by omega⟩
    · rw [get_fileid_no_pid (by omega) (by omega),
        get_fileid_sum (by omega) (by omega) (by omega) (by omega)] at h
      exfalso
      apply hmix.1
      refine ⟨rfl, ?_⟩
      have : pid2.toNat = 0 := by omega
      omega
    · rw [get_fileid_no_pid (by omega) (by omega),
        get_fileid_sum (by omega) (by omega) (by omega) (by omega)] at h
      exfalso
      apply hmix.2
      refine ⟨?_, rfl⟩
      have : pid1.toNat = 0 := by omega
      omega
    · rw [get_fileid_sum (by omega) (by omega) (by omega) (by omega),
        get_fileid_sum (by omega) (by omega) (by omega) (by omega)] at h
      refine ⟨?_, by omega, by omega⟩
      have : pid1.toNat = pid2.toNat := by omega
      omega
  · rintro ⟨rfl, rfl, rfl⟩
    rfl

/-- Witness for C39, amended: the directories of the processes 1 and 2 have
different file ids, and so have the directory of process 1 and byname. -/
theorem fileid_unique_for_small_pids_witness :
    procfs_get_fileid 1 0 11 ≠ procfs_get_fileid 2 0 11
    ∧ procfs_get_fileid 1 0 11 ≠ procfs_get_fileid PRNODE_NO_PID 0 5 :=
  ⟨fun h => absurd ((fileid_unique_for_small_pids demo_sizes 1 2 0 0 11 11 (by decide)
      (by decide) (Or.inr (by decide)) (Or.inr (by decide)) (by decide) (by decide)
      (by decide)).mp h).1 (by decide),
   fun h => absurd ((fileid_unique_for_small_pids demo_sizes 1 PRNODE_NO_PID 0 0 11 5
      (by decide) (by decide) (Or.inr (by decide)) (Or.inl rfl) (by decide) (by decide)
      (by decide)).mp h).1 (by decide)⟩

/-- C40: for every node of the layout built by `procfs_structure_init`, every
uio (start offset and buffer size), registry, mount and caller:
no child of its structure node is of type `PROCFS_ROOT`, the only case in which
the loop body goes round again with the same child; for each child the loop
body goes on to the next child or leaves the loop; and `procfs_vnop_readdir`
returns: with more rounds of the outer loop than there are children the result
is there, and it is the same for every such number of rounds. -/
theorem readdir_terminates (H : Nat) (sz : kernel_sizes) (allproc : List proc_t)
    (pmp : procfs_mount_t) (creds : kauth_cred_t) (dir_pnp : procfsnode_t) (uio : uio_t)
    (k : Nat) (hi : dir_pnp.node_structure_node = some k) (hk : k < 35) :
    (∀ c ∈ (schema_node sz k).psn_children,
        (procfs_structure sz).nodes[c]? = some (schema_node sz c)
        ∧ (schema_node sz c).psn_node_type ≠ PROCFS_ROOT)
    ∧ (∀ c ∈ (schema_node sz k).psn_children,
        ∀ (check_access : Bool) (startpos : Int) (st : readdir_state),
          (∃ st1, readdir_child H (procfs_structure sz).nodes allproc check_access creds dir_pnp
              startpos (schema_node sz c) st = .next st1)
          ∨ (∃ st1 error, readdir_child H (procfs_structure sz).nodes allproc check_access creds
              dir_pnp startpos (schema_node sz c) st = .stop st1 error))
    ∧ ∃ r : readdir_result, ∀ fuel, (schema_node sz k).psn_children.length < fuel →
        procfs_vnop_readdir H (procfs_structure sz).nodes allproc pmp creds dir_pnp uio fuel
          = some r := by
  have hpar := parent_node_id_isSome sz dir_pnp k hi hk
  have hdir : dir_pnp.node_structure_node.bind (fun i => (procfs_structure sz).nodes[i]?)
      = some (schema_node sz k) := by
    rw [hi, structure_nodes_eq]; exact schema_getElem sz hk
  have hroot := schema_children_no_root sz hk
  refine ⟨?_, ?_, ?_⟩
  · intro c hc
    have hlt : c < 35 := tags_children_lt k hk c (by rw [← schema_children_eq sz k]; exact hc)
    exact ⟨by rw [structure_nodes_eq]; exact schema_getElem sz hlt,
      hroot _ (List.mem_map_of_mem _ hc)⟩
  · intro c hc check_access startpos st
    rcases readdir_child_cases H (procfs_structure sz).nodes allproc check_access creds dir_pnp
      startpos (schema_node sz c) st (hroot _ (List.mem_map_of_mem _ hc)) hpar with
      ⟨h, -⟩ | h
    · exact Or.inl h
    · exact Or.inr h
  · by_cases hty : vnode_type_for_structure_node_type (schema_node sz k).psn_node_type = .VDIR
    · obtain ⟨x, hx⟩ := readdir_loop_total H (procfs_structure sz).nodes allproc
        (readdir_check_access pmp creds) creds dir_pnp uio.uio_offset hpar
        ((schema_node sz k).psn_children.map (schema_node sz)) hroot
        { copied := [], uio_resid := uio.uio_resid, nextpos := 0, numentries := 0 }
      refine ⟨{ error := x.2.1, copied := x.1.copied, uio_offset := x.1.nextpos,
                eofflag := x.2.2, numdirent := x.1.numentries }, ?_⟩
      intro fuel hf
      unfold procfs_vnop_readdir
      simp only [hdir, schema_children_nodes sz hk, hty, ne_eq, not_true_eq_false, if_false]
      have := hx fuel (by simpa using hf)
      unfold readdir_check_access at this
      rw [this]
    · refine ⟨{ error := ENOTDIR, copied := [], uio_offset := uio.uio_offset,
                eofflag := false, numdirent := 0 }, ?_⟩
      intro fuel _
      unfold procfs_vnop_readdir
      simp only [hdir, hty, ne_eq, not_false_eq_true, if_true]

/-- Witness for C40: the listing of the directory of process 2 by user 501
with room for 64 bytes returns within 12 rounds of the outer loop. -/
theorem readdir_terminates_witness :
    ∃ r : readdir_result,
      procfs_vnop_readdir 21 (procfs_structure demo_sizes).nodes demo_allproc demo_mount
        demo_user (demo_dir 2 0 10) { uio_offset := 0, uio_resid := 64 } 12 = some r :=
  (readdir_terminates 21 demo_sizes demo_allproc demo_mount demo_user (demo_dir 2 0 10)
    { uio_offset := 0, uio_resid := 64 } 10 rfl (by decide)).2.2.elim
    (fun r h => ⟨r, h 12 (by decide)⟩)

end ProcFS
